import Mathlib

/-!
# EcoFinds: cart and checkout core

A shallow embedding of the cart store and the checkout engine of the EcoFinds
marketplace backend (`backend/routes/orders.js`, `backend/routes/purchases.js`,
`backend/routes/cart.js`, the update and delete routes of
`backend/routes/products.js`, and the Mongoose schemas under `backend/models/`).

Modelling conventions.

* A MongoDB collection is a list of documents in insertion order; `findOne` and
  `findById` return the first match.
* An `ObjectId` is a natural number; a fresh one is drawn from `Store.nextId`.
  A request names a document by the text that `toString()` gives for its id, so
  comparing the `toString()` forms of two ids is comparing the ids.  The add
  handler of the cart is also given on the text of `productId` as sent
  (`cartAddText`), where another text of the same id is told apart.
* In the store model a JavaScript `Number` is a whole number (`Int`), on which
  sums and products are exact.  A quantity sent with a fractional part is a
  `QuantityField.fraction`.  The totals of the purchase checkout are also given
  on binary64 prices with rounded sums (`Priced.checkoutTotals`), and agree with
  the store model on whole-number prices while the cart total is below `2 ^ 53`.
* A request field that may be absent is an `Option`; `truthy` is JavaScript
  truthiness of an optional string.
* A route handler is a function from the store, the authenticated user and the
  request body to the new store and the HTTP response.  An exception caught by
  the handler's `catch` block is the 500 response.
* Timestamps, images and the `populate` enrichment of responses are left out,
  with one exception: a cart response is populated and serialized with its
  virtuals, and the `totalPrice` virtual raises on a line whose product no
  longer exists.  The cart handlers give the store and the response handed to
  `res.json`; the routes as served (`getCart`, `postCartAdd`, `putCartUpdate`,
  `deleteCartRemove`) add the serialization (`sendCart`).
-/

set_option autoImplicit false

namespace EcoFinds

abbrev ObjectId := Nat

/-! ## Documents -/

/-- Product document (`models/Product.js`), with the fields the cart and
checkout routes read or write. -/
structure Product where
  _id : ObjectId
  title : String
  price : Int
  seller : ObjectId
  isAvailable : Bool
  deriving DecidableEq, Repr

/-- Cart line (`models/Cart.js`, `items[]`): `product` is a reference. -/
structure CartItem where
  _id : ObjectId
  product : ObjectId
  quantity : Int
  deriving DecidableEq, Repr

/-- Cart document (`models/Cart.js`). -/
structure Cart where
  _id : ObjectId
  user : ObjectId
  items : List CartItem
  deriving DecidableEq, Repr

/-- Order line (`models/Order.js`, `products[]`): a snapshot, not a reference. -/
structure OrderProduct where
  productId : ObjectId
  title : String
  price : Int
  quantity : Int
  seller : ObjectId
  deriving DecidableEq, Repr

/-- Address sub-document of an order; each field may be missing in a request. -/
structure Address where
  street : Option String
  city : Option String
  state : Option String
  pincode : Option String
  deriving DecidableEq, Repr

/-- Order document (`models/Order.js`) as built by `new Order(...)`: the fields
taken from the request keep their optional type until validation. -/
structure Order where
  _id : ObjectId
  userId : ObjectId
  products : List OrderProduct
  address : Option Address
  location : Option String
  paymentMethod : Option String
  status : String
  totalAmount : Option Int
  notes : Option String
  deriving DecidableEq, Repr

/-- Purchase line (`models/Purchase.js`, `items[]`). -/
structure PurchaseItem where
  product : ObjectId
  quantity : Int
  price : Int
  deriving DecidableEq, Repr

/-- Shipping address of a purchase: five optional strings, none required. -/
structure ShippingAddress where
  street : Option String
  city : Option String
  state : Option String
  zipCode : Option String
  country : Option String
  deriving DecidableEq, Repr

/-- Purchase document (`models/Purchase.js`). -/
structure Purchase where
  _id : ObjectId
  buyer : ObjectId
  seller : ObjectId
  items : List PurchaseItem
  totalAmount : Int
  status : String
  shippingAddress : Option ShippingAddress
  paymentMethod : String
  notes : Option String
  deriving DecidableEq, Repr

/-- The database: the four collections and the next fresh `ObjectId`. -/
structure Store where
  products : List Product
  carts : List Cart
  orders : List Order
  purchases : List Purchase
  nextId : ObjectId
  deriving DecidableEq, Repr

/-- HTTP response: status code, the `message` field of the JSON body, and the
payload of a successful call. -/
structure Res (α : Type) where
  status : Nat
  message : String
  data : Option α
  deriving DecidableEq, Repr

/-! ## Persistence primitives -/

/-- JavaScript truthiness of an optional string: `undefined`, `null` and the
empty string are falsy. -/
def truthy (v : Option String) : Bool :=
  match v with
  | some str => str != ""
  | none => false

/-- `Product.findById(id)`. -/
def findProduct (products : List Product) (id : ObjectId) : Option Product :=
  products.find? (fun p => p._id == id)

/-- `Cart.findOne({ user })`. -/
def findCart (carts : List Cart) (user : ObjectId) : Option Cart :=
  carts.find? (fun c => c.user == user)

/-- `cart.save()` for a cart document: the stored document with the same `_id`
is replaced; a document not stored yet is inserted. -/
def saveCart (carts : List Cart) (cart : Cart) : List Cart :=
  if carts.any (fun c => c._id == cart._id) then
    carts.map (fun c => if c._id == cart._id then cart else c)
  else carts ++ [cart]

/-- `Product.updateMany({ _id: { $in: productIds } }, { $set: { isAvailable: false } })`. -/
def updateManyUnavailable (products : List Product) (productIds : List ObjectId) :
    List Product :=
  products.map (fun p => if productIds.contains p._id then { p with isAvailable := false } else p)

/-- `.populate('items.product')`: every line paired with the product document
it references, or with `none` (JavaScript `null`) when no such product exists. -/
def populate (products : List Product) (items : List CartItem) :
    List (CartItem × Option Product) :=
  items.map (fun item => (item, findProduct products item.product))

/-- Dereferencing `item.product` on every populated line: `none` stands for the
`TypeError` raised on the first line whose product is `null`. -/
def resolved : List (CartItem × Option Product) → Option (List (CartItem × Product))
  | [] => some []
  | (item, some p) :: rest => (resolved rest).map (fun r => (item, p) :: r)
  | (_, none) :: _ => none

/-- The response of a `catch` block. -/
def serverError {α : Type} (msg : String) : Res α :=
  { status := 500, message := msg, data := none }

/-- A 400 response. -/
def badRequest {α : Type} (msg : String) : Res α :=
  { status := 400, message := msg, data := none }

/-! ## Order checkout (`routes/orders.js`, `POST /checkout`) -/

/-- Request body of `POST /orders/checkout`. -/
structure CheckoutBody where
  address : Option Address
  location : Option String
  paymentMethod : Option String
  notes : Option String
  products : Option (List OrderProduct)
  totalAmount : Option Int
  deriving DecidableEq, Repr

/-- The first validation of the handler:
`!address || !address.street || !address.city || !address.state || !address.pincode`
is false. -/
def addressComplete (address : Option Address) : Bool :=
  match address with
  | none => false
  | some a => truthy a.street && truthy a.city && truthy a.state && truthy a.pincode

/-- The test `products && products.length > 0` selecting the BuyNow branch. -/
def isBuyNow (body : CheckoutBody) : Bool :=
  match body.products with
  | some ps => decide (0 < ps.length)
  | none => false

/-- The `enum` of `orderSchema.paymentMethod`. -/
def orderPaymentMethods : List String :=
  ["Cash on Delivery", "UPI / Net Banking", "Card Payment"]

/-- The `enum` of the `status` path of both the order and the purchase schema. -/
def statusValues : List String :=
  ["Pending", "Confirmed", "Shipped", "Delivered", "Cancelled"]

/-- Validator of one `products[]` entry of `orderSchema`: the title is a
required string (Mongoose rejects the empty string) and `quantity` has `min: 1`. -/
def validOrderProduct (l : OrderProduct) : Bool :=
  l.title != "" && decide (1 ≤ l.quantity)

/-- `notes` has `maxlength: 500`; the length is counted in characters. -/
def validNotes (notes : Option String) : Bool :=
  match notes with
  | some n => decide (n.length ≤ 500)
  | none => true

/-- Schema validation run by `order.save()` (`models/Order.js`). -/
def validateOrder (o : Order) : Bool :=
  o.products.all validOrderProduct
    && addressComplete o.address
    && truthy o.location
    && (match o.paymentMethod with
        | some m => m != "" && orderPaymentMethods.contains m
        | none => false)
    && statusValues.contains o.status
    && (match o.totalAmount with
        | some t => decide (0 ≤ t)
        | none => false)
    && validNotes o.notes

/-- The snapshot taken by `cart.items.map(item => ({ productId: item.product._id, ... }))`. -/
def orderProductOfLine (line : CartItem × Product) : OrderProduct :=
  { productId := line.2._id
    title := line.2.title
    price := line.2.price
    quantity := line.1.quantity
    seller := line.2.seller }

/-- The reduction `cart.items.reduce((total, item) => total + item.product.price * item.quantity, 0)`. -/
def cartTotal (lines : List (CartItem × Product)) : Int :=
  lines.foldl (fun total line => total + line.2.price * line.1.quantity) 0

/-- Lines 30-57 of the handler: the order lines and the total amount, or the
early response. -/
def prepareOrder (s : Store) (user : ObjectId) (body : CheckoutBody) :
    Except (Res Order) (List OrderProduct × Option Int) :=
  if isBuyNow body then
    .ok (body.products.getD [], body.totalAmount)
  else
    match findCart s.carts user with
    | none => .error (badRequest "Cart is empty")
    | some cart =>
      if cart.items.length == 0 then .error (badRequest "Cart is empty")
      else
        match resolved (populate s.products cart.items) with
        | none => .error (serverError "Server error during checkout")
        | some lines => .ok (lines.map orderProductOfLine, some (cartTotal lines))

/-- Lines 79-86 of the handler: the cart is cleared only for a cart checkout. -/
def clearCartAfterOrder (s : Store) (user : ObjectId) (body : CheckoutBody) : Store :=
  if isBuyNow body then s
  else
    match findCart s.carts user with
    | some cart => { s with carts := saveCart s.carts { cart with items := [] } }
    | none => s

/-- The document built by `new Order({...})` (lines 59-68); `status` takes the
schema default. -/
def newOrder (id user : ObjectId) (body : CheckoutBody) (orderProducts : List OrderProduct)
    (calculatedTotalAmount : Option Int) : Order :=
  { _id := id
    userId := user
    products := orderProducts
    address := body.address
    location := body.location
    paymentMethod := body.paymentMethod
    status := "Pending"
    totalAmount := calculatedTotalAmount
    notes := body.notes }

/-- Lines 70-77 of the handler after a successful validation: the order is
inserted and the products of its lines are marked unavailable. -/
def placeOrder (s : Store) (order : Order) : Store :=
  { s with
    orders := s.orders ++ [order]
    nextId := s.nextId + 1
    products := updateManyUnavailable s.products (order.products.map (fun item => item.productId)) }

/-- The handler of `POST /orders/checkout`. -/
def ordersCheckout (s : Store) (user : ObjectId) (body : CheckoutBody) : Store × Res Order :=
  if !addressComplete body.address then
    (s, badRequest "Please provide complete address information")
  else if !truthy body.location then
    (s, badRequest "Location is required")
  else if !truthy body.paymentMethod then
    (s, badRequest "Payment method is required")
  else
    match prepareOrder s user body with
    | .error r => (s, r)
    | .ok (orderProducts, calculatedTotalAmount) =>
      let order := newOrder s.nextId user body orderProducts calculatedTotalAmount
      if !validateOrder order then (s, serverError "Server error during checkout")
      else
        (clearCartAfterOrder (placeOrder s order) user body,
          { status := 201, message := "Order placed successfully", data := some order })

/-! ## Purchase checkout (`routes/purchases.js`, `POST /checkout`) -/

/-- Request body of `POST /purchases/checkout`. -/
structure PurchaseBody where
  shippingAddress : Option ShippingAddress
  paymentMethod : Option String
  notes : Option String
  deriving DecidableEq, Repr

/-- Payload of a successful purchase checkout: `purchases` and `totalAmount`. -/
structure PurchaseReceipt where
  purchases : List Purchase
  totalAmount : Int
  deriving DecidableEq, Repr

/-- One entry of the `sellerGroups` object. -/
structure SellerGroup where
  seller : ObjectId
  items : List PurchaseItem
  deriving DecidableEq, Repr

/-- The `enum` of `purchaseSchema.paymentMethod`. -/
def purchasePaymentMethods : List String :=
  ["Credit Card", "Debit Card", "PayPal", "Bank Transfer", "Cash on Delivery"]

/-- The line pushed on its seller's group. -/
def purchaseItemOfLine (line : CartItem × Product) : PurchaseItem :=
  { product := line.2._id, quantity := line.1.quantity, price := line.2.price }

/-- `sellerGroups[sellerId].items.push(item)`, creating the group first when the
key is new.  The object is kept as an association list in insertion order,
which is the order in which `for ... in` enumerates its keys (the keys are
24-digit hexadecimal strings, never array indices). -/
def pushToGroup (seller : ObjectId) (item : PurchaseItem) :
    List SellerGroup → List SellerGroup
  | [] => [{ seller := seller, items := [item] }]
  | g :: gs =>
    if g.seller == seller then { g with items := g.items ++ [item] } :: gs
    else g :: pushToGroup seller item gs

/-- The grouping loop (lines 26-44): the state `(sellerGroups, totalAmount)`
after the given lines. -/
def groupLines (lines : List (CartItem × Product)) (acc : List SellerGroup × Int) :
    List SellerGroup × Int :=
  lines.foldl
    (fun st line =>
      (pushToGroup line.2.seller (purchaseItemOfLine line) st.1,
        st.2 + line.2.price * line.1.quantity))
    acc

/-- The reduction `group.items.reduce((sum, item) => sum + item.price * item.quantity, 0)`. -/
def purchaseTotal (items : List PurchaseItem) : Int :=
  items.foldl (fun sum item => sum + item.price * item.quantity) 0

/-- Validator of one `items[]` entry of `purchaseSchema`. -/
def validPurchaseItem (i : PurchaseItem) : Bool :=
  decide (1 ≤ i.quantity) && decide (0 ≤ i.price)

/-- Schema validation run by `purchase.save()` (`models/Purchase.js`). -/
def validatePurchase (p : Purchase) : Bool :=
  p.items.all validPurchaseItem
    && decide (0 ≤ p.totalAmount)
    && statusValues.contains p.status
    && purchasePaymentMethods.contains p.paymentMethod
    && validNotes p.notes

/-- `paymentMethod || 'Credit Card'`. -/
def paymentMethodOrDefault (m : Option String) : String :=
  match m with
  | some v => if v != "" then v else "Credit Card"
  | none => "Credit Card"

/-- The `new Purchase({...})` of one seller group. -/
def newPurchase (id buyer : ObjectId) (body : PurchaseBody) (group : SellerGroup) : Purchase :=
  { _id := id
    buyer := buyer
    seller := group.seller
    items := group.items
    totalAmount := purchaseTotal group.items
    status := "Pending"
    shippingAddress := body.shippingAddress
    paymentMethod := paymentMethodOrDefault body.paymentMethod
    notes := body.notes }

/-- The loop creating one purchase per seller group (lines 46-70).  `persists`
is the persistence layer: whether it accepts the write of a valid document.
`purchase.save()` raises when validation or the write fails, which ends the
loop; the result is the store reached and the `purchases` array, or `none`
when a save raised. -/
def createPurchases (persists : Purchase → Bool) (buyer : ObjectId) (body : PurchaseBody) :
    List SellerGroup → Store → Store × Option (List Purchase)
  | [], s => (s, some [])
  | group :: rest, s =>
    let purchase := newPurchase s.nextId buyer body group
    if validatePurchase purchase && persists purchase then
      let s1 : Store := { s with purchases := s.purchases ++ [purchase], nextId := s.nextId + 1 }
      match createPurchases persists buyer body rest s1 with
      | (s2, some purchases) => (s2, some (purchase :: purchases))
      | (s2, none) => (s2, none)
    else (s, none)

/-- The handler of `POST /purchases/checkout`. -/
def purchasesCheckout (persists : Purchase → Bool) (s : Store) (user : ObjectId)
    (body : PurchaseBody) : Store × Res PurchaseReceipt :=
  match findCart s.carts user with
  | none => (s, badRequest "Cart is empty")
  | some cart =>
    if cart.items.length == 0 then (s, badRequest "Cart is empty")
    else
      match resolved (populate s.products cart.items) with
      | none => (s, serverError "Server error during checkout")
      | some lines =>
        let grouped := groupLines lines ([], 0)
        match createPurchases persists user body grouped.1 s with
        | (s1, none) => (s1, serverError "Server error during checkout")
        | (s1, some purchases) =>
          let productIds := cart.items.map (fun item => item.product)
          let s2 : Store := { s1 with products := updateManyUnavailable s1.products productIds }
          let s3 : Store := { s2 with carts := saveCart s2.carts { cart with items := [] } }
          (s3, { status := 201, message := "Checkout successful",
                 data := some { purchases := purchases, totalAmount := grouped.2 } })

/-- A persistence layer that accepts every valid document. -/
def alwaysPersists : Purchase → Bool := fun _ => true

/-! ## The BuyNow page (`frontend/src/pages/BuyNow.js`) -/

/-- The `formData` state of the BuyNow page. -/
structure BuyNowForm where
  quantity : Int
  address : Address
  location : String
  paymentMethod : String
  notes : String
  deriving DecidableEq, Repr

/-- The `orderData` object `handleSubmit` posts to `/orders/checkout` for the
displayed product, or `none` when its own validation stops the submission. -/
def handleSubmit (product : Product) (formData : BuyNowForm) : Option CheckoutBody :=
  if !truthy formData.address.street || !truthy formData.address.city
      || !truthy formData.address.state || !truthy formData.address.pincode then none
  else if !truthy (some formData.location) then none
  else
    some
      { address := some formData.address
        location := some formData.location
        paymentMethod := some formData.paymentMethod
        notes := some formData.notes
        products := some
          [{ productId := product._id
             title := product.title
             price := product.price
             quantity := formData.quantity
             seller := product.seller }]
        totalAmount := some (product.price * formData.quantity) }

/-! ## Adding to the cart (`routes/cart.js`, `POST /add`) -/

/-- The `quantity` field of a cart request, as far as the handlers tell its
values apart, which they do by `parseInt(quantity)`, `!quantity` and
`quantity < 1`:

* `absent`: the field is missing (`undefined`), so the destructuring default `1`
  of the add handler applies;
* `number n`: the integer `n`, below `10^21` in magnitude, sent as a number or
  as the string of its decimal digits;
* `fraction num den`: the number `num / den`, with `0 < den`, that is not an
  integer and lies between `10^-6` and `10^21` in magnitude; `parseInt` reads
  the plain decimal text of such a number up to the point, which is its integer
  part (`parseInt(2.5)` is `2`);
* `notNumeric`: a truthy value that is not below 1 and that `parseInt` maps to
  `NaN`;
* `other falsy belowOne parsed`: any other value, given by what the three
  tests make of it; `1e21` is `other false false (some 1)`, since `parseInt`
  reads `"1e+21"`, and `null` is `other true false none`. -/
inductive QuantityField where
  | absent
  | number (n : Int)
  | fraction (num : Int) (den : Nat)
  | notNumeric
  | other (falsy belowOne : Bool) (parsed : Option Int)
  deriving DecidableEq, Repr

/-- `parseInt(quantity)` after the default `quantity = 1`; `none` is `NaN`. -/
def parseQuantity : QuantityField → Option Int
  | .absent => some 1
  | .number n => some n
  | .fraction num den => some (Int.tdiv num den)
  | .notNumeric => none
  | .other _ _ parsed => parsed

/-- Request body of `POST /cart/add` with the product named by the text that
`toString()` gives for its id (`none`: absent or empty). -/
structure AddBody where
  productId : Option ObjectId
  quantity : QuantityField
  deriving DecidableEq, Repr

/-- Schema validation run by `cart.save()`: `quantity` has `min: 1`. -/
def validateCart (c : Cart) : Bool :=
  c.items.all (fun item => decide (1 ≤ item.quantity))

/-- `cart.items[existingItemIndex].quantity += q` on the first line of the product. -/
def bumpQuantity (productId : ObjectId) (q : Int) : List CartItem → List CartItem
  | [] => []
  | item :: rest =>
    if item.product == productId then { item with quantity := item.quantity + q } :: rest
    else item :: bumpQuantity productId q rest

/-- The handler of `POST /cart/add` up to `res.json`, for a request whose
`productId` is the text that `toString()` gives for an id (for any text the
handler is `cartAddText`, which agrees with this one on such requests): the
store it leaves and the response it hands over (the route as served is
`postCartAdd`).  A `NaN` quantity is rejected by the schema's number cast, so
the handler ends in its `catch` block. -/
def cartAdd (s : Store) (user : ObjectId) (body : AddBody) : Store × Res Cart :=
  match body.productId with
  | none => (s, badRequest "Product ID is required")
  | some productId =>
    match findProduct s.products productId with
    | none => (s, { status := 404, message := "Product not found", data := none })
    | some product =>
      if !product.isAvailable then (s, badRequest "Product is not available")
      else if product.seller == user then
        (s, badRequest "Cannot add your own product to cart")
      else
        let cart : Cart :=
          match findCart s.carts user with
          | some c => c
          | none => { _id := s.nextId, user := user, items := [] }
        match parseQuantity body.quantity with
        | none => (s, serverError "Server error while adding item to cart")
        | some q =>
          let items :=
            if cart.items.any (fun item => item.product == productId) then
              bumpQuantity productId q cart.items
            else cart.items ++ [{ _id := s.nextId + 1, product := productId, quantity := q }]
          let saved : Cart := { cart with items := items }
          if !validateCart saved then (s, serverError "Server error while adding item to cart")
          else
            ({ s with carts := saveCart s.carts saved, nextId := s.nextId + 2 },
              { status := 200, message := "Item added to cart successfully", data := some saved })

/-- The text sent as `productId`, as far as the add handler tells texts apart.
`Product.findById` and the `product` path of a pushed line cast the text to an
id; `findIndex` compares the text itself with `item.product.toString()`, which
is the 24 lower-case hexadecimal digits of the id.  `spelled id true` is that
text; `spelled id false` is any other text that casts to the same id, such as
the same digits in upper case; `malformed` is a text that does not cast, on
which `findById` raises a `CastError`. -/
inductive IdText where
  | spelled (id : ObjectId) (canonical : Bool)
  | malformed
  deriving DecidableEq, Repr

/-- Request body of `POST /cart/add` with the `productId` as the text sent
(`none`: absent or empty). -/
structure AddRequest where
  productId : Option IdText
  quantity : QuantityField
  deriving DecidableEq, Repr

/-- The handler of `POST /cart/add` up to `res.json` on the text of
`productId`.  `findIndex(item => item.product.toString() === productId)` finds
a line only when the request carries the text that `toString()` gives; with
another text of the same id no line is found and a new line is pushed. -/
def cartAddText (s : Store) (user : ObjectId) (body : AddRequest) : Store × Res Cart :=
  match body.productId with
  | none => (s, badRequest "Product ID is required")
  | some .malformed => (s, serverError "Server error while adding item to cart")
  | some (.spelled productId canonical) =>
    match findProduct s.products productId with
    | none => (s, { status := 404, message := "Product not found", data := none })
    | some product =>
      if !product.isAvailable then (s, badRequest "Product is not available")
      else if product.seller == user then
        (s, badRequest "Cannot add your own product to cart")
      else
        let cart : Cart :=
          match findCart s.carts user with
          | some c => c
          | none => { _id := s.nextId, user := user, items := [] }
        match parseQuantity body.quantity with
        | none => (s, serverError "Server error while adding item to cart")
        | some q =>
          let items :=
            if cart.items.any (fun item => item.product == productId && canonical) then
              bumpQuantity productId q cart.items
            else cart.items ++ [{ _id := s.nextId + 1, product := productId, quantity := q }]
          let saved : Cart := { cart with items := items }
          if !validateCart saved then (s, serverError "Server error while adding item to cart")
          else
            ({ s with carts := saveCart s.carts saved, nextId := s.nextId + 2 },
              { status := 200, message := "Item added to cart successfully", data := some saved })

/-- The request of `body` with the product named by the text that `toString()`
gives for its id. -/
def canonicalRequest (body : AddBody) : AddRequest :=
  { productId := body.productId.map (fun id => IdText.spelled id true),
    quantity := body.quantity }

/-! ## Scenario data -/

/-- Two products of two different sellers, priced 10 and 5. -/
def demoProducts : List Product :=
  [{ _id := 1, title := "Lamp", price := 10, seller := 100, isAvailable := true },
   { _id := 2, title := "Book", price := 5, seller := 101, isAvailable := true }]

/-- The cart of user 7: two units of product 1 and one unit of product 2. -/
def demoCart : Cart :=
  { _id := 50, user := 7,
    items := [{ _id := 51, product := 1, quantity := 2 }, { _id := 52, product := 2, quantity := 1 }] }

/-- The store of the scenario of the specification. -/
def demoStore : Store :=
  { products := demoProducts, carts := [demoCart], orders := [], purchases := [], nextId := 60 }

/-- A complete address. -/
def demoAddress : Address :=
  { street := some "1 Main St", city := some "Pune", state := some "MH", pincode := some "411001" }

/-- A cart checkout request that also carries a client total of 999. -/
def demoCartBody : CheckoutBody :=
  { address := some demoAddress, location := some "Pune", paymentMethod := some "Card Payment",
    notes := none, products := none, totalAmount := some 999 }

/-- A purchase checkout request. -/
def demoPurchaseBody : PurchaseBody :=
  { shippingAddress := none, paymentMethod := some "PayPal", notes := none }

/-- The sum of `price × quantity` over order lines. -/
def lineTotals (ls : List OrderProduct) : Int :=
  (ls.map (fun l => l.price * l.quantity)).sum

/-- A direct checkout request for two units of product 1 at price 10 whose
client total is 1. -/
def underpaidBody : CheckoutBody :=
  { address := some demoAddress, location := some "Pune", paymentMethod := some "Card Payment",
    notes := none,
    products := some [{ productId := 1, title := "Lamp", price := 10, quantity := 2, seller := 100 }],
    totalAmount := some 1 }

/-- The form of the BuyNow page filled in for two units. -/
def demoForm : BuyNowForm :=
  { quantity := 2, address := demoAddress, location := "Pune", paymentMethod := "Cash on Delivery",
    notes := "" }

/-- The request the BuyNow page sends for two units of the first demo product. -/
def demoBuyNowBody : CheckoutBody :=
  { address := some demoAddress, location := some "Pune",
    paymentMethod := some "Cash on Delivery", notes := some "",
    products := some [{ productId := 1, title := "Lamp", price := 10, quantity := 2, seller := 100 }],
    totalAmount := some 20 }

/-- The items pushed so far for a seller: `sellerGroups[sellerId].items`, or the
empty list when the key is absent. -/
def groupItems (groups : List SellerGroup) (seller : ObjectId) : List PurchaseItem :=
  match groups.find? (fun g => g.seller == seller) with
  | some g => g.items
  | none => []

/-- The sum of `price × quantity` over purchase lines. -/
def itemTotals (items : List PurchaseItem) : Int :=
  (items.map (fun i => i.price * i.quantity)).sum

/-- The grouping loop seen as a fold on the groups alone. -/
def groupsAfter (lines : List (CartItem × Product)) (gs : List SellerGroup) : List SellerGroup :=
  lines.foldl (fun st line => pushToGroup line.2.seller (purchaseItemOfLine line) st) gs

/-- A cart checkout request without an address. -/
def noAddressBody : CheckoutBody :=
  { address := none, location := some "Pune", paymentMethod := some "Card Payment",
    notes := none, products := none, totalAmount := none }

/-- The scenario store with an additional empty cart for user 9. -/
def emptyCartStore : Store :=
  { demoStore with carts := [demoCart, { _id := 70, user := 9, items := [] }] }

/-- A persistence layer whose write of the purchase for seller 101 fails. -/
def failsForSeller101 : Purchase → Bool := fun p => p.seller != 101

/-- A store with the two demo products and no cart. -/
def catalogStore : Store :=
  { products := demoProducts, carts := [], orders := [], purchases := [], nextId := 60 }

/-- The request adding one unit of product 1 to the cart. -/
def addLamp : AddBody := { productId := some 1, quantity := .absent }

/-- Users 7 and 8 each add product 1 to their cart while it is available, then
user 7 checks out. -/
def afterFirstSale : Store :=
  (ordersCheckout (cartAdd (cartAdd catalogStore 7 addLamp).1 8 addLamp).1 7 demoCartBody).1

/-! ## The other cart routes (`routes/cart.js`) and the cart virtuals -/

/-- A 404 response. -/
def notFound {α : Type} (msg : String) : Res α :=
  { status := 404, message := msg, data := none }

/-- A 403 response. -/
def forbidden {α : Type} (msg : String) : Res α :=
  { status := 403, message := msg, data := none }

/-- The handler of `GET /cart` up to `res.json` (the route as served is
`getCart`): the user's cart, created empty and stored when there is none.  The
response is the cart document itself, without `message`. -/
def cartGet (s : Store) (user : ObjectId) : Store × Res Cart :=
  match findCart s.carts user with
  | some cart => (s, { status := 200, message := "", data := some cart })
  | none =>
    let cart : Cart := { _id := s.nextId, user := user, items := [] }
    ({ s with carts := saveCart s.carts cart, nextId := s.nextId + 1 },
      { status := 200, message := "", data := some cart })

/-- Request body of `PUT /cart/update/:itemId`.  Here `absent` stands for every
falsy value that is not a number (`undefined`, `null`, the empty string) and
`notNumeric` for a truthy value that `parseInt` maps to `NaN`. -/
structure UpdateBody where
  quantity : QuantityField
  deriving DecidableEq, Repr

/-- The test `!quantity || quantity < 1` of the update handler.  A number
`num / den` with `0 < den` is below 1 exactly when `num < den`. -/
def quantityRejected : QuantityField → Bool
  | .absent => true
  | .number n => decide (n < 1)
  | .fraction num den => decide (num < den)
  | .notNumeric => false
  | .other falsy belowOne _ => falsy || belowOne

/-- `parseInt(quantity)` without a default; `none` is `NaN`. -/
def parseIntField : QuantityField → Option Int
  | .absent => none
  | .number n => some n
  | .fraction num den => some (Int.tdiv num den)
  | .notNumeric => none
  | .other _ _ parsed => parsed

/-- `cart.items[itemIndex].quantity = q` on the first line with the given `_id`. -/
def setQuantity (itemId : ObjectId) (q : Int) : List CartItem → List CartItem
  | [] => []
  | item :: rest =>
    if item._id == itemId then { item with quantity := q } :: rest
    else item :: setQuantity itemId q rest

/-- The handler of `PUT /cart/update/:itemId` up to `res.json` (the route as
served is `putCartUpdate`). -/
def cartUpdate (s : Store) (user : ObjectId) (itemId : ObjectId) (body : UpdateBody) :
    Store × Res Cart :=
  if quantityRejected body.quantity then (s, badRequest "Valid quantity is required")
  else
    match findCart s.carts user with
    | none => (s, notFound "Cart not found")
    | some cart =>
      if !cart.items.any (fun item => item._id == itemId) then
        (s, notFound "Item not found in cart")
      else
        match parseIntField body.quantity with
        | none => (s, serverError "Server error while updating cart")
        | some q =>
          let saved : Cart := { cart with items := setQuantity itemId q cart.items }
          if !validateCart saved then (s, serverError "Server error while updating cart")
          else
            ({ s with carts := saveCart s.carts saved },
              { status := 200, message := "Cart updated successfully", data := some saved })

/-- The handler of `DELETE /cart/remove/:itemId` up to `res.json` (the route as
served is `deleteCartRemove`): `splice(itemIndex, 1)` removes the first line
with the given `_id`. -/
def cartRemove (s : Store) (user : ObjectId) (itemId : ObjectId) : Store × Res Cart :=
  match findCart s.carts user with
  | none => (s, notFound "Cart not found")
  | some cart =>
    if !cart.items.any (fun item => item._id == itemId) then
      (s, notFound "Item not found in cart")
    else
      let saved : Cart :=
        { cart with items := cart.items.eraseP (fun item => item._id == itemId) }
      if !validateCart saved then (s, serverError "Server error while removing item from cart")
      else
        ({ s with carts := saveCart s.carts saved },
          { status := 200, message := "Item removed from cart successfully", data := some saved })

/-- The handler of `DELETE /cart/clear`. -/
def cartClear (s : Store) (user : ObjectId) : Store × Res Cart :=
  match findCart s.carts user with
  | none => (s, notFound "Cart not found")
  | some cart =>
    let saved : Cart := { cart with items := [] }
    ({ s with carts := saveCart s.carts saved },
      { status := 200, message := "Cart cleared successfully", data := some saved })

/-- The virtual `totalItems` of `cartSchema`. -/
def totalItems (cart : Cart) : Int :=
  cart.items.foldl (fun total item => total + item.quantity) 0

/-- The virtual `totalPrice` of `cartSchema`, read on a populated cart: the
reduction dereferences `item.product` on every line, and `none` stands for the
`TypeError` raised when a line's product is `null`. -/
def totalPrice (items : List (CartItem × Option Product)) : Option Int :=
  items.foldl
    (fun total line =>
      match total, line.2 with
      | some t, some p => some (t + p.price * line.1.quantity)
      | _, _ => none)
    (some 0)

/-! ## Product update and delete (`routes/products.js`) -/

/-- The `price` field of a product update, told apart the way `parseFloat`
does: absent (`undefined`), a number, or a value mapped to `NaN`. -/
inductive PriceField where
  | absent
  | number (n : Int)
  | notNumeric
  deriving DecidableEq, Repr

/-- Request body of `PUT /products/:id`, restricted to the fields of the
modelled product document. -/
structure ProductUpdateBody where
  title : Option String
  price : PriceField
  isAvailable : Option Bool
  deriving DecidableEq, Repr

/-- The setter of `trim: true`: white space is removed at both ends. -/
def trimmed (t : String) : String :=
  String.mk ((t.data.dropWhile Char.isWhitespace).reverse.dropWhile Char.isWhitespace).reverse

/-- The update validators (`runValidators: true`) on the paths that are set:
`title` is required with `maxlength: 100`, `price` has `min: 0`. -/
def validProductUpdate (body : ProductUpdateBody) : Bool :=
  (match body.title with
   | some t => trimmed t != "" && decide ((trimmed t).length ≤ 100)
   | none => true)
    && (match body.price with
        | .number n => decide (0 ≤ n)
        | _ => true)

/-- The `$set` of `updateData` applied to a product; `title` has `trim: true`. -/
def applyProductUpdate (body : ProductUpdateBody) (p : Product) : Product :=
  { p with
    title := match body.title with
      | some t => trimmed t
      | none => p.title
    price := match body.price with
      | .number n => n
      | _ => p.price
    isAvailable := body.isAvailable.getD p.isAvailable }

/-- `findByIdAndUpdate`: the first document with the id is replaced. -/
def updateProductById (id : ObjectId) (f : Product → Product) : List Product → List Product
  | [] => []
  | p :: rest => if p._id == id then f p :: rest else p :: updateProductById id f rest

/-- The handler of `PUT /products/:id`.  A `NaN` price fails the number cast
of the update, which ends in the `catch` block. -/
def productUpdate (s : Store) (user : ObjectId) (id : ObjectId) (body : ProductUpdateBody) :
    Store × Res Product :=
  match findProduct s.products id with
  | none => (s, notFound "Product not found")
  | some product =>
    if product.seller != user then (s, forbidden "Not authorized to update this product")
    else if body.price == .notNumeric || !validProductUpdate body then
      (s, serverError "Server error while updating product")
    else
      ({ s with products := updateProductById id (applyProductUpdate body) s.products },
        { status := 200, message := "Product updated successfully",
          data := some (applyProductUpdate body product) })

/-- The handler of `DELETE /products/:id`. -/
def productDelete (s : Store) (user : ObjectId) (id : ObjectId) : Store × Res Product :=
  match findProduct s.products id with
  | none => (s, notFound "Product not found")
  | some product =>
    if product.seller != user then (s, forbidden "Not authorized to delete this product")
    else
      ({ s with products := s.products.eraseP (fun p => p._id == id) },
        { status := 200, message := "Product deleted successfully", data := none })

/-! ## Status updates (`PUT /:id/status` of `routes/orders.js` and `routes/purchases.js`) -/

/-- `Order.findById(id)`. -/
def findOrder (orders : List Order) (id : ObjectId) : Option Order :=
  orders.find? (fun o => o._id == id)

/-- `Purchase.findById(id)`. -/
def findPurchase (purchases : List Purchase) (id : ObjectId) : Option Purchase :=
  purchases.find? (fun p => p._id == id)

/-- `order.save()` for an order loaded by `findById`: the document it was loaded
from, the first one with that `_id`, is replaced. -/
def saveOrder (order : Order) : List Order → List Order
  | [] => []
  | o :: rest => if o._id == order._id then order :: rest else o :: saveOrder order rest

/-- `purchase.save()` for a purchase loaded by `findById`. -/
def savePurchase (purchase : Purchase) : List Purchase → List Purchase
  | [] => []
  | p :: rest =>
    if p._id == purchase._id then purchase :: rest else p :: savePurchase purchase rest

/-- The test `!status || ![...].includes(status)` of both status handlers. -/
def statusRejected (status : Option String) : Bool :=
  match status with
  | some v => !(v != "" && statusValues.contains v)
  | none => true

/-- The handler of `PUT /orders/:id/status`. -/
def orderStatusUpdate (s : Store) (user : ObjectId) (id : ObjectId) (status : Option String) :
    Store × Res Order :=
  if statusRejected status then (s, badRequest "Valid status is required")
  else
    match findOrder s.orders id with
    | none => (s, notFound "Order not found")
    | some order =>
      if order.userId != user then (s, forbidden "Not authorized to update this order")
      else
        let saved : Order := { order with status := status.getD order.status }
        if !validateOrder saved then (s, serverError "Server error while updating order status")
        else
          ({ s with orders := saveOrder saved s.orders },
            { status := 200, message := "Order status updated successfully", data := some saved })

/-- The handler of `PUT /purchases/:id/status`. -/
def purchaseStatusUpdate (s : Store) (user : ObjectId) (id : ObjectId)
    (status : Option String) : Store × Res Purchase :=
  if statusRejected status then (s, badRequest "Valid status is required")
  else
    match findPurchase s.purchases id with
    | none => (s, notFound "Purchase not found")
    | some purchase =>
      if purchase.seller != user then
        (s, forbidden "Not authorized to update this purchase")
      else
        let saved : Purchase := { purchase with status := status.getD purchase.status }
        if !validatePurchase saved then
          (s, serverError "Server error while updating purchase status")
        else
          ({ s with purchases := savePurchase saved s.purchases },
            { status := 200, message := "Purchase status updated successfully",
              data := some saved })

/-! ## Runs of the system -/

/-- One request served: the store before and after.  The requests are the cart
routes, the two checkouts, the product update and delete and the two status
updates, by any user and with any body; an add to the cart names the product by
the text that `toString()` gives for its id (`cartAdd`) or by any text
(`cartAddText`).  The store after a cart route is the store after its handler,
whatever the serialization of the response gives. -/
inductive Step : Store → Store → Prop
  | cartGet (s : Store) (user : ObjectId) : Step s (cartGet s user).1
  | cartAdd (s : Store) (user : ObjectId) (body : AddBody) : Step s (cartAdd s user body).1
  | cartAddText (s : Store) (user : ObjectId) (body : AddRequest) :
      Step s (cartAddText s user body).1
  | cartUpdate (s : Store) (user itemId : ObjectId) (body : UpdateBody) :
      Step s (cartUpdate s user itemId body).1
  | cartRemove (s : Store) (user itemId : ObjectId) : Step s (cartRemove s user itemId).1
  | cartClear (s : Store) (user : ObjectId) : Step s (cartClear s user).1
  | ordersCheckout (s : Store) (user : ObjectId) (body : CheckoutBody) :
      Step s (ordersCheckout s user body).1
  | purchasesCheckout (persists : Purchase → Bool) (s : Store) (user : ObjectId)
      (body : PurchaseBody) : Step s (purchasesCheckout persists s user body).1
  | productUpdate (s : Store) (user id : ObjectId) (body : ProductUpdateBody) :
      Step s (productUpdate s user id body).1
  | productDelete (s : Store) (user id : ObjectId) : Step s (productDelete s user id).1
  | orderStatusUpdate (s : Store) (user id : ObjectId) (status : Option String) :
      Step s (orderStatusUpdate s user id status).1
  | purchaseStatusUpdate (s : Store) (user id : ObjectId) (status : Option String) :
      Step s (purchaseStatusUpdate s user id status).1

/-- The stores reachable by serving requests, starting from a store without
carts, orders and purchases; its catalog is arbitrary, the empty one included. -/
inductive Reachable : Store → Prop
  | init (s : Store) (hcarts : s.carts = []) (horders : s.orders = [])
      (hpurchases : s.purchases = []) : Reachable s
  | step {s t : Store} (h : Reachable s) (hstep : Step s t) : Reachable t

/-- A cart checkout request paying with a method outside the order enum. -/
def bitcoinBody : CheckoutBody :=
  { address := some demoAddress, location := some "Pune", paymentMethod := some "Bitcoin",
    notes := none, products := none, totalAmount := none }

/-- A purchase checkout request with no field at all. -/
def bareBody : PurchaseBody :=
  { shippingAddress := none, paymentMethod := none, notes := none }

/-- The cart document that `POST /cart/add` saves for a product and a parsed
quantity: the user's cart, or a new empty one, with the line bumped or pushed. -/
def cartAfterAdd (s : Store) (user productId : ObjectId) (q : Int) : Cart :=
  let cart : Cart :=
    match findCart s.carts user with
    | some c => c
    | none => { _id := s.nextId, user := user, items := [] }
  { cart with
    items :=
      if cart.items.any (fun item => item.product == productId) then
        bumpQuantity productId q cart.items
      else cart.items ++ [{ _id := s.nextId + 1, product := productId, quantity := q }] }

/-- The scenario store with a third product, listed by user 7. -/
def ownProductStore : Store :=
  { demoStore with
    products := demoProducts ++
      [{ _id := 3, title := "Chair", price := 40, seller := 7, isAvailable := true }] }

/-- The request of seller 100 changing title and price of product 1. -/
def repriceLamp : ProductUpdateBody :=
  { title := some " Desk lamp ", price := .number 99, isAvailable := none }

/-- After the first sale, the seller of product 1 changes its title and price,
then deletes it, and the buyer marks the order as delivered. -/
def afterCatalogChanges : Store :=
  (orderStatusUpdate
    (productDelete (productUpdate afterFirstSale 100 1 repriceLamp).1 100 1).1
    7 64 (some "Delivered")).1

/-- User 7 adds product 1 to the cart and checks out through the purchase route. -/
def afterPurchaseSale : Store :=
  (purchasesCheckout alwaysPersists (cartAdd catalogStore 7 addLamp).1 7 demoPurchaseBody).1

/-- After the first sale, the buyer cancels order 64. -/
def cancelledStore : Store :=
  (orderStatusUpdate afterFirstSale 7 64 (some "Cancelled")).1

/-- After the purchase sale, the seller cancels purchase 62. -/
def cancelledPurchaseStore : Store :=
  (purchaseStatusUpdate afterPurchaseSale 100 62 (some "Cancelled")).1

/-- The order stored by the first sale. -/
def firstOrder : Order :=
  { _id := 64
    userId := 7
    products := [{ productId := 1, title := "Lamp", price := 10, quantity := 1, seller := 100 }]
    address := demoCartBody.address
    location := demoCartBody.location
    paymentMethod := some "Card Payment"
    status := "Pending"
    totalAmount := some 10
    notes := demoCartBody.notes }

/-- The purchase stored by the purchase sale. -/
def firstPurchase : Purchase :=
  { _id := 62
    buyer := 7
    seller := 100
    items := [{ product := 1, quantity := 1, price := 10 }]
    totalAmount := 10
    status := "Pending"
    shippingAddress := demoPurchaseBody.shippingAddress
    paymentMethod := "PayPal"
    notes := demoPurchaseBody.notes }

/-- The lines of a stored cart, with the ids drawn so far below `n`: every
quantity is at least 1 (`min: 1`), and the subdocument ids are distinct and
already drawn. -/
def GoodItems (items : List CartItem) (n : Nat) : Prop :=
  (∀ item ∈ items, 1 ≤ item.quantity) ∧ (items.map (fun item => item._id)).Nodup ∧
  ∀ item ∈ items, item._id < n

/-- Well-formedness of the cart collection, with the ids drawn so far below
`n`: document ids are distinct and already drawn, no user has two carts (the
unique index on `user`), and every cart has well-formed lines. -/
def CartsWF (carts : List Cart) (n : Nat) : Prop :=
  (carts.map (fun c => c._id)).Nodup ∧ (carts.map (fun c => c.user)).Nodup ∧
  ∀ c ∈ carts, c._id < n ∧ GoodItems c.items n

/-- The catalog store after user 7 has added two units of product 1 and one of
product 2, and user 8 one unit of product 1. -/
def shoppingStore : Store :=
  (cartAdd (cartAdd (cartAdd catalogStore 7 ⟨some 1, .number 2⟩).1 7 ⟨some 2, .absent⟩).1
    8 addLamp).1

/-- The cart of user 7 in `shoppingStore`. -/
def shoppingCart : Cart :=
  { _id := 60, user := 7,
    items := [{ _id := 61, product := 1, quantity := 2 }, { _id := 63, product := 2, quantity := 1 }] }

/-! ## The order checkout between its awaited database operations

The handler of `POST /orders/checkout` is an `async` function: it runs without
interruption up to an `await` of a database operation, and other requests are
served while it waits.  A request in progress is modelled by the point it has
reached and the local variables it holds there; one move performs its next
database operation on the store as it then is.  The first move of a direct
checkout, which validates the body and reads nothing, is a move of its own. -/

/-- An order checkout in progress. -/
inductive CheckoutTask where
  /-- The request has arrived. -/
  | received (user : ObjectId) (body : CheckoutBody)
  /-- Before `await order.save()`, holding `orderProducts` and `calculatedTotalAmount`. -/
  | toSave (user : ObjectId) (body : CheckoutBody) (orderProducts : List OrderProduct)
      (calculatedTotalAmount : Option Int)
  /-- Before `await Product.updateMany(...)`, holding the saved order. -/
  | toMark (user : ObjectId) (body : CheckoutBody) (order : Order)
  /-- Before the second `await Cart.findOne(...)` of a cart checkout. -/
  | toFindCart (user : ObjectId) (body : CheckoutBody) (order : Order)
  /-- Before `await cart.save()`, holding the cart document that was found. -/
  | toClear (user : ObjectId) (body : CheckoutBody) (order : Order) (cart : Cart)
  /-- The response has been sent. -/
  | responded (res : Res Order)
  deriving DecidableEq, Repr

/-- One move of a checkout in progress: its next database operation, and the
code of the handler up to the following `await` or to the response. -/
def advance (s : Store) : CheckoutTask → Store × CheckoutTask
  | .received user body =>
    if !addressComplete body.address then
      (s, .responded (badRequest "Please provide complete address information"))
    else if !truthy body.location then
      (s, .responded (badRequest "Location is required"))
    else if !truthy body.paymentMethod then
      (s, .responded (badRequest "Payment method is required"))
    else
      match prepareOrder s user body with
      | .error r => (s, .responded r)
      | .ok (orderProducts, calculatedTotalAmount) =>
        (s, .toSave user body orderProducts calculatedTotalAmount)
  | .toSave user body orderProducts calculatedTotalAmount =>
    let order := newOrder s.nextId user body orderProducts calculatedTotalAmount
    if !validateOrder order then (s, .responded (serverError "Server error during checkout"))
    else
      ({ s with orders := s.orders ++ [order], nextId := s.nextId + 1 },
        .toMark user body order)
  | .toMark user body order =>
    ({ s with
        products :=
          updateManyUnavailable s.products (order.products.map (fun item => item.productId)) },
      if isBuyNow body then
        .responded { status := 201, message := "Order placed successfully", data := some order }
      else .toFindCart user body order)
  | .toFindCart user body order =>
    match findCart s.carts user with
    | some cart => (s, .toClear user body order cart)
    | none =>
      (s, .responded
        { status := 201, message := "Order placed successfully", data := some order })
  | .toClear _ _ order cart =>
    ({ s with carts := saveCart s.carts { cart with items := [] } },
      .responded { status := 201, message := "Order placed successfully", data := some order })
  | .responded res => (s, .responded res)

/-- The number of moves a checkout in progress has left, at most. -/
def movesLeft : CheckoutTask → Nat
  | .received _ _ => 5
  | .toSave _ _ _ _ => 4
  | .toMark _ _ _ => 3
  | .toFindCart _ _ _ => 2
  | .toClear _ _ _ _ => 1
  | .responded _ => 0

/-- A request served alone: `n` moves in a row. -/
def runAlone : Nat → Store × CheckoutTask → Store × CheckoutTask
  | 0, st => st
  | n + 1, st => runAlone n (advance st.1 st.2)

/-- Two checkouts in progress served together: the schedule says, move by move,
whether the first (`true`) or the second (`false`) makes the next move. -/
def runSchedule : List Bool → Store × CheckoutTask × CheckoutTask →
    Store × CheckoutTask × CheckoutTask
  | [], st => st
  | true :: rest, (s, t1, t2) => runSchedule rest ((advance s t1).1, (advance s t1).2, t2)
  | false :: rest, (s, t1, t2) => runSchedule rest ((advance s t2).1, t1, (advance s t2).2)

/-- The response of a checkout in progress, once sent. -/
def response : CheckoutTask → Option (Res Order)
  | .responded res => some res
  | _ => none

/-- The catalog store after users 7 and 8 have each added product 1 to their
cart. -/
def twoCartsStore : Store :=
  (cartAdd (cartAdd catalogStore 7 addLamp).1 8 addLamp).1

/-- The two checkouts take turns, move by move. -/
def alternating : List Bool :=
  [true, false, true, false, true, false, true, false, true, false]

/-- The store holds every product of the order lines as unavailable. -/
def Marked (s : Store) (orderProducts : List OrderProduct) : Prop :=
  ∀ p ∈ s.products, p._id ∈ orderProducts.map (fun item => item.productId) →
    p.isAvailable = false

/-- A checkout in progress of `user` with `body` is on course for the order
lines `orderProducts`: what it holds and what the store holds for it, point by
point, on the way to the response 201. -/
def OnCourse (user : ObjectId) (body : CheckoutBody) (orderProducts : List OrderProduct)
    (s : Store) : CheckoutTask → Prop
  | .received u b =>
    u = user ∧ b = body ∧ addressComplete body.address = true ∧
    truthy body.location = true ∧ truthy body.paymentMethod = true ∧
    ∃ total, prepareOrder s user body = .ok (orderProducts, total) ∧
      validateOrder (newOrder 0 user body orderProducts total) = true
  | .toSave u b ops total =>
    u = user ∧ b = body ∧ ops = orderProducts ∧
    validateOrder (newOrder 0 user body orderProducts total) = true
  | .toMark u b order =>
    u = user ∧ b = body ∧ order ∈ s.orders ∧ order.userId = user ∧
    order.products = orderProducts
  | .toFindCart u b order =>
    u = user ∧ b = body ∧ order ∈ s.orders ∧ order.userId = user ∧
    order.products = orderProducts ∧ Marked s orderProducts
  | .toClear u b order cart =>
    u = user ∧ b = body ∧ order ∈ s.orders ∧ order.userId = user ∧
    order.products = orderProducts ∧ Marked s orderProducts ∧ cart ∈ s.carts ∧ cart.user = user
  | .responded r =>
    r.status = 201 ∧ ∃ order, r.data = some order ∧ order ∈ s.orders ∧ order.userId = user ∧
      order.products = orderProducts ∧ Marked s orderProducts

/-- A change of the store from `s` to `t` that a checkout in progress of `user`
does not notice: orders are only added, unavailable products stay unavailable,
the cart and the products that `user` reads are the same up to availability,
and the carts of `user` stay stored. -/
def Compatible (user : ObjectId) (s t : Store) : Prop :=
  (∀ o ∈ s.orders, o ∈ t.orders) ∧
  (∀ ops, Marked s ops → Marked t ops) ∧
  (∀ body, prepareOrder t user body = prepareOrder s user body) ∧
  (∀ cart ∈ s.carts, cart.user = user → cart ∈ t.carts)

/-! ## The cart routes as served

The handlers `cartGet`, `cartAdd`, `cartUpdate` and `cartRemove` above give the
store after the request and the response handed to `res.json`.  The cart in that
response is populated, and `res.json` serializes it with its virtuals
(`cartSchema.set('toJSON', { virtuals: true })`).  The routes below add that
last step.  `cartClear` sends a cart that is not populated and has no lines,
whose virtuals are both 0, so it is the route itself. -/

/-- `res.json` of a response that carries a populated cart: `toJSON` evaluates
the virtuals, and `totalPrice` raises a `TypeError` on a line whose product is
`null`, which the handler's `catch` block answers with 500. -/
def sendCart (products : List Product) (failure : String) (r : Res Cart) : Res Cart :=
  match r.data with
  | none => r
  | some cart =>
    match totalPrice (populate products cart.items) with
    | some _ => r
    | none => serverError failure

/-- The route `GET /cart`. -/
def getCart (s : Store) (user : ObjectId) : Store × Res Cart :=
  ((cartGet s user).1,
    sendCart (cartGet s user).1.products "Server error while fetching cart" (cartGet s user).2)

/-- The route `POST /cart/add`. -/
def postCartAdd (s : Store) (user : ObjectId) (body : AddBody) : Store × Res Cart :=
  ((cartAdd s user body).1,
    sendCart (cartAdd s user body).1.products "Server error while adding item to cart"
      (cartAdd s user body).2)

/-- The route `PUT /cart/update/:itemId`. -/
def putCartUpdate (s : Store) (user : ObjectId) (itemId : ObjectId) (body : UpdateBody) :
    Store × Res Cart :=
  ((cartUpdate s user itemId body).1,
    sendCart (cartUpdate s user itemId body).1.products "Server error while updating cart"
      (cartUpdate s user itemId body).2)

/-- The route `DELETE /cart/remove/:itemId`. -/
def deleteCartRemove (s : Store) (user : ObjectId) (itemId : ObjectId) : Store × Res Cart :=
  ((cartRemove s user itemId).1,
    sendCart (cartRemove s user itemId).1.products "Server error while removing item from cart"
      (cartRemove s user itemId).2)

/-- Every line of the cart refers to a product of the catalog. -/
def linesResolve (products : List Product) (cart : Cart) : Bool :=
  cart.items.all (fun item => (findProduct products item.product).isSome)

/-- The scenario store after the seller of product 2 has deleted it: the cart
of user 7 still holds its line. -/
def staleCartStore : Store := (productDelete shoppingStore 101 2).1

/-- One request served that does not put product `pid` back on sale: every
request of `Step` except a product update of `pid` whose body sets
`isAvailable` to `true`. -/
inductive StepKeeping (pid : ObjectId) : Store → Store → Prop
  | cartGet (s : Store) (user : ObjectId) : StepKeeping pid s (cartGet s user).1
  | cartAdd (s : Store) (user : ObjectId) (body : AddBody) :
      StepKeeping pid s (cartAdd s user body).1
  | cartAddText (s : Store) (user : ObjectId) (body : AddRequest) :
      StepKeeping pid s (cartAddText s user body).1
  | cartUpdate (s : Store) (user itemId : ObjectId) (body : UpdateBody) :
      StepKeeping pid s (cartUpdate s user itemId body).1
  | cartRemove (s : Store) (user itemId : ObjectId) :
      StepKeeping pid s (cartRemove s user itemId).1
  | cartClear (s : Store) (user : ObjectId) : StepKeeping pid s (cartClear s user).1
  | ordersCheckout (s : Store) (user : ObjectId) (body : CheckoutBody) :
      StepKeeping pid s (ordersCheckout s user body).1
  | purchasesCheckout (persists : Purchase → Bool) (s : Store) (user : ObjectId)
      (body : PurchaseBody) : StepKeeping pid s (purchasesCheckout persists s user body).1
  | productUpdate (s : Store) (user id : ObjectId) (body : ProductUpdateBody)
      (h : id ≠ pid ∨ body.isAvailable ≠ some true) :
      StepKeeping pid s (productUpdate s user id body).1
  | productDelete (s : Store) (user id : ObjectId) :
      StepKeeping pid s (productDelete s user id).1
  | orderStatusUpdate (s : Store) (user id : ObjectId) (status : Option String) :
      StepKeeping pid s (orderStatusUpdate s user id status).1
  | purchaseStatusUpdate (s : Store) (user id : ObjectId) (status : Option String) :
      StepKeeping pid s (purchaseStatusUpdate s user id status).1

/-- The request of seller 100 putting product 1 back on sale. -/
def relistLamp : ProductUpdateBody :=
  { title := none, price := .absent, isAvailable := some true }

/-- After the first sale: user 8 checks out the cart that still holds product 1,
then the seller changes title and price of product 1. -/
def afterSecondSale : Store :=
  (productUpdate (ordersCheckout afterFirstSale 8 demoCartBody).1 100 1 repriceLamp).1

/-- The route `POST /cart/add` on the text of `productId`. -/
def postCartAddText (s : Store) (user : ObjectId) (body : AddRequest) : Store × Res Cart :=
  ((cartAddText s user body).1,
    sendCart (cartAddText s user body).1.products "Server error while adding item to cart"
      (cartAddText s user body).2)

/-- The store after user 8 has added one unit of product 1. -/
def lampInCart : Store :=
  (postCartAddText catalogStore 8 ⟨some (.spelled 1 true), .absent⟩).1

/-! ## Binary64 arithmetic and the totals of the purchase checkout

A price is a JavaScript `Number`, which is an IEEE 754 binary64 number
(`parseFloat(price)` in `routes/products.js`), and the totals of
`routes/purchases.js` are sums of binary64 products, each rounded.  This section
gives that arithmetic and the totals of the purchase checkout (lines 23 to 56
and the `totalAmount` of the response) on binary64 prices.  A finite number is
a dyadic rational; the sign of zero is not represented. -/

/-- A dyadic rational `mant * 2 ^ exp`.  One number has several such pairs;
`Dyadic.same` compares the numbers. -/
structure Dyadic where
  mant : Int
  exp : Int
  deriving DecidableEq, Repr

/-- The integer `m` with `d = m * 2 ^ e`, for an exponent `e ≤ d.exp`. -/
def Dyadic.mantAt (d : Dyadic) (e : Int) : Int :=
  d.mant * 2 ^ (d.exp - e).toNat

/-- The exact sum of two dyadic rationals. -/
def Dyadic.add (a b : Dyadic) : Dyadic :=
  { mant := a.mantAt (min a.exp b.exp) + b.mantAt (min a.exp b.exp), exp := min a.exp b.exp }

/-- The exact product of two dyadic rationals. -/
def Dyadic.mul (a b : Dyadic) : Dyadic :=
  { mant := a.mant * b.mant, exp := a.exp + b.exp }

/-- Whether two dyadic rationals are the same number. -/
def Dyadic.same (a b : Dyadic) : Bool :=
  a.mantAt (min a.exp b.exp) == b.mantAt (min a.exp b.exp)

/-- A binary64 number: a finite value, an infinity, or `NaN`. -/
inductive Double where
  | finite (value : Dyadic)
  | infinity (negative : Bool)
  | nan
  deriving DecidableEq, Repr

/-- The number of binary digits of `n`, found by halving at most `fuel` times. -/
def bitsWithin : Nat → Nat → Nat
  | 0, _ => 0
  | fuel + 1, n => if n = 0 then 0 else bitsWithin fuel (n / 2) + 1

/-- The number of binary digits of `n`: 0 for 0, and `k + 1` when
`2 ^ k ≤ n < 2 ^ (k + 1)`. -/
def bitLength (n : Nat) : Nat := bitsWithin n n

/-- The binary64 number nearest to `± (n + f) * 2 ^ e`, where `0 ≤ f < 1` and
`sticky` tells whether `f ≠ 0` (it is `false` whenever no digit of `n` is
dropped): `n` is cut to 53 binary digits, or to the multiple of `2 ^ (-1074)`
below when the number is subnormal, and rounded to nearest, a tie going to the
even neighbour; a result of magnitude `2 ^ 1024` or more is an infinity. -/
def Double.round (negative : Bool) (n : Nat) (e : Int) (sticky : Bool) : Double :=
  if n = 0 then .finite ⟨0, 0⟩
  else
    let k : Int := max ((bitLength n : Int) - 53) (-1074 - e)
    let q : Nat :=
      if k ≤ 0 then n
      else
        let r := n % 2 ^ k.toNat
        let half := 2 ^ (k.toNat - 1)
        if half < r ∨ (r = half ∧ (sticky = true ∨ (n / 2 ^ k.toNat) % 2 = 1)) then
          n / 2 ^ k.toNat + 1
        else n / 2 ^ k.toNat
    let e1 : Int := if k ≤ 0 then e else e + k
    if q = 0 then .finite ⟨0, 0⟩
    else if 1024 < (bitLength q : Int) + e1 then .infinity negative
    else .finite ⟨if negative then -(q : Int) else (q : Int), e1⟩

/-- The binary64 number nearest to a dyadic rational. -/
def Double.ofDyadic (d : Dyadic) : Double :=
  Double.round (decide (d.mant < 0)) d.mant.natAbs d.exp false

/-- The binary64 number of a whole number. -/
def Double.ofInt (n : Int) : Double := Double.ofDyadic ⟨n, 0⟩

/-- The binary64 number nearest to `num / den`: the value of a decimal literal
such as `0.10`, which is `ofRatio 10 100`. -/
def Double.ofRatio (num den : Nat) : Double :=
  if den = 0 then .nan
  else
    Double.round false (num * 2 ^ (55 + bitLength den) / den) (-((55 + bitLength den : Nat) : Int))
      (decide (num * 2 ^ (55 + bitLength den) % den ≠ 0))

/-- The number `0`. -/
def Double.zero : Double := .finite ⟨0, 0⟩

/-- The `+` of two numbers: the exact sum, rounded. -/
def Double.add : Double → Double → Double
  | .finite a, .finite b => Double.ofDyadic (a.add b)
  | .nan, _ => .nan
  | _, .nan => .nan
  | .infinity s, .infinity t => if s = t then .infinity s else .nan
  | .infinity s, .finite _ => .infinity s
  | .finite _, .infinity t => .infinity t

/-- The `*` of two numbers: the exact product, rounded. -/
def Double.mul : Double → Double → Double
  | .finite a, .finite b => Double.ofDyadic (a.mul b)
  | .nan, _ => .nan
  | _, .nan => .nan
  | .infinity s, .infinity t => .infinity (s != t)
  | .infinity s, .finite b => if b.mant = 0 then .nan else .infinity (s != decide (b.mant < 0))
  | .finite a, .infinity t => if a.mant = 0 then .nan else .infinity (decide (a.mant < 0) != t)

/-- Whether two numbers are equal as `===` has it. -/
def Double.same : Double → Double → Bool
  | .finite a, .finite b => a.same b
  | .infinity s, .infinity t => s == t
  | _, _ => false

/-- The exact sum of finite numbers, `none` when one of them is not finite. -/
def Double.exactSum : List Double → Option Dyadic
  | [] => some ⟨0, 0⟩
  | .finite d :: rest => (Double.exactSum rest).map (fun s => d.add s)
  | _ :: _ => none

/-- A populated cart line as the purchase checkout reads it:
`item.product._id`, `item.product.seller`, `item.product.price` and
`item.quantity`, a whole number. -/
structure Priced.Line where
  product : ObjectId
  seller : ObjectId
  price : Double
  quantity : Int
  deriving DecidableEq, Repr

/-- An `items[]` entry of a purchase (`models/Purchase.js`). -/
structure Priced.Item where
  product : ObjectId
  quantity : Int
  price : Double
  deriving DecidableEq, Repr

/-- One entry of the `sellerGroups` object. -/
structure Priced.Group where
  seller : ObjectId
  items : List Priced.Item
  deriving DecidableEq, Repr

/-- The seller, items and `totalAmount` of a created purchase. -/
structure Priced.Purchase where
  seller : ObjectId
  items : List Priced.Item
  totalAmount : Double
  deriving DecidableEq, Repr

/-- The line pushed on its seller's group (lines 39 to 43). -/
def Priced.itemOfLine (line : Priced.Line) : Priced.Item :=
  { product := line.product, quantity := line.quantity, price := line.price }

/-- `item.price * item.quantity`. -/
def Priced.amount (price : Double) (quantity : Int) : Double :=
  Double.mul price (Double.ofInt quantity)

/-- `sellerGroups[sellerId].items.push(item)`, creating the group first when the
key is new; the object is kept in insertion order, as `pushToGroup`. -/
def Priced.pushToGroup (seller : ObjectId) (item : Priced.Item) :
    List Priced.Group → List Priced.Group
  | [] => [{ seller := seller, items := [item] }]
  | g :: gs =>
    if g.seller == seller then { g with items := g.items ++ [item] } :: gs
    else g :: Priced.pushToGroup seller item gs

/-- The grouping loop (lines 26 to 44): the state `(sellerGroups, totalAmount)`
after the given lines, with `totalAmount += itemTotal` in binary64. -/
def Priced.groupLines (lines : List Priced.Line) (acc : List Priced.Group × Double) :
    List Priced.Group × Double :=
  lines.foldl
    (fun st line =>
      (Priced.pushToGroup line.seller (Priced.itemOfLine line) st.1,
        Double.add st.2 (Priced.amount line.price line.quantity)))
    acc

/-- The reduction `group.items.reduce((sum, item) => sum + item.price * item.quantity, 0)`
in binary64. -/
def Priced.purchaseTotal (items : List Priced.Item) : Double :=
  items.foldl (fun sum item => Double.add sum (Priced.amount item.price item.quantity))
    Double.zero

/-- The totals of a purchase checkout on the populated cart lines: the seller,
items and `totalAmount` of the purchase that the loop of lines 48 to 70 builds
for each seller group, and the `totalAmount` of the response. -/
def Priced.checkoutTotals (lines : List Priced.Line) : List Priced.Purchase × Double :=
  ((Priced.groupLines lines ([], Double.zero)).1.map
      (fun group =>
        { seller := group.seller, items := group.items,
          totalAmount := Priced.purchaseTotal group.items }),
    (Priced.groupLines lines ([], Double.zero)).2)

/-- The populated line of the store model at its whole-number price. -/
def Priced.ofLine (line : CartItem × Product) : Priced.Line :=
  { product := line.2._id, seller := line.2.seller, price := Double.ofInt line.2.price,
    quantity := line.1.quantity }

/-- The purchase item of the store model at its whole-number price. -/
def Priced.ofItem (item : PurchaseItem) : Priced.Item :=
  { product := item.product, quantity := item.quantity, price := Double.ofInt item.price }

/-- Three cart lines at the prices 0.10, 0.30 and 0.70, the first and the third
of seller 100, the second of seller 101, one unit each. -/
def dimeLines : List Priced.Line :=
  [{ product := 1, seller := 100, price := Double.ofRatio 10 100, quantity := 1 },
   { product := 2, seller := 101, price := Double.ofRatio 30 100, quantity := 1 },
   { product := 3, seller := 100, price := Double.ofRatio 70 100, quantity := 1 }]

/-- The items pushed so far for a seller, on binary64 prices. -/
def Priced.groupItems (groups : List Priced.Group) (seller : ObjectId) : List Priced.Item :=
  match groups.find? (fun g => g.seller == seller) with
  | some g => g.items
  | none => []

/-- The grouping loop on binary64 prices seen as a fold on the groups alone. -/
def Priced.groupsAfter (lines : List Priced.Line) (gs : List Priced.Group) : List Priced.Group :=
  lines.foldl (fun st line => Priced.pushToGroup line.seller (Priced.itemOfLine line) st) gs

/-- The seller group of the store model at its whole-number prices. -/
def Priced.ofGroup (group : SellerGroup) : Priced.Group :=
  { seller := group.seller, items := group.items.map Priced.ofItem }

/-- The populated lines of the scenario cart. -/
def demoLines : List (CartItem × Product) :=
  [(⟨51, 1, 2⟩, ⟨1, "Lamp", 10, 100, true⟩), (⟨52, 2, 1⟩, ⟨2, "Book", 5, 101, true⟩)]

/-- A purchase of the store model at its whole-number prices and total. -/
def Priced.wholePurchase (seller : ObjectId) (items : List PurchaseItem) (totalAmount : Int) :
    Priced.Purchase :=
  { seller := seller, items := items.map Priced.ofItem, totalAmount := Double.ofInt totalAmount }

/-- Two cart lines of seller 100 at the prices 0.10 and 0.70, one unit each. -/
def sameSellerLines : List Priced.Line :=
  [{ product := 1, seller := 100, price := Double.ofRatio 10 100, quantity := 1 },
   { product := 3, seller := 100, price := Double.ofRatio 70 100, quantity := 1 }]

/-- The purchase of seller 100 for `sameSellerLines`, with the total
0.7999999999999999. -/
def sameSellerPurchase : Priced.Purchase :=
  { seller := 100, items := sameSellerLines.map Priced.itemOfLine,
    totalAmount := .finite ⟨7205759403792793, -53⟩ }

/-- The store after user 8 has added product 1 a second time, in another text
of its id. -/
def lampTwice : Store :=
  (cartAddText lampInCart 8 ⟨some (.spelled 1 false), .absent⟩).1

/-! ## Auxiliary lemmas -/

theorem foldl_add_eq_sum {α : Type} (f : α → Int) (l : List α) (a : Int) :
    l.foldl (fun total x => total + f x) a = a + (l.map f).sum := by
  induction l generalizing a with
  | nil => simp
  | cons x xs ih => simp [ih, add_assoc]

theorem cartTotal_eq_sum (lines : List (CartItem × Product)) :
    cartTotal lines = (lines.map (fun line => line.2.price * line.1.quantity)).sum := by
  unfold cartTotal
  rw [foldl_add_eq_sum (fun line : CartItem × Product => line.2.price * line.1.quantity)]
  simp

/-- Shape of a successful order checkout: the preparation step gave the lines
and the total, the new order passed validation, and the result is the store
after insertion, availability update and cart clearing. -/
theorem ordersCheckout_created (s : Store) (user : ObjectId) (body : CheckoutBody)
    (hok : (ordersCheckout s user body).2.status = 201) :
    ∃ orderProducts total,
      prepareOrder s user body = .ok (orderProducts, total) ∧
      validateOrder (newOrder s.nextId user body orderProducts total) = true ∧
      ordersCheckout s user body =
        (clearCartAfterOrder (placeOrder s (newOrder s.nextId user body orderProducts total))
            user body,
          { status := 201, message := "Order placed successfully",
            data := some (newOrder s.nextId user body orderProducts total) }) := by
  unfold ordersCheckout at hok ⊢
  split at hok
  · simp [badRequest] at hok
  split at hok
  · simp [badRequest] at hok
  split at hok
  · simp [badRequest] at hok
  rename_i h1 h2 h3
  simp only [h1, h2, h3]
  split at hok
  · rename_i r hr
    unfold prepareOrder at hr
    split at hr
    · simp at hr
    · split at hr
      · simp at hr; subst hr; simp [badRequest] at hok
      · split at hr
        · simp at hr; subst hr; simp [badRequest] at hok
        · split at hr
          · simp at hr; subst hr; simp [serverError] at hok
          · simp at hr
  · rename_i orderProducts total hp
    by_cases hv : validateOrder (newOrder s.nextId user body orderProducts total) = true
    · exact ⟨orderProducts, total, hp, hv, by simp [hv]⟩
    · simp [hv, serverError] at hok

/-- `findById` returns a document with the requested id. -/
theorem findProduct_id {products : List Product} {id : ObjectId} {p : Product}
    (h : findProduct products id = some p) : p._id = id := by
  unfold findProduct at h
  have := List.find?_some h
  simpa using this

theorem findProduct_mem {products : List Product} {id : ObjectId} {p : Product}
    (h : findProduct products id = some p) : p ∈ products := by
  unfold findProduct at h
  exact List.mem_of_find?_eq_some h

/-- A populated cart whose products all resolve: line by line, the item is the
cart item and the product is the catalog document the item references. -/
theorem resolved_populate {products : List Product} :
    ∀ {items : List CartItem} {lines : List (CartItem × Product)},
      resolved (populate products items) = some lines →
      List.Forall₂ (fun item line => line.1 = item ∧
        findProduct products item.product = some line.2) items lines
  | [], lines, h => by
    simp [populate, resolved] at h
    subst h
    exact List.Forall₂.nil
  | item :: rest, lines, h => by
    simp only [populate, List.map_cons] at h
    cases hp : findProduct products item.product with
    | none => simp [hp, resolved] at h
    | some p =>
      simp only [hp, resolved] at h
      cases hr : resolved (List.map (fun item => (item, findProduct products item.product)) rest) with
      | none => simp [hr] at h
      | some r =>
        simp [hr] at h
        subst h
        exact List.Forall₂.cons ⟨rfl, hp⟩ (resolved_populate (by simpa [populate] using hr))

theorem resolved_populate_fst {products : List Product} {items : List CartItem}
    {lines : List (CartItem × Product)}
    (h : resolved (populate products items) = some lines) :
    lines.map Prod.fst = items := by
  have h2 := resolved_populate h
  clear h
  induction h2 with
  | nil => rfl
  | cons hd _ ih => simp [hd.1, ih]

/-- The preparation step on the cart branch. -/
theorem prepareOrder_cart {s : Store} {user : ObjectId} {body : CheckoutBody}
    {orderProducts : List OrderProduct} {total : Option Int}
    (hcart : isBuyNow body = false)
    (h : prepareOrder s user body = .ok (orderProducts, total)) :
    ∃ cart lines,
      findCart s.carts user = some cart ∧ cart.items ≠ [] ∧
      resolved (populate s.products cart.items) = some lines ∧
      orderProducts = lines.map orderProductOfLine ∧ total = some (cartTotal lines) := by
  unfold prepareOrder at h
  simp only [hcart] at h
  cases hc : findCart s.carts user with
  | none => simp [hc] at h
  | some cart =>
    simp only [hc] at h
    by_cases he : cart.items.length = 0
    · simp [he] at h
    · cases hr : resolved (populate s.products cart.items) with
      | none => simp [he, hr] at h
      | some lines =>
        simp [he, hr] at h
        refine ⟨cart, lines, rfl, ?_, hr, h.1.symm, h.2.symm⟩
        intro hnil
        exact he (by simp [hnil])

/-- The preparation step on the BuyNow branch. -/
theorem prepareOrder_buyNow {s : Store} {user : ObjectId} {body : CheckoutBody}
    (hbuy : isBuyNow body = true) :
    prepareOrder s user body = .ok (body.products.getD [], body.totalAmount) := by
  unfold prepareOrder
  simp [hbuy]

theorem clearCartAfterOrder_orders (s : Store) (user : ObjectId) (body : CheckoutBody) :
    (clearCartAfterOrder s user body).orders = s.orders := by
  unfold clearCartAfterOrder
  split
  · rfl
  · split <;> rfl

theorem clearCartAfterOrder_products (s : Store) (user : ObjectId) (body : CheckoutBody) :
    (clearCartAfterOrder s user body).products = s.products := by
  unfold clearCartAfterOrder
  split
  · rfl
  · split <;> rfl

theorem clearCartAfterOrder_purchases (s : Store) (user : ObjectId) (body : CheckoutBody) :
    (clearCartAfterOrder s user body).purchases = s.purchases := by
  unfold clearCartAfterOrder
  split
  · rfl
  · split <;> rfl

/-! ## Order checkout: totals and line items -/

/-- C1. A successful cart-based order checkout stores an order whose
`totalAmount` is the sum, over the lines of the requester's cart, of the
catalog price of the line's product times the line's quantity, whatever
`totalAmount` the request carries. -/
theorem orders_cart_checkout_total (s : Store) (user : ObjectId) (body : CheckoutBody)
    (hcart : isBuyNow body = false)
    (hok : (ordersCheckout s user body).2.status = 201) :
    ∃ cart lines order,
      findCart s.carts user = some cart ∧
      resolved (populate s.products cart.items) = some lines ∧
      List.Forall₂ (fun item line => line.1 = item ∧
        findProduct s.products item.product = some line.2) cart.items lines ∧
      (ordersCheckout s user body).2.data = some order ∧
      (ordersCheckout s user body).1.orders = s.orders ++ [order] ∧
      order.totalAmount =
        some ((lines.map (fun line => line.2.price * line.1.quantity)).sum) := by
  obtain ⟨orderProducts, total, hp, _, heq⟩ := ordersCheckout_created s user body hok
  obtain ⟨cart, lines, hc, _, hr, _, ht⟩ := prepareOrder_cart hcart hp
  refine ⟨cart, lines, newOrder s.nextId user body orderProducts total, hc, hr,
    resolved_populate hr, ?_, ?_, ?_⟩
  · rw [heq]
  · rw [heq]
    simp [clearCartAfterOrder_orders, placeOrder]
  · simp [newOrder, ht, cartTotal_eq_sum]

/-- C1, scenario of the specification: the cart with two units at 10 and one
unit at 5 gives an order of 25 although the request carries a total of 999. -/
theorem orders_cart_checkout_total_witness :
    isBuyNow demoCartBody = false ∧
    (ordersCheckout demoStore 7 demoCartBody).2.status = 201 ∧
    demoCartBody.totalAmount = some 999 ∧
    (ordersCheckout demoStore 7 demoCartBody).1.orders.map (fun o => o.totalAmount) = [some 25] ∧
    ∃ cart lines order,
      findCart demoStore.carts 7 = some cart ∧
      resolved (populate demoStore.products cart.items) = some lines ∧
      List.Forall₂ (fun item line => line.1 = item ∧
        findProduct demoStore.products item.product = some line.2) cart.items lines ∧
      (ordersCheckout demoStore 7 demoCartBody).2.data = some order ∧
      (ordersCheckout demoStore 7 demoCartBody).1.orders = demoStore.orders ++ [order] ∧
      order.totalAmount =
        some ((lines.map (fun line => line.2.price * line.1.quantity)).sum) :=
  ⟨by decide, by decide, by decide, by decide,
    orders_cart_checkout_total demoStore 7 demoCartBody (by decide) (by decide)⟩

theorem validateOrder_total {o : Order} (h : validateOrder o = true) :
    ∃ t, o.totalAmount = some t ∧ 0 ≤ t := by
  unfold validateOrder at h
  simp only [Bool.and_eq_true] at h
  obtain ⟨⟨_, ht⟩, _⟩ := h
  cases hta : o.totalAmount with
  | none => simp [hta] at ht
  | some t => exact ⟨t, rfl, by simpa [hta] using ht⟩

theorem isBuyNow_products {body : CheckoutBody} (h : isBuyNow body = true) :
    body.products = some (body.products.getD []) := by
  unfold isBuyNow at h
  cases hp : body.products with
  | none => simp [hp] at h
  | some ps => simp

theorem handleSubmit_total {product : Product} {formData : BuyNowForm} {body : CheckoutBody}
    (h : handleSubmit product formData = some body) :
    body.totalAmount = some (lineTotals (body.products.getD [])) := by
  unfold handleSubmit at h
  split at h
  · simp at h
  · split at h
    · simp at h
    · simp at h
      subst h
      simp [lineTotals]

/-- C2, as the code has it. A successful direct checkout stores the lines and
the `totalAmount` of the request unchanged: the total is the client's (which
validation only requires to be non-negative) and is not recomputed.  It equals
the sum of `price × quantity` over the stored lines when the request is the one
built by the BuyNow page. -/
theorem direct_checkout_total (s : Store) (user : ObjectId) (body : CheckoutBody)
    (hbuy : isBuyNow body = true)
    (hok : (ordersCheckout s user body).2.status = 201) :
    ∃ order t,
      (ordersCheckout s user body).2.data = some order ∧
      (ordersCheckout s user body).1.orders = s.orders ++ [order] ∧
      body.products = some order.products ∧
      body.totalAmount = some t ∧ 0 ≤ t ∧ order.totalAmount = some t ∧
      (∀ product formData, handleSubmit product formData = some body →
        order.totalAmount = some (lineTotals order.products)) := by
  obtain ⟨orderProducts, total, hp, hv, heq⟩ := ordersCheckout_created s user body hok
  rw [prepareOrder_buyNow hbuy] at hp
  simp only [Except.ok.injEq, Prod.mk.injEq] at hp
  obtain ⟨hp1, hp2⟩ := hp
  subst hp1 hp2
  obtain ⟨t, ht, ht0⟩ := validateOrder_total hv
  refine ⟨_, t, by rw [heq], ?_, isBuyNow_products hbuy, ht, ht0, ht, ?_⟩
  · rw [heq]
    simp [clearCartAfterOrder_orders, placeOrder]
  · intro product formData hs
    simpa [newOrder] using handleSubmit_total hs

/-- C2, amended statement at the request of the BuyNow page for two units of a
product priced 10. -/
theorem direct_checkout_total_witness :
    isBuyNow demoBuyNowBody = true ∧
    (ordersCheckout demoStore 8 demoBuyNowBody).2.status = 201 ∧
    handleSubmit { _id := 1, title := "Lamp", price := 10, seller := 100, isAvailable := true }
      demoForm = some demoBuyNowBody ∧
    ∃ order t,
      (ordersCheckout demoStore 8 demoBuyNowBody).2.data = some order ∧
      (ordersCheckout demoStore 8 demoBuyNowBody).1.orders = demoStore.orders ++ [order] ∧
      demoBuyNowBody.products = some order.products ∧
      demoBuyNowBody.totalAmount = some t ∧ 0 ≤ t ∧ order.totalAmount = some t ∧
      (∀ product formData, handleSubmit product formData = some demoBuyNowBody →
        order.totalAmount = some (lineTotals order.products)) :=
  ⟨by decide, by decide, by decide,
    direct_checkout_total demoStore 8 demoBuyNowBody (by decide) (by decide)⟩

/-- C2 as stated fails: a direct checkout of two units at price 10 with a
client total of 1 succeeds and the stored order has `totalAmount` 1 while its
lines sum to 20. -/
theorem direct_checkout_total_counterexample :
    isBuyNow underpaidBody = true ∧
    (ordersCheckout demoStore 8 underpaidBody).2.status = 201 ∧
    (ordersCheckout demoStore 8 underpaidBody).1.orders.map
      (fun o => (o.totalAmount, lineTotals o.products)) = [(some 1, 20)] := by
  decide

/-- C9. A successful cart-based order checkout appends exactly one order to the
collection; it belongs to the requester and its lines match the cart's lines
one by one, in cart order: the line of a cart item carries the item's product id
and quantity and the title, price and seller of that product in the catalog at
checkout time.  Nothing is assumed about the sellers. -/
theorem orders_cart_checkout_lines (s : Store) (user : ObjectId) (body : CheckoutBody)
    (hcart : isBuyNow body = false)
    (hok : (ordersCheckout s user body).2.status = 201) :
    ∃ cart order,
      findCart s.carts user = some cart ∧
      (ordersCheckout s user body).2.data = some order ∧
      (ordersCheckout s user body).1.orders = s.orders ++ [order] ∧
      order.userId = user ∧
      List.Forall₂
        (fun item l => ∃ p, findProduct s.products item.product = some p ∧
          l = { productId := item.product, title := p.title, price := p.price,
                quantity := item.quantity, seller := p.seller })
        cart.items order.products := by
  obtain ⟨orderProducts, total, hp, _, heq⟩ := ordersCheckout_created s user body hok
  obtain ⟨cart, lines, hc, _, hr, hl, _⟩ := prepareOrder_cart hcart hp
  refine ⟨cart, newOrder s.nextId user body orderProducts total, hc, ?_, ?_, rfl, ?_⟩
  · rw [heq]
  · rw [heq]
    simp [clearCartAfterOrder_orders, placeOrder]
  · subst hl
    simp only [newOrder]
    rw [List.forall₂_map_right_iff]
    refine List.Forall₂.imp ?_ (resolved_populate hr)
    rintro item ⟨i, p⟩ ⟨h1, h2⟩
    simp only at h1 h2
    subst h1
    refine ⟨p, h2, ?_⟩
    simp [orderProductOfLine, findProduct_id h2]

/-- C9 on the two-seller scenario cart. -/
theorem orders_cart_checkout_lines_witness :
    isBuyNow demoCartBody = false ∧
    (ordersCheckout demoStore 7 demoCartBody).2.status = 201 ∧
    (ordersCheckout demoStore 7 demoCartBody).1.orders.map (fun o => o.products) =
      [[{ productId := 1, title := "Lamp", price := 10, quantity := 2, seller := 100 },
        { productId := 2, title := "Book", price := 5, quantity := 1, seller := 101 }]] ∧
    ∃ cart order,
      findCart demoStore.carts 7 = some cart ∧
      (ordersCheckout demoStore 7 demoCartBody).2.data = some order ∧
      (ordersCheckout demoStore 7 demoCartBody).1.orders = demoStore.orders ++ [order] ∧
      order.userId = 7 ∧
      List.Forall₂
        (fun item l => ∃ p, findProduct demoStore.products item.product = some p ∧
          l = { productId := item.product, title := p.title, price := p.price,
                quantity := item.quantity, seller := p.seller })
        cart.items order.products :=
  ⟨by decide, by decide, by decide,
    orders_cart_checkout_lines demoStore 7 demoCartBody (by decide) (by decide)⟩

/-! ## The seller groups of a purchase checkout -/

theorem pushToGroup_sellers (seller : ObjectId) (item : PurchaseItem) (gs : List SellerGroup) :
    (pushToGroup seller item gs).map (fun g => g.seller) =
      if seller ∈ gs.map (fun g => g.seller) then gs.map (fun g => g.seller)
      else gs.map (fun g => g.seller) ++ [seller] := by
  induction gs with
  | nil => simp [pushToGroup]
  | cons g gs ih =>
    by_cases h : g.seller = seller
    · simp [pushToGroup, h]
    · have h2 : ¬ seller = g.seller := fun e => h e.symm
      simp only [pushToGroup, beq_iff_eq, h, if_false, List.map_cons, ih, List.mem_cons, h2,
        false_or]
      split <;> simp

theorem pushToGroup_nodup (seller : ObjectId) (item : PurchaseItem) (gs : List SellerGroup)
    (h : (gs.map (fun g => g.seller)).Nodup) :
    ((pushToGroup seller item gs).map (fun g => g.seller)).Nodup := by
  rw [pushToGroup_sellers]
  split
  · exact h
  · rename_i hn
    rw [List.nodup_append]
    refine ⟨h, List.nodup_singleton _, ?_⟩
    intro a ha hb
    simp only [List.mem_singleton] at hb
    subst hb
    exact hn ha

theorem pushToGroup_groupItems (seller : ObjectId) (item : PurchaseItem) (gs : List SellerGroup)
    (x : ObjectId) :
    groupItems (pushToGroup seller item gs) x =
      if x = seller then groupItems gs x ++ [item] else groupItems gs x := by
  induction gs with
  | nil =>
    by_cases hx : x = seller
    · simp [pushToGroup, groupItems, hx]
    · have hx2 : ¬ seller = x := fun e => hx e.symm
      simp [pushToGroup, groupItems, hx, hx2]
  | cons g gs ih =>
    by_cases h : g.seller = seller
    · by_cases hx : x = seller
      · subst hx
        simp [pushToGroup, groupItems, h]
      · have hx2 : ¬ seller = x := fun e => hx e.symm
        have hx3 : ¬ g.seller = x := fun e => hx2 (h ▸ e)
        simp [pushToGroup, groupItems, h, hx, hx2]
    · by_cases hg : g.seller = x
      · have hx : ¬ x = seller := fun e => h (hg.trans e)
        simp [pushToGroup, groupItems, h, hg, hx]
      · have hb : (g.seller == x) = false := by simp [hg]
        have := ih
        simp only [groupItems] at this
        simp only [pushToGroup, beq_iff_eq, h, if_false, groupItems, List.find?_cons, hb]
        exact this

theorem pushToGroup_items_perm (seller : ObjectId) (item : PurchaseItem)
    (gs : List SellerGroup) :
    List.Perm ((pushToGroup seller item gs).flatMap (fun g => g.items))
      (gs.flatMap (fun g => g.items) ++ [item]) := by
  induction gs with
  | nil => simp [pushToGroup]
  | cons g gs ih =>
    by_cases h : g.seller = seller
    · simp only [pushToGroup, beq_iff_eq, h, if_true, List.flatMap_cons, List.append_assoc]
      exact List.Perm.append_left _ List.perm_append_comm
    · simp only [pushToGroup, beq_iff_eq, h, if_false, List.flatMap_cons, List.append_assoc]
      exact List.Perm.append_left _ ih


theorem groupLines_fst (lines : List (CartItem × Product)) (acc : List SellerGroup × Int) :
    (groupLines lines acc).1 = groupsAfter lines acc.1 := by
  induction lines generalizing acc with
  | nil => rfl
  | cons line rest ih =>
    simp only [groupLines, groupsAfter, List.foldl_cons] at ih ⊢
    rw [ih]

theorem groupLines_snd (lines : List (CartItem × Product)) (acc : List SellerGroup × Int) :
    (groupLines lines acc).2 =
      acc.2 + (lines.map (fun line => line.2.price * line.1.quantity)).sum := by
  induction lines generalizing acc with
  | nil => simp [groupLines]
  | cons line rest ih =>
    simp only [groupLines, List.foldl_cons] at ih ⊢
    rw [ih]
    simp [add_assoc]

theorem groupsAfter_nodup (lines : List (CartItem × Product)) (gs : List SellerGroup)
    (h : (gs.map (fun g => g.seller)).Nodup) :
    ((groupsAfter lines gs).map (fun g => g.seller)).Nodup := by
  induction lines generalizing gs with
  | nil => exact h
  | cons line rest ih =>
    simp only [groupsAfter, List.foldl_cons] at ih ⊢
    exact ih _ (pushToGroup_nodup _ _ _ h)

theorem groupsAfter_sellers (lines : List (CartItem × Product)) (gs : List SellerGroup)
    (x : ObjectId) :
    x ∈ (groupsAfter lines gs).map (fun g => g.seller) ↔
      x ∈ gs.map (fun g => g.seller) ∨ x ∈ lines.map (fun line => line.2.seller) := by
  induction lines generalizing gs with
  | nil => simp [groupsAfter]
  | cons line rest ih =>
    simp only [groupsAfter, List.foldl_cons] at ih ⊢
    rw [ih, pushToGroup_sellers]
    by_cases hm : line.2.seller ∈ gs.map (fun g => g.seller)
    · simp only [hm, if_true, List.map_cons, List.mem_cons]
      constructor
      · rintro (h | h)
        · exact Or.inl h
        · exact Or.inr (Or.inr h)
      · rintro (h | h | h)
        · exact Or.inl h
        · exact Or.inl (h ▸ hm)
        · exact Or.inr h
    · simp only [hm, if_false, List.mem_append, List.mem_singleton, List.map_cons, List.mem_cons]
      tauto

theorem groupsAfter_groupItems (lines : List (CartItem × Product)) (gs : List SellerGroup)
    (x : ObjectId) :
    groupItems (groupsAfter lines gs) x =
      groupItems gs x ++
        (lines.filter (fun line => line.2.seller == x)).map purchaseItemOfLine := by
  induction lines generalizing gs with
  | nil => simp [groupsAfter]
  | cons line rest ih =>
    simp only [groupsAfter, List.foldl_cons] at ih ⊢
    rw [ih, pushToGroup_groupItems]
    by_cases hx : x = line.2.seller
    · subst hx
      simp [List.filter_cons]
    · have hx2 : ¬ line.2.seller = x := fun e => hx e.symm
      simp [List.filter_cons, hx, hx2]

theorem groupsAfter_items_perm (lines : List (CartItem × Product)) (gs : List SellerGroup) :
    List.Perm ((groupsAfter lines gs).flatMap (fun g => g.items))
      (gs.flatMap (fun g => g.items) ++ lines.map purchaseItemOfLine) := by
  induction lines generalizing gs with
  | nil => simp [groupsAfter]
  | cons line rest ih =>
    simp only [groupsAfter, List.foldl_cons] at ih ⊢
    refine (ih _).trans ?_
    simp only [List.map_cons]
    have := (pushToGroup_items_perm line.2.seller (purchaseItemOfLine line) gs).append_right
      (rest.map purchaseItemOfLine)
    simpa using this

theorem groupItems_of_mem {gs : List SellerGroup} (h : (gs.map (fun g => g.seller)).Nodup)
    {g : SellerGroup} (hg : g ∈ gs) : groupItems gs g.seller = g.items := by
  induction gs with
  | nil => simp at hg
  | cons a rest ih =>
    simp only [List.map_cons, List.nodup_cons] at h
    rcases List.mem_cons.mp hg with rfl | hm
    · simp [groupItems]
    · have hne : ¬ a.seller = g.seller := by
        intro e
        exact h.1 (e ▸ List.mem_map_of_mem (fun g => g.seller) hm)
      have hb : (a.seller == g.seller) = false := by simp [hne]
      have := ih h.2 hm
      simp only [groupItems] at this
      simp only [groupItems, List.find?_cons, hb]
      exact this

/-! ## Purchase checkout: shape of the result -/

/-- The purchase loop never touches products, carts or orders, and what it adds
to the purchases collection is appended. -/
theorem createPurchases_frame (persists : Purchase → Bool) (buyer : ObjectId)
    (body : PurchaseBody) :
    ∀ (gs : List SellerGroup) (s : Store),
      (createPurchases persists buyer body gs s).1.products = s.products ∧
      (createPurchases persists buyer body gs s).1.carts = s.carts ∧
      (createPurchases persists buyer body gs s).1.orders = s.orders ∧
      ∃ saved, (createPurchases persists buyer body gs s).1.purchases = s.purchases ++ saved
  | [], s => by simp [createPurchases]
  | g :: rest, s => by
    unfold createPurchases
    by_cases hv : (validatePurchase (newPurchase s.nextId buyer body g)
        && persists (newPurchase s.nextId buyer body g)) = true
    · obtain ⟨h1, h2, h3, saved, h4⟩ := createPurchases_frame persists buyer body rest
        { s with purchases := s.purchases ++ [newPurchase s.nextId buyer body g],
                 nextId := s.nextId + 1 }
      simp only [hv, if_true]
      split <;> rename_i s2 r heq <;> rw [heq] at h1 h2 h3 h4 <;>
        exact ⟨h1, h2, h3, newPurchase s.nextId buyer body g :: saved, by simpa using h4⟩
    · simp [hv]

/-- A purchase loop that completes has stored one purchase per group, in group
order, each with the group's seller and items and the reduced total. -/
theorem createPurchases_some (persists : Purchase → Bool) (buyer : ObjectId)
    (body : PurchaseBody) :
    ∀ (gs : List SellerGroup) (s s1 : Store) (ps : List Purchase),
      createPurchases persists buyer body gs s = (s1, some ps) →
      s1.purchases = s.purchases ++ ps ∧
      List.Forall₂ (fun g p => p.buyer = buyer ∧ p.seller = g.seller ∧ p.items = g.items ∧
        p.totalAmount = purchaseTotal g.items) gs ps
  | [], s, s1, ps, h => by
    simp [createPurchases] at h
    obtain ⟨h1, h2⟩ := h
    subst h1 h2
    simp
  | g :: rest, s, s1, ps, h => by
    unfold createPurchases at h
    by_cases hv : (validatePurchase (newPurchase s.nextId buyer body g)
        && persists (newPurchase s.nextId buyer body g)) = true
    · simp only [hv, if_true] at h
      split at h
      · rename_i s2 qs heq
        simp only [Prod.mk.injEq, Option.some.injEq] at h
        obtain ⟨h1, h2⟩ := h
        subst h1 h2
        obtain ⟨hp, hf⟩ := createPurchases_some persists buyer body rest _ _ _ heq
        refine ⟨by simpa using hp, List.Forall₂.cons ?_ hf⟩
        simp [newPurchase]
      · simp at h
    · simp [hv] at h

/-- Shape of a successful purchase checkout. -/
theorem purchasesCheckout_created (persists : Purchase → Bool) (s : Store) (user : ObjectId)
    (body : PurchaseBody)
    (hok : (purchasesCheckout persists s user body).2.status = 201) :
    ∃ cart lines s1 ps,
      findCart s.carts user = some cart ∧ cart.items ≠ [] ∧
      resolved (populate s.products cart.items) = some lines ∧
      createPurchases persists user body (groupLines lines ([], 0)).1 s = (s1, some ps) ∧
      (purchasesCheckout persists s user body).1.products =
        updateManyUnavailable s.products (cart.items.map (fun item => item.product)) ∧
      (purchasesCheckout persists s user body).1.carts =
        saveCart s.carts { cart with items := [] } ∧
      (purchasesCheckout persists s user body).1.purchases = s.purchases ++ ps ∧
      (purchasesCheckout persists s user body).1.orders = s.orders ∧
      (purchasesCheckout persists s user body).2 =
        { status := 201, message := "Checkout successful",
          data := some { purchases := ps, totalAmount := (groupLines lines ([], 0)).2 } } := by
  unfold purchasesCheckout at hok ⊢
  cases hc : findCart s.carts user with
  | none => simp [hc, badRequest] at hok
  | some cart =>
    simp only [hc] at hok ⊢
    by_cases he : cart.items.length = 0
    · simp [he, badRequest] at hok
    · have he2 : (cart.items.length == 0) = false := by simpa using he
      simp only [he2] at hok ⊢
      cases hr : resolved (populate s.products cart.items) with
      | none => simp [hr, serverError] at hok
      | some lines =>
        simp only [hr] at hok ⊢
        cases hcp : createPurchases persists user body (groupLines lines ([], 0)).1 s with
        | mk s1 r =>
          cases r with
          | none => simp [hcp, serverError] at hok
          | some ps =>
            have hfr := createPurchases_frame persists user body (groupLines lines ([], 0)).1 s
            have hsm := createPurchases_some persists user body _ _ _ _ hcp
            rw [hcp] at hfr
            simp only at hfr
            refine ⟨cart, lines, s1, ps, rfl, ?_, hr, hcp, ?_, ?_, ?_, ?_, ?_⟩
            · intro hnil
              exact he (by simp [hnil])
            · simp [hfr.1]
            · simp [hfr.2.1]
            · simp [hsm.1]
            · simp [hfr.2.2.1]
            · simp

theorem resolved_populate_mem {products : List Product} {items : List CartItem}
    {lines : List (CartItem × Product)}
    (h : resolved (populate products items) = some lines) :
    ∀ line ∈ lines, findProduct products line.1.product = some line.2 := by
  have h2 := resolved_populate h
  clear h
  induction h2 with
  | nil => simp
  | cons hd _ ih =>
    intro line hl
    rcases List.mem_cons.mp hl with rfl | hm
    · rw [hd.1]
      exact hd.2
    · exact ih line hm

theorem purchaseTotal_eq (items : List PurchaseItem) : purchaseTotal items = itemTotals items := by
  unfold purchaseTotal itemTotals
  rw [foldl_add_eq_sum (fun i : PurchaseItem => i.price * i.quantity)]
  simp

/-- Purchases created from groups have the groups' sellers, in the same order. -/
theorem purchases_sellers {buyer : ObjectId} {gs : List SellerGroup} {ps : List Purchase}
    (h : List.Forall₂ (fun g p => p.buyer = buyer ∧ p.seller = g.seller ∧ p.items = g.items ∧
      p.totalAmount = purchaseTotal g.items) gs ps) :
    ps.map (fun p => p.seller) = gs.map (fun g => g.seller) := by
  induction h with
  | nil => rfl
  | cons hd _ ih => simp [hd.2.1, ih]

theorem purchases_items {buyer : ObjectId} {gs : List SellerGroup} {ps : List Purchase}
    (h : List.Forall₂ (fun g p => p.buyer = buyer ∧ p.seller = g.seller ∧ p.items = g.items ∧
      p.totalAmount = purchaseTotal g.items) gs ps) :
    ps.flatMap (fun p => p.items) = gs.flatMap (fun g => g.items) := by
  induction h with
  | nil => rfl
  | cons hd _ ih => simp [hd.2.2.1, ih]

theorem purchases_group {buyer : ObjectId} {gs : List SellerGroup} {ps : List Purchase}
    (h : List.Forall₂ (fun g p => p.buyer = buyer ∧ p.seller = g.seller ∧ p.items = g.items ∧
      p.totalAmount = purchaseTotal g.items) gs ps) :
    ∀ p ∈ ps, ∃ g ∈ gs, p.buyer = buyer ∧ p.seller = g.seller ∧ p.items = g.items ∧
      p.totalAmount = purchaseTotal g.items := by
  induction h with
  | nil => simp
  | cons hd _ ih =>
    intro p hp
    rcases List.mem_cons.mp hp with rfl | hm
    · exact ⟨_, List.mem_cons_self _ _, hd⟩
    · obtain ⟨g, hg, hgp⟩ := ih p hm
      exact ⟨g, List.mem_cons_of_mem _ hg, hgp⟩

/-- What a successful purchase checkout created, in terms of the populated cart
lines: purchases appended to the collection, with pairwise distinct sellers
that are exactly the sellers of the lines, each holding the lines of its seller
in cart order and the reduced total of its own items. -/
theorem purchasesCheckout_purchases (persists : Purchase → Bool) (s : Store) (user : ObjectId)
    (body : PurchaseBody)
    (hok : (purchasesCheckout persists s user body).2.status = 201) :
    ∃ cart lines ps,
      findCart s.carts user = some cart ∧
      resolved (populate s.products cart.items) = some lines ∧
      (purchasesCheckout persists s user body).2.data =
        some { purchases := ps,
               totalAmount := (lines.map (fun line => line.2.price * line.1.quantity)).sum } ∧
      (purchasesCheckout persists s user body).1.purchases = s.purchases ++ ps ∧
      (ps.map (fun p => p.seller)).Nodup ∧
      (∀ x, x ∈ ps.map (fun p => p.seller) ↔ x ∈ lines.map (fun line => line.2.seller)) ∧
      (∀ p ∈ ps, p.buyer = user ∧
        p.items = (lines.filter (fun line => line.2.seller == p.seller)).map purchaseItemOfLine ∧
        p.totalAmount = itemTotals p.items) ∧
      List.Perm (ps.flatMap (fun p => p.items)) (lines.map purchaseItemOfLine) := by
  obtain ⟨cart, lines, s1, ps, hc, _, hr, hcp, _, _, hpu, _, hres⟩ :=
    purchasesCheckout_created persists s user body hok
  have hsm := (createPurchases_some persists user body _ _ _ _ hcp).2
  rw [groupLines_fst] at hsm
  have hnd : ((groupsAfter lines []).map (fun g => g.seller)).Nodup :=
    groupsAfter_nodup lines [] (by simp)
  refine ⟨cart, lines, ps, hc, hr, ?_, hpu, ?_, ?_, ?_, ?_⟩
  · rw [hres, groupLines_snd]
    simp
  · rw [purchases_sellers hsm]
    exact hnd
  · intro x
    rw [purchases_sellers hsm, groupsAfter_sellers]
    simp
  · intro p hp
    obtain ⟨g, hg, hb, hse, hit, htot⟩ := purchases_group hsm p hp
    refine ⟨hb, ?_, ?_⟩
    · rw [hit, hse, ← groupItems_of_mem hnd hg, groupsAfter_groupItems]
      simp [groupItems]
    · rw [htot, hit, purchaseTotal_eq]
  · rw [purchases_items hsm]
    simpa using groupsAfter_items_perm lines []

theorem totals_flatMap (ps : List Purchase)
    (h : ∀ p ∈ ps, p.totalAmount = itemTotals p.items) :
    (ps.map (fun p => p.totalAmount)).sum = itemTotals (ps.flatMap (fun p => p.items)) := by
  induction ps with
  | nil => simp [itemTotals]
  | cons p rest ih =>
    have hp := h p (List.mem_cons_self _ _)
    have hrest := ih (fun q hq => h q (List.mem_cons_of_mem _ hq))
    simp only [itemTotals] at hp hrest ⊢
    simp [hp, hrest]

/-! ## Purchase checkout: one purchase per seller, and the totals -/

/-- C5. A successful purchase checkout appends to the purchases collection one
purchase per distinct seller of the cart's products: the sellers of the created
purchases are pairwise distinct and are exactly the sellers occurring in the
cart, so their number is the number of distinct sellers; the items of each
purchase are the cart lines of its seller (product id, quantity, catalog price)
in cart order; every cart line lies in exactly one created purchase, and
together the purchases hold the cart lines with their multiplicities. -/
theorem purchases_checkout_groups (persists : Purchase → Bool) (s : Store) (user : ObjectId)
    (body : PurchaseBody)
    (hok : (purchasesCheckout persists s user body).2.status = 201) :
    ∃ cart lines receipt,
      findCart s.carts user = some cart ∧
      resolved (populate s.products cart.items) = some lines ∧
      List.Forall₂ (fun item line => line.1 = item ∧
        findProduct s.products item.product = some line.2) cart.items lines ∧
      (purchasesCheckout persists s user body).2.data = some receipt ∧
      (purchasesCheckout persists s user body).1.purchases =
        s.purchases ++ receipt.purchases ∧
      (receipt.purchases.map (fun p => p.seller)).Nodup ∧
      (∀ x, x ∈ receipt.purchases.map (fun p => p.seller) ↔
        x ∈ lines.map (fun line => line.2.seller)) ∧
      receipt.purchases.length = (lines.map (fun line => line.2.seller)).dedup.length ∧
      (∀ p ∈ receipt.purchases, p.buyer = user ∧
        p.items =
          (lines.filter (fun line => line.2.seller == p.seller)).map
            (fun line => { product := line.2._id, quantity := line.1.quantity,
                           price := line.2.price })) ∧
      (∀ line ∈ lines, ∃! p, p ∈ receipt.purchases ∧
        ({ product := line.2._id, quantity := line.1.quantity, price := line.2.price }
          : PurchaseItem) ∈ p.items) ∧
      List.Perm (receipt.purchases.flatMap (fun p => p.items))
        (lines.map (fun line => { product := line.2._id, quantity := line.1.quantity,
                                  price := line.2.price })) := by
  obtain ⟨cart, lines, ps, hc, hr, hdata, hpu, hnd, hmem, hitems, hperm⟩ :=
    purchasesCheckout_purchases persists s user body hok
  refine ⟨cart, lines, _, hc, hr, resolved_populate hr, hdata, hpu, hnd, hmem, ?_, ?_, ?_,
    hperm⟩
  · have hp : List.Perm (ps.map (fun p => p.seller))
        ((lines.map (fun line => line.2.seller)).dedup) := by
      rw [List.perm_ext_iff_of_nodup hnd (List.nodup_dedup _)]
      intro x
      rw [hmem x, List.mem_dedup]
    simpa using hp.length_eq
  · intro p hp
    exact ⟨(hitems p hp).1, (hitems p hp).2.1⟩
  · intro line hl
    have hsel : line.2.seller ∈ ps.map (fun p => p.seller) :=
      (hmem _).2 (List.mem_map_of_mem (fun line => line.2.seller) hl)
    obtain ⟨p, hp, hps⟩ := List.mem_map.mp hsel
    refine ⟨p, ⟨hp, ?_⟩, ?_⟩
    · rw [(hitems p hp).2.1]
      refine List.mem_map.mpr ⟨line, ?_, rfl⟩
      simp [hl, hps]
    · rintro q ⟨hq, hqi⟩
      rw [(hitems q hq).2.1] at hqi
      obtain ⟨line2, hl2, heq⟩ := List.mem_map.mp hqi
      simp only [List.mem_filter, beq_iff_eq] at hl2
      have hid : line2.2._id = line.2._id := by
        have := congrArg PurchaseItem.product heq
        simpa [purchaseItemOfLine] using this
      have h1 := resolved_populate_mem hr line hl
      have h2 := resolved_populate_mem hr line2 hl2.1
      have e1 := findProduct_id h1
      have e2 := findProduct_id h2
      have hprod : line2.2 = line.2 := by
        have : line2.1.product = line.1.product := by rw [← e1, ← e2, hid]
        rw [this, h1] at h2
        exact (Option.some.inj h2).symm
      have hsq : q.seller = p.seller := by rw [← hl2.2, hprod, hps]
      exact List.inj_on_of_nodup_map hnd hq hp hsq

/-- C5, scenario of the specification: a cart with one line of each of two
sellers gives exactly two purchases. -/
theorem purchases_checkout_groups_witness :
    (purchasesCheckout alwaysPersists demoStore 7 demoPurchaseBody).2.status = 201 ∧
    (purchasesCheckout alwaysPersists demoStore 7 demoPurchaseBody).1.purchases.map
      (fun p => (p.seller, p.items)) =
      [(100, [{ product := 1, quantity := 2, price := 10 }]),
       (101, [{ product := 2, quantity := 1, price := 5 }])] ∧
    ∃ cart lines receipt,
      findCart demoStore.carts 7 = some cart ∧
      resolved (populate demoStore.products cart.items) = some lines ∧
      List.Forall₂ (fun item line => line.1 = item ∧
        findProduct demoStore.products item.product = some line.2) cart.items lines ∧
      (purchasesCheckout alwaysPersists demoStore 7 demoPurchaseBody).2.data = some receipt ∧
      (purchasesCheckout alwaysPersists demoStore 7 demoPurchaseBody).1.purchases =
        demoStore.purchases ++ receipt.purchases ∧
      (receipt.purchases.map (fun p => p.seller)).Nodup ∧
      (∀ x, x ∈ receipt.purchases.map (fun p => p.seller) ↔
        x ∈ lines.map (fun line => line.2.seller)) ∧
      receipt.purchases.length = (lines.map (fun line => line.2.seller)).dedup.length ∧
      (∀ p ∈ receipt.purchases, p.buyer = 7 ∧
        p.items =
          (lines.filter (fun line => line.2.seller == p.seller)).map
            (fun line => { product := line.2._id, quantity := line.1.quantity,
                           price := line.2.price })) ∧
      (∀ line ∈ lines, ∃! p, p ∈ receipt.purchases ∧
        ({ product := line.2._id, quantity := line.1.quantity, price := line.2.price }
          : PurchaseItem) ∈ p.items) ∧
      List.Perm (receipt.purchases.flatMap (fun p => p.items))
        (lines.map (fun line => { product := line.2._id, quantity := line.1.quantity,
                                  price := line.2.price })) :=
  ⟨by decide, by decide,
    purchases_checkout_groups alwaysPersists demoStore 7 demoPurchaseBody (by decide)⟩

/-- In a successful purchase checkout of the store model, whose prices are
whole numbers added without rounding, the `totalAmount` of each created
purchase is the sum of `price × quantity` over its own items, and the sum of
the created purchases' totals equals the cart total, the sum of catalog price
times quantity over the cart lines before the checkout, which is also the
`totalAmount` of the response. -/
theorem purchasesCheckout_wholeTotals (persists : Purchase → Bool) (s : Store) (user : ObjectId)
    (body : PurchaseBody)
    (hok : (purchasesCheckout persists s user body).2.status = 201) :
    ∃ cart lines receipt,
      findCart s.carts user = some cart ∧
      resolved (populate s.products cart.items) = some lines ∧
      List.Forall₂ (fun item line => line.1 = item ∧
        findProduct s.products item.product = some line.2) cart.items lines ∧
      (purchasesCheckout persists s user body).2.data = some receipt ∧
      (purchasesCheckout persists s user body).1.purchases =
        s.purchases ++ receipt.purchases ∧
      (∀ p ∈ receipt.purchases,
        p.totalAmount = (p.items.map (fun i => i.price * i.quantity)).sum) ∧
      (receipt.purchases.map (fun p => p.totalAmount)).sum =
        (lines.map (fun line => line.2.price * line.1.quantity)).sum ∧
      receipt.totalAmount = (lines.map (fun line => line.2.price * line.1.quantity)).sum := by
  obtain ⟨cart, lines, ps, hc, hr, hdata, hpu, _, _, hitems, hperm⟩ :=
    purchasesCheckout_purchases persists s user body hok
  refine ⟨cart, lines, _, hc, hr, resolved_populate hr, hdata, hpu, ?_, ?_, rfl⟩
  · intro p hp
    exact (hitems p hp).2.2
  · show (ps.map (fun p => p.totalAmount)).sum = _
    rw [totals_flatMap ps (fun p hp => (hitems p hp).2.2)]
    unfold itemTotals
    rw [(hperm.map (fun i : PurchaseItem => i.price * i.quantity)).sum_eq]
    simp [purchaseItemOfLine, Function.comp_def]

/-! ## Availability and the cart after a checkout -/

theorem updateManyUnavailable_mem {products : List Product} {ids : List ObjectId} {p : Product}
    (hp : p ∈ updateManyUnavailable products ids) (hid : p._id ∈ ids) :
    p.isAvailable = false := by
  unfold updateManyUnavailable at hp
  obtain ⟨q, _, hq⟩ := List.mem_map.mp hp
  by_cases hc : ids.contains q._id = true
  · simp only [hc, if_true] at hq
    rw [← hq]
  · simp only [hc, if_false] at hq
    subst hq
    exact absurd (by simpa using hid) hc

theorem findCart_user {carts : List Cart} {user : ObjectId} {cart : Cart}
    (h : findCart carts user = some cart) : cart.user = user := by
  unfold findCart at h
  simpa using List.find?_some h

theorem findCart_mem {carts : List Cart} {user : ObjectId} {cart : Cart}
    (h : findCart carts user = some cart) : cart ∈ carts := by
  unfold findCart at h
  exact List.mem_of_find?_eq_some h

/-- Saving a changed copy of the cart that `findOne` returned for a user makes
`findOne` return that copy. -/
theorem findCart_saveCart {carts : List Cart} {user : ObjectId} {cart : Cart}
    (h : findCart carts user = some cart) (items : List CartItem) :
    findCart (saveCart carts { cart with items := items }) user =
      some { cart with items := items } := by
  have hu := findCart_user h
  have hm := findCart_mem h
  have hany : carts.any (fun c => c._id == cart._id) = true := by
    simp only [List.any_eq_true, beq_iff_eq]
    exact ⟨cart, hm, rfl⟩
  unfold saveCart
  simp only [hany, if_true]
  clear hany hm
  unfold findCart at h ⊢
  induction carts with
  | nil => simp at h
  | cons c rest ih =>
    by_cases hid : c._id = cart._id
    · simp [hid, hu]
    · by_cases hcu : c.user = user
      · simp only [List.find?_cons, beq_iff_eq, hcu, decide_True] at h
        have : c = cart := by simpa using h
        exact absurd (by rw [this]) hid
      · have hb : (c.user == user) = false := by simp [hcu]
        simp only [List.find?_cons, hb] at h
        have := ih h
        simp only [List.map_cons, beq_iff_eq, hid, if_false, List.find?_cons, hb]
        simpa using this

/-- C3. After a successful order checkout, cart-based or direct, and after a
successful purchase checkout, every product of the catalog that a line item of
the created order or purchases refers to has `isAvailable = false`. -/
theorem checkout_marks_unavailable (persists : Purchase → Bool) (s : Store) (user : ObjectId)
    (body : CheckoutBody) (pbody : PurchaseBody) :
    ((ordersCheckout s user body).2.status = 201 →
      ∃ order, (ordersCheckout s user body).2.data = some order ∧
        ∀ l ∈ order.products, ∀ p ∈ (ordersCheckout s user body).1.products,
          p._id = l.productId → p.isAvailable = false) ∧
    ((purchasesCheckout persists s user pbody).2.status = 201 →
      ∃ receipt, (purchasesCheckout persists s user pbody).2.data = some receipt ∧
        ∀ purchase ∈ receipt.purchases, ∀ i ∈ purchase.items,
          ∀ p ∈ (purchasesCheckout persists s user pbody).1.products,
            p._id = i.product → p.isAvailable = false) := by
  constructor
  · intro hok
    obtain ⟨orderProducts, total, _, _, heq⟩ := ordersCheckout_created s user body hok
    refine ⟨_, by rw [heq], ?_⟩
    rw [heq]
    intro l hl p hp hid
    simp only [clearCartAfterOrder_products, placeOrder] at hp
    refine updateManyUnavailable_mem hp ?_
    rw [hid]
    exact List.mem_map_of_mem (fun item => item.productId) hl
  · intro hok
    obtain ⟨cart, lines, ps, hc, hr, hdata, _, _, _, hitems, _⟩ :=
      purchasesCheckout_purchases persists s user pbody hok
    obtain ⟨cart2, _, _, _, hc2, _, _, _, hprod, _⟩ :=
      purchasesCheckout_created persists s user pbody hok
    have hcc : cart2 = cart := by
      rw [hc] at hc2
      exact (Option.some.inj hc2).symm
    subst hcc
    refine ⟨_, hdata, ?_⟩
    intro purchase hpu i hi p hp hid
    rw [hprod] at hp
    refine updateManyUnavailable_mem hp ?_
    rw [(hitems purchase hpu).2.1] at hi
    obtain ⟨line, hl, rfl⟩ := List.mem_map.mp hi
    have hl2 : line ∈ lines := (List.mem_filter.mp hl).1
    have hfp := resolved_populate_mem hr line hl2
    have hfst : line.1 ∈ cart2.items := by
      rw [← resolved_populate_fst hr]
      exact List.mem_map_of_mem Prod.fst hl2
    rw [hid]
    simp only [purchaseItemOfLine, findProduct_id hfp]
    exact List.mem_map_of_mem (fun item => item.product) hfst

/-- C3 on the scenario: after either checkout both products are unavailable. -/
theorem checkout_marks_unavailable_witness :
    (ordersCheckout demoStore 7 demoCartBody).2.status = 201 ∧
    (ordersCheckout demoStore 8 demoBuyNowBody).2.status = 201 ∧
    (purchasesCheckout alwaysPersists demoStore 7 demoPurchaseBody).2.status = 201 ∧
    (ordersCheckout demoStore 7 demoCartBody).1.products.map (fun p => (p._id, p.isAvailable))
      = [(1, false), (2, false)] ∧
    (purchasesCheckout alwaysPersists demoStore 7 demoPurchaseBody).1.products.map
      (fun p => (p._id, p.isAvailable)) = [(1, false), (2, false)] ∧
    (∃ order, (ordersCheckout demoStore 8 demoBuyNowBody).2.data = some order ∧
        ∀ l ∈ order.products, ∀ p ∈ (ordersCheckout demoStore 8 demoBuyNowBody).1.products,
          p._id = l.productId → p.isAvailable = false) ∧
    (∃ receipt,
        (purchasesCheckout alwaysPersists demoStore 7 demoPurchaseBody).2.data = some receipt ∧
        ∀ purchase ∈ receipt.purchases, ∀ i ∈ purchase.items,
          ∀ p ∈ (purchasesCheckout alwaysPersists demoStore 7 demoPurchaseBody).1.products,
            p._id = i.product → p.isAvailable = false) :=
  ⟨by decide, by decide, by decide, by decide, by decide,
    (checkout_marks_unavailable alwaysPersists demoStore 8 demoBuyNowBody demoPurchaseBody).1
      (by decide),
    (checkout_marks_unavailable alwaysPersists demoStore 7 demoCartBody demoPurchaseBody).2
      (by decide)⟩

/-- C4. After a successful cart-based order checkout and after a successful
purchase checkout the requester's cart is still stored, the same document with
an empty `items` collection; a successful direct checkout leaves the carts
collection, hence the requester's cart, as it was. -/
theorem checkout_cart_effect (persists : Purchase → Bool) (s : Store) (user : ObjectId)
    (body : CheckoutBody) (pbody : PurchaseBody) :
    (isBuyNow body = false → (ordersCheckout s user body).2.status = 201 →
      ∃ cart, findCart s.carts user = some cart ∧
        findCart (ordersCheckout s user body).1.carts user = some { cart with items := [] }) ∧
    ((purchasesCheckout persists s user pbody).2.status = 201 →
      ∃ cart, findCart s.carts user = some cart ∧
        findCart (purchasesCheckout persists s user pbody).1.carts user =
          some { cart with items := [] }) ∧
    (isBuyNow body = true → (ordersCheckout s user body).2.status = 201 →
      (ordersCheckout s user body).1.carts = s.carts) := by
  refine ⟨?_, ?_, ?_⟩
  · intro hcart hok
    obtain ⟨orderProducts, total, hp, _, heq⟩ := ordersCheckout_created s user body hok
    obtain ⟨cart, _, hc, _, _, _, _⟩ := prepareOrder_cart hcart hp
    refine ⟨cart, hc, ?_⟩
    rw [heq]
    have hc2 : findCart (placeOrder s (newOrder s.nextId user body orderProducts total)).carts
        user = some cart := hc
    simp only [clearCartAfterOrder, hcart, Bool.false_eq_true, if_false, hc2]
    exact findCart_saveCart hc []
  · intro hok
    obtain ⟨cart, _, _, _, hc, _, _, _, _, hcarts, _⟩ :=
      purchasesCheckout_created persists s user pbody hok
    refine ⟨cart, hc, ?_⟩
    rw [hcarts]
    exact findCart_saveCart hc []
  · intro hbuy hok
    obtain ⟨orderProducts, total, _, _, heq⟩ := ordersCheckout_created s user body hok
    rw [heq]
    simp [clearCartAfterOrder, hbuy, placeOrder]

/-- C4 on the scenario: the cart of user 7 is emptied by both cart-derived
checkouts and kept by the direct checkout of user 8. -/
theorem checkout_cart_effect_witness :
    (ordersCheckout demoStore 7 demoCartBody).1.carts = [{ demoCart with items := [] }] ∧
    (purchasesCheckout alwaysPersists demoStore 7 demoPurchaseBody).1.carts =
      [{ demoCart with items := [] }] ∧
    (∃ cart, findCart demoStore.carts 7 = some cart ∧
        findCart (ordersCheckout demoStore 7 demoCartBody).1.carts 7 =
          some { cart with items := [] }) ∧
    (∃ cart, findCart demoStore.carts 7 = some cart ∧
        findCart (purchasesCheckout alwaysPersists demoStore 7 demoPurchaseBody).1.carts 7 =
          some { cart with items := [] }) ∧
    (ordersCheckout demoStore 8 demoBuyNowBody).1.carts = demoStore.carts :=
  ⟨by decide, by decide,
    (checkout_cart_effect alwaysPersists demoStore 7 demoCartBody demoPurchaseBody).1
      (by decide) (by decide),
    (checkout_cart_effect alwaysPersists demoStore 7 demoCartBody demoPurchaseBody).2.1
      (by decide),
    (checkout_cart_effect alwaysPersists demoStore 8 demoBuyNowBody demoPurchaseBody).2.2
      (by decide) (by decide)⟩

/-! ## Checkout on an empty cart -/

theorem prepareOrder_empty {s : Store} {user : ObjectId} {body : CheckoutBody}
    (hempty : ∀ cart, findCart s.carts user = some cart → cart.items = [])
    (hcart : isBuyNow body = false) :
    prepareOrder s user body = .error (badRequest "Cart is empty") := by
  unfold prepareOrder
  simp only [hcart, Bool.false_eq_true, if_false]
  cases hc : findCart s.carts user with
  | none => rfl
  | some cart => simp [hempty cart hc]

/-- C7, as the code has it. When the requester has no cart or a cart without
items, a cart-derived checkout creates and changes nothing: the store after the
call is the store before it.  The purchase checkout answers 400 "Cart is empty".
The order checkout answers 400 without payload, with the message "Cart is empty"
when the request carries the address, location and payment method, the field
validation coming first otherwise. -/
theorem empty_cart_checkout_rejected (persists : Purchase → Bool) (s : Store) (user : ObjectId)
    (body : CheckoutBody) (pbody : PurchaseBody)
    (hempty : ∀ cart, findCart s.carts user = some cart → cart.items = [])
    (hcart : isBuyNow body = false) :
    (ordersCheckout s user body).1 = s ∧
    (ordersCheckout s user body).2.status = 400 ∧
    (ordersCheckout s user body).2.data = none ∧
    (addressComplete body.address = true → truthy body.location = true →
      truthy body.paymentMethod = true →
      (ordersCheckout s user body).2 = badRequest "Cart is empty") ∧
    purchasesCheckout persists s user pbody = (s, badRequest "Cart is empty") := by
  have hprep := prepareOrder_empty hempty hcart
  refine ⟨?_, ?_, ?_, ?_, ?_⟩
  · unfold ordersCheckout
    rw [hprep]
    split
    · rfl
    · split
      · rfl
      · split <;> rfl
  · unfold ordersCheckout
    rw [hprep]
    split
    · rfl
    · split
      · rfl
      · split <;> rfl
  · unfold ordersCheckout
    rw [hprep]
    split
    · rfl
    · split
      · rfl
      · split <;> rfl
  · intro h1 h2 h3
    unfold ordersCheckout
    rw [hprep]
    simp [h1, h2, h3]
  · unfold purchasesCheckout
    cases hc : findCart s.carts user with
    | none => rfl
    | some cart => simp [hempty cart hc]

/-- C7, amended statement for user 9, whose cart is empty. -/
theorem empty_cart_checkout_rejected_witness :
    (∀ cart, findCart emptyCartStore.carts 9 = some cart → cart.items = []) ∧
    isBuyNow demoCartBody = false ∧
    (ordersCheckout emptyCartStore 9 demoCartBody).1 = emptyCartStore ∧
    (ordersCheckout emptyCartStore 9 demoCartBody).2.status = 400 ∧
    (ordersCheckout emptyCartStore 9 demoCartBody).2.data = none ∧
    (addressComplete demoCartBody.address = true → truthy demoCartBody.location = true →
      truthy demoCartBody.paymentMethod = true →
      (ordersCheckout emptyCartStore 9 demoCartBody).2 = badRequest "Cart is empty") ∧
    purchasesCheckout alwaysPersists emptyCartStore 9 demoPurchaseBody =
      (emptyCartStore, badRequest "Cart is empty") :=
  ⟨by decide, by decide,
    empty_cart_checkout_rejected alwaysPersists emptyCartStore 9 demoCartBody demoPurchaseBody
      (by decide) (by decide)⟩

/-- C7 as stated fails: for user 9, whose cart is empty, and for user 8, who
has no cart, a cart-based order checkout without an address is answered with
the address validation message, not with "Cart is empty". -/
theorem empty_cart_checkout_counterexample :
    findCart emptyCartStore.carts 9 = some { _id := 70, user := 9, items := [] } ∧
    findCart emptyCartStore.carts 8 = none ∧
    isBuyNow noAddressBody = false ∧
    (ordersCheckout emptyCartStore 9 noAddressBody).2 =
      badRequest "Please provide complete address information" ∧
    (ordersCheckout emptyCartStore 8 noAddressBody).2 =
      badRequest "Please provide complete address information" ∧
    (ordersCheckout emptyCartStore 9 noAddressBody).2 ≠ badRequest "Cart is empty" := by
  decide

/-! ## Purchase checkout: a failing save -/

/-- A purchase loop that raised stopped at some group: the purchases of the
groups before it are stored, and the document of that group failed validation
or was refused by the persistence layer. -/
theorem createPurchases_none (persists : Purchase → Bool) (buyer : ObjectId)
    (body : PurchaseBody) :
    ∀ (gs : List SellerGroup) (s s1 : Store),
      createPurchases persists buyer body gs s = (s1, none) →
      ∃ done g rest saved failed,
        gs = done ++ g :: rest ∧
        s1.purchases = s.purchases ++ saved ∧
        List.Forall₂ (fun g p => p.buyer = buyer ∧ p.seller = g.seller ∧ p.items = g.items ∧
          p.totalAmount = purchaseTotal g.items) done saved ∧
        failed.seller = g.seller ∧ failed.items = g.items ∧
        (validatePurchase failed && persists failed) = false
  | [], s, s1, h => by simp [createPurchases] at h
  | g :: rest, s, s1, h => by
    unfold createPurchases at h
    by_cases hv : (validatePurchase (newPurchase s.nextId buyer body g)
        && persists (newPurchase s.nextId buyer body g)) = true
    · simp only [hv, if_true] at h
      split at h
      · simp at h
      · rename_i s2 heq
        simp only [Prod.mk.injEq, and_true] at h
        subst h
        obtain ⟨done, g2, rest2, saved, failed, hgs, hp, hf, h1, h2, h3⟩ :=
          createPurchases_none persists buyer body rest _ _ heq
        refine ⟨g :: done, g2, rest2, newPurchase s.nextId buyer body g :: saved, failed,
          by simp [hgs], by simpa using hp, List.Forall₂.cons ?_ hf, h1, h2, h3⟩
        simp [newPurchase]
    · simp only [hv, Bool.false_eq_true, if_false, Prod.mk.injEq, and_true] at h
      subst h
      exact ⟨[], g, rest, [], newPurchase s.nextId buyer body g, rfl, by simp,
        List.Forall₂.nil, rfl, rfl, by simpa using hv⟩

/-- C10, as the code has it. When the save of some seller group's purchase
fails during a purchase checkout, the call ends with the server error, no
product's availability is changed, the cart is not cleared and no order is
touched; the purchases of the groups that precede the failing one have been
stored and stay stored, so the call leaves no purchase only when its first
group fails. -/
theorem purchases_checkout_failed_save (persists : Purchase → Bool) (s : Store)
    (user : ObjectId) (body : PurchaseBody) (cart : Cart) (lines : List (CartItem × Product))
    (hc : findCart s.carts user = some cart) (hne : cart.items ≠ [])
    (hr : resolved (populate s.products cart.items) = some lines)
    (hfail : (createPurchases persists user body (groupLines lines ([], 0)).1 s).2 = none) :
    (purchasesCheckout persists s user body).2 = serverError "Server error during checkout" ∧
    (purchasesCheckout persists s user body).1.products = s.products ∧
    (purchasesCheckout persists s user body).1.carts = s.carts ∧
    (purchasesCheckout persists s user body).1.orders = s.orders ∧
    ∃ done g rest saved failed,
      (groupLines lines ([], 0)).1 = done ++ g :: rest ∧
      (purchasesCheckout persists s user body).1.purchases = s.purchases ++ saved ∧
      List.Forall₂ (fun g p => p.buyer = user ∧ p.seller = g.seller ∧ p.items = g.items ∧
        p.totalAmount = purchaseTotal g.items) done saved ∧
      failed.seller = g.seller ∧ failed.items = g.items ∧
      (validatePurchase failed && persists failed) = false := by
  have hlen : (cart.items.length == 0) = false := by
    cases hi : cart.items with
    | nil => exact absurd hi hne
    | cons a l => simp
  cases hcp : createPurchases persists user body (groupLines lines ([], 0)).1 s with
  | mk s1 r =>
    rw [hcp] at hfail
    simp only at hfail
    subst hfail
    have hfr := createPurchases_frame persists user body (groupLines lines ([], 0)).1 s
    rw [hcp] at hfr
    simp only at hfr
    have hres : purchasesCheckout persists s user body =
        (s1, serverError "Server error during checkout") := by
      unfold purchasesCheckout
      simp [hc, hlen, hr, hcp]
    rw [hres]
    exact ⟨rfl, hfr.1, hfr.2.1, hfr.2.2.1,
      createPurchases_none persists user body _ _ _ hcp⟩

/-- C10, amended statement on the scenario cart when the write for the second
seller fails. -/
theorem purchases_checkout_failed_save_witness :
    findCart demoStore.carts 7 = some demoCart ∧ demoCart.items ≠ [] ∧
    (purchasesCheckout failsForSeller101 demoStore 7 demoPurchaseBody).2 =
      serverError "Server error during checkout" ∧
    (purchasesCheckout failsForSeller101 demoStore 7 demoPurchaseBody).1.products =
      demoStore.products ∧
    (purchasesCheckout failsForSeller101 demoStore 7 demoPurchaseBody).1.carts =
      demoStore.carts ∧
    (purchasesCheckout failsForSeller101 demoStore 7 demoPurchaseBody).1.orders =
      demoStore.orders ∧
    ∃ done g rest saved failed,
      (groupLines [(⟨51, 1, 2⟩, ⟨1, "Lamp", 10, 100, true⟩), (⟨52, 2, 1⟩, ⟨2, "Book", 5, 101, true⟩)]
        ([], 0)).1 = done ++ g :: rest ∧
      (purchasesCheckout failsForSeller101 demoStore 7 demoPurchaseBody).1.purchases =
        demoStore.purchases ++ saved ∧
      List.Forall₂ (fun g p => p.buyer = 7 ∧ p.seller = g.seller ∧ p.items = g.items ∧
        p.totalAmount = purchaseTotal g.items) done saved ∧
      failed.seller = g.seller ∧ failed.items = g.items ∧
      (validatePurchase failed && failsForSeller101 failed) = false :=
  ⟨by decide, by decide,
    purchases_checkout_failed_save failsForSeller101 demoStore 7 demoPurchaseBody demoCart
      [(⟨51, 1, 2⟩, ⟨1, "Lamp", 10, 100, true⟩), (⟨52, 2, 1⟩, ⟨2, "Book", 5, 101, true⟩)]
      (by decide) (by decide) (by decide) (by decide)⟩

/-- C10 as stated fails: when the write of the second seller's purchase fails,
the call answers 500 and the purchase of the first seller, created by that
call, remains stored, while products and cart are as before. -/
theorem purchases_checkout_failed_save_counterexample :
    demoStore.purchases = [] ∧
    (purchasesCheckout failsForSeller101 demoStore 7 demoPurchaseBody).2.status = 500 ∧
    (purchasesCheckout failsForSeller101 demoStore 7 demoPurchaseBody).1.purchases.map
      (fun p => (p.buyer, p.seller, p.totalAmount)) = [(7, 100, 20)] ∧
    (purchasesCheckout failsForSeller101 demoStore 7 demoPurchaseBody).1.products =
      demoStore.products ∧
    (purchasesCheckout failsForSeller101 demoStore 7 demoPurchaseBody).1.carts =
      demoStore.carts := by
  decide

/-! ## Checkout and the availability flag -/

/-- A checkout that does not answer 201 leaves the store as it was. -/
theorem ordersCheckout_failed (s : Store) (user : ObjectId) (body : CheckoutBody)
    (h : (ordersCheckout s user body).2.status ≠ 201) : (ordersCheckout s user body).1 = s := by
  unfold ordersCheckout at h ⊢
  split
  · rfl
  split
  · rfl
  split
  · rfl
  rename_i h1 h2 h3
  simp only [h1, h2, h3, if_false] at h
  cases hp : prepareOrder s user body with
  | error r => rfl
  | ok r =>
    obtain ⟨orderProducts, total⟩ := r
    simp only [hp] at h ⊢
    by_cases hv : validateOrder (newOrder s.nextId user body orderProducts total) = true
    · simp [hv] at h
    · simp [hv]

theorem updateManyUnavailable_keeps {products : List Product} {pid : ObjectId}
    (hun : ∀ x ∈ products, x._id = pid → x.isAvailable = false) (ids : List ObjectId) :
    ∀ x ∈ updateManyUnavailable products ids, x._id = pid → x.isAvailable = false := by
  intro x hx hid
  unfold updateManyUnavailable at hx
  obtain ⟨q, hq, hqx⟩ := List.mem_map.mp hx
  by_cases hc : ids.contains q._id = true
  · simp only [hc, if_true] at hqx
    rw [← hqx]
  · simp only [hc, if_false] at hqx
    subst hqx
    exact hun q hq hid

/-- The catalog after an order checkout is the catalog before it, or that
catalog with some products marked unavailable. -/
theorem ordersCheckout_products (s : Store) (user : ObjectId) (body : CheckoutBody) :
    (ordersCheckout s user body).1.products = s.products ∨
      ∃ ids, (ordersCheckout s user body).1.products = updateManyUnavailable s.products ids := by
  by_cases hok : (ordersCheckout s user body).2.status = 201
  · obtain ⟨orderProducts, total, _, _, heq⟩ := ordersCheckout_created s user body hok
    right
    refine ⟨orderProducts.map (fun item => item.productId), ?_⟩
    rw [heq]
    simp [clearCartAfterOrder_products, placeOrder, newOrder]
  · left
    rw [ordersCheckout_failed s user body hok]

/-- The same for a purchase checkout, whatever its outcome. -/
theorem purchasesCheckout_products (persists : Purchase → Bool) (s : Store) (user : ObjectId)
    (body : PurchaseBody) :
    (purchasesCheckout persists s user body).1.products = s.products ∨
      ∃ ids, (purchasesCheckout persists s user body).1.products =
        updateManyUnavailable s.products ids := by
  by_cases hok : (purchasesCheckout persists s user body).2.status = 201
  · obtain ⟨cart, _, _, _, _, _, _, _, hprod, _⟩ :=
      purchasesCheckout_created persists s user body hok
    exact Or.inr ⟨_, hprod⟩
  · left
    unfold purchasesCheckout at hok ⊢
    cases hc : findCart s.carts user with
    | none => rfl
    | some cart =>
      simp only [hc] at hok ⊢
      by_cases he : (cart.items.length == 0) = true
      · simp [he]
      · simp only [he, Bool.false_eq_true, if_false] at hok ⊢
        cases hr : resolved (populate s.products cart.items) with
        | none => rfl
        | some lines =>
          simp only [hr] at hok ⊢
          have hfr := createPurchases_frame persists user body (groupLines lines ([], 0)).1 s
          cases hcp : createPurchases persists user body (groupLines lines ([], 0)).1 s with
          | mk s1 r =>
            rw [hcp] at hfr
            cases r with
            | none => simpa using hfr.1
            | some ps => simp [hcp] at hok

theorem findProduct_map_available (products : List Product) (id : ObjectId) :
    findProduct (products.map (fun p => { p with isAvailable := true })) id =
      (findProduct products id).map (fun p => { p with isAvailable := true }) := by
  unfold findProduct
  induction products with
  | nil => rfl
  | cons p rest ih =>
    by_cases h : p._id = id
    · simp [h]
    · have hb : (p._id == id) = false := by simp [h]
      simp only [List.map_cons, List.find?_cons, hb]
      exact ih

/-- Populating a cart against the catalog with every product marked available
gives the same lines, up to the flag. -/
theorem resolved_populate_available (products : List Product) (items : List CartItem) :
    resolved (populate (products.map (fun p => { p with isAvailable := true })) items) =
      (resolved (populate products items)).map
        (List.map (fun line => (line.1, { line.2 with isAvailable := true }))) := by
  induction items with
  | nil => simp [populate, resolved]
  | cons item rest ih =>
    simp only [populate, List.map_cons] at ih ⊢
    rw [findProduct_map_available]
    cases hp : findProduct products item.product with
    | none => simp [resolved]
    | some p =>
      simp only [Option.map_some', resolved, ih]
      cases resolved (List.map (fun item => (item, findProduct products item.product)) rest) with
      | none => rfl
      | some r => rfl

theorem groupLines_available (lines : List (CartItem × Product))
    (acc : List SellerGroup × Int) :
    groupLines (lines.map (fun line => (line.1, { line.2 with isAvailable := true }))) acc =
      groupLines lines acc := by
  unfold groupLines
  rw [List.foldl_map]
  rfl

theorem cartTotal_available (lines : List (CartItem × Product)) :
    cartTotal (lines.map (fun line => (line.1, { line.2 with isAvailable := true }))) =
      cartTotal lines := by
  unfold cartTotal
  rw [List.foldl_map]

theorem prepareOrder_available (s : Store) (user : ObjectId) (body : CheckoutBody) :
    prepareOrder { s with products := s.products.map (fun p => { p with isAvailable := true }) }
        user body = prepareOrder s user body := by
  unfold prepareOrder
  simp only [resolved_populate_available]
  split
  · rfl
  · cases findCart s.carts user with
    | none => rfl
    | some cart =>
      simp only
      split
      · rfl
      · cases resolved (populate s.products cart.items) with
        | none => rfl
        | some lines =>
          simp only [Option.map_some', cartTotal_available, List.map_map]
          rfl

theorem createPurchases_products (persists : Purchase → Bool) (buyer : ObjectId)
    (body : PurchaseBody) (products : List Product) :
    ∀ (gs : List SellerGroup) (s : Store),
      (createPurchases persists buyer body gs { s with products := products }).2 =
        (createPurchases persists buyer body gs s).2
  | [], s => rfl
  | g :: rest, s => by
    unfold createPurchases
    simp only
    by_cases hv : (validatePurchase (newPurchase s.nextId buyer body g)
        && persists (newPurchase s.nextId buyer body g)) = true
    · simp only [hv, if_true]
      have ih := createPurchases_products persists buyer body products rest
        { s with purchases := s.purchases ++ [newPurchase s.nextId buyer body g],
                 nextId := s.nextId + 1 }
      simp only at ih
      split <;> rename_i h1 <;> split <;> rename_i h2 <;> rw [h1, h2] at ih <;>
        simp_all
    · simp [hv]

theorem ordersCheckout_available (s : Store) (user : ObjectId) (body : CheckoutBody) :
    (ordersCheckout
        { s with products := s.products.map (fun p => { p with isAvailable := true }) }
        user body).2 = (ordersCheckout s user body).2 := by
  unfold ordersCheckout
  rw [prepareOrder_available]
  split
  · rfl
  split
  · rfl
  split
  · rfl
  cases prepareOrder s user body with
  | error r => rfl
  | ok r =>
    obtain ⟨orderProducts, total⟩ := r
    simp only
    split <;> rfl

theorem purchasesCheckout_available (persists : Purchase → Bool) (s : Store) (user : ObjectId)
    (body : PurchaseBody) :
    (purchasesCheckout persists
        { s with products := s.products.map (fun p => { p with isAvailable := true }) }
        user body).2 = (purchasesCheckout persists s user body).2 := by
  unfold purchasesCheckout
  simp only [resolved_populate_available]
  cases findCart s.carts user with
  | none => rfl
  | some cart =>
    simp only
    split
    · rfl
    · cases resolved (populate s.products cart.items) with
      | none => rfl
      | some lines =>
        simp only [Option.map_some', groupLines_available]
        have h := createPurchases_products persists user body
          (s.products.map (fun p => { p with isAvailable := true }))
          (groupLines lines ([], 0)).1 s
        cases h1 : createPurchases persists user body (groupLines lines ([], 0)).1
            { s with products := s.products.map (fun p => { p with isAvailable := true }) } with
        | mk s1 r1 =>
          cases h2 : createPurchases persists user body (groupLines lines ([], 0)).1 s with
          | mk s2 r2 =>
            rw [h1, h2] at h
            simp only at h
            subst h
            cases r1 <;> rfl

/-- C8 as stated fails. Users 7 and 8 both hold product 1 in their carts; after
user 7 has bought it the product is unavailable, yet user 8's cart-based order
checkout, user 8's purchase checkout and user 9's direct checkout of the same
product all answer 201, and user 8's order for product 1 is stored next to
user 7's. -/
theorem unavailable_product_checkout_counterexample :
    afterFirstSale.products.map (fun p => (p._id, p.isAvailable)) = [(1, false), (2, true)] ∧
    afterFirstSale.orders.map (fun o => (o.userId, o.products.map (fun l => l.productId))) =
      [(7, [1])] ∧
    findCart afterFirstSale.carts 8 =
      some { _id := 62, user := 8, items := [{ _id := 63, product := 1, quantity := 1 }] } ∧
    (ordersCheckout afterFirstSale 8 demoCartBody).2.status = 201 ∧
    (ordersCheckout afterFirstSale 8 demoCartBody).1.orders.map
      (fun o => (o.userId, o.products.map (fun l => l.productId))) = [(7, [1]), (8, [1])] ∧
    (purchasesCheckout alwaysPersists afterFirstSale 8 demoPurchaseBody).2.status = 201 ∧
    (purchasesCheckout alwaysPersists afterFirstSale 8 demoPurchaseBody).1.purchases.map
      (fun p => (p.buyer, p.items.map (fun i => i.product))) = [(8, [1])] ∧
    isBuyNow demoBuyNowBody = true ∧
    (ordersCheckout afterFirstSale 9 demoBuyNowBody).2.status = 201 := by
  decide

/-! ## Order checkout: request validation -/

theorem addressComplete_false_of_missing {address : Option Address}
    (h : address = none ∨ ∃ a, address = some a ∧
      (truthy a.street = false ∨ truthy a.city = false ∨ truthy a.state = false ∨
        truthy a.pincode = false)) :
    addressComplete address = false := by
  rcases h with h | ⟨a, ha, h⟩
  · subst h
    rfl
  · subst ha
    simp only [addressComplete]
    rcases h with h | h | h | h <;> simp [h]

/-- C11. An order checkout, cart-based or direct, whose request has no address,
or an address lacking street, city, state or pincode, or no location, or no
payment method, is answered 400 with the message of the first failing check
and without payload, and the store is left exactly as it was: no order, no
availability change, no cart change. -/
theorem order_checkout_missing_fields (s : Store) (user : ObjectId) (body : CheckoutBody)
    (hmissing : body.address = none ∨
      (∃ a, body.address = some a ∧
        (truthy a.street = false ∨ truthy a.city = false ∨ truthy a.state = false ∨
          truthy a.pincode = false)) ∨
      truthy body.location = false ∨ truthy body.paymentMethod = false) :
    (ordersCheckout s user body).1 = s ∧
    (ordersCheckout s user body).2.status = 400 ∧
    (ordersCheckout s user body).2.data = none ∧
    (ordersCheckout s user body).2.message ∈
      ["Please provide complete address information", "Location is required",
        "Payment method is required"] := by
  have hcases : addressComplete body.address = false ∨ truthy body.location = false ∨
      truthy body.paymentMethod = false := by
    rcases hmissing with h | h | h | h
    · exact Or.inl (addressComplete_false_of_missing (Or.inl h))
    · exact Or.inl (addressComplete_false_of_missing (Or.inr h))
    · exact Or.inr (Or.inl h)
    · exact Or.inr (Or.inr h)
  unfold ordersCheckout
  by_cases h1 : addressComplete body.address = true
  · by_cases h2 : truthy body.location = true
    · have h3 : truthy body.paymentMethod = false := by
        rcases hcases with h | h | h
        · simp [h] at h1
        · simp [h] at h2
        · exact h
      simp [h1, h2, h3, badRequest]
    · simp [h1, h2, badRequest]
  · simp [h1, badRequest]

/-- C11 on a request without address. -/
theorem order_checkout_missing_fields_witness :
    noAddressBody.address = none ∧
    (ordersCheckout demoStore 7 noAddressBody).1 = demoStore ∧
    (ordersCheckout demoStore 7 noAddressBody).2.status = 400 ∧
    (ordersCheckout demoStore 7 noAddressBody).2.data = none ∧
    (ordersCheckout demoStore 7 noAddressBody).2.message ∈
      ["Please provide complete address information", "Location is required",
        "Payment method is required"] :=
  ⟨rfl, order_checkout_missing_fields demoStore 7 noAddressBody (Or.inl rfl)⟩

theorem validateOrder_paymentMethod {o : Order} (h : validateOrder o = true) :
    ∃ m, o.paymentMethod = some m ∧ m ∈ orderPaymentMethods := by
  unfold validateOrder at h
  simp only [Bool.and_eq_true] at h
  obtain ⟨⟨⟨⟨_, hm⟩, _⟩, _⟩, _⟩ := h
  cases hp : o.paymentMethod with
  | none => simp [hp] at hm
  | some m =>
    refine ⟨m, rfl, ?_⟩
    simp only [hp, Bool.and_eq_true] at hm
    simpa using hm.2

/-- Every response of the order checkout has status 400, 500 or 201. -/
theorem ordersCheckout_status (s : Store) (user : ObjectId) (body : CheckoutBody) :
    (ordersCheckout s user body).2.status = 400 ∨ (ordersCheckout s user body).2.status = 500 ∨
      (ordersCheckout s user body).2.status = 201 := by
  unfold ordersCheckout
  split
  · exact Or.inl rfl
  split
  · exact Or.inl rfl
  split
  · exact Or.inl rfl
  cases hp : prepareOrder s user body with
  | error r =>
    simp only
    unfold prepareOrder at hp
    split at hp
    · simp at hp
    · split at hp
      · simp at hp; subst hp; exact Or.inl rfl
      · split at hp
        · simp at hp; subst hp; exact Or.inl rfl
        · split at hp
          · simp at hp; subst hp; exact Or.inr (Or.inl rfl)
          · simp at hp
  | ok r =>
    obtain ⟨orderProducts, total⟩ := r
    simp only
    split
    · exact Or.inr (Or.inl rfl)
    · exact Or.inr (Or.inr rfl)

/-- C13, as the code has it. An order checkout whose payment method is present
but outside the enum of the order schema never succeeds and leaves the store as
it was: no order, no availability change, no cart change.  The handler itself
only tests that the field is present; when the other checks pass and the order
lines are prepared, the request is refused by the schema validation of
`order.save()` and answered with the server error of the `catch` block. -/
theorem order_checkout_unknown_payment (s : Store) (user : ObjectId) (body : CheckoutBody)
    (m : String) (hm : body.paymentMethod = some m) (hnot : m ∉ orderPaymentMethods) :
    (ordersCheckout s user body).1 = s ∧
    (ordersCheckout s user body).2.data = none ∧
    ((ordersCheckout s user body).2.status = 400 ∨
      (ordersCheckout s user body).2.status = 500) ∧
    (∀ orderProducts total, addressComplete body.address = true →
      truthy body.location = true → m ≠ "" →
      prepareOrder s user body = .ok (orderProducts, total) →
      (ordersCheckout s user body).2 = serverError "Server error during checkout") := by
  have hfail : (ordersCheckout s user body).2.status ≠ 201 := by
    intro hok
    obtain ⟨orderProducts, total, _, hv, _⟩ := ordersCheckout_created s user body hok
    obtain ⟨m2, hm2, hin⟩ := validateOrder_paymentMethod hv
    simp only [newOrder, hm, Option.some.injEq] at hm2
    subst hm2
    exact hnot hin
  refine ⟨ordersCheckout_failed s user body hfail, ?_, ?_, ?_⟩
  · unfold ordersCheckout at hfail ⊢
    split
    · rfl
    split
    · rfl
    split
    · rfl
    rename_i h1 h2 h3
    simp only [h1, h2, h3, if_false] at hfail
    cases hp : prepareOrder s user body with
    | error r =>
      simp only
      unfold prepareOrder at hp
      split at hp
      · simp at hp
      · split at hp
        · simp at hp; subst hp; rfl
        · split at hp
          · simp at hp; subst hp; rfl
          · split at hp
            · simp at hp; subst hp; rfl
            · simp at hp
    | ok r =>
      obtain ⟨orderProducts, total⟩ := r
      simp only [hp] at hfail ⊢
      split
      · rfl
      · rename_i hv
        simp [hv] at hfail
  · rcases ordersCheckout_status s user body with h | h | h
    · exact Or.inl h
    · exact Or.inr h
    · exact absurd h hfail
  · intro orderProducts total h1 h2 h3 hp
    have hv : validateOrder (newOrder s.nextId user body orderProducts total) = false := by
      cases hval : validateOrder (newOrder s.nextId user body orderProducts total) with
      | false => rfl
      | true =>
        obtain ⟨m2, hm2, hin⟩ := validateOrder_paymentMethod hval
        simp only [newOrder, hm, Option.some.injEq] at hm2
        subst hm2
        exact absurd hin hnot
    have h4 : truthy body.paymentMethod = true := by simp [hm, truthy, h3]
    unfold ordersCheckout
    simp [h1, h2, h4, hp, hv]

/-- C13, amended statement on the scenario cart paid with "Bitcoin". -/
theorem order_checkout_unknown_payment_witness :
    bitcoinBody.paymentMethod = some "Bitcoin" ∧ "Bitcoin" ∉ orderPaymentMethods ∧
    (ordersCheckout demoStore 7 bitcoinBody).1 = demoStore ∧
    (ordersCheckout demoStore 7 bitcoinBody).2.data = none ∧
    ((ordersCheckout demoStore 7 bitcoinBody).2.status = 400 ∨
      (ordersCheckout demoStore 7 bitcoinBody).2.status = 500) ∧
    (∀ orderProducts total, addressComplete bitcoinBody.address = true →
      truthy bitcoinBody.location = true → "Bitcoin" ≠ "" →
      prepareOrder demoStore 7 bitcoinBody = .ok (orderProducts, total) →
      (ordersCheckout demoStore 7 bitcoinBody).2 = serverError "Server error during checkout") :=
  ⟨rfl, by decide,
    order_checkout_unknown_payment demoStore 7 bitcoinBody "Bitcoin" rfl (by decide)⟩

/-- C13 as stated fails: the scenario cart checked out with the payment method
"Bitcoin" is not answered with a 400 validation message but with the 500
response of the `catch` block. -/
theorem order_checkout_unknown_payment_counterexample :
    bitcoinBody.paymentMethod = some "Bitcoin" ∧
    (ordersCheckout demoStore 7 bitcoinBody).2 = serverError "Server error during checkout" ∧
    (ordersCheckout demoStore 7 bitcoinBody).2.status = 500 ∧
    (ordersCheckout demoStore 7 bitcoinBody).2.status ≠ 400 := by
  decide

/-! ## Purchase checkout: the optional request fields -/

/-- The purchase loop reads the request only through `newPurchase`. -/
theorem createPurchases_congr (persists : Purchase → Bool) (buyer : ObjectId)
    (b1 b2 : PurchaseBody)
    (h : ∀ id g, newPurchase id buyer b1 g = newPurchase id buyer b2 g) :
    ∀ (gs : List SellerGroup) (s : Store),
      createPurchases persists buyer b1 gs s = createPurchases persists buyer b2 gs s
  | [], s => rfl
  | g :: rest, s => by
    unfold createPurchases
    simp only [h, createPurchases_congr persists buyer b1 b2 h rest]

/-- Whether the purchase loop completes under a persistence layer accepting
every valid document depends on the request only through validation. -/
theorem createPurchases_isSome (buyer : ObjectId) (b1 b2 : PurchaseBody)
    (h : ∀ id1 id2 g, validatePurchase (newPurchase id1 buyer b1 g) =
      validatePurchase (newPurchase id2 buyer b2 g)) :
    ∀ (gs : List SellerGroup) (s1 s2 : Store),
      (createPurchases alwaysPersists buyer b1 gs s1).2.isSome =
        (createPurchases alwaysPersists buyer b2 gs s2).2.isSome
  | [], s1, s2 => rfl
  | g :: rest, s1, s2 => by
    unfold createPurchases
    simp only [alwaysPersists, Bool.and_true]
    rw [h s1.nextId s2.nextId g]
    by_cases hv : validatePurchase (newPurchase s2.nextId buyer b2 g) = true
    · simp only [hv, if_true]
      have ih := createPurchases_isSome buyer b1 b2 h rest
        { s1 with purchases := s1.purchases ++ [newPurchase s1.nextId buyer b1 g],
                  nextId := s1.nextId + 1 }
        { s2 with purchases := s2.purchases ++ [newPurchase s2.nextId buyer b2 g],
                  nextId := s2.nextId + 1 }
      simp only [alwaysPersists] at ih
      split <;> rename_i e1 <;> split <;> rename_i e2 <;> rw [e1, e2] at ih <;> simp_all
    · simp [hv]

/-- Purchases stored by a completed loop carry the shipping address of the
request and its payment method, or the default. -/
theorem createPurchases_fields (persists : Purchase → Bool) (buyer : ObjectId)
    (body : PurchaseBody) :
    ∀ (gs : List SellerGroup) (s s1 : Store) (ps : List Purchase),
      createPurchases persists buyer body gs s = (s1, some ps) →
      ∀ p ∈ ps, p.shippingAddress = body.shippingAddress ∧
        p.paymentMethod = paymentMethodOrDefault body.paymentMethod
  | [], s, s1, ps, h => by
    simp [createPurchases] at h
    obtain ⟨_, h2⟩ := h
    subst h2
    intro p hp
    simp at hp
  | g :: rest, s, s1, ps, h => by
    unfold createPurchases at h
    by_cases hv : (validatePurchase (newPurchase s.nextId buyer body g)
        && persists (newPurchase s.nextId buyer body g)) = true
    · simp only [hv, if_true] at h
      split at h
      · rename_i s2 qs heq
        simp only [Prod.mk.injEq, Option.some.injEq] at h
        obtain ⟨_, h2⟩ := h
        subst h2
        intro p hp
        rcases List.mem_cons.mp hp with rfl | hm
        · simp [newPurchase]
        · exact createPurchases_fields persists buyer body rest _ _ _ heq p hm
      · simp at h
    · simp [hv] at h

/-- The status of a purchase checkout is 201 exactly when the purchase loop
completes, for a cart with resolved lines. -/
theorem purchasesCheckout_status_available (s : Store) (user : ObjectId)
    (b1 b2 : PurchaseBody)
    (h : ∀ id1 id2 g, validatePurchase (newPurchase id1 user b1 g) =
      validatePurchase (newPurchase id2 user b2 g)) :
    (purchasesCheckout alwaysPersists s user b1).2.status =
      (purchasesCheckout alwaysPersists s user b2).2.status := by
  unfold purchasesCheckout
  cases findCart s.carts user with
  | none => rfl
  | some cart =>
    simp only
    split
    · rfl
    · cases resolved (populate s.products cart.items) with
      | none => rfl
      | some lines =>
        simp only
        have hs := createPurchases_isSome user b1 b2 h (groupLines lines ([], 0)).1 s s
        cases h1 : createPurchases alwaysPersists user b1 (groupLines lines ([], 0)).1 s with
        | mk s1 r1 =>
          cases h2 : createPurchases alwaysPersists user b2 (groupLines lines ([], 0)).1 s with
          | mk s2 r2 =>
            rw [h1, h2] at hs
            cases r1 <;> cases r2 <;> simp_all [serverError]

/-- C12, as the code has it. The purchase checkout requires neither a shipping
address nor a payment method.  A request without payment method is served
exactly like the same request with "Credit Card".  Under a persistence layer
that accepts every valid document, the status of the response is the same with
any shipping address, absent or not.  On success every created purchase carries
the shipping address of the request as given and its payment method, or
"Credit Card" when none was given. -/
theorem purchase_checkout_optional_fields (persists : Purchase → Bool) (s : Store)
    (user : ObjectId) (body : PurchaseBody) :
    purchasesCheckout persists s user { body with paymentMethod := none } =
      purchasesCheckout persists s user { body with paymentMethod := some "Credit Card" } ∧
    (∀ a, (purchasesCheckout alwaysPersists s user { body with shippingAddress := a }).2.status =
      (purchasesCheckout alwaysPersists s user body).2.status) ∧
    ((purchasesCheckout persists s user body).2.status = 201 →
      ∃ receipt, (purchasesCheckout persists s user body).2.data = some receipt ∧
        ∀ p ∈ receipt.purchases, p.shippingAddress = body.shippingAddress ∧
          p.paymentMethod = paymentMethodOrDefault body.paymentMethod) := by
  refine ⟨?_, ?_, ?_⟩
  · unfold purchasesCheckout
    have hc := createPurchases_congr persists user { body with paymentMethod := none }
      { body with paymentMethod := some "Credit Card" } (by intro id g; rfl)
    simp only [hc]
  · intro a
    exact purchasesCheckout_status_available s user _ _ (by intro id1 id2 g; rfl)
  · intro hok
    obtain ⟨cart, lines, s1, ps, _, _, _, hcp, _, _, _, _, hres⟩ :=
      purchasesCheckout_created persists s user body hok
    refine ⟨_, by rw [hres], ?_⟩
    exact createPurchases_fields persists user body _ _ _ _ hcp

/-- C12, amended statement on the scenario cart with a request that has no
field at all. -/
theorem purchase_checkout_optional_fields_witness :
    (purchasesCheckout alwaysPersists demoStore 7 bareBody).2.status = 201 ∧
    purchasesCheckout alwaysPersists demoStore 7 { bareBody with paymentMethod := none } =
      purchasesCheckout alwaysPersists demoStore 7
        { bareBody with paymentMethod := some "Credit Card" } ∧
    (∃ receipt, (purchasesCheckout alwaysPersists demoStore 7 bareBody).2.data = some receipt ∧
        ∀ p ∈ receipt.purchases, p.shippingAddress = bareBody.shippingAddress ∧
          p.paymentMethod = paymentMethodOrDefault bareBody.paymentMethod) :=
  ⟨by decide,
    (purchase_checkout_optional_fields alwaysPersists demoStore 7 bareBody).1,
    (purchase_checkout_optional_fields alwaysPersists demoStore 7 bareBody).2.2 (by decide)⟩

/-- C12 as stated fails: a purchase checkout of the scenario cart whose request
has neither shipping address nor payment method answers 201 and stores two
purchases, without address and paid by "Credit Card". -/
theorem purchase_checkout_optional_fields_counterexample :
    bareBody.shippingAddress = none ∧ bareBody.paymentMethod = none ∧
    demoStore.purchases = [] ∧
    (purchasesCheckout alwaysPersists demoStore 7 bareBody).2.status = 201 ∧
    (purchasesCheckout alwaysPersists demoStore 7 bareBody).1.purchases.map
      (fun p => (p.seller, p.shippingAddress, p.paymentMethod)) =
      [(100, none, "Credit Card"), (101, none, "Credit Card")] := by
  decide

/-! ## The cart virtuals -/

theorem totalPrice_foldl_none (items : List (CartItem × Option Product)) :
    items.foldl
      (fun total line =>
        match total, line.2 with
        | some t, some p => some (t + p.price * line.1.quantity)
        | _, _ => none)
      none = none := by
  induction items with
  | nil => rfl
  | cons a rest ih => simpa using ih

theorem totalPrice_foldl (items : List (CartItem × Option Product)) :
    ∀ (lines : List (CartItem × Product)) (t : Int), resolved items = some lines →
      items.foldl
        (fun total line =>
          match total, line.2 with
          | some t, some p => some (t + p.price * line.1.quantity)
          | _, _ => none)
        (some t) = some (t + (lines.map (fun line => line.2.price * line.1.quantity)).sum) := by
  induction items with
  | nil =>
    intro lines t h
    simp [resolved] at h
    subst h
    simp
  | cons a rest ih =>
    intro lines t h
    obtain ⟨item, op⟩ := a
    cases op with
    | none => simp [resolved] at h
    | some p =>
      simp only [resolved] at h
      cases hr : resolved rest with
      | none => simp [hr] at h
      | some r =>
        simp only [hr, Option.map_some', Option.some.injEq] at h
        subst h
        simp only [List.foldl_cons, List.map_cons, List.sum_cons]
        rw [ih r _ hr]
        simp [add_assoc]

/-- C15. For a cart whose lines all resolve to catalog products, `totalPrice` is
the sum over the lines of the product's price times the line's quantity, and
`totalItems` is the sum of the quantities; both are 0 for a cart without
lines. -/
theorem cart_virtual_totals (products : List Product) (cart : Cart)
    (lines : List (CartItem × Product))
    (hres : resolved (populate products cart.items) = some lines) :
    List.Forall₂ (fun item line => line.1 = item ∧
      findProduct products item.product = some line.2) cart.items lines ∧
    totalPrice (populate products cart.items) =
      some ((lines.map (fun line => line.2.price * line.1.quantity)).sum) ∧
    totalItems cart = (cart.items.map (fun item => item.quantity)).sum ∧
    (cart.items = [] →
      totalPrice (populate products cart.items) = some 0 ∧ totalItems cart = 0) := by
  have hp : totalPrice (populate products cart.items) =
      some ((lines.map (fun line => line.2.price * line.1.quantity)).sum) := by
    unfold totalPrice
    rw [totalPrice_foldl _ lines 0 hres]
    simp
  have hi : totalItems cart = (cart.items.map (fun item => item.quantity)).sum := by
    unfold totalItems
    rw [foldl_add_eq_sum (fun item : CartItem => item.quantity)]
    simp
  refine ⟨resolved_populate hres, hp, hi, ?_⟩
  intro hnil
  rw [hi, hnil]
  simp [populate, totalPrice]

/-- C15, scenario of the specification: two units at 10 and one unit at 5 give
`totalPrice` 25 and `totalItems` 3. -/
theorem cart_virtual_totals_witness :
    resolved (populate demoProducts demoCart.items) =
      some [(⟨51, 1, 2⟩, ⟨1, "Lamp", 10, 100, true⟩), (⟨52, 2, 1⟩, ⟨2, "Book", 5, 101, true⟩)] ∧
    totalPrice (populate demoProducts demoCart.items) = some 25 ∧
    totalItems demoCart = 3 ∧
    totalPrice (populate demoProducts demoCart.items) =
      some (([(⟨51, 1, 2⟩, ⟨1, "Lamp", 10, 100, true⟩),
        ((⟨52, 2, 1⟩ : CartItem), (⟨2, "Book", 5, 101, true⟩ : Product))].map
          (fun line => line.2.price * line.1.quantity)).sum) ∧
    totalItems demoCart = (demoCart.items.map (fun item => item.quantity)).sum :=
  ⟨by decide, by decide, by decide,
    (cart_virtual_totals demoProducts demoCart
      [(⟨51, 1, 2⟩, ⟨1, "Lamp", 10, 100, true⟩), (⟨52, 2, 1⟩, ⟨2, "Book", 5, 101, true⟩)]
      (by decide)).2.1,
    (cart_virtual_totals demoProducts demoCart
      [(⟨51, 1, 2⟩, ⟨1, "Lamp", 10, 100, true⟩), (⟨52, 2, 1⟩, ⟨2, "Book", 5, 101, true⟩)]
      (by decide)).2.2.1⟩

/-! ## Adding to the cart -/

/-- The add handler once the product checks have passed and the quantity has
been parsed. -/
theorem cartAdd_eq {s : Store} {user : ObjectId} {body : AddBody} {pid : ObjectId}
    {p : Product} {q : Int}
    (hpid : body.productId = some pid) (hp : findProduct s.products pid = some p)
    (hav : p.isAvailable = true) (hsel : p.seller ≠ user)
    (hq : parseQuantity body.quantity = some q) :
    cartAdd s user body =
      if validateCart (cartAfterAdd s user pid q) then
        ({ s with carts := saveCart s.carts (cartAfterAdd s user pid q),
                  nextId := s.nextId + 2 },
          { status := 200, message := "Item added to cart successfully",
            data := some (cartAfterAdd s user pid q) })
      else (s, serverError "Server error while adding item to cart") := by
  have hb : (p.seller == user) = false := by simp [hsel]
  unfold cartAdd
  simp only [hpid, hp, hav, hq, hb, Bool.not_true, Bool.false_eq_true, if_false]
  show (if (!validateCart (cartAfterAdd s user pid q)) = true then _ else _) = _
  cases validateCart (cartAfterAdd s user pid q) <;> rfl

/-- A successful add passed every check. -/
theorem cartAdd_ok (s : Store) (user : ObjectId) (body : AddBody)
    (hok : (cartAdd s user body).2.status = 200) :
    ∃ pid p q, body.productId = some pid ∧ findProduct s.products pid = some p ∧
      p.isAvailable = true ∧ p.seller ≠ user ∧ parseQuantity body.quantity = some q ∧
      validateCart (cartAfterAdd s user pid q) = true := by
  cases hpid : body.productId with
  | none => simp [cartAdd, hpid, badRequest] at hok
  | some pid =>
    cases hp : findProduct s.products pid with
    | none => simp [cartAdd, hpid, hp] at hok
    | some p =>
      by_cases hav : p.isAvailable = true
      · by_cases hsel : p.seller = user
        · simp [cartAdd, hpid, hp, hav, hsel, badRequest] at hok
        · cases hq : parseQuantity body.quantity with
          | none => simp [cartAdd, hpid, hp, hav, hsel, hq, serverError] at hok
          | some q =>
            refine ⟨pid, p, q, rfl, hp, hav, hsel, rfl, ?_⟩
            rw [cartAdd_eq hpid hp hav hsel hq] at hok
            by_cases hv : validateCart (cartAfterAdd s user pid q) = true
            · exact hv
            · simp [hv, serverError] at hok
      · simp [cartAdd, hpid, hp, hav, badRequest] at hok

/-- An add that does not answer 200 leaves the store as it was. -/
theorem cartAdd_failed (s : Store) (user : ObjectId) (body : AddBody)
    (h : (cartAdd s user body).2.status ≠ 200) : (cartAdd s user body).1 = s := by
  cases hpid : body.productId with
  | none => simp [cartAdd, hpid]
  | some pid =>
    cases hp : findProduct s.products pid with
    | none => simp [cartAdd, hpid, hp]
    | some p =>
      by_cases hav : p.isAvailable = true
      · by_cases hsel : p.seller = user
        · simp [cartAdd, hpid, hp, hav, hsel]
        · cases hq : parseQuantity body.quantity with
          | none => simp [cartAdd, hpid, hp, hav, hsel, hq]
          | some q =>
            rw [cartAdd_eq hpid hp hav hsel hq] at h ⊢
            by_cases hv : validateCart (cartAfterAdd s user pid q) = true
            · simp [hv] at h
            · simp [hv]
      · simp [cartAdd, hpid, hp, hav]

/-- Handler up to `res.json`, before the response is serialized.
Adding to the cart is answered 404 "Product not found" when no product
has the requested id, 400 "Product is not available" when the product exists
and is unavailable, and 400 "Cannot add your own product to cart" when the
product exists, is available and is sold by the requester; none of these
changes the store.  A successful add implies that the product exists, is
available and is sold by another user. -/
theorem cartAdd_checks (s : Store) (user : ObjectId) (body : AddBody) (pid : ObjectId)
    (hpid : body.productId = some pid) :
    (findProduct s.products pid = none →
      cartAdd s user body = (s, notFound "Product not found")) ∧
    (∀ p, findProduct s.products pid = some p → p.isAvailable = false →
      cartAdd s user body = (s, badRequest "Product is not available")) ∧
    (∀ p, findProduct s.products pid = some p → p.isAvailable = true → p.seller = user →
      cartAdd s user body = (s, badRequest "Cannot add your own product to cart")) ∧
    ((cartAdd s user body).2.status = 200 →
      ∃ p, findProduct s.products pid = some p ∧ p.isAvailable = true ∧ p.seller ≠ user) := by
  refine ⟨?_, ?_, ?_, ?_⟩
  · intro h
    simp [cartAdd, hpid, h, notFound]
  · intro p h ha
    simp [cartAdd, hpid, h, ha]
  · intro p h ha hs
    simp [cartAdd, hpid, h, ha, hs]
  · intro hok
    obtain ⟨pid2, p, q, h1, h2, h3, h4, _, _⟩ := cartAdd_ok s user body hok
    rw [hpid] at h1
    cases h1
    exact ⟨p, h2, h3, h4⟩

/-- An update that does not answer 200 leaves the store as it was. -/
theorem cartUpdate_failed (s : Store) (user itemId : ObjectId) (body : UpdateBody)
    (h : (cartUpdate s user itemId body).2.status ≠ 200) :
    (cartUpdate s user itemId body).1 = s := by
  unfold cartUpdate at h ⊢
  cases h1 : quantityRejected body.quantity with
  | true => simp only [if_true]
  | false =>
    cases hc : findCart s.carts user with
    | none => simp only [Bool.false_eq_true, if_false]
    | some cart =>
      cases h2 : cart.items.any (fun item => item._id == itemId) with
      | false => simp only [h2, Bool.not_false, Bool.false_eq_true, if_true, if_false]
      | true =>
        cases hq : parseIntField body.quantity with
        | none => simp only [h2, Bool.false_eq_true, if_false, Bool.not_true]
        | some q =>
          cases hv : validateCart { cart with items := setQuantity itemId q cart.items } with
          | false =>
            simp only [h2, hv, Bool.false_eq_true, if_false, Bool.not_true, Bool.not_false,
              if_true]
          | true =>
            simp only [h1, hc, h2, hq, hv, Bool.false_eq_true, if_false, Bool.not_true] at h
            exact absurd rfl h

/-- A removal that does not answer 200 leaves the store as it was. -/
theorem cartRemove_failed (s : Store) (user itemId : ObjectId)
    (h : (cartRemove s user itemId).2.status ≠ 200) : (cartRemove s user itemId).1 = s := by
  unfold cartRemove at h ⊢
  cases hc : findCart s.carts user with
  | none => rfl
  | some cart =>
    cases h2 : cart.items.any (fun item => item._id == itemId) with
    | false => simp only [h2, Bool.not_false, if_true]
    | true =>
      cases hv : validateCart
          { cart with items := cart.items.eraseP (fun item => item._id == itemId) } with
      | false =>
        simp only [h2, hv, Bool.false_eq_true, if_false, Bool.not_true, Bool.not_false, if_true]
      | true =>
        simp only [hc, h2, hv, Bool.false_eq_true, if_false, Bool.not_true] at h
        exact absurd rfl h

theorem any_id_false {items : List CartItem} {itemId : ObjectId}
    (h : ∀ item ∈ items, item._id ≠ itemId) :
    items.any (fun item => item._id == itemId) = false := by
  rw [Bool.eq_false_iff]
  intro hany
  obtain ⟨item, hm, he⟩ := List.any_eq_true.mp hany
  exact h item hm (by simpa using he)

/-- Handler up to `res.json`, before the response is serialized.
A cart operation that fails leaves the whole store, hence every cart,
as it was and creates no cart: this holds for every add, quantity update and
removal that does not answer 200.  The failures named by the specification are
among them: an add for a missing, unavailable or own product, an update with a
rejected quantity or for a line that is not in the requester's cart, and a
removal of such a line. -/
theorem cartHandlers_refusal (s : Store) (user itemId : ObjectId) (abody : AddBody)
    (ubody : UpdateBody) :
    ((cartAdd s user abody).2.status ≠ 200 → (cartAdd s user abody).1 = s) ∧
    ((cartUpdate s user itemId ubody).2.status ≠ 200 →
      (cartUpdate s user itemId ubody).1 = s) ∧
    ((cartRemove s user itemId).2.status ≠ 200 → (cartRemove s user itemId).1 = s) ∧
    (∀ pid, abody.productId = some pid →
      (findProduct s.products pid = none ∨
        ∃ p, findProduct s.products pid = some p ∧ (p.isAvailable = false ∨ p.seller = user)) →
      (cartAdd s user abody).2.status ≠ 200) ∧
    (quantityRejected ubody.quantity = true ∨
        (∀ cart, findCart s.carts user = some cart → ∀ item ∈ cart.items, item._id ≠ itemId) →
      (cartUpdate s user itemId ubody).2.status ≠ 200) ∧
    ((∀ cart, findCart s.carts user = some cart → ∀ item ∈ cart.items, item._id ≠ itemId) →
      (cartRemove s user itemId).2.status ≠ 200) := by
  refine ⟨cartAdd_failed s user abody, cartUpdate_failed s user itemId ubody,
    cartRemove_failed s user itemId, ?_, ?_, ?_⟩
  · intro pid hpid hcase hok
    obtain ⟨pid2, p, q, h1, h2, h3, h4, _, _⟩ := cartAdd_ok s user abody hok
    rw [hpid] at h1
    cases h1
    rcases hcase with h | ⟨p2, hp2, h⟩
    · rw [h] at h2
      cases h2
    · rw [hp2] at h2
      cases h2
      rcases h with h | h
      · rw [h] at h3
        cases h3
      · exact h4 h
  · intro hcase
    unfold cartUpdate
    rcases hcase with h | h
    · simp [h, badRequest]
    · split
      · simp [badRequest]
      · cases hc : findCart s.carts user with
        | none => simp [notFound]
        | some cart => simp [any_id_false (h cart hc), notFound]
  · intro h
    unfold cartRemove
    cases hc : findCart s.carts user with
    | none => simp [notFound]
    | some cart => simp [any_id_false (h cart hc), notFound]

/-- Saving a new cart for a user who had none makes `findOne` return it. -/
theorem findCart_saveCart_new {carts : List Cart} {user : ObjectId} {cart : Cart}
    (h : findCart carts user = none) (hu : cart.user = user) :
    findCart (saveCart carts cart) user = some cart := by
  unfold findCart at h ⊢
  unfold saveCart
  have hnone : ∀ c ∈ carts, (c.user == user) = false := by
    intro c hc
    have := List.find?_eq_none.mp h c hc
    simpa using this
  split
  · rename_i hany
    clear h
    induction carts with
    | nil => simp at hany
    | cons c rest ih =>
      by_cases hid : c._id = cart._id
      · simp [hid, hu]
      · have hb : (c.user == user) = false := hnone c (List.mem_cons_self _ _)
        have hany2 : rest.any (fun c => c._id == cart._id) = true := by
          simpa [hid] using hany
        have := ih (fun c hc => hnone c (List.mem_cons_of_mem _ hc)) hany2
        simp only [List.map_cons, beq_iff_eq, hid, if_false, List.find?_cons, hb]
        simpa using this
  · rw [List.find?_append, h]
    simp [hu]

theorem all_valid_iff (items : List CartItem) :
    items.all (fun item => decide (1 ≤ item.quantity)) = true ↔
      ∀ item ∈ items, 1 ≤ item.quantity := by
  simp [List.all_eq_true]

/-- The effect of a successful add of a product that is in no line of the
requester's cart: one line is pushed behind the previous ones. -/
theorem cartAdd_pushed (s : Store) (user : ObjectId) (body : AddBody) (pid : ObjectId)
    (p : Product) (q : Int)
    (hpid : body.productId = some pid) (hp : findProduct s.products pid = some p)
    (hav : p.isAvailable = true) (hsel : p.seller ≠ user)
    (hq : parseQuantity body.quantity = some q)
    (hnew : ∀ cart, findCart s.carts user = some cart →
      ∀ item ∈ cart.items, item.product ≠ pid) :
    (cartAdd s user body).2.status = 200 →
      ∃ saved line,
        findCart (cartAdd s user body).1.carts user = some saved ∧
        (cartAdd s user body).2.data = some saved ∧
        saved.user = user ∧
        saved.items = ((findCart s.carts user).map (fun c => c.items)).getD [] ++ [line] ∧
        line.product = pid ∧ line.quantity = q ∧
        (∀ cart, findCart s.carts user = some cart → saved._id = cart._id) := by
  have heq := cartAdd_eq hpid hp hav hsel hq
  intro hok
  rw [heq] at hok ⊢
  by_cases hv : validateCart (cartAfterAdd s user pid q) = true
  · simp only [hv, if_true]
    cases hc : findCart s.carts user with
    | none =>
      have hcart : cartAfterAdd s user pid q =
          { _id := s.nextId, user := user,
            items := [{ _id := s.nextId + 1, product := pid, quantity := q }] } := by
        simp [cartAfterAdd, hc]
      refine ⟨_, { _id := s.nextId + 1, product := pid, quantity := q }, ?_, rfl, ?_, ?_,
        rfl, rfl, ?_⟩
      · exact findCart_saveCart_new hc (by rw [hcart])
      · rw [hcart]
      · rw [hcart]
        simp
      · intro c hcc
        cases hcc
    | some cart =>
      have hany : cart.items.any (fun item => item.product == pid) = false := by
        rw [Bool.eq_false_iff]
        intro hany
        obtain ⟨item, hm, he⟩ := List.any_eq_true.mp hany
        exact hnew cart hc item hm (by simpa using he)
      have hcart : cartAfterAdd s user pid q =
          { cart with
            items := cart.items ++ [{ _id := s.nextId + 1, product := pid, quantity := q }] } := by
        simp [cartAfterAdd, hc, hany]
      refine ⟨_, { _id := s.nextId + 1, product := pid, quantity := q }, ?_, rfl, ?_, ?_,
        rfl, rfl, ?_⟩
      · rw [hcart]
        exact findCart_saveCart hc _
      · rw [hcart]
        show cart.user = user
        exact findCart_user hc
      · rw [hcart]
        simp
      · intro c hcc
        cases hcc
        rw [hcart]
  · simp [hv, serverError] at hok

/-- Handler up to `res.json`, before the response is serialized.
For an available product of another seller that is in no line of the
requester's cart, adding to the cart succeeds exactly when the parsed quantity
is at least 1 and the lines already there are valid; the saved cart is then the
requester's cart, created if there was none, and its lines are the previous
lines, unchanged and in the same order, followed by one new line for the
product with the parsed quantity, which is the requested number, or 1 when the
request has no quantity. -/
theorem cartAdd_new_line (s : Store) (user : ObjectId) (body : AddBody) (pid : ObjectId)
    (p : Product) (q : Int)
    (hpid : body.productId = some pid) (hp : findProduct s.products pid = some p)
    (hav : p.isAvailable = true) (hsel : p.seller ≠ user)
    (hq : parseQuantity body.quantity = some q)
    (hnew : ∀ cart, findCart s.carts user = some cart →
      ∀ item ∈ cart.items, item.product ≠ pid) :
    ((cartAdd s user body).2.status = 200 ↔
      1 ≤ q ∧ ∀ cart, findCart s.carts user = some cart →
        ∀ item ∈ cart.items, 1 ≤ item.quantity) ∧
    ((cartAdd s user body).2.status = 200 →
      ∃ saved line,
        findCart (cartAdd s user body).1.carts user = some saved ∧
        (cartAdd s user body).2.data = some saved ∧
        saved.user = user ∧
        saved.items = ((findCart s.carts user).map (fun c => c.items)).getD [] ++ [line] ∧
        line.product = pid ∧ line.quantity = q ∧
        (∀ cart, findCart s.carts user = some cart → saved._id = cart._id)) ∧
    (body.quantity = .absent → q = 1) ∧
    (∀ n, body.quantity = .number n → q = n) := by
  have heq := cartAdd_eq hpid hp hav hsel hq
  refine ⟨?_, ?_, ?_, ?_⟩
  · rw [heq]
    cases hc : findCart s.carts user with
    | none =>
      have hval : validateCart (cartAfterAdd s user pid q) = decide (1 ≤ q) := by
        simp [cartAfterAdd, hc, validateCart]
      rw [hval]
      by_cases h1 : 1 ≤ q
      · simp [h1]
      · simp [h1, serverError]
    | some cart =>
      have hany : cart.items.any (fun item => item.product == pid) = false := by
        rw [Bool.eq_false_iff]
        intro hany
        obtain ⟨item, hm, he⟩ := List.any_eq_true.mp hany
        exact hnew cart hc item hm (by simpa using he)
      have hval : validateCart (cartAfterAdd s user pid q) =
          (cart.items.all (fun item => decide (1 ≤ item.quantity)) && decide (1 ≤ q)) := by
        simp [cartAfterAdd, hc, validateCart, hany, List.all_append]
      rw [hval]
      by_cases h1 : 1 ≤ q
      · by_cases h2 : cart.items.all (fun item => decide (1 ≤ item.quantity)) = true
        · have h3 := (all_valid_iff cart.items).mp h2
          simp only [h1, h2, decide_True, Bool.and_self, if_true, true_iff, true_and]
          intro c hcc
          cases hcc
          exact h3
        · have h3 : ¬ ∀ item ∈ cart.items, 1 ≤ item.quantity :=
            fun h => h2 ((all_valid_iff cart.items).mpr h)
          simp only [h2, Bool.false_and, Bool.false_eq_true, if_false, serverError]
          constructor
          · intro h
            simp at h
          · rintro ⟨_, h⟩
            exact absurd (h cart rfl) h3
      · simp [h1, serverError]
  · exact cartAdd_pushed s user body pid p q hpid hp hav hsel hq hnew
  · intro ha
    rw [ha] at hq
    simpa [parseQuantity] using hq.symm
  · intro n hn
    rw [hn] at hq
    simpa [parseQuantity] using hq.symm

/-- Bumping a product that is in the list changes exactly its first line. -/
theorem bumpQuantity_split (pid : ObjectId) (q : Int) :
    ∀ (items : List CartItem), items.any (fun item => item.product == pid) = true →
      ∃ pre line post, items = pre ++ line :: post ∧ line.product = pid ∧
        (∀ x ∈ pre, x.product ≠ pid) ∧
        bumpQuantity pid q items = pre ++ { line with quantity := line.quantity + q } :: post
  | [], h => by simp at h
  | item :: rest, h => by
    by_cases hp : item.product = pid
    · exact ⟨[], item, rest, rfl, hp, by simp, by simp [bumpQuantity, hp]⟩
    · have hrest : rest.any (fun item => item.product == pid) = true := by
        simpa [hp] using h
      obtain ⟨pre, line, post, h1, h2, h3, h4⟩ := bumpQuantity_split pid q rest hrest
      refine ⟨item :: pre, line, post, by simp [h1], h2, ?_, by simp [bumpQuantity, hp, h4]⟩
      intro x hx
      rcases List.mem_cons.mp hx with rfl | hm
      · exact hp
      · exact h3 x hm

/-- The add handler never changes the catalog. -/
theorem cartAdd_products (s : Store) (user : ObjectId) (body : AddBody) :
    (cartAdd s user body).1.products = s.products := by
  by_cases hok : (cartAdd s user body).2.status = 200
  · obtain ⟨pid, p, q, h1, h2, h3, h4, h5, h6⟩ := cartAdd_ok s user body hok
    rw [cartAdd_eq h1 h2 h3 h4 h5]
    simp [h6]
  · rw [cartAdd_failed s user body hok]

/-- Handler up to `res.json`, before the response is serialized.
A successful add of a product that already has a line in the
requester's cart saves the same cart with the same number of lines: the first
line of that product has its previous quantity plus the parsed quantity of the
request, and the lines before and after it are unchanged.  Consequently, when
a user without cart lines adds a product twice, with parsed quantities `q1` and
`q2`, and both adds succeed, the cart has exactly one line, for that product,
with quantity `q1 + q2`. -/
theorem cartAdd_existing_line (s : Store) (user : ObjectId) (pid : ObjectId) :
    (∀ (body : AddBody) (cart : Cart), body.productId = some pid →
      findCart s.carts user = some cart →
      cart.items.any (fun item => item.product == pid) = true →
      (cartAdd s user body).2.status = 200 →
      ∃ q pre line post saved,
        parseQuantity body.quantity = some q ∧
        cart.items = pre ++ line :: post ∧ line.product = pid ∧
        (∀ x ∈ pre, x.product ≠ pid) ∧
        findCart (cartAdd s user body).1.carts user = some saved ∧
        saved._id = cart._id ∧ saved.user = cart.user ∧
        saved.items = pre ++ { line with quantity := line.quantity + q } :: post ∧
        saved.items.length = cart.items.length) ∧
    (∀ (f1 f2 : QuantityField) (q1 q2 : Int),
      parseQuantity f1 = some q1 → parseQuantity f2 = some q2 →
      (∀ cart, findCart s.carts user = some cart → cart.items = []) →
      (cartAdd s user ⟨some pid, f1⟩).2.status = 200 →
      (cartAdd (cartAdd s user ⟨some pid, f1⟩).1 user ⟨some pid, f2⟩).2.status = 200 →
      ∃ saved,
        findCart (cartAdd (cartAdd s user ⟨some pid, f1⟩).1 user ⟨some pid, f2⟩).1.carts user =
          some saved ∧
        saved.items.map (fun item => (item.product, item.quantity)) = [(pid, q1 + q2)]) := by
  have partA : ∀ (s : Store) (body : AddBody) (cart : Cart), body.productId = some pid →
      findCart s.carts user = some cart →
      cart.items.any (fun item => item.product == pid) = true →
      (cartAdd s user body).2.status = 200 →
      ∃ q pre line post saved,
        parseQuantity body.quantity = some q ∧
        cart.items = pre ++ line :: post ∧ line.product = pid ∧
        (∀ x ∈ pre, x.product ≠ pid) ∧
        findCart (cartAdd s user body).1.carts user = some saved ∧
        saved._id = cart._id ∧ saved.user = cart.user ∧
        saved.items = pre ++ { line with quantity := line.quantity + q } :: post ∧
        saved.items.length = cart.items.length := by
    intro s body cart hpid hc hany hok
    obtain ⟨pid2, p, q, h1, h2, h3, h4, h5, h6⟩ := cartAdd_ok s user body hok
    rw [hpid] at h1
    cases h1
    obtain ⟨pre, line, post, hs1, hs2, hs3, hs4⟩ := bumpQuantity_split pid q cart.items hany
    have hcart : cartAfterAdd s user pid q =
        { cart with items := pre ++ { line with quantity := line.quantity + q } :: post } := by
      simp [cartAfterAdd, hc, hany, hs4]
    refine ⟨q, pre, line, post,
      { cart with items := pre ++ { line with quantity := line.quantity + q } :: post },
      h5, hs1, hs2, hs3, ?_, rfl, rfl, rfl, ?_⟩
    · rw [cartAdd_eq hpid h2 h3 h4 h5, if_pos h6, hcart]
      exact findCart_saveCart hc _
    · simp [hs1]
  refine ⟨partA s, ?_⟩
  intro f1 f2 q1 q2 hq1 hq2 hempty hok1 hok2
  obtain ⟨pid2, p, q, h1, h2, h3, h4, h5, _⟩ := cartAdd_ok s user ⟨some pid, f1⟩ hok1
  have hpp : pid = pid2 := by simpa using h1
  subst hpp
  have h5b : parseQuantity f1 = some q := h5
  rw [hq1] at h5b
  have hqq : q1 = q := Option.some.inj h5b
  subst hqq
  have hnew : ∀ cart, findCart s.carts user = some cart →
      ∀ item ∈ cart.items, item.product ≠ pid := by
    intro cart hc item hm
    rw [hempty cart hc] at hm
    simp at hm
  obtain ⟨saved1, line, hf1, _, _, hitems1, hl1, hl2, _⟩ :=
    cartAdd_pushed s user ⟨some pid, f1⟩ pid p q1 rfl h2 h3 h4 hq1 hnew hok1
  have hprev : ((findCart s.carts user).map (fun c => c.items)).getD [] = [] := by
    cases hc : findCart s.carts user with
    | none => rfl
    | some cart => simp [hempty cart hc]
  rw [hprev] at hitems1
  have hany : saved1.items.any (fun item => item.product == pid) = true := by
    simp [hitems1, hl1]
  obtain ⟨q3, pre, line2, post, saved2, hq3, hsplit, _, _, hf2, _, _, hitems2, _⟩ :=
    partA (cartAdd s user ⟨some pid, f1⟩).1 ⟨some pid, f2⟩ saved1 rfl hf1 hany hok2
  have hq3b : parseQuantity f2 = some q3 := hq3
  rw [hq2] at hq3b
  have hqq2 : q2 = q3 := Option.some.inj hq3b
  subst hqq2
  refine ⟨saved2, hf2, ?_⟩
  rw [hitems1] at hsplit
  have hpre : pre = [] := by
    cases pre with
    | nil => rfl
    | cons a l =>
      have := congrArg List.length hsplit
      simp at this
  subst hpre
  simp only [List.nil_append, List.cons.injEq] at hsplit
  obtain ⟨hline, hpost⟩ := hsplit
  subst hline hpost
  simp [hitems2, hl1, hl2]

/-! ## Invariants of the runs -/

theorem saveCart_mem {carts : List Cart} {cart c : Cart} (h : c ∈ saveCart carts cart) :
    c ∈ carts ∨ c = cart := by
  unfold saveCart at h
  split at h
  · obtain ⟨d, hd, he⟩ := List.mem_map.mp h
    by_cases hid : d._id = cart._id
    · simp [hid] at he
      exact Or.inr he.symm
    · simp [hid] at he
      exact Or.inl (he ▸ hd)
  · rcases List.mem_append.mp h with h | h
    · exact Or.inl h
    · exact Or.inr (by simpa using h)

theorem bumpQuantity_products (pid : ObjectId) (q : Int) (items : List CartItem) :
    (bumpQuantity pid q items).map (fun item => item.product) =
      items.map (fun item => item.product) := by
  induction items with
  | nil => rfl
  | cons item rest ih =>
    unfold bumpQuantity
    split
    · rfl
    · simp [ih]

theorem setQuantity_products (itemId : ObjectId) (q : Int) (items : List CartItem) :
    (setQuantity itemId q items).map (fun item => item.product) =
      items.map (fun item => item.product) := by
  induction items with
  | nil => rfl
  | cons item rest ih =>
    unfold setQuantity
    split
    · rfl
    · simp [ih]

/-- The cart saved by an add has pairwise distinct products when the cart it
starts from has. -/
theorem cartAfterAdd_nodup (s : Store) (user pid : ObjectId) (q : Int)
    (hinv : ∀ cart ∈ s.carts, (cart.items.map (fun item => item.product)).Nodup) :
    ((cartAfterAdd s user pid q).items.map (fun item => item.product)).Nodup := by
  have hbase : ∀ cart : Cart, (cart.items.map (fun item => item.product)).Nodup →
      ((if cart.items.any (fun item => item.product == pid) then
          bumpQuantity pid q cart.items
        else cart.items ++ [{ _id := s.nextId + 1, product := pid, quantity := q }]).map
        (fun item => item.product)).Nodup := by
    intro cart hnd
    by_cases hany : cart.items.any (fun item => item.product == pid) = true
    · simp only [hany, if_true, bumpQuantity_products]
      exact hnd
    · simp only [hany, Bool.false_eq_true, if_false, List.map_append, List.map_cons, List.map_nil]
      rw [List.nodup_append]
      refine ⟨hnd, List.nodup_singleton _, ?_⟩
      intro a ha hb
      simp only [List.mem_singleton] at hb
      subst hb
      apply hany
      obtain ⟨item, hm, he⟩ := List.mem_map.mp ha
      exact List.any_eq_true.mpr ⟨item, hm, by simpa using he⟩
  unfold cartAfterAdd
  cases hc : findCart s.carts user with
  | none => exact hbase { _id := s.nextId, user := user, items := [] } (by simp)
  | some cart => exact hbase cart (hinv cart (findCart_mem hc))

/-- The carts after an order checkout. -/
theorem ordersCheckout_carts (s : Store) (user : ObjectId) (body : CheckoutBody) :
    (ordersCheckout s user body).1.carts = s.carts ∨
      ∃ cart : Cart,
        (ordersCheckout s user body).1.carts = saveCart s.carts { cart with items := [] } := by
  by_cases hok : (ordersCheckout s user body).2.status = 201
  · obtain ⟨orderProducts, total, _, _, heq⟩ := ordersCheckout_created s user body hok
    rw [heq]
    have hcs : (placeOrder s (newOrder s.nextId user body orderProducts total)).carts =
        s.carts := rfl
    simp only [clearCartAfterOrder]
    split
    · exact Or.inl rfl
    · rw [hcs]
      cases findCart s.carts user with
      | none => exact Or.inl rfl
      | some cart => exact Or.inr ⟨cart, rfl⟩
  · rw [ordersCheckout_failed s user body hok]
    exact Or.inl rfl

/-- The carts after a purchase checkout. -/
theorem purchasesCheckout_carts (persists : Purchase → Bool) (s : Store) (user : ObjectId)
    (body : PurchaseBody) :
    (purchasesCheckout persists s user body).1.carts = s.carts ∨
      ∃ cart : Cart, (purchasesCheckout persists s user body).1.carts =
        saveCart s.carts { cart with items := [] } := by
  by_cases hok : (purchasesCheckout persists s user body).2.status = 201
  · obtain ⟨cart, _, _, _, _, _, _, _, _, hcarts, _⟩ :=
      purchasesCheckout_created persists s user body hok
    exact Or.inr ⟨cart, hcarts⟩
  · left
    unfold purchasesCheckout at hok ⊢
    cases hc : findCart s.carts user with
    | none => rfl
    | some cart =>
      simp only [hc] at hok ⊢
      by_cases he : (cart.items.length == 0) = true
      · simp [he]
      · simp only [he, Bool.false_eq_true, if_false] at hok ⊢
        cases hr : resolved (populate s.products cart.items) with
        | none => rfl
        | some lines =>
          simp only [hr] at hok ⊢
          have hfr := createPurchases_frame persists user body (groupLines lines ([], 0)).1 s
          cases hcp : createPurchases persists user body (groupLines lines ([], 0)).1 s with
          | mk s1 r =>
            rw [hcp] at hfr
            cases r with
            | none => simpa using hfr.2.1
            | some ps => simp [hcp] at hok

theorem nodup_saveCart {carts : List Cart} {cart : Cart}
    (hinv : ∀ c ∈ carts, (c.items.map (fun item => item.product)).Nodup)
    (hc : (cart.items.map (fun item => item.product)).Nodup) :
    ∀ c ∈ saveCart carts cart, (c.items.map (fun item => item.product)).Nodup := by
  intro c hm
  rcases saveCart_mem hm with h | h
  · exact hinv c h
  · rw [h]
    exact hc

/-! ## What each request may change -/

theorem cartGet_frame (s : Store) (user : ObjectId) :
    (cartGet s user).1.orders = s.orders ∧ (cartGet s user).1.products = s.products ∧
    (cartGet s user).1.purchases = s.purchases ∧
    ((cartGet s user).1.carts = s.carts ∨
      (findCart s.carts user = none ∧
        (cartGet s user).1.carts =
          saveCart s.carts { _id := s.nextId, user := user, items := [] })) := by
  unfold cartGet
  cases hc : findCart s.carts user with
  | none => exact ⟨rfl, rfl, rfl, Or.inr ⟨rfl, rfl⟩⟩
  | some cart => exact ⟨rfl, rfl, rfl, Or.inl rfl⟩

theorem cartAdd_frame (s : Store) (user : ObjectId) (body : AddBody) :
    (cartAdd s user body).1.orders = s.orders ∧ (cartAdd s user body).1.products = s.products ∧
    (cartAdd s user body).1.purchases = s.purchases ∧
    ((cartAdd s user body).1.carts = s.carts ∨
      ∃ pid q, (cartAdd s user body).1.carts = saveCart s.carts (cartAfterAdd s user pid q)) := by
  by_cases hok : (cartAdd s user body).2.status = 200
  · obtain ⟨pid, p, q, h1, h2, h3, h4, h5, h6⟩ := cartAdd_ok s user body hok
    rw [cartAdd_eq h1 h2 h3 h4 h5, if_pos h6]
    exact ⟨rfl, rfl, rfl, Or.inr ⟨pid, q, rfl⟩⟩
  · rw [cartAdd_failed s user body hok]
    exact ⟨rfl, rfl, rfl, Or.inl rfl⟩

/-- On the text that `toString()` gives for the id, the handler on texts is
`cartAdd`. -/
theorem cartAddText_canonical (s : Store) (user : ObjectId) (body : AddBody) :
    cartAddText s user (canonicalRequest body) = cartAdd s user body := by
  cases hb : body.productId with
  | none => simp [cartAddText, cartAdd, canonicalRequest, hb]
  | some id => simp [cartAddText, cartAdd, canonicalRequest, hb]

/-- On the text that `toString()` gives for the id, the route on texts is
`postCartAdd`. -/
theorem postCartAddText_canonical (s : Store) (user : ObjectId) (body : AddBody) :
    postCartAddText s user (canonicalRequest body) = postCartAdd s user body := by
  unfold postCartAddText postCartAdd
  rw [cartAddText_canonical]

/-- The add handler on texts touches neither orders nor products nor purchases. -/
theorem cartAddText_frame (s : Store) (user : ObjectId) (body : AddRequest) :
    (cartAddText s user body).1.orders = s.orders ∧
    (cartAddText s user body).1.products = s.products ∧
    (cartAddText s user body).1.purchases = s.purchases := by
  cases hb : body.productId with
  | none => simp [cartAddText, hb]
  | some t =>
    cases t with
    | malformed => simp [cartAddText, hb]
    | spelled pid canonical =>
      unfold cartAddText
      simp only [hb]
      cases findProduct s.products pid with
      | none => exact ⟨rfl, rfl, rfl⟩
      | some p =>
        simp only
        split
        · exact ⟨rfl, rfl, rfl⟩
        · split
          · exact ⟨rfl, rfl, rfl⟩
          · cases parseQuantity body.quantity with
            | none => exact ⟨rfl, rfl, rfl⟩
            | some q =>
              simp only
              by_cases hv : (!validateCart
                  { (match findCart s.carts user with
                      | some c => c
                      | none => { _id := s.nextId, user := user, items := [] }) with
                    items :=
                      if (match findCart s.carts user with
                          | some c => c
                          | none => { _id := s.nextId, user := user, items := [] }).items.any
                          (fun item => item.product == pid && canonical) then
                        bumpQuantity pid q
                          (match findCart s.carts user with
                            | some c => c
                            | none => { _id := s.nextId, user := user, items := [] }).items
                      else
                        (match findCart s.carts user with
                          | some c => c
                          | none => { _id := s.nextId, user := user, items := [] }).items ++
                          [{ _id := s.nextId + 1, product := pid, quantity := q }] }) = true
              · rw [if_pos hv]
                exact ⟨rfl, rfl, rfl⟩
              · rw [if_neg hv]
                exact ⟨rfl, rfl, rfl⟩

theorem cartUpdate_frame (s : Store) (user itemId : ObjectId) (body : UpdateBody) :
    (cartUpdate s user itemId body).1.orders = s.orders ∧
    (cartUpdate s user itemId body).1.products = s.products ∧
    (cartUpdate s user itemId body).1.purchases = s.purchases ∧
    ((cartUpdate s user itemId body).1.carts = s.carts ∨
      ∃ cart q, findCart s.carts user = some cart ∧
        (cartUpdate s user itemId body).1.carts =
          saveCart s.carts { cart with items := setQuantity itemId q cart.items }) := by
  by_cases hok : (cartUpdate s user itemId body).2.status = 200
  · unfold cartUpdate at hok ⊢
    cases h1 : quantityRejected body.quantity with
    | true => simp [h1, badRequest] at hok
    | false =>
      cases hc : findCart s.carts user with
      | none => simp [h1, hc, notFound] at hok
      | some cart =>
        cases h2 : cart.items.any (fun item => item._id == itemId) with
        | false => simp [h1, hc, h2, notFound] at hok
        | true =>
          cases hq : parseIntField body.quantity with
          | none => simp [h1, hc, h2, hq, serverError] at hok
          | some q =>
            cases hv : validateCart { cart with items := setQuantity itemId q cart.items } with
            | false => simp [h1, hc, h2, hq, hv, serverError] at hok
            | true =>
              simp only [h2, hv, Bool.false_eq_true, if_false, Bool.not_true]
              exact ⟨trivial, trivial, trivial, Or.inr ⟨cart, q, rfl, rfl⟩⟩
  · rw [cartUpdate_failed s user itemId body hok]
    exact ⟨rfl, rfl, rfl, Or.inl rfl⟩

theorem cartRemove_frame (s : Store) (user itemId : ObjectId) :
    (cartRemove s user itemId).1.orders = s.orders ∧
    (cartRemove s user itemId).1.products = s.products ∧
    (cartRemove s user itemId).1.purchases = s.purchases ∧
    ((cartRemove s user itemId).1.carts = s.carts ∨
      ∃ cart, findCart s.carts user = some cart ∧
        (cartRemove s user itemId).1.carts =
          saveCart s.carts
            { cart with items := cart.items.eraseP (fun item => item._id == itemId) }) := by
  by_cases hok : (cartRemove s user itemId).2.status = 200
  · unfold cartRemove at hok ⊢
    cases hc : findCart s.carts user with
    | none => simp [hc, notFound] at hok
    | some cart =>
      cases h2 : cart.items.any (fun item => item._id == itemId) with
      | false => simp [hc, h2, notFound] at hok
      | true =>
        cases hv : validateCart
            { cart with items := cart.items.eraseP (fun item => item._id == itemId) } with
        | false => simp [hc, h2, hv, serverError] at hok
        | true =>
          simp only [h2, hv, Bool.false_eq_true, if_false, Bool.not_true]
          exact ⟨trivial, trivial, trivial, Or.inr ⟨cart, rfl, rfl⟩⟩
  · rw [cartRemove_failed s user itemId hok]
    exact ⟨rfl, rfl, rfl, Or.inl rfl⟩

theorem cartClear_frame (s : Store) (user : ObjectId) :
    (cartClear s user).1.orders = s.orders ∧ (cartClear s user).1.products = s.products ∧
    (cartClear s user).1.purchases = s.purchases ∧
    ((cartClear s user).1.carts = s.carts ∨
      ∃ cart, findCart s.carts user = some cart ∧
        (cartClear s user).1.carts = saveCart s.carts { cart with items := [] }) := by
  unfold cartClear
  cases hc : findCart s.carts user with
  | none => exact ⟨rfl, rfl, rfl, Or.inl rfl⟩
  | some cart => exact ⟨rfl, rfl, rfl, Or.inr ⟨cart, rfl, rfl⟩⟩

theorem productUpdate_frame (s : Store) (user id : ObjectId) (body : ProductUpdateBody) :
    (productUpdate s user id body).1.orders = s.orders ∧
    (productUpdate s user id body).1.carts = s.carts ∧
    (productUpdate s user id body).1.purchases = s.purchases := by
  unfold productUpdate
  cases findProduct s.products id with
  | none => exact ⟨rfl, rfl, rfl⟩
  | some product =>
    simp only
    split
    · exact ⟨rfl, rfl, rfl⟩
    · split <;> exact ⟨rfl, rfl, rfl⟩

theorem productDelete_frame (s : Store) (user id : ObjectId) :
    (productDelete s user id).1.orders = s.orders ∧
    (productDelete s user id).1.carts = s.carts ∧
    (productDelete s user id).1.purchases = s.purchases := by
  unfold productDelete
  cases findProduct s.products id with
  | none => exact ⟨rfl, rfl, rfl⟩
  | some product =>
    simp only
    split <;> exact ⟨rfl, rfl, rfl⟩

theorem purchaseStatusUpdate_frame (s : Store) (user id : ObjectId) (status : Option String) :
    (purchaseStatusUpdate s user id status).1.orders = s.orders ∧
    (purchaseStatusUpdate s user id status).1.carts = s.carts ∧
    (purchaseStatusUpdate s user id status).1.products = s.products := by
  unfold purchaseStatusUpdate
  split
  · exact ⟨rfl, rfl, rfl⟩
  · cases findPurchase s.purchases id with
    | none => exact ⟨rfl, rfl, rfl⟩
    | some purchase =>
      simp only
      split
      · exact ⟨rfl, rfl, rfl⟩
      · split <;> exact ⟨rfl, rfl, rfl⟩

/-- What the order status update may change: nothing, or the status of the
order that `findById` returned. -/
theorem orderStatusUpdate_frame (s : Store) (user id : ObjectId) (status : Option String) :
    (orderStatusUpdate s user id status).1.carts = s.carts ∧
    (orderStatusUpdate s user id status).1.products = s.products ∧
    (orderStatusUpdate s user id status).1.purchases = s.purchases ∧
    ((orderStatusUpdate s user id status).1.orders = s.orders ∨
      ∃ order v, findOrder s.orders id = some order ∧
        (orderStatusUpdate s user id status).1.orders =
          saveOrder { order with status := v } s.orders) := by
  unfold orderStatusUpdate
  split
  · exact ⟨rfl, rfl, rfl, Or.inl rfl⟩
  · cases hf : findOrder s.orders id with
    | none => exact ⟨rfl, rfl, rfl, Or.inl rfl⟩
    | some order =>
      simp only
      split
      · exact ⟨rfl, rfl, rfl, Or.inl rfl⟩
      · split
        · exact ⟨rfl, rfl, rfl, Or.inl rfl⟩
        · exact ⟨rfl, rfl, rfl, Or.inr ⟨order, _, rfl, rfl⟩⟩

theorem purchasesCheckout_orders (persists : Purchase → Bool) (s : Store) (user : ObjectId)
    (body : PurchaseBody) : (purchasesCheckout persists s user body).1.orders = s.orders := by
  by_cases hok : (purchasesCheckout persists s user body).2.status = 201
  · obtain ⟨_, _, _, _, _, _, _, _, _, _, _, horders, _⟩ :=
      purchasesCheckout_created persists s user body hok
    exact horders
  · unfold purchasesCheckout at hok ⊢
    cases hc : findCart s.carts user with
    | none => rfl
    | some cart =>
      simp only [hc] at hok ⊢
      by_cases he : (cart.items.length == 0) = true
      · simp [he]
      · simp only [he, Bool.false_eq_true, if_false] at hok ⊢
        cases hr : resolved (populate s.products cart.items) with
        | none => rfl
        | some lines =>
          simp only [hr] at hok ⊢
          have hfr := createPurchases_frame persists user body (groupLines lines ([], 0)).1 s
          cases hcp : createPurchases persists user body (groupLines lines ([], 0)).1 s with
          | mk s1 r =>
            rw [hcp] at hfr
            cases r with
            | none => simpa using hfr.2.2.1
            | some ps => simp [hcp] at hok

/-- Saving an order with a new status keeps the `_id` and the line items of
every stored order, position by position. -/
theorem saveOrder_lines {orders : List Order} {id : ObjectId} {order : Order}
    (h : findOrder orders id = some order) (v : String) :
    (saveOrder { order with status := v } orders).map (fun o => (o._id, o.products)) =
      orders.map (fun o => (o._id, o.products)) := by
  have hid : order._id = id := by
    unfold findOrder at h
    simpa using List.find?_some h
  unfold findOrder at h
  induction orders with
  | nil => rfl
  | cons o rest ih =>
    by_cases ho : o._id = id
    · have hoo : o = order := by simpa [List.find?_cons, ho] using h
      subst hoo
      simp [saveOrder]
    · have hb : (o._id == id) = false := by simp [ho]
      simp only [List.find?_cons, hb] at h
      have hne : ¬ o._id = order._id := by rw [hid]; exact ho
      simp [saveOrder, hne, ih h]

/-- One request keeps the products of every cart pairwise distinct, unless it
is an add whose `productId` is a text other than the one that `toString()` gives
for the id it casts to. -/
theorem step_distinct_products {s t : Store} (hstep : Step s t)
    (hinv : ∀ cart ∈ s.carts, (cart.items.map (fun item => item.product)).Nodup) :
    (∀ cart ∈ t.carts, (cart.items.map (fun item => item.product)).Nodup) ∨
      ∃ user pid quantity,
        t = (cartAddText s user ⟨some (.spelled pid false), quantity⟩).1 := by
  cases hstep with
  | cartGet s user =>
    refine Or.inl ?_
    rcases (cartGet_frame s user).2.2.2 with h | ⟨_, h⟩
    · rw [h]; exact hinv
    · rw [h]; exact nodup_saveCart hinv (by simp)
  | cartAdd s user body =>
    refine Or.inl ?_
    rcases (cartAdd_frame s user body).2.2.2 with h | ⟨pid, q, h⟩
    · rw [h]; exact hinv
    · rw [h]; exact nodup_saveCart hinv (cartAfterAdd_nodup s user pid q hinv)
  | cartUpdate s user itemId body =>
    refine Or.inl ?_
    rcases (cartUpdate_frame s user itemId body).2.2.2 with h | ⟨cart, q, hc, h⟩
    · rw [h]; exact hinv
    · rw [h]
      refine nodup_saveCart hinv ?_
      simp only [setQuantity_products]
      exact hinv cart (findCart_mem hc)
  | cartRemove s user itemId =>
    refine Or.inl ?_
    rcases (cartRemove_frame s user itemId).2.2.2 with h | ⟨cart, hc, h⟩
    · rw [h]; exact hinv
    · rw [h]
      refine nodup_saveCart hinv ?_
      exact List.Nodup.sublist ((List.eraseP_sublist cart.items).map _)
        (hinv cart (findCart_mem hc))
  | cartClear s user =>
    refine Or.inl ?_
    rcases (cartClear_frame s user).2.2.2 with h | ⟨cart, _, h⟩
    · rw [h]; exact hinv
    · rw [h]; exact nodup_saveCart hinv (by simp)
  | ordersCheckout s user body =>
    refine Or.inl ?_
    rcases ordersCheckout_carts s user body with h | ⟨cart, h⟩
    · rw [h]; exact hinv
    · rw [h]; exact nodup_saveCart hinv (by simp)
  | purchasesCheckout persists s user body =>
    refine Or.inl ?_
    rcases purchasesCheckout_carts persists s user body with h | ⟨cart, h⟩
    · rw [h]; exact hinv
    · rw [h]; exact nodup_saveCart hinv (by simp)
  | productUpdate s user id body =>
    refine Or.inl ?_
    rw [(productUpdate_frame s user id body).2.1]; exact hinv
  | productDelete s user id =>
    refine Or.inl ?_
    rw [(productDelete_frame s user id).2.1]; exact hinv
  | orderStatusUpdate s user id status =>
    refine Or.inl ?_
    rw [(orderStatusUpdate_frame s user id status).1]; exact hinv
  | purchaseStatusUpdate s user id status =>
    refine Or.inl ?_
    rw [(purchaseStatusUpdate_frame s user id status).2.1]; exact hinv
  | cartAddText s user body =>
    cases hb : body.productId with
    | none =>
      refine Or.inl ?_
      simp only [cartAddText, hb]
      exact hinv
    | some t =>
      cases t with
      | malformed =>
        refine Or.inl ?_
        simp only [cartAddText, hb]
        exact hinv
      | spelled pid canonical =>
        have hbody : body = ⟨some (.spelled pid canonical), body.quantity⟩ := by
          cases body with
          | mk p q =>
            simp only at hb
            subst hb
            rfl
        cases canonical with
        | true =>
          refine Or.inl ?_
          have hcan : body = canonicalRequest ⟨some pid, body.quantity⟩ := hbody
          rw [hcan, cartAddText_canonical]
          rcases (cartAdd_frame s user ⟨some pid, body.quantity⟩).2.2.2 with h | ⟨pid2, q, h⟩
          · rw [h]; exact hinv
          · rw [h]; exact nodup_saveCart hinv (cartAfterAdd_nodup s user pid2 q hinv)
        | false => exact Or.inr ⟨user, pid, body.quantity, by rw [← hbody]⟩

/-- One request keeps the `_id` and the line items of every stored order, and
only appends to the collection. -/
theorem step_order_lines {s t : Store} (hstep : Step s t) :
    ∃ added, t.orders.map (fun o => (o._id, o.products)) =
      s.orders.map (fun o => (o._id, o.products)) ++ added := by
  cases hstep with
  | cartGet s user => exact ⟨[], by rw [(cartGet_frame s user).1]; simp⟩
  | cartAdd s user body => exact ⟨[], by rw [(cartAdd_frame s user body).1]; simp⟩
  | cartAddText s user body => exact ⟨[], by rw [(cartAddText_frame s user body).1]; simp⟩
  | cartUpdate s user itemId body =>
    exact ⟨[], by rw [(cartUpdate_frame s user itemId body).1]; simp⟩
  | cartRemove s user itemId => exact ⟨[], by rw [(cartRemove_frame s user itemId).1]; simp⟩
  | cartClear s user => exact ⟨[], by rw [(cartClear_frame s user).1]; simp⟩
  | ordersCheckout s user body =>
    by_cases hok : (ordersCheckout s user body).2.status = 201
    · obtain ⟨orderProducts, total, _, _, heq⟩ := ordersCheckout_created s user body hok
      refine ⟨[(s.nextId, orderProducts)], ?_⟩
      rw [heq]
      simp [clearCartAfterOrder_orders, placeOrder, newOrder]
    · exact ⟨[], by rw [ordersCheckout_failed s user body hok]; simp⟩
  | purchasesCheckout persists s user body =>
    exact ⟨[], by rw [purchasesCheckout_orders persists s user body]; simp⟩
  | productUpdate s user id body =>
    exact ⟨[], by rw [(productUpdate_frame s user id body).1]; simp⟩
  | productDelete s user id => exact ⟨[], by rw [(productDelete_frame s user id).1]; simp⟩
  | orderStatusUpdate s user id status =>
    rcases (orderStatusUpdate_frame s user id status).2.2.2 with h | ⟨order, v, hf, h⟩
    · exact ⟨[], by rw [h]; simp⟩
    · exact ⟨[], by rw [h, saveOrder_lines hf v]; simp⟩
  | purchaseStatusUpdate s user id status =>
    exact ⟨[], by rw [(purchaseStatusUpdate_frame s user id status).1]; simp⟩

/-- C14. Along every sequence of requests (cart operations, checkouts, product
updates and deletes, status updates) the orders stored at the start keep their
position, their `_id` and their line items, with product id, title, price,
quantity and seller as first stored; later requests only append orders. -/
theorem order_lines_immutable (s t : Store) (hrun : Relation.ReflTransGen Step s t) :
    ∃ added, t.orders.map (fun o => (o._id, o.products)) =
      s.orders.map (fun o => (o._id, o.products)) ++ added := by
  induction hrun with
  | refl => exact ⟨[], by simp⟩
  | tail _ hstep ih =>
    obtain ⟨a1, h1⟩ := ih
    obtain ⟨a2, h2⟩ := step_order_lines hstep
    exact ⟨a1 ++ a2, by rw [h2, h1, List.append_assoc]⟩

/-- The run of the scenario: product update, product delete, status update. -/
theorem afterCatalogChanges_run : Relation.ReflTransGen Step afterFirstSale afterCatalogChanges :=
  Relation.ReflTransGen.tail
    (Relation.ReflTransGen.tail
      (Relation.ReflTransGen.single (Step.productUpdate afterFirstSale 100 1 repriceLamp))
      (Step.productDelete (productUpdate afterFirstSale 100 1 repriceLamp).1 100 1))
    (Step.orderStatusUpdate
      (productDelete (productUpdate afterFirstSale 100 1 repriceLamp).1 100 1).1
      7 64 (some "Delivered"))

/-- C14 on the scenario: the seller renames and reprices the sold product, then
deletes it, and the buyer sets the order to "Delivered"; the stored order still
has the line it was created with. -/
theorem order_lines_immutable_witness :
    Relation.ReflTransGen Step afterFirstSale afterCatalogChanges ∧
    (productUpdate afterFirstSale 100 1 repriceLamp).1.products.map
      (fun p => (p._id, p.title, p.price)) = [(1, "Desk lamp", 99), (2, "Book", 5)] ∧
    afterCatalogChanges.products.map (fun p => p._id) = [2] ∧
    afterCatalogChanges.orders.map (fun o => (o.status, o.products)) =
      [("Delivered",
        [{ productId := 1, title := "Lamp", price := 10, quantity := 1, seller := 100 }])] ∧
    ∃ added, afterCatalogChanges.orders.map (fun o => (o._id, o.products)) =
      afterFirstSale.orders.map (fun o => (o._id, o.products)) ++ added :=
  ⟨afterCatalogChanges_run, by decide, by decide, by decide,
    order_lines_immutable afterFirstSale afterCatalogChanges afterCatalogChanges_run⟩

/-! ## Quantities accepted by the add route -/

/-- C21, the code at the failing input. The cart of user 7 holds two units of
product 1.  An add of product 1 with quantity -1 answers 200 and leaves one
unit on the line, and an add with quantity 0 answers 200 and leaves the line at
two units: a request whose quantity is not positive succeeds, and a successful
add does not increase the line's quantity.  The same quantities are refused
for a product that is not yet in the cart. -/
theorem cart_add_nonpositive_quantity :
    (findCart demoStore.carts 7).map
      (fun c => c.items.map (fun i => (i.product, i.quantity))) = some [(1, 2), (2, 1)] ∧
    (postCartAdd demoStore 7 ⟨some 1, .number (-1)⟩).2.status = 200 ∧
    (findCart (postCartAdd demoStore 7 ⟨some 1, .number (-1)⟩).1.carts 7).map
      (fun c => c.items.map (fun i => (i.product, i.quantity))) = some [(1, 1), (2, 1)] ∧
    (postCartAdd demoStore 7 ⟨some 1, .number 0⟩).2.status = 200 ∧
    (findCart (postCartAdd demoStore 7 ⟨some 1, .number 0⟩).1.carts 7).map
      (fun c => c.items.map (fun i => (i.product, i.quantity))) = some [(1, 2), (2, 1)] ∧
    (postCartAdd demoStore 8 ⟨some 1, .number (-1)⟩).2.status = 500 ∧
    (postCartAdd demoStore 8 ⟨some 1, .number 0⟩).2.status = 500 ∧
    (postCartAdd demoStore 7 ⟨some 1, .notNumeric⟩).2.status = 500 := by
  decide

/-! ## Clearing the cart -/

/-- C25, as the code has it. For a user who has a cart, clearing answers 200
and the user's cart afterwards is the same document, same `_id` and owner, with
an empty `items` collection.  For a user without a cart, clearing answers 404
"Cart not found" and leaves the store as it was: no cart is created. -/
theorem cart_clear_effect (s : Store) (user : ObjectId) :
    (∀ cart, findCart s.carts user = some cart →
      (cartClear s user).2.status = 200 ∧
      (cartClear s user).2.data = some { cart with items := [] } ∧
      findCart (cartClear s user).1.carts user = some { cart with items := [] }) ∧
    (findCart s.carts user = none → cartClear s user = (s, notFound "Cart not found")) := by
  constructor
  · intro cart hc
    have he : cartClear s user =
        ({ s with carts := saveCart s.carts { cart with items := [] } },
          { status := 200, message := "Cart cleared successfully",
            data := some { cart with items := [] } }) := by
      unfold cartClear
      simp only [hc]
    rw [he]
    exact ⟨rfl, rfl, findCart_saveCart hc []⟩
  · intro hc
    unfold cartClear
    simp only [hc]

/-- C25, amended statement on the scenario: user 7 keeps cart 50, emptied, and
user 8, who has no cart, gets 404. -/
theorem cart_clear_effect_witness :
    findCart demoStore.carts 7 = some demoCart ∧
    findCart demoStore.carts 8 = none ∧
    ((cartClear demoStore 7).2.status = 200 ∧
      (cartClear demoStore 7).2.data = some { demoCart with items := [] } ∧
      findCart (cartClear demoStore 7).1.carts 7 = some { demoCart with items := [] }) ∧
    cartClear demoStore 8 = (demoStore, notFound "Cart not found") :=
  ⟨by decide, by decide, (cart_clear_effect demoStore 7).1 demoCart (by decide),
    (cart_clear_effect demoStore 8).2 (by decide)⟩

/-- C25 as stated fails: for user 8, who has no cart, clearing does not succeed
and no cart exists for that user afterwards. -/
theorem cart_clear_counterexample :
    findCart demoStore.carts 8 = none ∧
    (cartClear demoStore 8).2.status = 404 ∧
    (cartClear demoStore 8).2.message = "Cart not found" ∧
    findCart (cartClear demoStore 8).1.carts 8 = none := by
  decide

/-! ## Status updates -/

theorem statusRejected_false_iff (status : Option String) :
    statusRejected status = false ↔ ∃ v, status = some v ∧ v ∈ statusValues := by
  cases status with
  | none => simp [statusRejected]
  | some v =>
    simp only [statusRejected, Bool.not_eq_false', Bool.and_eq_true, bne_iff_ne, ne_eq,
      Option.some.injEq, exists_eq_left']
    constructor
    · rintro ⟨_, h⟩
      simpa using h
    · intro h
      refine ⟨?_, by simpa using h⟩
      rintro rfl
      revert h
      decide

theorem validateOrder_status {o : Order} {v : String} (hv : v ∈ statusValues)
    (h : validateOrder o = true) : validateOrder { o with status := v } = true := by
  unfold validateOrder at h ⊢
  simp only [Bool.and_eq_true] at h ⊢
  obtain ⟨⟨⟨⟨⟨⟨h1, h2⟩, h3⟩, h4⟩, _⟩, h6⟩, h7⟩ := h
  exact ⟨⟨⟨⟨⟨⟨h1, h2⟩, h3⟩, h4⟩, by simpa using hv⟩, h6⟩, h7⟩

theorem validatePurchase_status {p : Purchase} {v : String} (hv : v ∈ statusValues)
    (h : validatePurchase p = true) : validatePurchase { p with status := v } = true := by
  unfold validatePurchase at h ⊢
  simp only [Bool.and_eq_true] at h ⊢
  obtain ⟨⟨⟨⟨h1, h2⟩, _⟩, h4⟩, h5⟩ := h
  exact ⟨⟨⟨⟨h1, h2⟩, by simpa using hv⟩, h4⟩, h5⟩

/-- The order status handler once the status value has passed the first check
and the order has been found. -/
theorem orderStatusUpdate_eq {s : Store} {user id : ObjectId} {v : String} {order : Order}
    (hv : v ∈ statusValues) (hf : findOrder s.orders id = some order) :
    orderStatusUpdate s user id (some v) =
      if order.userId != user then (s, forbidden "Not authorized to update this order")
      else if !validateOrder { order with status := v } then
        (s, serverError "Server error while updating order status")
      else
        ({ s with orders := saveOrder { order with status := v } s.orders },
          { status := 200, message := "Order status updated successfully",
            data := some { order with status := v } }) := by
  have hr : statusRejected (some v) = false :=
    (statusRejected_false_iff (some v)).mpr ⟨v, rfl, hv⟩
  unfold orderStatusUpdate
  simp only [hr, Bool.false_eq_true, if_false, hf, Option.getD_some]

/-- The purchase status handler once the status value has passed the first
check and the purchase has been found. -/
theorem purchaseStatusUpdate_eq {s : Store} {user id : ObjectId} {v : String}
    {purchase : Purchase}
    (hv : v ∈ statusValues) (hf : findPurchase s.purchases id = some purchase) :
    purchaseStatusUpdate s user id (some v) =
      if purchase.seller != user then (s, forbidden "Not authorized to update this purchase")
      else if !validatePurchase { purchase with status := v } then
        (s, serverError "Server error while updating purchase status")
      else
        ({ s with purchases := savePurchase { purchase with status := v } s.purchases },
          { status := 200, message := "Purchase status updated successfully",
            data := some { purchase with status := v } }) := by
  have hr : statusRejected (some v) = false :=
    (statusRejected_false_iff (some v)).mpr ⟨v, rfl, hv⟩
  unfold purchaseStatusUpdate
  simp only [hr, Bool.false_eq_true, if_false, hf, Option.getD_some]

/-- A status value that fails the first check is answered 400 and nothing is
read or written. -/
theorem statusUpdate_rejected (s : Store) (user id : ObjectId) (status : Option String)
    (h : statusRejected status = true) :
    orderStatusUpdate s user id status = (s, badRequest "Valid status is required") ∧
    purchaseStatusUpdate s user id status = (s, badRequest "Valid status is required") := by
  unfold orderStatusUpdate purchaseStatusUpdate
  simp [h]

/-- Saving an order loaded by `findById` replaces that document in place. -/
theorem saveOrder_split {orders : List Order} {id : ObjectId} {order : Order}
    (h : findOrder orders id = some order) (saved : Order) (hid : saved._id = order._id) :
    ∃ pre post, orders = pre ++ order :: post ∧ (∀ x ∈ pre, x._id ≠ id) ∧
      saveOrder saved orders = pre ++ saved :: post := by
  have hoid : order._id = id := by
    unfold findOrder at h
    simpa using List.find?_some h
  unfold findOrder at h
  induction orders with
  | nil => simp at h
  | cons o rest ih =>
    by_cases ho : o._id = id
    · have hoo : o = order := by simpa [List.find?_cons, ho] using h
      subst hoo
      exact ⟨[], rest, rfl, by simp, by simp [saveOrder, hid]⟩
    · have hb : (o._id == id) = false := by simp [ho]
      simp only [List.find?_cons, hb] at h
      obtain ⟨pre, post, h1, h2, h3⟩ := ih h
      have hne : ¬ o._id = saved._id := by rw [hid, hoid]; exact ho
      refine ⟨o :: pre, post, by simp [h1], ?_, by simp [saveOrder, hne, h3]⟩
      intro x hx
      rcases List.mem_cons.mp hx with rfl | hm
      · exact ho
      · exact h2 x hm

/-- Saving a purchase loaded by `findById` replaces that document in place. -/
theorem savePurchase_split {purchases : List Purchase} {id : ObjectId} {purchase : Purchase}
    (h : findPurchase purchases id = some purchase) (saved : Purchase)
    (hid : saved._id = purchase._id) :
    ∃ pre post, purchases = pre ++ purchase :: post ∧ (∀ x ∈ pre, x._id ≠ id) ∧
      savePurchase saved purchases = pre ++ saved :: post := by
  have hoid : purchase._id = id := by
    unfold findPurchase at h
    simpa using List.find?_some h
  unfold findPurchase at h
  induction purchases with
  | nil => simp at h
  | cons o rest ih =>
    by_cases ho : o._id = id
    · have hoo : o = purchase := by simpa [List.find?_cons, ho] using h
      subst hoo
      exact ⟨[], rest, rfl, by simp, by simp [savePurchase, hid]⟩
    · have hb : (o._id == id) = false := by simp [ho]
      simp only [List.find?_cons, hb] at h
      obtain ⟨pre, post, h1, h2, h3⟩ := ih h
      have hne : ¬ o._id = saved._id := by rw [hid, hoid]; exact ho
      refine ⟨o :: pre, post, by simp [h1], ?_, by simp [savePurchase, hne, h3]⟩
      intro x hx
      rcases List.mem_cons.mp hx with rfl | hm
      · exact ho
      · exact h2 x hm

theorem findOrder_mem {orders : List Order} {id : ObjectId} {order : Order}
    (h : findOrder orders id = some order) : order ∈ orders := by
  unfold findOrder at h
  exact List.mem_of_find?_eq_some h

theorem findPurchase_mem {purchases : List Purchase} {id : ObjectId} {purchase : Purchase}
    (h : findPurchase purchases id = some purchase) : purchase ∈ purchases := by
  unfold findPurchase at h
  exact List.mem_of_find?_eq_some h

/-! ## Stored orders and purchases are valid -/

theorem saveOrder_mem {orders : List Order} {saved o : Order} (h : o ∈ saveOrder saved orders) :
    o ∈ orders ∨ o = saved := by
  induction orders with
  | nil => simp [saveOrder] at h
  | cons a rest ih =>
    unfold saveOrder at h
    split at h
    · rcases List.mem_cons.mp h with h | h
      · exact Or.inr h
      · exact Or.inl (List.mem_cons_of_mem _ h)
    · rcases List.mem_cons.mp h with h | h
      · exact Or.inl (h ▸ List.mem_cons_self _ _)
      · rcases ih h with h | h
        · exact Or.inl (List.mem_cons_of_mem _ h)
        · exact Or.inr h

theorem savePurchase_mem {purchases : List Purchase} {saved p : Purchase}
    (h : p ∈ savePurchase saved purchases) : p ∈ purchases ∨ p = saved := by
  induction purchases with
  | nil => simp [savePurchase] at h
  | cons a rest ih =>
    unfold savePurchase at h
    split at h
    · rcases List.mem_cons.mp h with h | h
      · exact Or.inr h
      · exact Or.inl (List.mem_cons_of_mem _ h)
    · rcases List.mem_cons.mp h with h | h
      · exact Or.inl (h ▸ List.mem_cons_self _ _)
      · rcases ih h with h | h
        · exact Or.inl (List.mem_cons_of_mem _ h)
        · exact Or.inr h

/-- Whatever the purchase loop stores has passed validation. -/
theorem createPurchases_saved_valid (persists : Purchase → Bool) (buyer : ObjectId)
    (body : PurchaseBody) :
    ∀ (gs : List SellerGroup) (s : Store),
      ∃ saved, (createPurchases persists buyer body gs s).1.purchases = s.purchases ++ saved ∧
        ∀ p ∈ saved, validatePurchase p = true
  | [], s => ⟨[], by simp [createPurchases]⟩
  | g :: rest, s => by
    unfold createPurchases
    by_cases hv : (validatePurchase (newPurchase s.nextId buyer body g)
        && persists (newPurchase s.nextId buyer body g)) = true
    · obtain ⟨saved, h1, h2⟩ := createPurchases_saved_valid persists buyer body rest
        { s with purchases := s.purchases ++ [newPurchase s.nextId buyer body g],
                 nextId := s.nextId + 1 }
      have hvalid : validatePurchase (newPurchase s.nextId buyer body g) = true := by
        simp only [Bool.and_eq_true] at hv
        exact hv.1
      simp only [hv, if_true]
      refine ⟨newPurchase s.nextId buyer body g :: saved, ?_, ?_⟩
      · split <;> rename_i s2 r heq <;> rw [heq] at h1 <;> simpa using h1
      · intro p hp
        rcases List.mem_cons.mp hp with rfl | hm
        · exact hvalid
        · exact h2 p hm
    · exact ⟨[], by simp [hv]⟩

/-- The purchases after a purchase checkout: the old ones and valid new ones. -/
theorem purchasesCheckout_saved_valid (persists : Purchase → Bool) (s : Store)
    (user : ObjectId) (body : PurchaseBody) :
    ∃ saved, (purchasesCheckout persists s user body).1.purchases = s.purchases ++ saved ∧
      ∀ p ∈ saved, validatePurchase p = true := by
  unfold purchasesCheckout
  cases hc : findCart s.carts user with
  | none => exact ⟨[], by simp⟩
  | some cart =>
    simp only
    split
    · exact ⟨[], by simp⟩
    · cases hr : resolved (populate s.products cart.items) with
      | none => exact ⟨[], by simp⟩
      | some lines =>
        simp only
        obtain ⟨saved, h1, h2⟩ := createPurchases_saved_valid persists user body
          (groupLines lines ([], 0)).1 s
        refine ⟨saved, ?_, h2⟩
        cases hcp : createPurchases persists user body (groupLines lines ([], 0)).1 s with
        | mk s1 r =>
          rw [hcp] at h1
          cases r <;> simpa using h1

theorem ordersCheckout_purchases (s : Store) (user : ObjectId) (body : CheckoutBody) :
    (ordersCheckout s user body).1.purchases = s.purchases := by
  by_cases hok : (ordersCheckout s user body).2.status = 201
  · obtain ⟨orderProducts, total, _, _, heq⟩ := ordersCheckout_created s user body hok
    rw [heq]
    simp [clearCartAfterOrder_purchases, placeOrder]
  · rw [ordersCheckout_failed s user body hok]

/-- One request keeps every stored order and purchase valid. -/
theorem step_records_valid {s t : Store} (hstep : Step s t)
    (ho : ∀ o ∈ s.orders, validateOrder o = true)
    (hp : ∀ p ∈ s.purchases, validatePurchase p = true) :
    (∀ o ∈ t.orders, validateOrder o = true) ∧
    (∀ p ∈ t.purchases, validatePurchase p = true) := by
  cases hstep with
  | cartGet s user =>
    rw [(cartGet_frame s user).1, (cartGet_frame s user).2.2.1]; exact ⟨ho, hp⟩
  | cartAdd s user body =>
    rw [(cartAdd_frame s user body).1, (cartAdd_frame s user body).2.2.1]; exact ⟨ho, hp⟩
  | cartAddText s user body =>
    rw [(cartAddText_frame s user body).1, (cartAddText_frame s user body).2.2]; exact ⟨ho, hp⟩
  | cartUpdate s user itemId body =>
    rw [(cartUpdate_frame s user itemId body).1, (cartUpdate_frame s user itemId body).2.2.1]
    exact ⟨ho, hp⟩
  | cartRemove s user itemId =>
    rw [(cartRemove_frame s user itemId).1, (cartRemove_frame s user itemId).2.2.1]
    exact ⟨ho, hp⟩
  | cartClear s user =>
    rw [(cartClear_frame s user).1, (cartClear_frame s user).2.2.1]; exact ⟨ho, hp⟩
  | ordersCheckout s user body =>
    rw [ordersCheckout_purchases]
    refine ⟨?_, hp⟩
    by_cases hok : (ordersCheckout s user body).2.status = 201
    · obtain ⟨orderProducts, total, _, hv, heq⟩ := ordersCheckout_created s user body hok
      rw [heq]
      simp only [clearCartAfterOrder_orders, placeOrder]
      intro o hm
      rcases List.mem_append.mp hm with h | h
      · exact ho o h
      · simp only [List.mem_singleton] at h
        rw [h]
        exact hv
    · rw [ordersCheckout_failed s user body hok]
      exact ho
  | purchasesCheckout persists s user body =>
    rw [purchasesCheckout_orders]
    refine ⟨ho, ?_⟩
    obtain ⟨saved, h1, h2⟩ := purchasesCheckout_saved_valid persists s user body
    rw [h1]
    intro p hm
    rcases List.mem_append.mp hm with h | h
    · exact hp p h
    · exact h2 p h
  | productUpdate s user id body =>
    rw [(productUpdate_frame s user id body).1, (productUpdate_frame s user id body).2.2]
    exact ⟨ho, hp⟩
  | productDelete s user id =>
    rw [(productDelete_frame s user id).1, (productDelete_frame s user id).2.2]
    exact ⟨ho, hp⟩
  | orderStatusUpdate s user id status =>
    rw [(orderStatusUpdate_frame s user id status).2.2.1]
    refine ⟨?_, hp⟩
    by_cases hr : statusRejected status = true
    · rw [(statusUpdate_rejected s user id status hr).1]
      exact ho
    · obtain ⟨v, hs, hv⟩ := (statusRejected_false_iff status).mp (by simpa using hr)
      subst hs
      cases hf : findOrder s.orders id with
      | none =>
        have : orderStatusUpdate s user id (some v) = (s, notFound "Order not found") := by
          unfold orderStatusUpdate
          simp [hr, hf]
        rw [this]
        exact ho
      | some order =>
        rw [orderStatusUpdate_eq hv hf]
        split
        · exact ho
        · split
          · exact ho
          · intro o hm
            rcases saveOrder_mem hm with h | h
            · exact ho o h
            · rw [h]
              exact validateOrder_status hv (ho order (findOrder_mem hf))
  | purchaseStatusUpdate s user id status =>
    rw [(purchaseStatusUpdate_frame s user id status).1]
    refine ⟨ho, ?_⟩
    by_cases hr : statusRejected status = true
    · rw [(statusUpdate_rejected s user id status hr).2]
      exact hp
    · obtain ⟨v, hs, hv⟩ := (statusRejected_false_iff status).mp (by simpa using hr)
      subst hs
      cases hf : findPurchase s.purchases id with
      | none =>
        have : purchaseStatusUpdate s user id (some v) =
            (s, notFound "Purchase not found") := by
          unfold purchaseStatusUpdate
          simp [hr, hf]
        rw [this]
        exact hp
      | some purchase =>
        rw [purchaseStatusUpdate_eq hv hf]
        split
        · exact hp
        · split
          · exact hp
          · intro p hm
            rcases savePurchase_mem hm with h | h
            · exact hp p h
            · rw [h]
              exact validatePurchase_status hv (hp purchase (findPurchase_mem hf))

/-- In a reachable store every stored order and purchase passes the validation
of its schema. -/
theorem reachable_records_valid {s : Store} (hreach : Reachable s) :
    (∀ o ∈ s.orders, validateOrder o = true) ∧
    (∀ p ∈ s.purchases, validatePurchase p = true) := by
  induction hreach with
  | init s _ horders hpurchases =>
    rw [horders, hpurchases]
    simp
  | step _ hstep ih => exact step_records_valid hstep ih.1 ih.2

theorem findOrder_split {pre post : List Order} {saved : Order} {id : ObjectId}
    (hpre : ∀ x ∈ pre, x._id ≠ id) (hid : saved._id = id) :
    findOrder (pre ++ saved :: post) id = some saved := by
  unfold findOrder
  rw [List.find?_append]
  have : pre.find? (fun o => o._id == id) = none := by
    rw [List.find?_eq_none]
    intro x hx
    simpa using hpre x hx
  simp [this, hid]

theorem findPurchase_split {pre post : List Purchase} {saved : Purchase} {id : ObjectId}
    (hpre : ∀ x ∈ pre, x._id ≠ id) (hid : saved._id = id) :
    findPurchase (pre ++ saved :: post) id = some saved := by
  unfold findPurchase
  rw [List.find?_append]
  have : pre.find? (fun o => o._id == id) = none := by
    rw [List.find?_eq_none]
    intro x hx
    simpa using hpre x hx
  simp [this, hid]

theorem findOrder_id {orders : List Order} {id : ObjectId} {order : Order}
    (h : findOrder orders id = some order) : order._id = id := by
  unfold findOrder at h
  simpa using List.find?_some h

theorem findPurchase_id {purchases : List Purchase} {id : ObjectId} {purchase : Purchase}
    (h : findPurchase purchases id = some purchase) : purchase._id = id := by
  unfold findPurchase at h
  simpa using List.find?_some h

/-- An authorized update of a valid stored order to one of the five values
succeeds and replaces the order, in place, by itself with the new status. -/
theorem orderStatusUpdate_authorized {s : Store} {user id : ObjectId} {v : String}
    {order : Order}
    (hv : v ∈ statusValues) (hf : findOrder s.orders id = some order)
    (hauth : order.userId = user) (hvalid : validateOrder order = true) :
    (orderStatusUpdate s user id (some v)).2 =
      { status := 200, message := "Order status updated successfully",
        data := some { order with status := v } } ∧
    findOrder (orderStatusUpdate s user id (some v)).1.orders id =
      some { order with status := v } ∧
    (∃ pre post, s.orders = pre ++ order :: post ∧
      (orderStatusUpdate s user id (some v)).1.orders =
        pre ++ { order with status := v } :: post) ∧
    (orderStatusUpdate s user id (some v)).1.products = s.products ∧
    (orderStatusUpdate s user id (some v)).1.carts = s.carts ∧
    (orderStatusUpdate s user id (some v)).1.purchases = s.purchases := by
  have hb : (order.userId != user) = false := by simp [hauth]
  have hval := validateOrder_status hv hvalid
  have he : orderStatusUpdate s user id (some v) =
      ({ s with orders := saveOrder { order with status := v } s.orders },
        { status := 200, message := "Order status updated successfully",
          data := some { order with status := v } }) := by
    rw [orderStatusUpdate_eq hv hf]
    simp only [hb, Bool.false_eq_true, if_false, hval, Bool.not_true]
  rw [he]
  obtain ⟨pre, post, h1, h2, h3⟩ := saveOrder_split hf { order with status := v } rfl
  refine ⟨rfl, ?_, ⟨pre, post, h1, h3⟩, rfl, rfl, rfl⟩
  show findOrder (saveOrder { order with status := v } s.orders) id = _
  rw [h3]
  have hid : order._id = id := findOrder_id hf
  exact findOrder_split h2 hid

/-- The same for a purchase and its seller. -/
theorem purchaseStatusUpdate_authorized {s : Store} {user id : ObjectId} {v : String}
    {purchase : Purchase}
    (hv : v ∈ statusValues) (hf : findPurchase s.purchases id = some purchase)
    (hauth : purchase.seller = user) (hvalid : validatePurchase purchase = true) :
    (purchaseStatusUpdate s user id (some v)).2 =
      { status := 200, message := "Purchase status updated successfully",
        data := some { purchase with status := v } } ∧
    findPurchase (purchaseStatusUpdate s user id (some v)).1.purchases id =
      some { purchase with status := v } ∧
    (∃ pre post, s.purchases = pre ++ purchase :: post ∧
      (purchaseStatusUpdate s user id (some v)).1.purchases =
        pre ++ { purchase with status := v } :: post) ∧
    (purchaseStatusUpdate s user id (some v)).1.products = s.products ∧
    (purchaseStatusUpdate s user id (some v)).1.carts = s.carts ∧
    (purchaseStatusUpdate s user id (some v)).1.orders = s.orders := by
  have hb : (purchase.seller != user) = false := by simp [hauth]
  have hval := validatePurchase_status hv hvalid
  have he : purchaseStatusUpdate s user id (some v) =
      ({ s with purchases := savePurchase { purchase with status := v } s.purchases },
        { status := 200, message := "Purchase status updated successfully",
          data := some { purchase with status := v } }) := by
    rw [purchaseStatusUpdate_eq hv hf]
    simp only [hb, Bool.false_eq_true, if_false, hval, Bool.not_true]
  rw [he]
  obtain ⟨pre, post, h1, h2, h3⟩ := savePurchase_split hf { purchase with status := v } rfl
  refine ⟨rfl, ?_, ⟨pre, post, h1, h3⟩, rfl, rfl, rfl⟩
  show findPurchase (savePurchase { purchase with status := v } s.purchases) id = _
  rw [h3]
  have hid : purchase._id = id := findPurchase_id hf
  exact findPurchase_split h2 hid

/-- The store `afterFirstSale` is reachable. -/
theorem afterFirstSale_reachable : Reachable afterFirstSale :=
  Reachable.step
    (Reachable.step
      (Reachable.step (Reachable.init catalogStore rfl rfl rfl)
        (Step.cartAdd catalogStore 7 addLamp))
      (Step.cartAdd (cartAdd catalogStore 7 addLamp).1 8 addLamp))
    (Step.ordersCheckout (cartAdd (cartAdd catalogStore 7 addLamp).1 8 addLamp).1 7
      demoCartBody)

/-- The store `afterPurchaseSale` is reachable. -/
theorem afterPurchaseSale_reachable : Reachable afterPurchaseSale :=
  Reachable.step
    (Reachable.step (Reachable.init catalogStore rfl rfl rfl)
      (Step.cartAdd catalogStore 7 addLamp))
    (Step.purchasesCheckout alwaysPersists (cartAdd catalogStore 7 addLamp).1 7
      demoPurchaseBody)

/-- C28. In a reachable store, for an existing order and its buyer, and for an
existing purchase and its seller, the status update answers 200 exactly when
the requested status is one of Pending, Confirmed, Shipped, Delivered and
Cancelled, whatever the current status.  On success the stored record is
replaced in place by itself with the requested status, every other field and
the rest of the store being unchanged; any other status value, or none, is
answered 400 "Valid status is required" and changes nothing. -/
theorem status_update_effect (s : Store) (hreach : Reachable s) (user id : ObjectId)
    (status : Option String) :
    (∀ order, findOrder s.orders id = some order → order.userId = user →
      ((orderStatusUpdate s user id status).2.status = 200 ↔
        ∃ v, status = some v ∧ v ∈ statusValues) ∧
      (∀ v, status = some v → v ∈ statusValues →
        (orderStatusUpdate s user id status).2.data = some { order with status := v } ∧
        findOrder (orderStatusUpdate s user id status).1.orders id =
          some { order with status := v } ∧
        (∃ pre post, s.orders = pre ++ order :: post ∧
          (orderStatusUpdate s user id status).1.orders =
            pre ++ { order with status := v } :: post) ∧
        (orderStatusUpdate s user id status).1.products = s.products ∧
        (orderStatusUpdate s user id status).1.carts = s.carts ∧
        (orderStatusUpdate s user id status).1.purchases = s.purchases) ∧
      ((¬ ∃ v, status = some v ∧ v ∈ statusValues) →
        orderStatusUpdate s user id status = (s, badRequest "Valid status is required"))) ∧
    (∀ purchase, findPurchase s.purchases id = some purchase → purchase.seller = user →
      ((purchaseStatusUpdate s user id status).2.status = 200 ↔
        ∃ v, status = some v ∧ v ∈ statusValues) ∧
      (∀ v, status = some v → v ∈ statusValues →
        (purchaseStatusUpdate s user id status).2.data = some { purchase with status := v } ∧
        findPurchase (purchaseStatusUpdate s user id status).1.purchases id =
          some { purchase with status := v } ∧
        (∃ pre post, s.purchases = pre ++ purchase :: post ∧
          (purchaseStatusUpdate s user id status).1.purchases =
            pre ++ { purchase with status := v } :: post) ∧
        (purchaseStatusUpdate s user id status).1.products = s.products ∧
        (purchaseStatusUpdate s user id status).1.carts = s.carts ∧
        (purchaseStatusUpdate s user id status).1.orders = s.orders) ∧
      ((¬ ∃ v, status = some v ∧ v ∈ statusValues) →
        purchaseStatusUpdate s user id status =
          (s, badRequest "Valid status is required"))) := by
  obtain ⟨hov, hpv⟩ := reachable_records_valid hreach
  constructor
  · intro order hf hauth
    have hrej : (¬ ∃ v, status = some v ∧ v ∈ statusValues) →
        orderStatusUpdate s user id status = (s, badRequest "Valid status is required") := by
      intro hn
      have : statusRejected status = true := by
        cases hr : statusRejected status with
        | true => rfl
        | false => exact absurd ((statusRejected_false_iff status).mp hr) hn
      exact (statusUpdate_rejected s user id status this).1
    refine ⟨?_, ?_, hrej⟩
    · constructor
      · intro hok
        by_contra hn
        rw [hrej hn] at hok
        simp [badRequest] at hok
      · rintro ⟨v, hs, hv⟩
        subst hs
        rw [(orderStatusUpdate_authorized hv hf hauth (hov order (findOrder_mem hf))).1]
    · intro v hs hv
      subst hs
      obtain ⟨h1, h2, h3, h4, h5, h6⟩ :=
        orderStatusUpdate_authorized hv hf hauth (hov order (findOrder_mem hf))
      exact ⟨by rw [h1], h2, h3, h4, h5, h6⟩
  · intro purchase hf hauth
    have hrej : (¬ ∃ v, status = some v ∧ v ∈ statusValues) →
        purchaseStatusUpdate s user id status =
          (s, badRequest "Valid status is required") := by
      intro hn
      have : statusRejected status = true := by
        cases hr : statusRejected status with
        | true => rfl
        | false => exact absurd ((statusRejected_false_iff status).mp hr) hn
      exact (statusUpdate_rejected s user id status this).2
    refine ⟨?_, ?_, hrej⟩
    · constructor
      · intro hok
        by_contra hn
        rw [hrej hn] at hok
        simp [badRequest] at hok
      · rintro ⟨v, hs, hv⟩
        subst hs
        rw [(purchaseStatusUpdate_authorized hv hf hauth
          (hpv purchase (findPurchase_mem hf))).1]
    · intro v hs hv
      subst hs
      obtain ⟨h1, h2, h3, h4, h5, h6⟩ :=
        purchaseStatusUpdate_authorized hv hf hauth (hpv purchase (findPurchase_mem hf))
      exact ⟨by rw [h1], h2, h3, h4, h5, h6⟩

/-- Every purchase created by the purchase loop starts with status Pending. -/
theorem createPurchases_status (persists : Purchase → Bool) (buyer : ObjectId)
    (body : PurchaseBody) :
    ∀ (gs : List SellerGroup) (s s1 : Store) (ps : List Purchase),
      createPurchases persists buyer body gs s = (s1, some ps) →
      ∀ p ∈ ps, p.status = "Pending"
  | [], s, s1, ps, h => by
    simp [createPurchases] at h
    obtain ⟨_, h2⟩ := h
    subst h2
    intro p hp
    simp at hp
  | g :: rest, s, s1, ps, h => by
    unfold createPurchases at h
    by_cases hv : (validatePurchase (newPurchase s.nextId buyer body g)
        && persists (newPurchase s.nextId buyer body g)) = true
    · simp only [hv, if_true] at h
      split at h
      · rename_i s2 qs heq
        simp only [Prod.mk.injEq, Option.some.injEq] at h
        obtain ⟨_, h2⟩ := h
        subst h2
        intro p hp
        rcases List.mem_cons.mp hp with rfl | hm
        · simp [newPurchase]
        · exact createPurchases_status persists buyer body rest _ _ _ heq p hm
      · simp at h
    · simp [hv] at h

/-- A status update by a user who is not the authorized one changes nothing and
answers 403 when the requested status is one of the five values. -/
theorem statusUpdate_unauthorized {s : Store} {user id : ObjectId} {v : String}
    (hv : v ∈ statusValues) :
    (∀ order, findOrder s.orders id = some order → order.userId ≠ user →
      orderStatusUpdate s user id (some v) =
        (s, forbidden "Not authorized to update this order")) ∧
    (∀ purchase, findPurchase s.purchases id = some purchase → purchase.seller ≠ user →
      purchaseStatusUpdate s user id (some v) =
        (s, forbidden "Not authorized to update this purchase")) := by
  constructor
  · intro order hf hne
    have hb : (order.userId != user) = true := by simpa using hne
    rw [orderStatusUpdate_eq hv hf]
    simp only [hb, if_true]
  · intro purchase hf hne
    have hb : (purchase.seller != user) = true := by simpa using hne
    rw [purchaseStatusUpdate_eq hv hf]
    simp only [hb, if_true]

theorem status_update_effect_witness :
    Reachable afterFirstSale ∧
    findOrder afterFirstSale.orders 64 = some firstOrder ∧ firstOrder.userId = 7 ∧
    (orderStatusUpdate afterFirstSale 7 64 (some "Shipped")).2.data =
      some { firstOrder with status := "Shipped" } ∧
    Reachable afterPurchaseSale ∧
    findPurchase afterPurchaseSale.purchases 62 = some firstPurchase ∧
    firstPurchase.seller = 100 ∧
    ((purchaseStatusUpdate afterPurchaseSale 100 62 (some "Delivered")).2.status = 200 ↔
      ∃ v, some "Delivered" = some v ∧ v ∈ statusValues) :=
  ⟨afterFirstSale_reachable, by decide, by decide,
    (((status_update_effect afterFirstSale afterFirstSale_reachable 7 64 (some "Shipped")).1
      firstOrder (by decide) (by decide)).2.1 "Shipped" rfl (by decide)).1,
    afterPurchaseSale_reachable, by decide, by decide,
    ((status_update_effect afterPurchaseSale afterPurchaseSale_reachable 100 62
      (some "Delivered")).2 firstPurchase (by decide) (by decide)).1⟩

/-- C27 (as amended). A status update of an existing order by a user other than
its buyer, and of an existing purchase by a user other than its seller (the
purchase's buyer included), never succeeds and leaves the whole store
unchanged.  The status value is checked first: the answer is 403 "Not
authorized" when the requested status is one of the five values, and 400
"Valid status is required" when it is missing or not one of them. -/
theorem status_update_unauthorized (s : Store) (user id : ObjectId)
    (status : Option String) :
    (∀ order, findOrder s.orders id = some order → order.userId ≠ user →
      (orderStatusUpdate s user id status).1 = s ∧
      (orderStatusUpdate s user id status).2.status ≠ 200 ∧
      ((∃ v, status = some v ∧ v ∈ statusValues) →
        (orderStatusUpdate s user id status).2 =
          forbidden "Not authorized to update this order") ∧
      ((¬ ∃ v, status = some v ∧ v ∈ statusValues) →
        (orderStatusUpdate s user id status).2 = badRequest "Valid status is required")) ∧
    (∀ purchase, findPurchase s.purchases id = some purchase → purchase.seller ≠ user →
      (purchaseStatusUpdate s user id status).1 = s ∧
      (purchaseStatusUpdate s user id status).2.status ≠ 200 ∧
      ((∃ v, status = some v ∧ v ∈ statusValues) →
        (purchaseStatusUpdate s user id status).2 =
          forbidden "Not authorized to update this purchase") ∧
      ((¬ ∃ v, status = some v ∧ v ∈ statusValues) →
        (purchaseStatusUpdate s user id status).2 =
          badRequest "Valid status is required")) := by
  cases hr : statusRejected status with
  | true =>
    have hn : ¬ ∃ v, status = some v ∧ v ∈ statusValues := by
      intro h
      rw [(statusRejected_false_iff status).mpr h] at hr
      exact Bool.noConfusion hr
    obtain ⟨ho, hp⟩ := statusUpdate_rejected s user id status hr
    constructor
    · intro order _ _
      rw [ho]
      exact ⟨rfl, by simp [badRequest], fun h => absurd h hn, fun _ => rfl⟩
    · intro purchase _ _
      rw [hp]
      exact ⟨rfl, by simp [badRequest], fun h => absurd h hn, fun _ => rfl⟩
  | false =>
    obtain ⟨v, hs, hv⟩ := (statusRejected_false_iff status).mp hr
    subst hs
    have hy : ∃ w, some v = some w ∧ w ∈ statusValues := ⟨v, rfl, hv⟩
    constructor
    · intro order hf hne
      rw [(statusUpdate_unauthorized hv).1 order hf hne]
      exact ⟨rfl, by simp [forbidden], fun _ => rfl, fun h => absurd hy h⟩
    · intro purchase hf hne
      rw [(statusUpdate_unauthorized hv).2 purchase hf hne]
      exact ⟨rfl, by simp [forbidden], fun _ => rfl, fun h => absurd hy h⟩

theorem status_update_unauthorized_witness :
    findOrder afterFirstSale.orders 64 = some firstOrder ∧ firstOrder.userId ≠ 8 ∧
    (orderStatusUpdate afterFirstSale 8 64 (some "Shipped")).1 = afterFirstSale ∧
    findPurchase afterPurchaseSale.purchases 62 = some firstPurchase ∧
    firstPurchase.buyer = 7 ∧ firstPurchase.seller ≠ 7 ∧
    (purchaseStatusUpdate afterPurchaseSale 7 62 (some "Shipped")).2 =
      forbidden "Not authorized to update this purchase" :=
  ⟨by decide, by decide,
    ((status_update_unauthorized afterFirstSale 8 64 (some "Shipped")).1 firstOrder
      (by decide) (by decide)).1,
    by decide, by decide, by decide,
    ((status_update_unauthorized afterPurchaseSale 7 62 (some "Shipped")).2 firstPurchase
      (by decide) (by decide)).2.2.1 ⟨"Shipped", rfl, by decide⟩⟩

/-- C27, counterexample. User 8 is not the buyer of order 64, and user 7 is the
buyer, not the seller, of purchase 62; with a status that is not one of the
five values, or with none, their updates are answered 400 "Valid status is
required" and not 403. -/
theorem status_update_unauthorized_counterexample :
    findOrder afterFirstSale.orders 64 = some firstOrder ∧ firstOrder.userId ≠ 8 ∧
    (orderStatusUpdate afterFirstSale 8 64 (some "Bogus")).2 =
      badRequest "Valid status is required" ∧
    (orderStatusUpdate afterFirstSale 8 64 (some "Bogus")).2.status = 400 ∧
    (orderStatusUpdate afterFirstSale 8 64 (some "Bogus")).2 ≠
      forbidden "Not authorized to update this order" ∧
    findPurchase afterPurchaseSale.purchases 62 = some firstPurchase ∧
    firstPurchase.buyer = 7 ∧ firstPurchase.seller ≠ 7 ∧
    (purchaseStatusUpdate afterPurchaseSale 7 62 none).2 =
      badRequest "Valid status is required" ∧
    (purchaseStatusUpdate afterPurchaseSale 7 62 none).2.status = 400 := by
  decide

/-- C29 (as amended). Every order and purchase created by a checkout starts
with status Pending, and Cancelled is not terminal: in a reachable store, for a
record whose status is Cancelled, the update by the authorized user to any of
the five values succeeds and the stored record then has the requested
status. -/
theorem cancelled_not_terminal (s : Store) (hreach : Reachable s) (user id : ObjectId)
    (v : String) (hv : v ∈ statusValues) :
    (∀ body, (ordersCheckout s user body).2.status = 201 →
      ∃ order, (ordersCheckout s user body).2.data = some order ∧
        order.status = "Pending" ∧ order ∈ (ordersCheckout s user body).1.orders) ∧
    (∀ persists body, (purchasesCheckout persists s user body).2.status = 201 →
      ∃ receipt, (purchasesCheckout persists s user body).2.data = some receipt ∧
        (∀ p ∈ receipt.purchases, p.status = "Pending" ∧
          p ∈ (purchasesCheckout persists s user body).1.purchases)) ∧
    (∀ order, findOrder s.orders id = some order → order.status = "Cancelled" →
      order.userId = user →
      (orderStatusUpdate s user id (some v)).2.status = 200 ∧
      findOrder (orderStatusUpdate s user id (some v)).1.orders id =
        some { order with status := v }) ∧
    (∀ purchase, findPurchase s.purchases id = some purchase →
      purchase.status = "Cancelled" → purchase.seller = user →
      (purchaseStatusUpdate s user id (some v)).2.status = 200 ∧
      findPurchase (purchaseStatusUpdate s user id (some v)).1.purchases id =
        some { purchase with status := v }) := by
  obtain ⟨hov, hpv⟩ := reachable_records_valid hreach
  refine ⟨?_, ?_, ?_, ?_⟩
  · intro body hok
    obtain ⟨orderProducts, total, _, _, he⟩ := ordersCheckout_created s user body hok
    rw [he]
    refine ⟨_, rfl, rfl, ?_⟩
    show _ ∈ (clearCartAfterOrder _ user body).orders
    rw [clearCartAfterOrder_orders]
    simp [placeOrder]
  · intro persists body hok
    obtain ⟨cart, lines, s1, ps, _, _, _, hcp, _, _, hpu, _, hres⟩ :=
      purchasesCheckout_created persists s user body hok
    rw [hres, hpu]
    refine ⟨_, rfl, ?_⟩
    intro p hp
    exact ⟨createPurchases_status persists user body _ _ _ _ hcp p hp,
      List.mem_append_right _ hp⟩
  · intro order hf _ hauth
    obtain ⟨h1, h2, _⟩ :=
      orderStatusUpdate_authorized hv hf hauth (hov order (findOrder_mem hf))
    exact ⟨by rw [h1], h2⟩
  · intro purchase hf _ hauth
    obtain ⟨h1, h2, _⟩ :=
      purchaseStatusUpdate_authorized hv hf hauth (hpv purchase (findPurchase_mem hf))
    exact ⟨by rw [h1], h2⟩

/-- The store `cancelledStore` is reachable. -/
theorem cancelledStore_reachable : Reachable cancelledStore :=
  Reachable.step afterFirstSale_reachable
    (Step.orderStatusUpdate afterFirstSale 7 64 (some "Cancelled"))

theorem cancelled_not_terminal_witness :
    Reachable cancelledStore ∧ "Confirmed" ∈ statusValues ∧
    findOrder cancelledStore.orders 64 = some { firstOrder with status := "Cancelled" } ∧
    (orderStatusUpdate cancelledStore 7 64 (some "Confirmed")).2.status = 200 ∧
    findOrder (orderStatusUpdate cancelledStore 7 64 (some "Confirmed")).1.orders 64 =
      some { firstOrder with status := "Confirmed" } :=
  ⟨cancelledStore_reachable, by decide, by decide,
    (cancelled_not_terminal cancelledStore cancelledStore_reachable 7 64 "Confirmed"
      (by decide)).2.2.1 { firstOrder with status := "Cancelled" } (by decide) rfl rfl⟩

/-- C29, counterexample. Order 64 is cancelled by its buyer and purchase 62 by
its seller; the next update sets the cancelled order back to Pending and the
cancelled purchase to Shipped, and both are answered 200. -/
theorem cancelled_not_terminal_counterexample :
    (findOrder cancelledStore.orders 64).map (fun o => o.status) = some "Cancelled" ∧
    (orderStatusUpdate cancelledStore 7 64 (some "Pending")).2.status = 200 ∧
    (findOrder (orderStatusUpdate cancelledStore 7 64 (some "Pending")).1.orders 64).map
      (fun o => o.status) = some "Pending" ∧
    (findPurchase cancelledPurchaseStore.purchases 62).map (fun p => p.status) =
      some "Cancelled" ∧
    (purchaseStatusUpdate cancelledPurchaseStore 100 62 (some "Shipped")).2.status = 200 ∧
    (findPurchase
      (purchaseStatusUpdate cancelledPurchaseStore 100 62 (some "Shipped")).1.purchases 62).map
      (fun p => p.status) = some "Shipped" := by
  decide

theorem goodItems_mono {items : List CartItem} {n m : Nat} (h : GoodItems items n)
    (hnm : n ≤ m) : GoodItems items m :=
  ⟨h.1, h.2.1, fun item hi => lt_of_lt_of_le (h.2.2 item hi) hnm⟩

theorem goodItems_nil (n : Nat) : GoodItems [] n :=
  ⟨by simp, by simp, by simp⟩

theorem cartsWF_mono {carts : List Cart} {n m : Nat} (h : CartsWF carts n) (hnm : n ≤ m) :
    CartsWF carts m :=
  ⟨h.1, h.2.1, fun c hc =>
    ⟨lt_of_lt_of_le (h.2.2 c hc).1 hnm, goodItems_mono (h.2.2 c hc).2 hnm⟩⟩

/-- In a well-formed collection a stored cart is the only one with its id. -/
theorem cartsWF_id_inj {carts : List Cart} {n : Nat} (h : CartsWF carts n) {c d : Cart}
    (hc : c ∈ carts) (hd : d ∈ carts) (hid : c._id = d._id) : c = d :=
  List.inj_on_of_nodup_map h.1 hc hd hid

/-- Saving a stored cart with new lines replaces it alone. -/
theorem saveCart_replace {carts : List Cart} {n : Nat} (h : CartsWF carts n) {cart : Cart}
    (hc : cart ∈ carts) (items : List CartItem) :
    saveCart carts { cart with items := items } =
      carts.map (fun c => if c = cart then { cart with items := items } else c) := by
  unfold saveCart
  have hany : carts.any (fun c => c._id == cart._id) = true := by
    simp only [List.any_eq_true, beq_iff_eq]
    exact ⟨cart, hc, rfl⟩
  simp only [hany, if_true]
  apply List.map_congr_left
  intro c hcm
  by_cases he : c = cart
  · subst he
    simp
  · have hne : c._id ≠ cart._id := fun hid => he (cartsWF_id_inj h hcm hc hid)
    simp [he, hne]

theorem cartsWF_replace {carts : List Cart} {n : Nat} (h : CartsWF carts n) {cart : Cart}
    (hc : cart ∈ carts) {items : List CartItem} (hi : GoodItems items n) :
    CartsWF (saveCart carts { cart with items := items }) n := by
  rw [saveCart_replace h hc]
  have hid : (carts.map (fun c => if c = cart then { cart with items := items } else c)).map
      (fun c => c._id) = carts.map (fun c => c._id) := by
    rw [List.map_map]
    apply List.map_congr_left
    intro c _
    by_cases he : c = cart
    · subst he
      simp
    · simp [he]
  have hus : (carts.map (fun c => if c = cart then { cart with items := items } else c)).map
      (fun c => c.user) = carts.map (fun c => c.user) := by
    rw [List.map_map]
    apply List.map_congr_left
    intro c _
    by_cases he : c = cart
    · subst he
      simp
    · simp [he]
  refine ⟨by rw [hid]; exact h.1, by rw [hus]; exact h.2.1, ?_⟩
  intro c hcm
  obtain ⟨d, hd, rfl⟩ := List.mem_map.mp hcm
  by_cases he : d = cart
  · subst he
    simp only [if_true]
    exact ⟨(h.2.2 d hd).1, hi⟩
  · simp only [he, if_false]
    exact h.2.2 d hd

/-- Saving a new cart, with a fresh id, for a user without cart appends it. -/
theorem saveCart_insert {carts : List Cart} {n : Nat} (h : CartsWF carts n) (cart : Cart)
    (hid : n ≤ cart._id) : saveCart carts cart = carts ++ [cart] := by
  unfold saveCart
  have hany : carts.any (fun c => c._id == cart._id) = false := by
    rw [List.any_eq_false]
    intro c hc
    have hlt : c._id < n := (h.2.2 c hc).1
    simp only [beq_iff_eq]
    intro heq
    rw [heq] at hlt
    exact absurd hid (not_le.mpr hlt)
  simp [hany]

theorem findCart_none {carts : List Cart} {user : ObjectId}
    (h : findCart carts user = none) : ∀ c ∈ carts, c.user ≠ user := by
  unfold findCart at h
  rw [List.find?_eq_none] at h
  intro c hc
  simpa using h c hc

theorem cartsWF_insert {carts : List Cart} {n m : Nat} (h : CartsWF carts n)
    {user : ObjectId} (hnone : findCart carts user = none) {items : List CartItem}
    (hi : GoodItems items m) (hnm : n < m) :
    CartsWF (saveCart carts { _id := n, user := user, items := items }) m := by
  rw [saveCart_insert h _ (le_refl n)]
  have hm := cartsWF_mono h (le_of_lt hnm)
  refine ⟨?_, ?_, ?_⟩
  · rw [List.map_append, List.nodup_append]
    refine ⟨h.1, by simp, ?_⟩
    intro a ha hb
    simp only [List.map_cons, List.map_nil, List.mem_singleton] at hb
    obtain ⟨c, hc, rfl⟩ := List.mem_map.mp ha
    have hlt : c._id < n := (h.2.2 c hc).1
    have heq : c._id = n := hb
    exact absurd heq (Nat.ne_of_lt hlt)
  · rw [List.map_append, List.nodup_append]
    refine ⟨h.2.1, by simp, ?_⟩
    intro a ha hb
    simp only [List.map_cons, List.map_nil, List.mem_singleton] at hb
    obtain ⟨c, hc, rfl⟩ := List.mem_map.mp ha
    exact findCart_none hnone c hc hb
  · intro c hc
    rcases List.mem_append.mp hc with hc | hc
    · exact hm.2.2 c hc
    · simp only [List.mem_singleton] at hc
      subst hc
      exact ⟨hnm, hi⟩

theorem setQuantity_ids (itemId : ObjectId) (q : Int) (items : List CartItem) :
    (setQuantity itemId q items).map (fun item => item._id) =
      items.map (fun item => item._id) := by
  induction items with
  | nil => rfl
  | cons item rest ih =>
    unfold setQuantity
    by_cases h : (item._id == itemId) = true
    · simp [h]
    · simp [h, ih]

theorem bumpQuantity_ids (pid : ObjectId) (q : Int) (items : List CartItem) :
    (bumpQuantity pid q items).map (fun item => item._id) =
      items.map (fun item => item._id) := by
  induction items with
  | nil => rfl
  | cons item rest ih =>
    unfold bumpQuantity
    by_cases h : (item.product == pid) = true
    · simp [h]
    · simp [h, ih]

/-- The line that `findIndex` selects by id, and the effect of the assignment
of its quantity. -/
theorem setQuantity_split (itemId : ObjectId) (q : Int) :
    ∀ (items : List CartItem), items.any (fun item => item._id == itemId) = true →
      ∃ pre line post, items = pre ++ line :: post ∧ line._id = itemId ∧
        (∀ x ∈ pre, x._id ≠ itemId) ∧
        setQuantity itemId q items = pre ++ { line with quantity := q } :: post ∧
        items.eraseP (fun item => item._id == itemId) = pre ++ post
  | [], h => by simp at h
  | item :: rest, h => by
    by_cases hp : item._id = itemId
    · exact ⟨[], item, rest, rfl, hp, by simp, by simp [setQuantity, hp],
        by simp [List.eraseP_cons, hp]⟩
    · have hrest : rest.any (fun item => item._id == itemId) = true := by
        simpa [List.any_cons, hp] using h
      obtain ⟨pre, line, post, h1, h2, h3, h4, h5⟩ := setQuantity_split itemId q rest hrest
      refine ⟨item :: pre, line, post, by simp [h1], h2, ?_, ?_, ?_⟩
      · intro x hx
        rcases List.mem_cons.mp hx with rfl | hx
        · exact hp
        · exact h3 x hx
      · simp [setQuantity, hp, h4]
      · simp [List.eraseP_cons, hp, h5]

/-- A successful quantity update, read off the handler. -/
theorem cartUpdate_ok (s : Store) (user itemId : ObjectId) (body : UpdateBody)
    (hok : (cartUpdate s user itemId body).2.status = 200) :
    ∃ cart q, (quantityRejected body.quantity = false ∧
        parseIntField body.quantity = some q) ∧ 1 ≤ q ∧ findCart s.carts user = some cart ∧
      cart.items.any (fun item => item._id == itemId) = true ∧
      validateCart { cart with items := setQuantity itemId q cart.items } = true ∧
      cartUpdate s user itemId body =
        ({ s with
            carts := saveCart s.carts { cart with items := setQuantity itemId q cart.items } },
          { status := 200, message := "Cart updated successfully",
            data := some { cart with items := setQuantity itemId q cart.items } }) := by
  unfold cartUpdate at hok ⊢
  cases h1 : quantityRejected body.quantity with
  | true => simp [h1, badRequest] at hok
  | false =>
    cases hc : findCart s.carts user with
    | none => simp [h1, hc, notFound] at hok
    | some cart =>
      cases h2 : cart.items.any (fun item => item._id == itemId) with
      | false => simp [h1, hc, h2, notFound] at hok
      | true =>
        cases hq : parseIntField body.quantity with
        | none => simp [h1, hc, h2, hq, serverError] at hok
        | some q =>
          cases hv : validateCart { cart with items := setQuantity itemId q cart.items } with
          | false => simp [h1, hc, h2, hq, hv, serverError] at hok
          | true =>
            have hq1 : 1 ≤ q := by
              obtain ⟨pre, line, post, _, _, _, h4, _⟩ :=
                setQuantity_split itemId q cart.items h2
              have hall := (all_valid_iff _).mp hv
              exact hall { line with quantity := q } (by
                show _ ∈ setQuantity itemId q cart.items
                rw [h4]
                simp)
            refine ⟨cart, q, ⟨rfl, rfl⟩, hq1, rfl, h2, hv, ?_⟩
            simp only [h2, hv, Bool.false_eq_true, if_false, Bool.not_true]

/-- A successful removal, read off the handler. -/
theorem cartRemove_ok (s : Store) (user itemId : ObjectId)
    (hok : (cartRemove s user itemId).2.status = 200) :
    ∃ cart, findCart s.carts user = some cart ∧
      cart.items.any (fun item => item._id == itemId) = true ∧
      cartRemove s user itemId =
        ({ s with
            carts := saveCart s.carts
              ({ cart with items := cart.items.eraseP (fun item => item._id == itemId) }) },
          { status := 200, message := "Item removed from cart successfully",
            data := some
              { cart with items := cart.items.eraseP (fun item => item._id == itemId) } }) := by
  unfold cartRemove at hok ⊢
  cases hc : findCart s.carts user with
  | none => simp [hc, notFound] at hok
  | some cart =>
    cases h2 : cart.items.any (fun item => item._id == itemId) with
    | false => simp [hc, h2, notFound] at hok
    | true =>
      cases hv : validateCart
          { cart with items := cart.items.eraseP (fun item => item._id == itemId) } with
      | false => simp [hc, h2, hv, serverError] at hok
      | true =>
        refine ⟨cart, rfl, h2, ?_⟩
        simp only [h2, hv, Bool.false_eq_true, if_false, Bool.not_true]

theorem goodItems_setQuantity {items : List CartItem} {n : Nat} (h : GoodItems items n)
    (itemId : ObjectId) {q : Int} (hq : 1 ≤ q) : GoodItems (setQuantity itemId q items) n := by
  have hids := setQuantity_ids itemId q items
  refine ⟨?_, by rw [hids]; exact h.2.1, ?_⟩
  · by_cases hany : items.any (fun item => item._id == itemId) = true
    · obtain ⟨pre, line, post, h1, _, _, h4, _⟩ := setQuantity_split itemId q items hany
      rw [h4]
      intro item hi
      rcases List.mem_append.mp hi with hi | hi
      · exact h.1 item (by rw [h1]; simp [hi])
      · rcases List.mem_cons.mp hi with rfl | hi
        · exact hq
        · exact h.1 item (by rw [h1]; simp [hi])
    · have hsame : setQuantity itemId q items = items := by
        clear hids h
        induction items with
        | nil => rfl
        | cons item rest ih =>
          simp only [List.any_cons, Bool.or_eq_true, not_or] at hany
          unfold setQuantity
          simp only [hany.1, Bool.false_eq_true, if_false]
          rw [ih hany.2]
      rw [hsame]
      exact h.1
  · intro item hi
    have : item._id ∈ (setQuantity itemId q items).map (fun item => item._id) :=
      List.mem_map_of_mem _ hi
    rw [hids] at this
    obtain ⟨x, hx, hxe⟩ := List.mem_map.mp this
    have := h.2.2 x hx
    rw [← hxe]
    exact this

theorem goodItems_eraseP {items : List CartItem} {n : Nat} (h : GoodItems items n)
    (p : CartItem → Bool) : GoodItems (items.eraseP p) n := by
  have hsub : (items.eraseP p).Sublist items := List.eraseP_sublist items
  refine ⟨fun item hi => h.1 item (hsub.subset hi), ?_, fun item hi => h.2.2 item (hsub.subset hi)⟩
  exact (hsub.map _).nodup h.2.1

theorem createPurchases_nextId (persists : Purchase → Bool) (buyer : ObjectId)
    (body : PurchaseBody) :
    ∀ (gs : List SellerGroup) (s : Store),
      s.nextId ≤ (createPurchases persists buyer body gs s).1.nextId
  | [], s => by simp [createPurchases]
  | g :: rest, s => by
    unfold createPurchases
    by_cases hv : (validatePurchase (newPurchase s.nextId buyer body g)
        && persists (newPurchase s.nextId buyer body g)) = true
    · have h := createPurchases_nextId persists buyer body rest
        { s with purchases := s.purchases ++ [newPurchase s.nextId buyer body g],
                 nextId := s.nextId + 1 }
      simp only [hv, if_true]
      split <;> rename_i s2 r heq <;> rw [heq] at h <;>
        exact le_trans (Nat.le_succ _) h
    · simp [hv]

theorem cartsWF_cartAfterAdd (s : Store) (user pid : ObjectId) (q : Int)
    (h : CartsWF s.carts s.nextId) (hv : validateCart (cartAfterAdd s user pid q) = true) :
    CartsWF (saveCart s.carts (cartAfterAdd s user pid q)) (s.nextId + 2) := by
  have hq := (all_valid_iff _).mp hv
  unfold cartAfterAdd at hq ⊢
  cases hc : findCart s.carts user with
  | some c =>
    simp only [hc] at hq ⊢
    have hcm := findCart_mem hc
    have hg := goodItems_mono (h.2.2 c hcm).2 (Nat.le_add_right s.nextId 2)
    refine cartsWF_replace (cartsWF_mono h (Nat.le_add_right _ 2)) hcm ⟨hq, ?_, ?_⟩
    · by_cases hany : c.items.any (fun item => item.product == pid) = true
      · simp only [hany, if_true]
        rw [bumpQuantity_ids]
        exact hg.2.1
      · simp only [hany, Bool.false_eq_true, if_false]
        rw [List.map_append, List.nodup_append]
        refine ⟨hg.2.1, by simp, ?_⟩
        intro a ha hb
        simp only [List.map_cons, List.map_nil, List.mem_singleton] at hb
        obtain ⟨x, hx, hxe⟩ := List.mem_map.mp ha
        have hlt : x._id < s.nextId := (h.2.2 c hcm).2.2.2 x hx
        have heq : x._id = s.nextId + 1 := hxe.trans hb
        rw [heq] at hlt
        exact absurd hlt (Nat.not_lt.mpr (Nat.le_succ _))
    · by_cases hany : c.items.any (fun item => item.product == pid) = true
      · simp only [hany, if_true]
        intro item hi
        have : item._id ∈ (bumpQuantity pid q c.items).map (fun item => item._id) :=
          List.mem_map_of_mem _ hi
        rw [bumpQuantity_ids] at this
        obtain ⟨x, hx, hxe⟩ := List.mem_map.mp this
        have hlt := hg.2.2 x hx
        rw [← hxe]
        exact hlt
      · simp only [hany, Bool.false_eq_true, if_false]
        intro item hi
        rcases List.mem_append.mp hi with hi | hi
        · exact hg.2.2 item hi
        · simp only [List.mem_singleton] at hi
          subst hi
          exact Nat.lt_succ_self _
  | none =>
    simp only [hc] at hq ⊢
    refine cartsWF_insert h hc ⟨hq, ?_, ?_⟩ (Nat.lt_add_of_pos_right (by decide))
    · simp
    · intro item hi
      simp only [List.any_nil, Bool.false_eq_true, if_false, List.nil_append,
        List.mem_singleton] at hi
      subst hi
      exact Nat.lt_succ_self _

theorem cartGet_cartsWF (s : Store) (user : ObjectId) (h : CartsWF s.carts s.nextId) :
    CartsWF (cartGet s user).1.carts (cartGet s user).1.nextId := by
  unfold cartGet
  cases hc : findCart s.carts user with
  | some cart => exact h
  | none => exact cartsWF_insert h hc (goodItems_nil _) (Nat.lt_succ_self _)

theorem cartAdd_cartsWF (s : Store) (user : ObjectId) (body : AddBody)
    (h : CartsWF s.carts s.nextId) :
    CartsWF (cartAdd s user body).1.carts (cartAdd s user body).1.nextId := by
  by_cases hok : (cartAdd s user body).2.status = 200
  · obtain ⟨pid, p, q, hpid, hp, hav, hsel, hq, hv⟩ := cartAdd_ok s user body hok
    rw [cartAdd_eq hpid hp hav hsel hq, if_pos hv]
    exact cartsWF_cartAfterAdd s user pid q h hv
  · rw [cartAdd_failed s user body hok]
    exact h

theorem cartAddText_cartsWF (s : Store) (user : ObjectId) (body : AddRequest)
    (h : CartsWF s.carts s.nextId) :
    CartsWF (cartAddText s user body).1.carts (cartAddText s user body).1.nextId := by
  cases hb : body.productId with
  | none =>
    simp only [cartAddText, hb]
    exact h
  | some t =>
    cases t with
    | malformed =>
      simp only [cartAddText, hb]
      exact h
    | spelled pid canonical =>
      cases canonical with
      | true =>
        have hbody : body = canonicalRequest ⟨some pid, body.quantity⟩ := by
          cases body with
          | mk p q =>
            simp only at hb
            subst hb
            rfl
        rw [hbody, cartAddText_canonical]
        exact cartAdd_cartsWF s user _ h
      | false =>
        unfold cartAddText
        simp only [hb, Bool.and_false, List.any_eq_true, Bool.false_eq_true, and_false,
          exists_false, if_false]
        cases hp : findProduct s.products pid with
        | none => exact h
        | some p =>
          simp only
          split
          · exact h
          · split
            · exact h
            · cases hq : parseQuantity body.quantity with
              | none => exact h
              | some q =>
                simp only
                split
                · exact h
                · rename_i hv
                  have hnot : ∀ b : Bool, ¬ ((!b) = true) → b = true := by
                    intro b
                    cases b <;> simp
                  have hqs := (all_valid_iff _).mp (hnot _ hv)
                  cases hc : findCart s.carts user with
                  | some c =>
                    simp only [hc] at hqs ⊢
                    have hcm := findCart_mem hc
                    have hg := goodItems_mono (h.2.2 c hcm).2 (Nat.le_add_right s.nextId 2)
                    refine cartsWF_replace (cartsWF_mono h (Nat.le_add_right _ 2)) hcm
                      ⟨hqs, ?_, ?_⟩
                    · rw [List.map_append, List.nodup_append]
                      refine ⟨hg.2.1, by simp, ?_⟩
                      intro a ha hb2
                      simp only [List.map_cons, List.map_nil, List.mem_singleton] at hb2
                      obtain ⟨x, hx, hxe⟩ := List.mem_map.mp ha
                      have hlt : x._id < s.nextId := (h.2.2 c hcm).2.2.2 x hx
                      have heq : x._id = s.nextId + 1 := hxe.trans hb2
                      rw [heq] at hlt
                      exact absurd hlt (Nat.not_lt.mpr (Nat.le_succ _))
                    · intro item hi
                      rcases List.mem_append.mp hi with hi | hi
                      · exact hg.2.2 item hi
                      · simp only [List.mem_singleton] at hi
                        subst hi
                        exact Nat.lt_succ_self _
                  | none =>
                    simp only [hc] at hqs ⊢
                    refine cartsWF_insert h hc ⟨hqs, ?_, ?_⟩
                      (Nat.lt_add_of_pos_right (by decide))
                    · simp
                    · intro item hi
                      simp only [List.nil_append, List.mem_singleton] at hi
                      subst hi
                      exact Nat.lt_succ_self _

theorem cartUpdate_cartsWF (s : Store) (user itemId : ObjectId) (body : UpdateBody)
    (h : CartsWF s.carts s.nextId) :
    CartsWF (cartUpdate s user itemId body).1.carts (cartUpdate s user itemId body).1.nextId := by
  by_cases hok : (cartUpdate s user itemId body).2.status = 200
  · obtain ⟨cart, q, _, hq, hc, _, _, he⟩ := cartUpdate_ok s user itemId body hok
    rw [he]
    exact cartsWF_replace h (findCart_mem hc)
      (goodItems_setQuantity (h.2.2 cart (findCart_mem hc)).2 itemId hq)
  · rw [cartUpdate_failed s user itemId body hok]
    exact h

theorem cartRemove_cartsWF (s : Store) (user itemId : ObjectId)
    (h : CartsWF s.carts s.nextId) :
    CartsWF (cartRemove s user itemId).1.carts (cartRemove s user itemId).1.nextId := by
  by_cases hok : (cartRemove s user itemId).2.status = 200
  · obtain ⟨cart, hc, _, he⟩ := cartRemove_ok s user itemId hok
    rw [he]
    exact cartsWF_replace h (findCart_mem hc)
      (goodItems_eraseP (h.2.2 cart (findCart_mem hc)).2 _)
  · rw [cartRemove_failed s user itemId hok]
    exact h

theorem cartClear_cartsWF (s : Store) (user : ObjectId) (h : CartsWF s.carts s.nextId) :
    CartsWF (cartClear s user).1.carts (cartClear s user).1.nextId := by
  unfold cartClear
  cases hc : findCart s.carts user with
  | none => exact h
  | some cart => exact cartsWF_replace h (findCart_mem hc) (goodItems_nil _)

theorem clearCartAfterOrder_cartsWF (s : Store) (user : ObjectId) (body : CheckoutBody)
    (h : CartsWF s.carts s.nextId) :
    CartsWF (clearCartAfterOrder s user body).carts (clearCartAfterOrder s user body).nextId := by
  unfold clearCartAfterOrder
  by_cases hb : isBuyNow body = true
  · simp only [hb, if_true]
    exact h
  · simp only [hb, Bool.false_eq_true, if_false]
    cases hc : findCart s.carts user with
    | none => exact h
    | some cart => exact cartsWF_replace h (findCart_mem hc) (goodItems_nil _)

theorem ordersCheckout_cartsWF (s : Store) (user : ObjectId) (body : CheckoutBody)
    (h : CartsWF s.carts s.nextId) :
    CartsWF (ordersCheckout s user body).1.carts (ordersCheckout s user body).1.nextId := by
  by_cases hok : (ordersCheckout s user body).2.status = 201
  · obtain ⟨orderProducts, total, _, _, he⟩ := ordersCheckout_created s user body hok
    rw [he]
    have hm : CartsWF s.carts (s.nextId + 1) := cartsWF_mono h (Nat.le_succ _)
    exact clearCartAfterOrder_cartsWF _ user body hm
  · rw [ordersCheckout_failed s user body hok]
    exact h

theorem purchasesCheckout_cartsWF (persists : Purchase → Bool) (s : Store) (user : ObjectId)
    (body : PurchaseBody) (h : CartsWF s.carts s.nextId) :
    CartsWF (purchasesCheckout persists s user body).1.carts
      (purchasesCheckout persists s user body).1.nextId := by
  unfold purchasesCheckout
  cases hc : findCart s.carts user with
  | none => exact h
  | some cart =>
    simp only
    by_cases he : (cart.items.length == 0) = true
    · simp only [he, if_true]
      exact h
    · simp only [he, Bool.false_eq_true, if_false]
      cases hr : resolved (populate s.products cart.items) with
      | none => exact h
      | some lines =>
        simp only
        have hfr := createPurchases_frame persists user body (groupLines lines ([], 0)).1 s
        have hn := createPurchases_nextId persists user body (groupLines lines ([], 0)).1 s
        cases hcp : createPurchases persists user body (groupLines lines ([], 0)).1 s with
        | mk s1 r =>
          rw [hcp] at hfr hn
          have h1 : CartsWF s1.carts s1.nextId := by
            rw [hfr.2.1]
            exact cartsWF_mono h hn
          cases r with
          | none => exact h1
          | some ps =>
            show CartsWF (saveCart s1.carts { cart with items := [] }) s1.nextId
            refine cartsWF_replace h1 ?_ (goodItems_nil _)
            rw [hfr.2.1]
            exact findCart_mem hc

theorem otherRoutes_nextId (s : Store) (user id : ObjectId) :
    (∀ body, (productUpdate s user id body).1.nextId = s.nextId) ∧
    (productDelete s user id).1.nextId = s.nextId ∧
    (∀ status, (orderStatusUpdate s user id status).1.nextId = s.nextId) ∧
    (∀ status, (purchaseStatusUpdate s user id status).1.nextId = s.nextId) := by
  refine ⟨?_, ?_, ?_, ?_⟩
  · intro body
    unfold productUpdate
    cases findProduct s.products id with
    | none => rfl
    | some product =>
      simp only
      split
      · rfl
      · split <;> rfl
  · unfold productDelete
    cases findProduct s.products id with
    | none => rfl
    | some product =>
      simp only
      split <;> rfl
  · intro status
    unfold orderStatusUpdate
    split
    · rfl
    · cases findOrder s.orders id with
      | none => rfl
      | some order =>
        simp only
        split
        · rfl
        · split <;> rfl
  · intro status
    unfold purchaseStatusUpdate
    split
    · rfl
    · cases findPurchase s.purchases id with
      | none => rfl
      | some purchase =>
        simp only
        split
        · rfl
        · split <;> rfl

/-- Every request keeps the cart collection well formed. -/
theorem step_cartsWF {s t : Store} (hstep : Step s t) (h : CartsWF s.carts s.nextId) :
    CartsWF t.carts t.nextId := by
  cases hstep with
  | cartGet s user => exact cartGet_cartsWF s user h
  | cartAdd s user body => exact cartAdd_cartsWF s user body h
  | cartAddText s user body => exact cartAddText_cartsWF s user body h
  | cartUpdate s user itemId body => exact cartUpdate_cartsWF s user itemId body h
  | cartRemove s user itemId => exact cartRemove_cartsWF s user itemId h
  | cartClear s user => exact cartClear_cartsWF s user h
  | ordersCheckout s user body => exact ordersCheckout_cartsWF s user body h
  | purchasesCheckout persists s user body =>
    exact purchasesCheckout_cartsWF persists s user body h
  | productUpdate s user id body =>
    rw [(productUpdate_frame s user id body).2.1, (otherRoutes_nextId s user id).1 body]
    exact h
  | productDelete s user id =>
    rw [(productDelete_frame s user id).2.1, (otherRoutes_nextId s user id).2.1]
    exact h
  | orderStatusUpdate s user id status =>
    rw [(orderStatusUpdate_frame s user id status).1, (otherRoutes_nextId s user id).2.2.1 status]
    exact h
  | purchaseStatusUpdate s user id status =>
    rw [(purchaseStatusUpdate_frame s user id status).2.1,
      (otherRoutes_nextId s user id).2.2.2 status]
    exact h

/-- The cart collection of every reachable store is well formed. -/
theorem reachable_cartsWF {s : Store} (hreach : Reachable s) : CartsWF s.carts s.nextId := by
  induction hreach with
  | init s hcarts _ _ =>
    rw [hcarts]
    exact ⟨by simp, by simp, by simp⟩
  | step _ hstep ih => exact step_cartsWF hstep ih

/-- The store `shoppingStore` is reachable. -/
theorem shoppingStore_reachable : Reachable shoppingStore :=
  Reachable.step
    (Reachable.step
      (Reachable.step (Reachable.init catalogStore rfl rfl rfl)
        (Step.cartAdd catalogStore 7 ⟨some 1, .number 2⟩))
      (Step.cartAdd (cartAdd catalogStore 7 ⟨some 1, .number 2⟩).1 7 ⟨some 2, .absent⟩))
    (Step.cartAdd
      (cartAdd (cartAdd catalogStore 7 ⟨some 1, .number 2⟩).1 7 ⟨some 2, .absent⟩).1 8 addLamp)

/-- With distinct line ids, the line selected by id is the only one with it. -/
theorem nodup_split_ids {items pre post : List CartItem} {line : CartItem}
    (hnd : (items.map (fun item => item._id)).Nodup) (hsplit : items = pre ++ line :: post) :
    ∀ x ∈ pre ++ post, x._id ≠ line._id := by
  subst hsplit
  simp only [List.map_append, List.map_cons] at hnd
  rw [List.nodup_append] at hnd
  obtain ⟨_, h2, h3⟩ := hnd
  rw [List.nodup_cons] at h2
  intro x hx hxe
  rcases List.mem_append.mp hx with hx | hx
  · exact h3 (List.mem_map_of_mem (fun item => item._id) hx)
      (by rw [hxe]; exact List.mem_cons_self _ _)
  · exact h2.1 (by rw [← hxe]; exact List.mem_map_of_mem (fun item => item._id) hx)

theorem any_id_true {items : List CartItem} {itemId : ObjectId}
    (h : ∃ item ∈ items, item._id = itemId) :
    items.any (fun item => item._id == itemId) = true := by
  obtain ⟨item, hi, he⟩ := h
  simp only [List.any_eq_true, beq_iff_eq]
  exact ⟨item, hi, he⟩

/-- C22. In every reachable store, and so after every add, quantity update,
removal and clear served from it, every line of every stored cart has a
quantity of at least 1. -/
theorem cart_quantities_positive (s : Store) (hreach : Reachable s) :
    (∀ cart ∈ s.carts, ∀ item ∈ cart.items, 1 ≤ item.quantity) ∧
    (∀ user body, ∀ cart ∈ (postCartAdd s user body).1.carts,
      ∀ item ∈ cart.items, 1 ≤ item.quantity) ∧
    (∀ user itemId body, ∀ cart ∈ (putCartUpdate s user itemId body).1.carts,
      ∀ item ∈ cart.items, 1 ≤ item.quantity) ∧
    (∀ user itemId, ∀ cart ∈ (deleteCartRemove s user itemId).1.carts,
      ∀ item ∈ cart.items, 1 ≤ item.quantity) ∧
    (∀ user, ∀ cart ∈ (cartClear s user).1.carts,
      ∀ item ∈ cart.items, 1 ≤ item.quantity) := by
  have h := reachable_cartsWF hreach
  refine ⟨fun cart hc => (h.2.2 cart hc).2.1, ?_, ?_, ?_, ?_⟩
  · intro user body cart hc
    exact ((cartAdd_cartsWF s user body h).2.2 cart hc).2.1
  · intro user itemId body cart hc
    exact ((cartUpdate_cartsWF s user itemId body h).2.2 cart hc).2.1
  · intro user itemId cart hc
    exact ((cartRemove_cartsWF s user itemId h).2.2 cart hc).2.1
  · intro user cart hc
    exact ((cartClear_cartsWF s user h).2.2 cart hc).2.1

/-- C22 on the store with the carts of users 7 and 8: quantities 2, 1 and 1. -/
theorem cart_quantities_positive_witness :
    Reachable shoppingStore ∧
    shoppingStore.carts.map (fun c => c.items.map (fun i => i.quantity)) = [[2, 1], [1]] ∧
    ∀ cart ∈ shoppingStore.carts, ∀ item ∈ cart.items, 1 ≤ item.quantity :=
  ⟨shoppingStore_reachable, by decide, (cart_quantities_positive shoppingStore
    shoppingStore_reachable).1⟩

/-- A request served without a line of the given id in the requester's cart is
answered 404, by the update and by the removal, and changes nothing. -/
theorem cart_line_missing (s : Store) (user itemId : ObjectId)
    (hno : ∀ cart, findCart s.carts user = some cart →
      ∀ item ∈ cart.items, item._id ≠ itemId) :
    (∀ body : UpdateBody, quantityRejected body.quantity = false →
      (cartUpdate s user itemId body).1 = s ∧ (cartUpdate s user itemId body).2.status = 404) ∧
    ((cartRemove s user itemId).1 = s ∧ (cartRemove s user itemId).2.status = 404) := by
  constructor
  · intro body hq
    unfold cartUpdate
    cases hc : findCart s.carts user with
    | none => simp [hq, notFound]
    | some cart =>
      have hany := any_id_false (hno cart hc)
      simp [hq, hany, notFound]
  · unfold cartRemove
    cases hc : findCart s.carts user with
    | none => simp [notFound]
    | some cart =>
      have hany := any_id_false (hno cart hc)
      simp [hany, notFound]

/-- Handler up to `res.json`, before the response is serialized.
The quantity is checked first: a missing quantity or one below 1 is
answered 400 "Valid quantity is required" whatever the cart and the item id.
Otherwise an item id that is not a line of the requester's own cart (no cart,
or no such line in it, also when the id is a line of another user's cart) is
answered 404.  In a reachable store a quantity of at least 1 for a line of the
own cart succeeds: exactly that line gets the given quantity, the other lines
and their order are unchanged, and in the collection only that cart is
replaced.  The update succeeds only for such requests. -/
theorem cartUpdate_quantity (s : Store) (hreach : Reachable s) (user itemId : ObjectId)
    (body : UpdateBody) :
    (quantityRejected body.quantity = true →
      cartUpdate s user itemId body = (s, badRequest "Valid quantity is required")) ∧
    (quantityRejected body.quantity = false →
      (∀ cart, findCart s.carts user = some cart →
        ∀ item ∈ cart.items, item._id ≠ itemId) →
      (cartUpdate s user itemId body).1 = s ∧ (cartUpdate s user itemId body).2.status = 404) ∧
    (∀ q cart, (quantityRejected body.quantity = false ∧
        parseIntField body.quantity = some q) → 1 ≤ q → findCart s.carts user = some cart →
      (∃ item ∈ cart.items, item._id = itemId) →
      ∃ pre line post, cart.items = pre ++ line :: post ∧ line._id = itemId ∧
        (∀ x ∈ pre ++ post, x._id ≠ itemId) ∧
        cartUpdate s user itemId body =
          ({ s with
              carts := s.carts.map (fun c =>
                if c = cart then { cart with items := pre ++ { line with quantity := q } :: post }
                else c) },
            { status := 200, message := "Cart updated successfully",
              data := some { cart with items := pre ++ { line with quantity := q } :: post } })) ∧
    ((cartUpdate s user itemId body).2.status = 200 →
      ∃ q cart, (quantityRejected body.quantity = false ∧
          parseIntField body.quantity = some q) ∧ 1 ≤ q ∧
        findCart s.carts user = some cart ∧ ∃ item ∈ cart.items, item._id = itemId) := by
  have hwf := reachable_cartsWF hreach
  refine ⟨?_, ?_, ?_, ?_⟩
  · intro h
    unfold cartUpdate
    simp [h]
  · intro hq hno
    exact (cart_line_missing s user itemId hno).1 body hq
  · intro q cart hb hq hc hex
    have hany := any_id_true hex
    have hcm := findCart_mem hc
    have hgood := goodItems_setQuantity (hwf.2.2 cart hcm).2 itemId hq
    have hv : validateCart { cart with items := setQuantity itemId q cart.items } = true :=
      (all_valid_iff _).mpr hgood.1
    have hrej : quantityRejected body.quantity = false := hb.1
    have hp : parseIntField body.quantity = some q := hb.2
    have he : cartUpdate s user itemId body =
        ({ s with
            carts := saveCart s.carts { cart with items := setQuantity itemId q cart.items } },
          { status := 200, message := "Cart updated successfully",
            data := some { cart with items := setQuantity itemId q cart.items } }) := by
      unfold cartUpdate
      simp only [hrej, hc, hany, hp, hv, Bool.false_eq_true, if_false, Bool.not_true]
    obtain ⟨pre, line, post, h1, h2, _, h4, _⟩ := setQuantity_split itemId q cart.items hany
    have huniq := nodup_split_ids (hwf.2.2 cart hcm).2.2.1 h1
    rw [h2] at huniq
    refine ⟨pre, line, post, h1, h2, huniq, ?_⟩
    rw [he, saveCart_replace hwf hcm, h4]
  · intro hok
    obtain ⟨cart, q, hb, hq, hc, hany, _, _⟩ := cartUpdate_ok s user itemId body hok
    refine ⟨q, cart, hb, hq, hc, ?_⟩
    simp only [List.any_eq_true, beq_iff_eq] at hany
    exact hany

/-- Handler up to `res.json`, before the response is serialized.
An item id that is not a line of the requester's own cart (no cart, or
no such line in it) is answered 404 and nothing changes.  In a reachable store
the removal of a line of the own cart succeeds whatever its quantity: exactly
that line is removed, so the cart has one line fewer, the remaining lines are
unchanged and keep their order, and in the collection only that cart is
replaced. -/
theorem cartRemove_item (s : Store) (hreach : Reachable s) (user itemId : ObjectId) :
    ((∀ cart, findCart s.carts user = some cart →
        ∀ item ∈ cart.items, item._id ≠ itemId) →
      (cartRemove s user itemId).1 = s ∧ (cartRemove s user itemId).2.status = 404) ∧
    (∀ cart, findCart s.carts user = some cart →
      (∃ item ∈ cart.items, item._id = itemId) →
      ∃ pre line post, cart.items = pre ++ line :: post ∧ line._id = itemId ∧
        (∀ x ∈ pre ++ post, x._id ≠ itemId) ∧
        (pre ++ post).length + 1 = cart.items.length ∧
        cartRemove s user itemId =
          ({ s with
              carts := s.carts.map (fun c =>
                if c = cart then { cart with items := pre ++ post } else c) },
            { status := 200, message := "Item removed from cart successfully",
              data := some { cart with items := pre ++ post } })) := by
  have hwf := reachable_cartsWF hreach
  refine ⟨fun hno => (cart_line_missing s user itemId hno).2, ?_⟩
  intro cart hc hex
  have hany := any_id_true hex
  have hcm := findCart_mem hc
  have hgood := goodItems_eraseP (hwf.2.2 cart hcm).2 (fun item => item._id == itemId)
  have hv : validateCart
      { cart with items := cart.items.eraseP (fun item => item._id == itemId) } = true :=
    (all_valid_iff _).mpr hgood.1
  have he : cartRemove s user itemId =
      ({ s with
          carts := saveCart s.carts
            ({ cart with items := cart.items.eraseP (fun item => item._id == itemId) }) },
        { status := 200, message := "Item removed from cart successfully",
          data := some
            { cart with items := cart.items.eraseP (fun item => item._id == itemId) } }) := by
    unfold cartRemove
    simp only [hc, hany, hv, Bool.false_eq_true, if_false, Bool.not_true]
  obtain ⟨pre, line, post, h1, h2, _, _, h5⟩ := setQuantity_split itemId 0 cart.items hany
  have huniq := nodup_split_ids (hwf.2.2 cart hcm).2.2.1 h1
  rw [h2] at huniq
  have hlen : (pre ++ post).length + 1 = cart.items.length := by
    rw [h1]
    simp only [List.length_append, List.length_cons]
    omega
  refine ⟨pre, line, post, h1, h2, huniq, hlen, ?_⟩
  rw [he, saveCart_replace hwf hcm, h5]

theorem cartGet_found {s : Store} {user : ObjectId} {cart : Cart}
    (h : findCart s.carts user = some cart) :
    cartGet s user = (s, { status := 200, message := "", data := some cart }) := by
  unfold cartGet
  simp only [h]

/-- Handler up to `res.json`, before the response is serialized.
The handler of `GET /cart` always answers 200 with a cart of the
requester, which is then the requester's stored cart: the existing cart as it
is, the store being unchanged, or, when there is none, a new cart without
lines appended to the collection.  A second call changes nothing and returns
the same cart.  In a reachable store, and after the call, no two stored carts
belong to the same user. -/
theorem cartGet_or_create (s : Store) (hreach : Reachable s) (user : ObjectId) :
    (∃ cart, (cartGet s user).2 = { status := 200, message := "", data := some cart } ∧
      cart.user = user ∧ findCart (cartGet s user).1.carts user = some cart ∧
      (∀ c, findCart s.carts user = some c → cart = c ∧ (cartGet s user).1 = s) ∧
      (findCart s.carts user = none →
        cart.items = [] ∧ (cartGet s user).1.carts = s.carts ++ [cart])) ∧
    cartGet (cartGet s user).1 user = cartGet s user ∧
    (s.carts.map (fun c => c.user)).Nodup ∧
    ((cartGet s user).1.carts.map (fun c => c.user)).Nodup := by
  have hwf := reachable_cartsWF hreach
  have hwf2 := cartGet_cartsWF s user hwf
  have hmain : ∃ cart,
      (cartGet s user).2 = { status := 200, message := "", data := some cart } ∧
      cart.user = user ∧ findCart (cartGet s user).1.carts user = some cart ∧
      (∀ c, findCart s.carts user = some c → cart = c ∧ (cartGet s user).1 = s) ∧
      (findCart s.carts user = none →
        cart.items = [] ∧ (cartGet s user).1.carts = s.carts ++ [cart]) := by
    cases hc : findCart s.carts user with
    | some c =>
      have he : cartGet s user = (s, { status := 200, message := "", data := some c }) := by
        unfold cartGet
        simp only [hc]
      rw [he]
      refine ⟨c, rfl, findCart_user hc, hc, ?_, ?_⟩
      · intro c2 h2
        exact ⟨Option.some.inj h2, rfl⟩
      · intro h2
        exact Option.noConfusion h2
    | none =>
      have he : cartGet s user =
          ({ s with carts := saveCart s.carts { _id := s.nextId, user := user, items := [] },
                    nextId := s.nextId + 1 },
            { status := 200, message := "",
              data := some { _id := s.nextId, user := user, items := [] } }) := by
        unfold cartGet
        simp only [hc]
      rw [he]
      refine ⟨{ _id := s.nextId, user := user, items := [] }, rfl, rfl,
        findCart_saveCart_new hc rfl, ?_, ?_⟩
      · intro c2 h2
        exact Option.noConfusion h2
      · intro _
        exact ⟨rfl, saveCart_insert hwf _ (le_refl _)⟩
  refine ⟨hmain, ?_, hwf.2.1, hwf2.2.1⟩
  obtain ⟨cart, h1, _, h3, _, _⟩ := hmain
  rw [cartGet_found h3, ← h1]

theorem newOrder_products (id user : ObjectId) (body : CheckoutBody)
    (ops : List OrderProduct) (total : Option Int) :
    (newOrder id user body ops total).products = ops := rfl

/-- A request served alone, move by move, is the request served at once. -/
theorem runAlone_ordersCheckout (s : Store) (user : ObjectId) (body : CheckoutBody) :
    runAlone 5 (s, .received user body) =
      ((ordersCheckout s user body).1, .responded (ordersCheckout s user body).2) := by
  unfold ordersCheckout
  by_cases h1 : addressComplete body.address = true
  swap
  · simp [runAlone, advance, h1]
  by_cases h2 : truthy body.location = true
  swap
  · simp [runAlone, advance, h1, h2]
  by_cases h3 : truthy body.paymentMethod = true
  swap
  · simp [runAlone, advance, h1, h2, h3]
  cases hp : prepareOrder s user body with
  | error r => simp [runAlone, advance, h1, h2, h3, hp]
  | ok pr =>
    obtain ⟨ops, total⟩ := pr
    by_cases hv : validateOrder (newOrder s.nextId user body ops total) = true
    swap
    · simp [runAlone, advance, h1, h2, h3, hp, hv]
    by_cases hb : isBuyNow body = true
    · simp [runAlone, advance, h1, h2, h3, hp, hv, hb, clearCartAfterOrder, placeOrder,
        newOrder_products]
    · cases hc : findCart s.carts user with
      | none =>
        simp [runAlone, advance, h1, h2, h3, hp, hv, hb, clearCartAfterOrder, placeOrder,
          newOrder_products, hc]
      | some cart =>
        simp [runAlone, advance, h1, h2, h3, hp, hv, hb, clearCartAfterOrder, placeOrder,
          newOrder_products, hc]

theorem advance_movesLeft (s : Store) (t : CheckoutTask) :
    movesLeft (advance s t).2 ≤ movesLeft t - 1 := by
  cases t with
  | received user body =>
    simp only [advance]
    split
    · simp [movesLeft]
    split
    · simp [movesLeft]
    split
    · simp [movesLeft]
    split <;> simp [movesLeft]
  | toSave user body ops total =>
    simp only [advance]
    split <;> simp [movesLeft]
  | toMark user body order =>
    simp only [advance]
    split <;> simp [movesLeft]
  | toFindCart user body order =>
    simp only [advance]
    split <;> simp [movesLeft]
  | toClear user body order cart => simp [advance, movesLeft]
  | responded res => simp [advance, movesLeft]

theorem response_of_movesLeft {t : CheckoutTask} (h : movesLeft t = 0) :
    (response t).isSome = true := by
  cases t <;> simp [movesLeft, response] at h ⊢

/-- Every move of the schedule given to a checkout brings it nearer to its
response. -/
theorem runSchedule_movesLeft :
    ∀ (sched : List Bool) (s : Store) (t1 t2 : CheckoutTask),
      movesLeft (runSchedule sched (s, t1, t2)).2.1 ≤ movesLeft t1 - sched.count true ∧
      movesLeft (runSchedule sched (s, t1, t2)).2.2 ≤ movesLeft t2 - sched.count false
  | [], s, t1, t2 => by simp [runSchedule]
  | true :: rest, s, t1, t2 => by
    have ih := runSchedule_movesLeft rest (advance s t1).1 (advance s t1).2 t2
    have hm := advance_movesLeft s t1
    simp only [runSchedule, List.count_cons_self, List.count_cons_of_ne (by decide : true ≠ false)]
    constructor
    · omega
    · have := ih.2
      simpa using this
  | false :: rest, s, t1, t2 => by
    have ih := runSchedule_movesLeft rest (advance s t2).1 t1 (advance s t2).2
    have hm := advance_movesLeft s t2
    simp only [runSchedule, List.count_cons_self, List.count_cons_of_ne (by decide : false ≠ true)]
    constructor
    · have := ih.1
      simpa using this
    · omega

/-- What the checkout prepares depends on the store only through the cart of
the user and the catalog up to availability. -/
theorem prepareOrder_stable {s t : Store} (user : ObjectId) (body : CheckoutBody)
    (hc : findCart t.carts user = findCart s.carts user)
    (hp : t.products.map (fun p => { p with isAvailable := true }) =
      s.products.map (fun p => { p with isAvailable := true })) :
    prepareOrder t user body = prepareOrder s user body := by
  rw [← prepareOrder_available t, ← prepareOrder_available s]
  unfold prepareOrder
  simp only [hc, hp]

theorem updateManyUnavailable_available (products : List Product) (ids : List ObjectId) :
    (updateManyUnavailable products ids).map (fun p => { p with isAvailable := true }) =
      products.map (fun p => { p with isAvailable := true }) := by
  unfold updateManyUnavailable
  rw [List.map_map]
  apply List.map_congr_left
  intro p _
  show ({ (if ids.contains p._id then { p with isAvailable := false } else p) with
    isAvailable := true } : Product) = { p with isAvailable := true }
  cases ids.contains p._id with
  | true => rfl
  | false => rfl

theorem marked_updateMany {s : Store} {ops : List OrderProduct} (h : Marked s ops)
    (ids : List ObjectId) :
    Marked { s with products := updateManyUnavailable s.products ids } ops := by
  intro p hp hid
  show p.isAvailable = false
  have hp2 : p ∈ updateManyUnavailable s.products ids := hp
  have hun : ∀ x ∈ s.products, x._id = p._id → x.isAvailable = false :=
    fun x hx hxe => h x hx (by rw [hxe]; exact hid)
  exact updateManyUnavailable_keeps hun ids p hp2 rfl

theorem compatible_refl (user : ObjectId) (s : Store) : Compatible user s s :=
  ⟨fun _ h => h, fun _ h => h, fun _ => rfl, fun _ h _ => h⟩

/-- Saving an order is not noticed by a checkout in progress. -/
theorem compatible_save (user : ObjectId) (s : Store) (order : Order) :
    Compatible user s { s with orders := s.orders ++ [order], nextId := s.nextId + 1 } :=
  ⟨fun _ h => List.mem_append_left _ h, fun _ h => h, fun _ => rfl, fun _ h _ => h⟩

/-- Marking products as unavailable is not noticed by a checkout in progress. -/
theorem compatible_mark (user : ObjectId) (s : Store) (ids : List ObjectId) :
    Compatible user s { s with products := updateManyUnavailable s.products ids } :=
  ⟨fun _ h => h, fun _ h => marked_updateMany h ids,
    fun body => prepareOrder_stable user body rfl (updateManyUnavailable_available _ _),
    fun _ h _ => h⟩

theorem findCart_replace_other {carts : List Cart} {n : Nat} (h : CartsWF carts n)
    {cart : Cart} (hc : cart ∈ carts) (items : List CartItem) {user : ObjectId}
    (hu : cart.user ≠ user) :
    findCart (saveCart carts { cart with items := items }) user = findCart carts user := by
  rw [saveCart_replace h hc]
  unfold findCart
  clear h hc
  induction carts with
  | nil => rfl
  | cons c rest ih =>
    by_cases he : c = cart
    · subst he
      have h1 : (c.user == user) = false := by simpa using hu
      simp only [List.map_cons, if_true, List.find?_cons, h1]
      exact ih
    · simp only [List.map_cons, he, if_false, List.find?_cons]
      cases (c.user == user) with
      | true => rfl
      | false => exact ih

theorem mem_replace_other {carts : List Cart} {n : Nat} (h : CartsWF carts n)
    {cart : Cart} (hc : cart ∈ carts) (items : List CartItem) {c : Cart} (hm : c ∈ carts)
    (hu : c.user ≠ cart.user) : c ∈ saveCart carts { cart with items := items } := by
  rw [saveCart_replace h hc]
  refine List.mem_map.mpr ⟨c, hm, ?_⟩
  have hne : c ≠ cart := fun he => hu (by rw [he])
  simp [hne]

/-- Clearing the cart of another user is not noticed by a checkout in progress. -/
theorem compatible_clear {user : ObjectId} {s : Store} (h : CartsWF s.carts s.nextId)
    {cart : Cart} (hc : cart ∈ s.carts) (hu : cart.user ≠ user) :
    Compatible user s { s with carts := saveCart s.carts { cart with items := [] } } :=
  ⟨fun _ h => h, fun _ h => h,
    fun body => prepareOrder_stable user body (findCart_replace_other h hc [] hu) rfl,
    fun c hm hcu => mem_replace_other h hc [] hm (by rw [hcu]; exact fun he => hu he.symm)⟩

/-- A checkout in progress stays on course through a change it does not notice. -/
theorem onCourse_compatible {user : ObjectId} {body : CheckoutBody} {ops : List OrderProduct}
    {s t : Store} (hc : Compatible user s t) {task : CheckoutTask}
    (h : OnCourse user body ops s task) : OnCourse user body ops t task := by
  obtain ⟨c1, c2, c3, c4⟩ := hc
  cases task with
  | received u b =>
    obtain ⟨h1, h2, h3, h4, h5, total, h6, h7⟩ := h
    exact ⟨h1, h2, h3, h4, h5, total, by rw [c3]; exact h6, h7⟩
  | toSave u b ops2 total => exact h
  | toMark u b order =>
    obtain ⟨h1, h2, h3, h4, h5⟩ := h
    exact ⟨h1, h2, c1 _ h3, h4, h5⟩
  | toFindCart u b order =>
    obtain ⟨h1, h2, h3, h4, h5, h6⟩ := h
    exact ⟨h1, h2, c1 _ h3, h4, h5, c2 _ h6⟩
  | toClear u b order cart =>
    obtain ⟨h1, h2, h3, h4, h5, h6, h7, h8⟩ := h
    exact ⟨h1, h2, c1 _ h3, h4, h5, c2 _ h6, c4 _ h7 h8, h8⟩
  | responded r =>
    obtain ⟨h1, order, h2, h3, h4, h5, h6⟩ := h
    exact ⟨h1, order, h2, c1 _ h3, h4, h5, c2 _ h6⟩

/-- One move of a checkout on course: it stays on course, the cart collection
stays well formed, and no other user's checkout in progress notices. -/
theorem advance_step {user : ObjectId} {body : CheckoutBody} {ops : List OrderProduct}
    {s : Store} {task : CheckoutTask} (hwf : CartsWF s.carts s.nextId)
    (h : OnCourse user body ops s task) :
    OnCourse user body ops (advance s task).1 (advance s task).2 ∧
    CartsWF (advance s task).1.carts (advance s task).1.nextId ∧
    ∀ other, other ≠ user → Compatible other s (advance s task).1 := by
  cases task with
  | received u b =>
    obtain ⟨rfl, rfl, h3, h4, h5, total, h6, h7⟩ := h
    have he : advance s (.received u b) = (s, .toSave u b ops total) := by
      simp only [advance, h3, h4, h5, h6, Bool.not_true, Bool.false_eq_true, if_false]
    rw [he]
    exact ⟨⟨rfl, rfl, rfl, h7⟩, hwf, fun _ _ => compatible_refl _ _⟩
  | toSave u b ops2 total =>
    obtain ⟨rfl, rfl, rfl, hv⟩ := h
    have hv2 : validateOrder (newOrder s.nextId u b ops2 total) = true := hv
    have he : advance s (.toSave u b ops2 total) =
        ({ s with orders := s.orders ++ [newOrder s.nextId u b ops2 total],
                  nextId := s.nextId + 1 },
          .toMark u b (newOrder s.nextId u b ops2 total)) := by
      simp only [advance, hv2, Bool.not_true, Bool.false_eq_true, if_false]
    rw [he]
    refine ⟨⟨rfl, rfl, ?_, rfl, rfl⟩, cartsWF_mono hwf (Nat.le_succ _),
      fun _ _ => compatible_save _ _ _⟩
    show _ ∈ s.orders ++ [_]
    simp
  | toMark u b order =>
    obtain ⟨rfl, rfl, hm, hu, hp⟩ := h
    have hmk : Marked
        { s with
          products :=
            updateManyUnavailable s.products (order.products.map (fun item => item.productId)) } ops := by
      intro p hpm hid
      rw [← hp] at hid
      exact updateManyUnavailable_mem hpm hid
    cases hb : isBuyNow b with
    | true =>
      have he : advance s (.toMark u b order) =
          ({ s with
              products :=
                updateManyUnavailable s.products
                  (order.products.map (fun item => item.productId)) },
            .responded
              { status := 201, message := "Order placed successfully", data := some order }) := by
        simp only [advance, hb, if_true]
      rw [he]
      exact ⟨⟨rfl, order, rfl, hm, hu, hp, hmk⟩, hwf, fun _ _ => compatible_mark _ _ _⟩
    | false =>
      have he : advance s (.toMark u b order) =
          ({ s with
              products :=
                updateManyUnavailable s.products
                  (order.products.map (fun item => item.productId)) },
            .toFindCart u b order) := by
        simp only [advance, hb, Bool.false_eq_true, if_false]
      rw [he]
      exact ⟨⟨rfl, rfl, hm, hu, hp, hmk⟩, hwf, fun _ _ => compatible_mark _ _ _⟩
  | toFindCart u b order =>
    obtain ⟨rfl, rfl, hm, hu, hp, hmk⟩ := h
    cases hc : findCart s.carts u with
    | none =>
      have he : advance s (.toFindCart u b order) =
          (s, .responded
            { status := 201, message := "Order placed successfully", data := some order }) := by
        simp only [advance, hc]
      rw [he]
      exact ⟨⟨rfl, order, rfl, hm, hu, hp, hmk⟩, hwf, fun _ _ => compatible_refl _ _⟩
    | some cart =>
      have he : advance s (.toFindCart u b order) = (s, .toClear u b order cart) := by
        simp only [advance, hc]
      rw [he]
      exact ⟨⟨rfl, rfl, hm, hu, hp, hmk, findCart_mem hc, findCart_user hc⟩, hwf,
        fun _ _ => compatible_refl _ _⟩
  | toClear u b order cart =>
    obtain ⟨rfl, rfl, hm, hu, hp, hmk, hcm, hcu⟩ := h
    have he : advance s (.toClear u b order cart) =
        ({ s with carts := saveCart s.carts { cart with items := [] } },
          .responded
            { status := 201, message := "Order placed successfully", data := some order }) := rfl
    rw [he]
    refine ⟨⟨rfl, order, rfl, hm, hu, hp, hmk⟩, cartsWF_replace hwf hcm (goodItems_nil _), ?_⟩
    intro other hne
    exact compatible_clear hwf hcm (by rw [hcu]; exact fun he => hne he.symm)
  | responded r =>
    have he : advance s (.responded r) = (s, .responded r) := rfl
    rw [he]
    exact ⟨h, hwf, fun _ _ => compatible_refl _ _⟩

/-- Two checkouts on course, of two users, stay on course under every schedule. -/
theorem runSchedule_onCourse {u1 u2 : ObjectId} {b1 b2 : CheckoutBody}
    {ops1 ops2 : List OrderProduct} (hne : u1 ≠ u2) :
    ∀ (sched : List Bool) (s : Store) (t1 t2 : CheckoutTask),
      CartsWF s.carts s.nextId → OnCourse u1 b1 ops1 s t1 → OnCourse u2 b2 ops2 s t2 →
      OnCourse u1 b1 ops1 (runSchedule sched (s, t1, t2)).1 (runSchedule sched (s, t1, t2)).2.1 ∧
      OnCourse u2 b2 ops2 (runSchedule sched (s, t1, t2)).1 (runSchedule sched (s, t1, t2)).2.2
  | [], s, t1, t2, _, h1, h2 => ⟨h1, h2⟩
  | true :: rest, s, t1, t2, hwf, h1, h2 => by
    obtain ⟨a1, a2, a3⟩ := advance_step hwf h1
    exact runSchedule_onCourse hne rest _ _ _ a2 a1
      (onCourse_compatible (a3 u2 (fun he => hne he.symm)) h2)
  | false :: rest, s, t1, t2, hwf, h1, h2 => by
    obtain ⟨a1, a2, a3⟩ := advance_step hwf h2
    exact runSchedule_onCourse hne rest _ _ _ a2
      (onCourse_compatible (a3 u1 hne) h1) a1

/-- A checkout that succeeds when served at once is on course when it arrives. -/
theorem onCourse_received {s : Store} {user : ObjectId} {body : CheckoutBody}
    (hok : (ordersCheckout s user body).2.status = 201) :
    ∃ order, (ordersCheckout s user body).2.data = some order ∧
      OnCourse user body order.products s (.received user body) := by
  obtain ⟨ops, total, hp, hv, he⟩ := ordersCheckout_created s user body hok
  have h1 : addressComplete body.address = true := by
    by_contra hn
    have : addressComplete body.address = false := by simpa using hn
    unfold ordersCheckout at hok
    simp [this, badRequest] at hok
  have h2 : truthy body.location = true := by
    by_contra hn
    have : truthy body.location = false := by simpa using hn
    unfold ordersCheckout at hok
    simp [h1, this, badRequest] at hok
  have h3 : truthy body.paymentMethod = true := by
    by_contra hn
    have : truthy body.paymentMethod = false := by simpa using hn
    unfold ordersCheckout at hok
    simp [h1, h2, this, badRequest] at hok
  rw [he]
  exact ⟨_, rfl, rfl, rfl, h1, h2, h3, total, hp, hv⟩

theorem responded_of_movesLeft {t : CheckoutTask} (h : movesLeft t = 0) :
    ∃ r, t = .responded r := by
  cases t with
  | responded r => exact ⟨r, rfl⟩
  | received _ _ => simp [movesLeft] at h
  | toSave _ _ _ _ => simp [movesLeft] at h
  | toMark _ _ _ => simp [movesLeft] at h
  | toFindCart _ _ _ => simp [movesLeft] at h
  | toClear _ _ _ _ => simp [movesLeft] at h

/-- The store `twoCartsStore` is reachable. -/
theorem twoCartsStore_reachable : Reachable twoCartsStore :=
  Reachable.step
    (Reachable.step (Reachable.init catalogStore rfl rfl rfl)
      (Step.cartAdd catalogStore 7 addLamp))
    (Step.cartAdd (cartAdd catalogStore 7 addLamp).1 8 addLamp)

/-- C30 (as amended). Two order checkouts of two users, each of which succeeds
when served alone from a reachable store, both succeed when they are served
concurrently, under every interleaving of their database operations: each
answers 201 after at most five moves of its own, with an order of its user
that is stored and has the lines it has when served alone, and every product
of these lines is then unavailable.  No response sent under any schedule is a
failure: the handler has no test of availability and no conflict response. -/
theorem concurrent_checkouts_both_succeed (s : Store) (hreach : Reachable s)
    (u1 u2 : ObjectId) (b1 b2 : CheckoutBody) (hne : u1 ≠ u2)
    (h1 : (ordersCheckout s u1 b1).2.status = 201)
    (h2 : (ordersCheckout s u2 b2).2.status = 201) (sched : List Bool) :
    ∃ o1 o2, (ordersCheckout s u1 b1).2.data = some o1 ∧
      (ordersCheckout s u2 b2).2.data = some o2 ∧
      (5 ≤ sched.count true →
        ∃ r order,
          (runSchedule sched (s, .received u1 b1, .received u2 b2)).2.1 = .responded r ∧
          r.status = 201 ∧ r.data = some order ∧
          order ∈ (runSchedule sched (s, .received u1 b1, .received u2 b2)).1.orders ∧
          order.userId = u1 ∧ order.products = o1.products ∧
          Marked (runSchedule sched (s, .received u1 b1, .received u2 b2)).1 o1.products) ∧
      (5 ≤ sched.count false →
        ∃ r order,
          (runSchedule sched (s, .received u1 b1, .received u2 b2)).2.2 = .responded r ∧
          r.status = 201 ∧ r.data = some order ∧
          order ∈ (runSchedule sched (s, .received u1 b1, .received u2 b2)).1.orders ∧
          order.userId = u2 ∧ order.products = o2.products ∧
          Marked (runSchedule sched (s, .received u1 b1, .received u2 b2)).1 o2.products) ∧
      (∀ r, response (runSchedule sched (s, .received u1 b1, .received u2 b2)).2.1 = some r →
        r.status = 201) ∧
      (∀ r, response (runSchedule sched (s, .received u1 b1, .received u2 b2)).2.2 = some r →
        r.status = 201) := by
  obtain ⟨o1, hd1, hc1⟩ := onCourse_received h1
  obtain ⟨o2, hd2, hc2⟩ := onCourse_received h2
  have hwf := reachable_cartsWF hreach
  have hinv := runSchedule_onCourse hne sched s _ _ hwf hc1 hc2
  have hml := runSchedule_movesLeft sched s (.received u1 b1) (.received u2 b2)
  generalize runSchedule sched (s, .received u1 b1, .received u2 b2) = fin at hinv hml ⊢
  obtain ⟨s2, t1, t2⟩ := fin
  simp only at hinv hml ⊢
  refine ⟨o1, o2, hd1, hd2, ?_, ?_, ?_, ?_⟩
  · intro hcount
    have h0 : movesLeft t1 = 0 := by
      have hle := hml.1
      have h5 : movesLeft (.received u1 b1) = 5 := rfl
      rw [h5] at hle
      omega
    obtain ⟨r, rfl⟩ := responded_of_movesLeft h0
    obtain ⟨a1, order, a2, a3, a4, a5, a6⟩ := hinv.1
    exact ⟨r, order, rfl, a1, a2, a3, a4, a5, a6⟩
  · intro hcount
    have h0 : movesLeft t2 = 0 := by
      have hle := hml.2
      have h5 : movesLeft (.received u2 b2) = 5 := rfl
      rw [h5] at hle
      omega
    obtain ⟨r, rfl⟩ := responded_of_movesLeft h0
    obtain ⟨a1, order, a2, a3, a4, a5, a6⟩ := hinv.2
    exact ⟨r, order, rfl, a1, a2, a3, a4, a5, a6⟩
  · intro r hr
    cases t1 with
    | responded r2 =>
      simp only [response, Option.some.injEq] at hr
      subst hr
      exact hinv.1.1
    | received _ _ => simp [response] at hr
    | toSave _ _ _ _ => simp [response] at hr
    | toMark _ _ _ => simp [response] at hr
    | toFindCart _ _ _ => simp [response] at hr
    | toClear _ _ _ _ => simp [response] at hr
  · intro r hr
    cases t2 with
    | responded r2 =>
      simp only [response, Option.some.injEq] at hr
      subst hr
      exact hinv.2.1
    | received _ _ => simp [response] at hr
    | toSave _ _ _ _ => simp [response] at hr
    | toMark _ _ _ => simp [response] at hr
    | toFindCart _ _ _ => simp [response] at hr
    | toClear _ _ _ _ => simp [response] at hr

/-- C30 on the carts of users 7 and 8, which both hold product 1, with the two
checkouts taking turns: both answers are 201. -/
theorem concurrent_checkouts_both_succeed_witness :
    Reachable twoCartsStore ∧ (7 : ObjectId) ≠ 8 ∧
    (ordersCheckout twoCartsStore 7 demoCartBody).2.status = 201 ∧
    (ordersCheckout twoCartsStore 8 demoCartBody).2.status = 201 ∧
    (∀ r, response (runSchedule alternating
        (twoCartsStore, .received 7 demoCartBody, .received 8 demoCartBody)).2.1 = some r →
      r.status = 201) ∧
    (∀ r, response (runSchedule alternating
        (twoCartsStore, .received 7 demoCartBody, .received 8 demoCartBody)).2.2 = some r →
      r.status = 201) :=
  ⟨twoCartsStore_reachable, by decide, by decide, by decide,
    (concurrent_checkouts_both_succeed twoCartsStore twoCartsStore_reachable 7 8 demoCartBody
      demoCartBody (by decide) (by decide) (by decide) alternating).elim
      (fun _ h => h.elim (fun _ h2 => h2.2.2.2.2.1)),
    (concurrent_checkouts_both_succeed twoCartsStore twoCartsStore_reachable 7 8 demoCartBody
      demoCartBody (by decide) (by decide) (by decide) alternating).elim
      (fun _ h => h.elim (fun _ h2 => h2.2.2.2.2.2))⟩

/-- C30, counterexample. Product 1 is the one available unit that the carts of
users 7 and 8 both hold.  With the two cart checkouts taking turns, and also
with the first served to its end before the second starts, both answer 201:
two orders for product 1 are stored, one per user.  The same holds for two
direct checkouts of product 1. -/
theorem concurrent_checkouts_counterexample :
    twoCartsStore.products.map (fun p => (p._id, p.isAvailable)) = [(1, true), (2, true)] ∧
    twoCartsStore.carts.map (fun c => (c.user, c.items.map (fun i => i.product))) =
      [(7, [1]), (8, [1])] ∧
    (response (runSchedule alternating
      (twoCartsStore, .received 7 demoCartBody, .received 8 demoCartBody)).2.1).map
      (fun r => r.status) = some 201 ∧
    (response (runSchedule alternating
      (twoCartsStore, .received 7 demoCartBody, .received 8 demoCartBody)).2.2).map
      (fun r => r.status) = some 201 ∧
    (runSchedule alternating
      (twoCartsStore, .received 7 demoCartBody, .received 8 demoCartBody)).1.orders.map
      (fun o => (o.userId, o.products.map (fun l => l.productId))) = [(7, [1]), (8, [1])] ∧
    (ordersCheckout twoCartsStore 7 demoCartBody).2.status = 201 ∧
    (ordersCheckout (ordersCheckout twoCartsStore 7 demoCartBody).1 8 demoCartBody).2.status =
      201 ∧
    (response (runSchedule alternating
      (catalogStore, .received 7 demoBuyNowBody, .received 8 demoBuyNowBody)).2.1).map
      (fun r => r.status) = some 201 ∧
    (response (runSchedule alternating
      (catalogStore, .received 7 demoBuyNowBody, .received 8 demoBuyNowBody)).2.2).map
      (fun r => r.status) = some 201 := by
  decide

/-! ## The cart routes as served -/

theorem totalPrice_foldl_isSome (products : List Product) :
    ∀ (items : List CartItem) (t : Int),
      ((populate products items).foldl
        (fun total line =>
          match total, line.2 with
          | some t, some p => some (t + p.price * line.1.quantity)
          | _, _ => none)
        (some t)).isSome =
        items.all (fun item => (findProduct products item.product).isSome)
  | [], t => rfl
  | item :: rest, t => by
    have ih := totalPrice_foldl_isSome products rest
    simp only [populate, List.map_cons, List.foldl_cons, List.all_cons] at ih ⊢
    cases hf : findProduct products item.product with
    | none =>
      simp only [Option.isSome_none, Bool.false_and]
      rw [totalPrice_foldl_none]
      rfl
    | some p =>
      simp only [Option.isSome_some, Bool.true_and]
      exact ih _

/-- The virtual `totalPrice` can be read exactly when every line of the cart
refers to a product of the catalog. -/
theorem totalPrice_isSome (products : List Product) (cart : Cart) :
    (totalPrice (populate products cart.items)).isSome = linesResolve products cart := by
  unfold totalPrice linesResolve
  exact totalPrice_foldl_isSome products cart.items 0

theorem sendCart_none {products : List Product} {failure : String} {r : Res Cart}
    (hd : r.data = none) : sendCart products failure r = r := by
  unfold sendCart
  simp only [hd]

theorem sendCart_resolved {products : List Product} {failure : String} {r : Res Cart}
    {cart : Cart} (hd : r.data = some cart) (h : linesResolve products cart = true) :
    sendCart products failure r = r := by
  rw [← totalPrice_isSome] at h
  unfold sendCart
  simp only [hd]
  cases ht : totalPrice (populate products cart.items) with
  | none => simp [ht] at h
  | some t => rfl

theorem sendCart_stale {products : List Product} {failure : String} {r : Res Cart}
    {cart : Cart} (hd : r.data = some cart) (h : linesResolve products cart = false) :
    sendCart products failure r = serverError failure := by
  rw [← totalPrice_isSome] at h
  unfold sendCart
  simp only [hd]
  cases ht : totalPrice (populate products cart.items) with
  | none => rfl
  | some t => simp [ht] at h

/-- A response that is sent with status 200 is the response of the handler, and
every line of its cart refers to a product of the catalog. -/
theorem sendCart_ok {products : List Product} {failure : String} {r : Res Cart}
    (h : (sendCart products failure r).status = 200) :
    sendCart products failure r = r ∧
    ∀ cart, r.data = some cart → linesResolve products cart = true := by
  cases hd : r.data with
  | none =>
    refine ⟨sendCart_none hd, ?_⟩
    intro cart hc
    exact Option.noConfusion hc
  | some cart =>
    cases hl : linesResolve products cart with
    | true =>
      refine ⟨sendCart_resolved hd hl, ?_⟩
      intro c hc
      rw [← Option.some.inj hc]
      exact hl
    | false =>
      rw [sendCart_stale hd hl] at h
      simp [serverError] at h

theorem cartAdd_data_none (s : Store) (user : ObjectId) (body : AddBody)
    (h : (cartAdd s user body).2.status ≠ 200) : (cartAdd s user body).2.data = none := by
  cases hpid : body.productId with
  | none => simp [cartAdd, hpid, badRequest]
  | some pid =>
    cases hp : findProduct s.products pid with
    | none => simp [cartAdd, hpid, hp]
    | some p =>
      by_cases hav : p.isAvailable = true
      · by_cases hsel : p.seller = user
        · simp [cartAdd, hpid, hp, hav, hsel, badRequest]
        · cases hq : parseQuantity body.quantity with
          | none => simp [cartAdd, hpid, hp, hav, hsel, hq, serverError]
          | some q =>
            rw [cartAdd_eq hpid hp hav hsel hq] at h ⊢
            by_cases hv : validateCart (cartAfterAdd s user pid q) = true
            · simp [hv] at h
            · simp [hv, serverError]
      · simp [cartAdd, hpid, hp, hav, badRequest]

theorem cartUpdate_data_none (s : Store) (user itemId : ObjectId) (body : UpdateBody)
    (h : (cartUpdate s user itemId body).2.status ≠ 200) :
    (cartUpdate s user itemId body).2.data = none := by
  unfold cartUpdate at h ⊢
  cases h1 : quantityRejected body.quantity with
  | true => simp [badRequest]
  | false =>
    cases hc : findCart s.carts user with
    | none => simp [notFound]
    | some cart =>
      cases h2 : cart.items.any (fun item => item._id == itemId) with
      | false => simp [h2, notFound]
      | true =>
        cases hq : parseIntField body.quantity with
        | none => simp [h2, serverError]
        | some q =>
          cases hv : validateCart { cart with items := setQuantity itemId q cart.items } with
          | false => simp [h2, hv, serverError]
          | true =>
            simp only [h1, hc, h2, hq, hv, Bool.false_eq_true, if_false, Bool.not_true] at h
            exact absurd rfl h

theorem cartRemove_data_none (s : Store) (user itemId : ObjectId)
    (h : (cartRemove s user itemId).2.status ≠ 200) :
    (cartRemove s user itemId).2.data = none := by
  unfold cartRemove at h ⊢
  cases hc : findCart s.carts user with
  | none => simp [notFound]
  | some cart =>
    cases h2 : cart.items.any (fun item => item._id == itemId) with
    | false => simp [h2, notFound]
    | true =>
      cases hv : validateCart
          { cart with items := cart.items.eraseP (fun item => item._id == itemId) } with
      | false => simp [h2, hv, serverError]
      | true =>
        simp only [hc, h2, hv, Bool.false_eq_true, if_false, Bool.not_true] at h
        exact absurd rfl h

/-- The store after a cart route is the store after its handler. -/
theorem route_store (s : Store) (user itemId : ObjectId) (abody : AddBody)
    (ubody : UpdateBody) :
    (getCart s user).1 = (cartGet s user).1 ∧
    (postCartAdd s user abody).1 = (cartAdd s user abody).1 ∧
    (putCartUpdate s user itemId ubody).1 = (cartUpdate s user itemId ubody).1 ∧
    (deleteCartRemove s user itemId).1 = (cartRemove s user itemId).1 :=
  ⟨rfl, rfl, rfl, rfl⟩

/-- A route that answers 200 answers what its handler hands to `res.json`. -/
theorem route_ok (s : Store) (user itemId : ObjectId) (abody : AddBody) (ubody : UpdateBody) :
    ((getCart s user).2.status = 200 → getCart s user = cartGet s user) ∧
    ((postCartAdd s user abody).2.status = 200 →
      postCartAdd s user abody = cartAdd s user abody) ∧
    ((putCartUpdate s user itemId ubody).2.status = 200 →
      putCartUpdate s user itemId ubody = cartUpdate s user itemId ubody) ∧
    ((deleteCartRemove s user itemId).2.status = 200 →
      deleteCartRemove s user itemId = cartRemove s user itemId) := by
  refine ⟨?_, ?_, ?_, ?_⟩ <;> intro h
  · exact Prod.ext rfl (sendCart_ok h).1
  · exact Prod.ext rfl (sendCart_ok h).1
  · exact Prod.ext rfl (sendCart_ok h).1
  · exact Prod.ext rfl (sendCart_ok h).1

/-- A request that its handler refuses is answered by the route as by the
handler. -/
theorem route_refused (s : Store) (user itemId : ObjectId) (abody : AddBody)
    (ubody : UpdateBody) :
    ((cartAdd s user abody).2.status ≠ 200 →
      postCartAdd s user abody = cartAdd s user abody) ∧
    ((cartUpdate s user itemId ubody).2.status ≠ 200 →
      putCartUpdate s user itemId ubody = cartUpdate s user itemId ubody) ∧
    ((cartRemove s user itemId).2.status ≠ 200 →
      deleteCartRemove s user itemId = cartRemove s user itemId) := by
  refine ⟨?_, ?_, ?_⟩ <;> intro h
  · exact Prod.ext rfl (sendCart_none (cartAdd_data_none s user abody h))
  · exact Prod.ext rfl (sendCart_none (cartUpdate_data_none s user itemId ubody h))
  · exact Prod.ext rfl (sendCart_none (cartRemove_data_none s user itemId h))

theorem sendCart_cases (products : List Product) (failure : String) (r : Res Cart) :
    sendCart products failure r = r ∨ sendCart products failure r = serverError failure := by
  cases hd : r.data with
  | none => exact Or.inl (sendCart_none hd)
  | some cart =>
    cases hl : linesResolve products cart with
    | true => exact Or.inl (sendCart_resolved hd hl)
    | false => exact Or.inr (sendCart_stale hd hl)

/-- A route that answers 400 or 404 answers what its handler does, which is not
a success. -/
theorem sendCart_refusal {products : List Product} {failure : String} {r : Res Cart}
    (h : (sendCart products failure r).status = 400 ∨
      (sendCart products failure r).status = 404) :
    sendCart products failure r = r ∧ r.status ≠ 200 := by
  rcases sendCart_cases products failure r with he | he
  · rw [he] at h
    refine ⟨he, ?_⟩
    intro h2
    rw [h2] at h
    rcases h with h | h <;> exact absurd h (by decide)
  · rw [he] at h
    rcases h with h | h <;> simp [serverError] at h

/-- C18. Adding to the cart is answered 404 "Product not found" when no product
has the requested id, 400 "Product is not available" when the product exists
and is unavailable, and 400 "Cannot add your own product to cart" when the
product exists, is available and is sold by the requester; none of these
changes the store.  A successful add implies that the product exists, is
available and is sold by another user. -/
theorem cart_add_checks (s : Store) (user : ObjectId) (body : AddBody) (pid : ObjectId)
    (hpid : body.productId = some pid) :
    (findProduct s.products pid = none →
      postCartAdd s user body = (s, notFound "Product not found")) ∧
    (∀ p, findProduct s.products pid = some p → p.isAvailable = false →
      postCartAdd s user body = (s, badRequest "Product is not available")) ∧
    (∀ p, findProduct s.products pid = some p → p.isAvailable = true → p.seller = user →
      postCartAdd s user body = (s, badRequest "Cannot add your own product to cart")) ∧
    ((postCartAdd s user body).2.status = 200 →
      ∃ p, findProduct s.products pid = some p ∧ p.isAvailable = true ∧ p.seller ≠ user) := by
  obtain ⟨h1, h2, h3, h4⟩ := cartAdd_checks s user body pid hpid
  have hr := (route_refused s user 0 body ⟨.absent⟩).1
  refine ⟨?_, ?_, ?_, ?_⟩
  · intro h
    have hc := h1 h
    rw [hr (by rw [hc]; simp [notFound]), hc]
  · intro p h ha
    have hc := h2 p h ha
    rw [hr (by rw [hc]; simp [badRequest]), hc]
  · intro p h ha hs
    have hc := h3 p h ha hs
    rw [hr (by rw [hc]; simp [badRequest]), hc]
  · intro hok
    rw [(route_ok s user 0 body ⟨.absent⟩).2.1 hok] at hok
    exact h4 hok

/-- C18 on the scenario: a missing product, a sold product, an own product and
a successful add. -/
theorem cart_add_checks_witness :
    postCartAdd ownProductStore 7 { productId := some 9, quantity := .absent } =
      (ownProductStore, notFound "Product not found") ∧
    postCartAdd afterFirstSale 8 { productId := some 1, quantity := .absent } =
      (afterFirstSale, badRequest "Product is not available") ∧
    postCartAdd ownProductStore 7 { productId := some 3, quantity := .absent } =
      (ownProductStore, badRequest "Cannot add your own product to cart") ∧
    (postCartAdd ownProductStore 8 { productId := some 3, quantity := .absent }).2.status = 200 ∧
    (∃ p, findProduct ownProductStore.products 3 = some p ∧ p.isAvailable = true ∧
      p.seller ≠ 8) :=
  ⟨(cart_add_checks ownProductStore 7 { productId := some 9, quantity := .absent } 9 rfl).1
      (by decide),
    (cart_add_checks afterFirstSale 8 { productId := some 1, quantity := .absent } 1 rfl).2.1
      ⟨1, "Lamp", 10, 100, false⟩ (by decide) rfl,
    (cart_add_checks ownProductStore 7 { productId := some 3, quantity := .absent } 3 rfl).2.2.1
      ⟨3, "Chair", 40, 7, true⟩ (by decide) rfl rfl,
    by decide,
    (cart_add_checks ownProductStore 8 { productId := some 3, quantity := .absent } 3 rfl).2.2.2
      (by decide)⟩

/-- C19. The cart operations that fail leave the whole store, hence every cart,
as it was and create no cart: an add for a missing, unavailable or own product,
a quantity update with a rejected quantity or for a line that is not in the
requester's cart, and a removal of such a line are not answered 200 and change
nothing; and so does every add, quantity update and removal that is answered
400 or 404. -/
theorem cart_failure_no_effect (s : Store) (user itemId : ObjectId) (abody : AddBody)
    (ubody : UpdateBody) :
    (∀ pid, abody.productId = some pid →
      (findProduct s.products pid = none ∨
        ∃ p, findProduct s.products pid = some p ∧ (p.isAvailable = false ∨ p.seller = user)) →
      (postCartAdd s user abody).2.status ≠ 200 ∧ (postCartAdd s user abody).1 = s) ∧
    (quantityRejected ubody.quantity = true ∨
        (∀ cart, findCart s.carts user = some cart → ∀ item ∈ cart.items, item._id ≠ itemId) →
      (putCartUpdate s user itemId ubody).2.status ≠ 200 ∧
      (putCartUpdate s user itemId ubody).1 = s) ∧
    ((∀ cart, findCart s.carts user = some cart → ∀ item ∈ cart.items, item._id ≠ itemId) →
      (deleteCartRemove s user itemId).2.status ≠ 200 ∧ (deleteCartRemove s user itemId).1 = s) ∧
    ((postCartAdd s user abody).2.status = 400 ∨ (postCartAdd s user abody).2.status = 404 →
      (postCartAdd s user abody).1 = s) ∧
    ((putCartUpdate s user itemId ubody).2.status = 400 ∨
        (putCartUpdate s user itemId ubody).2.status = 404 →
      (putCartUpdate s user itemId ubody).1 = s) ∧
    ((deleteCartRemove s user itemId).2.status = 400 ∨
        (deleteCartRemove s user itemId).2.status = 404 →
      (deleteCartRemove s user itemId).1 = s) := by
  obtain ⟨h1, h2, h3, h4, h5, h6⟩ := cartHandlers_refusal s user itemId abody ubody
  obtain ⟨r1, r2, r3⟩ := route_refused s user itemId abody ubody
  refine ⟨?_, ?_, ?_, ?_, ?_, ?_⟩
  · intro pid hpid hcase
    have hn := h4 pid hpid hcase
    rw [r1 hn]
    exact ⟨hn, h1 hn⟩
  · intro hcase
    have hn := h5 hcase
    rw [r2 hn]
    exact ⟨hn, h2 hn⟩
  · intro hcase
    have hn := h6 hcase
    rw [r3 hn]
    exact ⟨hn, h3 hn⟩
  · intro h
    exact h1 (sendCart_refusal h).2
  · intro h
    exact h2 (sendCart_refusal h).2
  · intro h
    exact h3 (sendCart_refusal h).2

/-- C19, scenario of the specification: user 7 adding the product they listed
is refused and the store, their cart included, is unchanged. -/
theorem cart_failure_no_effect_witness :
    (postCartAdd ownProductStore 7 { productId := some 3, quantity := .absent }).2 =
      badRequest "Cannot add your own product to cart" ∧
    findProduct ownProductStore.products 3 = some ⟨3, "Chair", 40, 7, true⟩ ∧
    ((postCartAdd ownProductStore 7 { productId := some 3, quantity := .absent }).2.status ≠ 200 ∧
      (postCartAdd ownProductStore 7 { productId := some 3, quantity := .absent }).1 =
        ownProductStore) ∧
    findCart
      (postCartAdd ownProductStore 7 { productId := some 3, quantity := .absent }).1.carts 7 =
      some demoCart ∧
    ((putCartUpdate ownProductStore 7 51 { quantity := .number 0 }).2.status ≠ 200 ∧
      (putCartUpdate ownProductStore 7 51 { quantity := .number 0 }).1 = ownProductStore) ∧
    ((deleteCartRemove ownProductStore 7 99).2.status ≠ 200 ∧
      (deleteCartRemove ownProductStore 7 99).1 = ownProductStore) :=
  ⟨by decide, by decide,
    (cart_failure_no_effect ownProductStore 7 51
      { productId := some 3, quantity := .absent } { quantity := .number 0 }).1 3 rfl
      (Or.inr ⟨⟨3, "Chair", 40, 7, true⟩, by decide, Or.inr rfl⟩),
    by decide,
    (cart_failure_no_effect ownProductStore 7 51
      { productId := some 3, quantity := .absent } { quantity := .number 0 }).2.1
      (Or.inl (by decide)),
    (cart_failure_no_effect ownProductStore 7 99
      { productId := some 3, quantity := .absent } { quantity := .number 0 }).2.2.1
      (by decide)⟩

/-- A successful add of a product that already has a line in the
requester's cart saves the same cart with the same number of lines: the first
line of that product has its previous quantity plus the parsed quantity of the
request, and the lines before and after it are unchanged.  Consequently, when
a user without cart lines adds a product twice, with parsed quantities `q1` and
`q2`, and both adds succeed, the cart has exactly one line, for that product,
with quantity `q1 + q2`. -/
theorem postCartAdd_existing_line (s : Store) (user : ObjectId) (pid : ObjectId) :
    (∀ (body : AddBody) (cart : Cart), body.productId = some pid →
      findCart s.carts user = some cart →
      cart.items.any (fun item => item.product == pid) = true →
      (postCartAdd s user body).2.status = 200 →
      ∃ q pre line post saved,
        parseQuantity body.quantity = some q ∧
        cart.items = pre ++ line :: post ∧ line.product = pid ∧
        (∀ x ∈ pre, x.product ≠ pid) ∧
        findCart (postCartAdd s user body).1.carts user = some saved ∧
        saved._id = cart._id ∧ saved.user = cart.user ∧
        saved.items = pre ++ { line with quantity := line.quantity + q } :: post ∧
        saved.items.length = cart.items.length) ∧
    (∀ (f1 f2 : QuantityField) (q1 q2 : Int),
      parseQuantity f1 = some q1 → parseQuantity f2 = some q2 →
      (∀ cart, findCart s.carts user = some cart → cart.items = []) →
      (postCartAdd s user ⟨some pid, f1⟩).2.status = 200 →
      (postCartAdd (postCartAdd s user ⟨some pid, f1⟩).1 user ⟨some pid, f2⟩).2.status = 200 →
      ∃ saved,
        findCart (postCartAdd (postCartAdd s user ⟨some pid, f1⟩).1 user
          ⟨some pid, f2⟩).1.carts user = some saved ∧
        saved.items.map (fun item => (item.product, item.quantity)) = [(pid, q1 + q2)]) := by
  constructor
  · intro body cart hpid hc hany hok
    have he := (route_ok s user 0 body ⟨.absent⟩).2.1 hok
    rw [he] at hok ⊢
    exact (cartAdd_existing_line s user pid).1 body cart hpid hc hany hok
  · intro f1 f2 q1 q2 hq1 hq2 hempty h1 h2
    have he1 := (route_ok s user 0 ⟨some pid, f1⟩ ⟨.absent⟩).2.1 h1
    rw [he1] at h1 h2 ⊢
    have he2 := (route_ok (cartAdd s user ⟨some pid, f1⟩).1 user 0 ⟨some pid, f2⟩
      ⟨.absent⟩).2.1 h2
    rw [he2] at h2 ⊢
    exact (cartAdd_existing_line s user pid).2 f1 f2 q1 q2 hq1 hq2 hempty h1 h2

theorem linesResolve_append {products : List Product} {cart : Cart} {pre : List CartItem}
    {line : CartItem} (h : cart.items = pre ++ [line]) :
    linesResolve products cart =
      (pre.all (fun item => (findProduct products item.product).isSome) &&
        (findProduct products line.product).isSome) := by
  unfold linesResolve
  rw [h]
  simp [List.all_append]

/-- C20 (as amended). For an available product of another seller that is in no
line of the requester's cart, adding to the cart is answered 200 exactly when
the parsed quantity is at least 1, the lines already there are valid and each
of them refers to a product of the catalog.  Whenever the parsed quantity is at
least 1 and the lines already there are valid, the cart saved is the
requester's cart, created if there was none, and its lines are the previous
lines, unchanged and in the same order, followed by one new line for the
product with the parsed quantity: `parseInt` of the requested quantity, which
is the requested number when it is an integer and its integer part when it is
not, or 1 when the request has no quantity; an answer 200 carries that
cart. -/
theorem cart_add_new_line (s : Store) (user : ObjectId) (body : AddBody) (pid : ObjectId)
    (p : Product) (q : Int)
    (hpid : body.productId = some pid) (hp : findProduct s.products pid = some p)
    (hav : p.isAvailable = true) (hsel : p.seller ≠ user)
    (hq : parseQuantity body.quantity = some q)
    (hnew : ∀ cart, findCart s.carts user = some cart →
      ∀ item ∈ cart.items, item.product ≠ pid) :
    ((postCartAdd s user body).2.status = 200 ↔
      1 ≤ q ∧ ∀ cart, findCart s.carts user = some cart →
        (∀ item ∈ cart.items, 1 ≤ item.quantity) ∧ linesResolve s.products cart = true) ∧
    ((1 ≤ q ∧ ∀ cart, findCart s.carts user = some cart →
        ∀ item ∈ cart.items, 1 ≤ item.quantity) →
      ∃ saved line,
        findCart (postCartAdd s user body).1.carts user = some saved ∧
        saved.user = user ∧
        saved.items = ((findCart s.carts user).map (fun c => c.items)).getD [] ++ [line] ∧
        line.product = pid ∧ line.quantity = q ∧
        (∀ cart, findCart s.carts user = some cart → saved._id = cart._id) ∧
        ((postCartAdd s user body).2.status = 200 →
          (postCartAdd s user body).2.data = some saved)) ∧
    (body.quantity = .absent → q = 1) ∧
    (∀ n, body.quantity = .number n → q = n) ∧
    (∀ num den, body.quantity = .fraction num den → q = Int.tdiv num den) := by
  obtain ⟨c1, c2, c3, c4⟩ := cartAdd_new_line s user body pid p q hpid hp hav hsel hq hnew
  have c5 : ∀ num den, body.quantity = .fraction num den → q = Int.tdiv num den := by
    intro num den hn
    rw [hn] at hq
    simpa [parseQuantity] using hq.symm
  have hprod : (cartAdd s user body).1.products = s.products := cartAdd_products s user body
  have hline : ∀ line : CartItem, line.product = pid →
      (findProduct s.products line.product).isSome = true := by
    intro line hl
    rw [hl, hp]
    rfl
  refine ⟨?_, ?_, c3, c4, c5⟩
  · constructor
    · intro hok
      have hs := sendCart_ok hok
      have he := (route_ok s user 0 body ⟨.absent⟩).2.1 hok
      rw [he] at hok
      obtain ⟨hq1, hvalid⟩ := c1.mp hok
      obtain ⟨saved, line, _, hdata, _, hitems, _, _, _⟩ := c2 hok
      have hres := hs.2 saved hdata
      rw [hprod] at hres
      refine ⟨hq1, ?_⟩
      intro cart hc
      refine ⟨hvalid cart hc, ?_⟩
      rw [hc] at hitems
      rw [linesResolve_append hitems, Bool.and_eq_true] at hres
      exact hres.1
    · rintro ⟨hq1, hall⟩
      have hok : (cartAdd s user body).2.status = 200 :=
        c1.mpr ⟨hq1, fun cart hc => (hall cart hc).1⟩
      obtain ⟨saved, line, _, hdata, _, hitems, hlp, _, _⟩ := c2 hok
      have hres : linesResolve (cartAdd s user body).1.products saved = true := by
        rw [hprod, linesResolve_append hitems, Bool.and_eq_true]
        refine ⟨?_, hline line hlp⟩
        cases hc : findCart s.carts user with
        | none => simp
        | some cart => exact (hall cart hc).2
      have he : (postCartAdd s user body).2 = (cartAdd s user body).2 :=
        sendCart_resolved hdata hres
      rw [he]
      exact hok
  · rintro ⟨hq1, hvalid⟩
    have hok : (cartAdd s user body).2.status = 200 := c1.mpr ⟨hq1, hvalid⟩
    obtain ⟨saved, line, h1, hdata, h2, h3, h4, h5, h6⟩ := c2 hok
    refine ⟨saved, line, h1, h2, h3, h4, h5, h6, ?_⟩
    intro hok2
    rw [(route_ok s user 0 body ⟨.absent⟩).2.1 hok2]
    exact hdata

/-- C20 on the scenario: user 9, whose cart is empty, asks for 4.5 units of
product 2 and gets a line of four, and user 8, who has no cart, adds product 1
without a quantity. -/
theorem cart_add_new_line_witness :
    findProduct emptyCartStore.products 2 = some ⟨2, "Book", 5, 101, true⟩ ∧
    (postCartAdd emptyCartStore 9 ⟨some 2, .fraction 9 2⟩).2.status = 200 ∧
    (findCart (postCartAdd emptyCartStore 8 ⟨some 1, .absent⟩).1.carts 8).map
      (fun c => c.items.map (fun i => (i.product, i.quantity))) = some [(1, 1)] ∧
    (∃ saved line,
        findCart (postCartAdd emptyCartStore 9 ⟨some 2, .fraction 9 2⟩).1.carts 9 = some saved ∧
        saved.user = 9 ∧
        saved.items =
          ((findCart emptyCartStore.carts 9).map (fun c => c.items)).getD [] ++ [line] ∧
        line.product = 2 ∧ line.quantity = 4 ∧
        (∀ cart, findCart emptyCartStore.carts 9 = some cart → saved._id = cart._id) ∧
        ((postCartAdd emptyCartStore 9 ⟨some 2, .fraction 9 2⟩).2.status = 200 →
          (postCartAdd emptyCartStore 9 ⟨some 2, .fraction 9 2⟩).2.data = some saved)) :=
  ⟨by decide, by decide, by decide,
    (cart_add_new_line emptyCartStore 9 ⟨some 2, .fraction 9 2⟩ 2 ⟨2, "Book", 5, 101, true⟩ 4
      rfl (by decide) rfl (by decide) rfl (by decide)).2.1 ⟨by decide, by decide⟩⟩

theorem linesResolve_congr (products : List Product) {c1 c2 : Cart}
    (h : c1.items.map (fun item => item.product) = c2.items.map (fun item => item.product)) :
    linesResolve products c1 = linesResolve products c2 := by
  have hall : ∀ items : List CartItem,
      items.all (fun item => (findProduct products item.product).isSome) =
        (items.map (fun item => item.product)).all
          (fun pid => (findProduct products pid).isSome) := by
    intro items
    induction items with
    | nil => rfl
    | cons item rest ih => simp only [List.all_cons, List.map_cons, ih]
  unfold linesResolve
  rw [hall, hall, h]

/-- The response of a route whose handler hands a cart to `res.json`. -/
theorem sendCart_if {products : List Product} {failure : String} {r : Res Cart}
    {cart : Cart} (hd : r.data = some cart) :
    sendCart products failure r =
      if linesResolve products cart then r else serverError failure := by
  cases hl : linesResolve products cart with
  | true => simp only [if_true]; exact sendCart_resolved hd hl
  | false => simp only [Bool.false_eq_true, if_false]; exact sendCart_stale hd hl

/-- C23 (as amended). The quantity is checked first: a missing quantity or one
below 1 is answered 400 "Valid quantity is required" whatever the cart and the
item id.  Otherwise an item id that is not a line of the requester's own cart
(no cart, or no such line in it, also when the id is a line of another user's
cart) is answered 404.  In a reachable store a quantity that passes the check
and whose `parseInt` is at least 1, for a line of the own cart, is saved:
exactly that line gets `parseInt` of the given quantity, which is the given
number when it is an integer and its integer part when it is not; the other
lines and their order are unchanged, and in the collection only that cart is
replaced; the answer is 200 with that cart when every line of the cart refers
to a product of the catalog, and 500 otherwise.  The update succeeds only for
such requests. -/
theorem cart_update_quantity (s : Store) (hreach : Reachable s) (user itemId : ObjectId)
    (body : UpdateBody) :
    (quantityRejected body.quantity = true →
      putCartUpdate s user itemId body = (s, badRequest "Valid quantity is required")) ∧
    (quantityRejected body.quantity = false →
      (∀ cart, findCart s.carts user = some cart →
        ∀ item ∈ cart.items, item._id ≠ itemId) →
      (putCartUpdate s user itemId body).1 = s ∧
      (putCartUpdate s user itemId body).2.status = 404) ∧
    (∀ q cart, (quantityRejected body.quantity = false ∧
        parseIntField body.quantity = some q) → 1 ≤ q → findCart s.carts user = some cart →
      (∃ item ∈ cart.items, item._id = itemId) →
      ∃ pre line post, cart.items = pre ++ line :: post ∧ line._id = itemId ∧
        (∀ x ∈ pre ++ post, x._id ≠ itemId) ∧
        (putCartUpdate s user itemId body).1 =
          { s with
            carts := s.carts.map (fun c =>
              if c = cart then { cart with items := pre ++ { line with quantity := q } :: post }
              else c) } ∧
        (putCartUpdate s user itemId body).2 =
          if linesResolve s.products cart then
            { status := 200, message := "Cart updated successfully",
              data := some { cart with items := pre ++ { line with quantity := q } :: post } }
          else serverError "Server error while updating cart") ∧
    ((putCartUpdate s user itemId body).2.status = 200 →
      ∃ q cart, (quantityRejected body.quantity = false ∧
          parseIntField body.quantity = some q) ∧ 1 ≤ q ∧
        findCart s.carts user = some cart ∧ ∃ item ∈ cart.items, item._id = itemId) ∧
    (∀ n, body.quantity = .number n →
      quantityRejected body.quantity = decide (n < 1) ∧ parseIntField body.quantity = some n) ∧
    (∀ num den, body.quantity = .fraction num den →
      quantityRejected body.quantity = decide (num < den) ∧
      parseIntField body.quantity = some (Int.tdiv num den)) := by
  obtain ⟨h1, h2, h3, h4⟩ := cartUpdate_quantity s hreach user itemId body
  have hr := (route_refused s user itemId ⟨none, .absent⟩ body).2.1
  refine ⟨?_, ?_, ?_, ?_, fun n hn => by rw [hn]; exact ⟨rfl, rfl⟩,
    fun num den hn => by rw [hn]; exact ⟨rfl, rfl⟩⟩
  · intro h
    have hc := h1 h
    rw [hr (by rw [hc]; simp [badRequest]), hc]
  · intro hq hno
    have hc := h2 hq hno
    rw [hr (by rw [hc.2]; decide)]
    exact hc
  · intro q cart hb hq hc hex
    obtain ⟨pre, line, post, a1, a2, a3, a4⟩ := h3 q cart hb hq hc hex
    refine ⟨pre, line, post, a1, a2, a3, ?_, ?_⟩
    · show (cartUpdate s user itemId body).1 = _
      rw [a4]
    · show sendCart (cartUpdate s user itemId body).1.products _
        (cartUpdate s user itemId body).2 = _
      rw [a4]
      have hcongr : linesResolve s.products
          { cart with items := pre ++ { line with quantity := q } :: post } =
          linesResolve s.products cart :=
        linesResolve_congr s.products (by rw [a1]; simp)
      rw [← hcongr]
      exact sendCart_if rfl
  · intro hok
    rw [(route_ok s user itemId ⟨none, .absent⟩ body).2.2.1 hok] at hok
    exact h4 hok

/-- C23 on the carts of users 7 and 8: user 7 asks for 4.5 units on line 63,
which then holds four, and the cart of user 8 is unchanged. -/
theorem cart_update_quantity_witness :
    Reachable shoppingStore ∧ findCart shoppingStore.carts 7 = some shoppingCart ∧
    (∃ item ∈ shoppingCart.items, item._id = 63) ∧
    (putCartUpdate shoppingStore 7 63 ⟨.fraction 9 2⟩).2.status = 200 ∧
    (putCartUpdate shoppingStore 7 63 ⟨.fraction 9 2⟩).1.carts.map
      (fun c => (c.user, c.items.map (fun i => (i._id, i.quantity)))) =
      [(7, [(61, 2), (63, 4)]), (8, [(65, 1)])] ∧
    (putCartUpdate shoppingStore 7 65 ⟨.number 4⟩).2.status = 404 ∧
    (putCartUpdate shoppingStore 7 65 ⟨.number 0⟩).2.status = 400 ∧
    ∃ pre line post, shoppingCart.items = pre ++ line :: post ∧ line._id = 63 ∧
      (∀ x ∈ pre ++ post, x._id ≠ 63) ∧
      (putCartUpdate shoppingStore 7 63 ⟨.fraction 9 2⟩).1 =
        { shoppingStore with
          carts := shoppingStore.carts.map (fun c =>
            if c = shoppingCart then
              { shoppingCart with items := pre ++ { line with quantity := 4 } :: post }
            else c) } ∧
      (putCartUpdate shoppingStore 7 63 ⟨.fraction 9 2⟩).2 =
        if linesResolve shoppingStore.products shoppingCart then
          { status := 200, message := "Cart updated successfully",
            data := some
              { shoppingCart with items := pre ++ { line with quantity := 4 } :: post } }
        else serverError "Server error while updating cart" :=
  ⟨shoppingStore_reachable, by decide, by decide, by decide, by decide, by decide, by decide,
    (cart_update_quantity shoppingStore shoppingStore_reachable 7 63 ⟨.fraction 9 2⟩).2.2.1 4
      shoppingCart ⟨rfl, rfl⟩ (by decide) (by decide) (by decide)⟩

/-- C24. An item id that is not a line of the requester's own cart (no cart, or
no such line in it) is answered 404 and nothing changes.  In a reachable store
the removal of a line of the own cart is saved whatever its quantity: exactly
that line is removed, so the cart has one line fewer, the remaining lines are
unchanged and keep their order, and in the collection only that cart is
replaced; the answer is 200 with that cart when every remaining line refers to
a product of the catalog, and 500 otherwise. -/
theorem cart_remove_item (s : Store) (hreach : Reachable s) (user itemId : ObjectId) :
    ((∀ cart, findCart s.carts user = some cart →
        ∀ item ∈ cart.items, item._id ≠ itemId) →
      (deleteCartRemove s user itemId).1 = s ∧ (deleteCartRemove s user itemId).2.status = 404) ∧
    (∀ cart, findCart s.carts user = some cart →
      (∃ item ∈ cart.items, item._id = itemId) →
      ∃ pre line post, cart.items = pre ++ line :: post ∧ line._id = itemId ∧
        (∀ x ∈ pre ++ post, x._id ≠ itemId) ∧
        (pre ++ post).length + 1 = cart.items.length ∧
        (deleteCartRemove s user itemId).1 =
          { s with
            carts := s.carts.map (fun c =>
              if c = cart then { cart with items := pre ++ post } else c) } ∧
        (deleteCartRemove s user itemId).2 =
          if linesResolve s.products { cart with items := pre ++ post } then
            { status := 200, message := "Item removed from cart successfully",
              data := some { cart with items := pre ++ post } }
          else serverError "Server error while removing item from cart") := by
  obtain ⟨h1, h2⟩ := cartRemove_item s hreach user itemId
  have hr := (route_refused s user itemId ⟨none, .absent⟩ ⟨.absent⟩).2.2
  refine ⟨?_, ?_⟩
  · intro hno
    have hc := h1 hno
    rw [hr (by rw [hc.2]; decide)]
    exact hc
  · intro cart hc hex
    obtain ⟨pre, line, post, a1, a2, a3, a4, a5⟩ := h2 cart hc hex
    refine ⟨pre, line, post, a1, a2, a3, a4, ?_, ?_⟩
    · show (cartRemove s user itemId).1 = _
      rw [a5]
    · show sendCart (cartRemove s user itemId).1.products _ (cartRemove s user itemId).2 = _
      rw [a5]
      exact sendCart_if rfl

/-- C24 on the carts of users 7 and 8: user 7 removes line 61, which holds two
units; line 65 of user 8 is not a line of the cart of user 7. -/
theorem cart_remove_item_witness :
    Reachable shoppingStore ∧ findCart shoppingStore.carts 7 = some shoppingCart ∧
    (∃ item ∈ shoppingCart.items, item._id = 61) ∧
    (deleteCartRemove shoppingStore 7 61).2.status = 200 ∧
    (deleteCartRemove shoppingStore 7 61).1.carts.map
      (fun c => (c.user, c.items.map (fun i => (i._id, i.quantity)))) =
      [(7, [(63, 1)]), (8, [(65, 1)])] ∧
    (deleteCartRemove shoppingStore 7 65).2.status = 404 ∧
    ∃ pre line post, shoppingCart.items = pre ++ line :: post ∧ line._id = 61 ∧
      (∀ x ∈ pre ++ post, x._id ≠ 61) ∧
      (pre ++ post).length + 1 = shoppingCart.items.length ∧
      (deleteCartRemove shoppingStore 7 61).1 =
        { shoppingStore with
          carts := shoppingStore.carts.map (fun c =>
            if c = shoppingCart then { shoppingCart with items := pre ++ post } else c) } ∧
      (deleteCartRemove shoppingStore 7 61).2 =
        if linesResolve shoppingStore.products { shoppingCart with items := pre ++ post } then
          { status := 200, message := "Item removed from cart successfully",
            data := some { shoppingCart with items := pre ++ post } }
        else serverError "Server error while removing item from cart" :=
  ⟨shoppingStore_reachable, by decide, by decide, by decide, by decide, by decide,
    (cart_remove_item shoppingStore shoppingStore_reachable 7 61).2 shoppingCart
      (by decide) (by decide)⟩

/-- The store `staleCartStore` is reachable. -/
theorem staleCartStore_reachable : Reachable staleCartStore :=
  Reachable.step shoppingStore_reachable (Step.productDelete shoppingStore 101 2)

/-- What `GET /cart` answers: for a user without cart, a new cart without
lines, which is stored; for a user with a cart, the store is unchanged and the
answer is the cart when every line of it refers to a product of the catalog,
and 500 otherwise. -/
theorem getCart_response (s : Store) (user : ObjectId) :
    (findCart s.carts user = none → getCart s user = cartGet s user) ∧
    (∀ cart, findCart s.carts user = some cart →
      getCart s user =
        (s, if linesResolve s.products cart then
              { status := 200, message := "", data := some cart }
            else serverError "Server error while fetching cart")) := by
  constructor
  · intro hc
    have he : cartGet s user =
        ({ s with carts := saveCart s.carts { _id := s.nextId, user := user, items := [] },
                  nextId := s.nextId + 1 },
          { status := 200, message := "",
            data := some { _id := s.nextId, user := user, items := [] } }) := by
      unfold cartGet
      simp only [hc]
    have hs : sendCart (cartGet s user).1.products "Server error while fetching cart"
        (cartGet s user).2 = (cartGet s user).2 := by
      rw [he]
      apply sendCart_resolved
      · rfl
      · rfl
    exact Prod.ext rfl hs
  · intro cart hc
    have hs : sendCart (cartGet s user).1.products "Server error while fetching cart"
        (cartGet s user).2 =
        if linesResolve s.products cart then
          { status := 200, message := "", data := some cart }
        else serverError "Server error while fetching cart" := by
      rw [cartGet_found hc]
      exact sendCart_if rfl
    exact Prod.ext (by rw [show (getCart s user).1 = (cartGet s user).1 from rfl,
      cartGet_found hc]) hs

/-- C26, the code at the failing input. In the reachable store `staleCartStore`
the cart of user 7 holds a line for product 2, which its seller has deleted.
`GET /cart` by user 7 answers 500 "Server error while fetching cart" and no
cart, although the cart is stored; user 8, whose cart holds no such line, gets
the cart. -/
theorem get_cart_deleted_product :
    Reachable staleCartStore ∧
    (productDelete shoppingStore 101 2).2.status = 200 ∧
    (findCart staleCartStore.carts 7).map (fun c => c.items.map (fun i => i.product)) =
      some [1, 2] ∧
    findProduct staleCartStore.products 2 = none ∧
    getCart staleCartStore 7 =
      (staleCartStore, serverError "Server error while fetching cart") ∧
    (getCart staleCartStore 7).2.data = none ∧
    (getCart staleCartStore 8).2.status = 200 :=
  ⟨staleCartStore_reachable, by decide, by decide, by decide, by decide, by decide, by decide⟩

/-! ## Unavailable products over runs -/

/-- A request that does not put the product back on sale is a request. -/
theorem stepKeeping_step {pid : ObjectId} {s t : Store} (h : StepKeeping pid s t) :
    Step s t := by
  cases h with
  | cartGet s user => exact Step.cartGet s user
  | cartAdd s user body => exact Step.cartAdd s user body
  | cartAddText s user body => exact Step.cartAddText s user body
  | cartUpdate s user itemId body => exact Step.cartUpdate s user itemId body
  | cartRemove s user itemId => exact Step.cartRemove s user itemId
  | cartClear s user => exact Step.cartClear s user
  | ordersCheckout s user body => exact Step.ordersCheckout s user body
  | purchasesCheckout persists s user body => exact Step.purchasesCheckout persists s user body
  | productUpdate s user id body _ => exact Step.productUpdate s user id body
  | productDelete s user id => exact Step.productDelete s user id
  | orderStatusUpdate s user id status => exact Step.orderStatusUpdate s user id status
  | purchaseStatusUpdate s user id status => exact Step.purchaseStatusUpdate s user id status

theorem updateProductById_mem {id : ObjectId} {f : Product → Product} :
    ∀ {products : List Product} {x : Product}, x ∈ updateProductById id f products →
      x ∈ products ∨ ∃ p ∈ products, p._id = id ∧ x = f p
  | [], x, h => by simp [updateProductById] at h
  | p :: rest, x, h => by
    unfold updateProductById at h
    by_cases hp : p._id = id
    · simp only [hp, beq_self_eq_true, if_true, List.mem_cons] at h
      rcases h with h | h
      · exact Or.inr ⟨p, List.mem_cons_self _ _, hp, h⟩
      · exact Or.inl (List.mem_cons_of_mem _ h)
    · have hb : (p._id == id) = false := by simpa using hp
      simp only [hb, Bool.false_eq_true, if_false, List.mem_cons] at h
      rcases h with h | h
      · exact Or.inl (h ▸ List.mem_cons_self _ _)
      · rcases updateProductById_mem h with h2 | ⟨y, hy, hy2, hy3⟩
        · exact Or.inl (List.mem_cons_of_mem _ h2)
        · exact Or.inr ⟨y, List.mem_cons_of_mem _ hy, hy2, hy3⟩

/-- A product update that does not set `isAvailable` to `true` on product `pid`
leaves it unavailable. -/
theorem productUpdate_keeps {pid : ObjectId} (s : Store) (user id : ObjectId)
    (body : ProductUpdateBody) (h : id ≠ pid ∨ body.isAvailable ≠ some true)
    (hun : ∀ x ∈ s.products, x._id = pid → x.isAvailable = false) :
    ∀ x ∈ (productUpdate s user id body).1.products, x._id = pid → x.isAvailable = false := by
  unfold productUpdate
  cases hf : findProduct s.products id with
  | none => exact hun
  | some product =>
    simp only
    split
    · exact hun
    · split
      · exact hun
      · intro x hx hid
        rcases updateProductById_mem hx with hx | ⟨p, hp, hpid, rfl⟩
        · exact hun x hx hid
        · have hid2 : p._id = pid := hid
          have hav := hun p hp hid2
          rcases h with h | h
          · exact absurd (hpid.symm.trans hid2) h
          · show body.isAvailable.getD p.isAvailable = false
            cases hb : body.isAvailable with
            | none => exact hav
            | some b =>
              cases b with
              | false => rfl
              | true => exact absurd hb h

theorem productDelete_keeps {pid : ObjectId} (s : Store) (user id : ObjectId)
    (hun : ∀ x ∈ s.products, x._id = pid → x.isAvailable = false) :
    ∀ x ∈ (productDelete s user id).1.products, x._id = pid → x.isAvailable = false := by
  unfold productDelete
  cases hf : findProduct s.products id with
  | none => exact hun
  | some product =>
    simp only
    split
    · exact hun
    · intro x hx hid
      exact hun x ((List.eraseP_sublist _).subset hx) hid

/-- No request but its seller's relisting makes an unavailable product
available. -/
theorem stepKeeping_unavailable {pid : ObjectId} {s t : Store} (h : StepKeeping pid s t)
    (hun : ∀ x ∈ s.products, x._id = pid → x.isAvailable = false) :
    ∀ x ∈ t.products, x._id = pid → x.isAvailable = false := by
  cases h with
  | cartGet s user => rw [(cartGet_frame s user).2.1]; exact hun
  | cartAdd s user body => rw [cartAdd_products]; exact hun
  | cartAddText s user body => rw [(cartAddText_frame s user body).2.1]; exact hun
  | cartUpdate s user itemId body => rw [(cartUpdate_frame s user itemId body).2.1]; exact hun
  | cartRemove s user itemId => rw [(cartRemove_frame s user itemId).2.1]; exact hun
  | cartClear s user => rw [(cartClear_frame s user).2.1]; exact hun
  | ordersCheckout s user body =>
    rcases ordersCheckout_products s user body with h | ⟨ids, h⟩
    · rw [h]; exact hun
    · rw [h]; exact updateManyUnavailable_keeps hun ids
  | purchasesCheckout persists s user body =>
    rcases purchasesCheckout_products persists s user body with h | ⟨ids, h⟩
    · rw [h]; exact hun
    · rw [h]; exact updateManyUnavailable_keeps hun ids
  | productUpdate s user id body hk => exact productUpdate_keeps s user id body hk hun
  | productDelete s user id => exact productDelete_keeps s user id hun
  | orderStatusUpdate s user id status =>
    rw [(orderStatusUpdate_frame s user id status).2.1]; exact hun
  | purchaseStatusUpdate s user id status =>
    rw [(purchaseStatusUpdate_frame s user id status).2.2]; exact hun

theorem run_unavailable {pid : ObjectId} {s t : Store}
    (hrun : Relation.ReflTransGen (StepKeeping pid) s t)
    (hun : ∀ x ∈ s.products, x._id = pid → x.isAvailable = false) :
    ∀ x ∈ t.products, x._id = pid → x.isAvailable = false := by
  induction hrun with
  | refl => exact hun
  | tail _ hstep ih => exact stepKeeping_unavailable hstep ih

/-- C8 (as amended). A product that is unavailable stays unavailable through
every run of requests in which its seller does not put it back on sale (a
product update of it with `isAvailable: true`), in particular through every
order checkout and purchase checkout.  At the end of such a run every add of
it to a cart, in whatever text the request names it, is refused without any
change to the store: with 400 "Product is not available", or with 404 "Product
not found" when the product has been deleted meanwhile.  The checkouts themselves never read the flag: on any store
their response is the response they give when every product of the catalog is
marked available, so a checkout referencing an unavailable product is not
rejected for it. -/
theorem unavailable_product_gate (persists : Purchase → Bool) (s t : Store) (user : ObjectId)
    (body : CheckoutBody) (pbody : PurchaseBody) (pid : ObjectId) (q : QuantityField)
    (hun : ∀ x ∈ s.products, x._id = pid → x.isAvailable = false)
    (hrun : Relation.ReflTransGen (StepKeeping pid) s t) :
    Relation.ReflTransGen Step s t ∧
    (∀ x ∈ t.products, x._id = pid → x.isAvailable = false) ∧
    ((∃ p, findProduct t.products pid = some p ∧
        ∀ canonical : Bool,
          postCartAddText t user { productId := some (.spelled pid canonical), quantity := q } =
            (t, badRequest "Product is not available")) ∨
      (findProduct t.products pid = none ∧
        ∀ canonical : Bool,
          postCartAddText t user { productId := some (.spelled pid canonical), quantity := q } =
            (t, notFound "Product not found"))) ∧
    (∀ x ∈ (ordersCheckout t user body).1.products, x._id = pid → x.isAvailable = false) ∧
    (∀ x ∈ (purchasesCheckout persists t user pbody).1.products,
      x._id = pid → x.isAvailable = false) ∧
    (ordersCheckout
        { t with products := t.products.map (fun p => { p with isAvailable := true }) }
        user body).2 = (ordersCheckout t user body).2 ∧
    (purchasesCheckout persists
        { t with products := t.products.map (fun p => { p with isAvailable := true }) }
        user pbody).2 = (purchasesCheckout persists t user pbody).2 := by
  have hrun2 : Relation.ReflTransGen Step s t := by
    induction hrun with
    | refl => exact Relation.ReflTransGen.refl
    | tail _ hstep ih => exact Relation.ReflTransGen.tail ih (stepKeeping_step hstep)
  have ht := run_unavailable hrun hun
  refine ⟨hrun2, ht, ?_, ?_, ?_, ordersCheckout_available t user body,
    purchasesCheckout_available persists t user pbody⟩
  · cases hex : findProduct t.products pid with
    | none =>
      right
      refine ⟨rfl, ?_⟩
      intro canonical
      unfold postCartAddText cartAddText
      simp [hex, sendCart, notFound]
    | some p =>
      left
      have hp : p.isAvailable = false := ht p (findProduct_mem hex) (findProduct_id hex)
      refine ⟨p, rfl, ?_⟩
      intro canonical
      unfold postCartAddText cartAddText
      simp [hex, hp, sendCart, badRequest]
  · exact stepKeeping_unavailable (StepKeeping.ordersCheckout t user body) ht
  · exact stepKeeping_unavailable (StepKeeping.purchasesCheckout persists t user pbody) ht

/-- C8, amended statement after the first sale of product 1: user 8 checks out
the cart that still holds it and the seller changes its title and price; user 8
can still not add it, and it stays unavailable through further checkouts.  Had
the seller put it back on sale instead, user 9 could add it again. -/
theorem unavailable_product_gate_witness :
    (∀ x ∈ afterFirstSale.products, x._id = 1 → x.isAvailable = false) ∧
    Relation.ReflTransGen (StepKeeping 1) afterFirstSale afterSecondSale ∧
    findProduct afterSecondSale.products 1 =
      some { _id := 1, title := "Desk lamp", price := 99, seller := 100, isAvailable := false } ∧
    (postCartAdd (productUpdate afterFirstSale 100 1 relistLamp).1 9
      { productId := some 1, quantity := .number 1 }).2.status = 200 ∧
    (∀ x ∈ afterSecondSale.products, x._id = 1 → x.isAvailable = false) ∧
    ((∃ p, findProduct afterSecondSale.products 1 = some p ∧
        ∀ canonical : Bool,
          postCartAddText afterSecondSale 8
              { productId := some (.spelled 1 canonical), quantity := .number 1 } =
            (afterSecondSale, badRequest "Product is not available")) ∨
      (findProduct afterSecondSale.products 1 = none ∧
        ∀ canonical : Bool,
          postCartAddText afterSecondSale 8
              { productId := some (.spelled 1 canonical), quantity := .number 1 } =
            (afterSecondSale, notFound "Product not found"))) :=
  ⟨by decide,
    Relation.ReflTransGen.tail
      (Relation.ReflTransGen.tail Relation.ReflTransGen.refl
        (StepKeeping.ordersCheckout afterFirstSale 8 demoCartBody))
      (StepKeeping.productUpdate (ordersCheckout afterFirstSale 8 demoCartBody).1 100 1
        repriceLamp (Or.inr (by decide))),
    by decide, by decide,
    (unavailable_product_gate alwaysPersists afterFirstSale afterSecondSale 8 demoCartBody
      demoPurchaseBody 1 (.number 1) (by decide)
      (Relation.ReflTransGen.tail
        (Relation.ReflTransGen.tail Relation.ReflTransGen.refl
          (StepKeeping.ordersCheckout afterFirstSale 8 demoCartBody))
        (StepKeeping.productUpdate (ordersCheckout afterFirstSale 8 demoCartBody).1 100 1
          repriceLamp (Or.inr (by decide))))).2.1,
    (unavailable_product_gate alwaysPersists afterFirstSale afterSecondSale 8 demoCartBody
      demoPurchaseBody 1 (.number 1) (by decide)
      (Relation.ReflTransGen.tail
        (Relation.ReflTransGen.tail Relation.ReflTransGen.refl
          (StepKeeping.ordersCheckout afterFirstSale 8 demoCartBody))
        (StepKeeping.productUpdate (ordersCheckout afterFirstSale 8 demoCartBody).1 100 1
          repriceLamp (Or.inr (by decide))))).2.2.1⟩

/-! ## Quantities with a fractional part -/

/-- C23, counterexample. The quantity 2.5 is neither missing nor below 1; the
update of line 63 of the cart of user 7 to 2.5 is answered 200 and the line
then holds two units, which is not the given quantity. -/
theorem cart_update_quantity_counterexample :
    quantityRejected (.fraction 5 2) = false ∧
    parseIntField (.fraction 5 2) = some 2 ∧
    (putCartUpdate shoppingStore 7 63 ⟨.fraction 5 2⟩).2.status = 200 ∧
    (putCartUpdate shoppingStore 7 63 ⟨.fraction 5 2⟩).1.carts.map
      (fun c => (c.user, c.items.map (fun i => (i._id, i.quantity)))) =
      [(7, [(61, 2), (63, 2)]), (8, [(65, 1)])] ∧
    (2 : Int) * 2 ≠ 5 := by
  decide

/-- C20, counterexample. User 9, whose cart is empty, adds product 2 with the
quantity 2.5: the answer is 200 and the new line holds two units, which is not
the requested quantity. -/
theorem cart_add_new_line_counterexample :
    findProduct emptyCartStore.products 2 = some ⟨2, "Book", 5, 101, true⟩ ∧
    (findCart emptyCartStore.carts 9).map (fun c => c.items) = some [] ∧
    (postCartAdd emptyCartStore 9 ⟨some 2, .fraction 5 2⟩).2.status = 200 ∧
    (findCart (postCartAdd emptyCartStore 9 ⟨some 2, .fraction 5 2⟩).1.carts 9).map
      (fun c => c.items.map (fun i => (i.product, i.quantity))) = some [(2, 2)] ∧
    (2 : Int) * 2 ≠ 5 := by
  decide

/-! ## Adding to the cart on the text of `productId` -/

/-- C16 (as amended). Take a successful add whose `productId` is the text that
`toString()` gives for the id of a product that already has a line in the
requester's cart.  It saves the same cart with the same number of lines: the
first line of that product has its previous quantity plus the parsed quantity
of the request, and the lines before and after it are unchanged.
Consequently, when a user without cart lines adds a product twice in that
text, with parsed quantities `q1` and `q2`, and both adds succeed, the cart has
exactly one line, for that product, with quantity `q1 + q2`.  The parsed
quantity is 1 for an absent quantity, `n` for a whole number `n`, and the
number truncated toward zero for a number with a fractional part. -/
theorem cart_add_existing_line (s : Store) (user : ObjectId) (pid : ObjectId) :
    (∀ (body : AddRequest) (cart : Cart), body.productId = some (.spelled pid true) →
      findCart s.carts user = some cart →
      cart.items.any (fun item => item.product == pid) = true →
      (postCartAddText s user body).2.status = 200 →
      ∃ q pre line post saved,
        parseQuantity body.quantity = some q ∧
        cart.items = pre ++ line :: post ∧ line.product = pid ∧
        (∀ x ∈ pre, x.product ≠ pid) ∧
        findCart (postCartAddText s user body).1.carts user = some saved ∧
        saved._id = cart._id ∧ saved.user = cart.user ∧
        saved.items = pre ++ { line with quantity := line.quantity + q } :: post ∧
        saved.items.length = cart.items.length) ∧
    (∀ (f1 f2 : QuantityField) (q1 q2 : Int),
      parseQuantity f1 = some q1 → parseQuantity f2 = some q2 →
      (∀ cart, findCart s.carts user = some cart → cart.items = []) →
      (postCartAddText s user ⟨some (.spelled pid true), f1⟩).2.status = 200 →
      (postCartAddText (postCartAddText s user ⟨some (.spelled pid true), f1⟩).1 user
        ⟨some (.spelled pid true), f2⟩).2.status = 200 →
      ∃ saved,
        findCart (postCartAddText (postCartAddText s user ⟨some (.spelled pid true), f1⟩).1
          user ⟨some (.spelled pid true), f2⟩).1.carts user = some saved ∧
        saved.items.map (fun item => (item.product, item.quantity)) = [(pid, q1 + q2)]) ∧
    parseQuantity .absent = some 1 ∧
    (∀ n : Int, parseQuantity (.number n) = some n) ∧
    (∀ (num : Int) (den : Nat), parseQuantity (.fraction num den) = some (Int.tdiv num den)) := by
  have hcan : ∀ (t : Store) (f : QuantityField),
      postCartAddText t user ⟨some (.spelled pid true), f⟩ = postCartAdd t user ⟨some pid, f⟩ :=
    fun t f => postCartAddText_canonical t user ⟨some pid, f⟩
  refine ⟨?_, ?_, rfl, fun _ => rfl, fun _ _ => rfl⟩
  · intro body cart hpid hc hany hok
    have hb : body = canonicalRequest ⟨some pid, body.quantity⟩ := by
      cases body with
      | mk p q =>
        simp only at hpid
        subst hpid
        rfl
    rw [hb, postCartAddText_canonical] at hok
    have h := (postCartAdd_existing_line s user pid).1 ⟨some pid, body.quantity⟩ cart rfl hc
      hany hok
    rw [hb, postCartAddText_canonical]
    exact h
  · intro f1 f2 q1 q2 hq1 hq2 hempty h1 h2
    rw [hcan] at h1
    rw [hcan, hcan] at h2
    rw [hcan, hcan]
    exact (postCartAdd_existing_line s user pid).2 f1 f2 q1 q2 hq1 hq2 hempty h1 h2

/-- C16 on the scenario: three and a half more units of product 1 asked for the
cart of user 7, which gives three more, and product 1 added twice, two units
then three, by a user without cart. -/
theorem cart_add_existing_line_witness :
    (findCart (postCartAddText demoStore 7 ⟨some (.spelled 1 true), .fraction 7 2⟩).1.carts
        7).map
      (fun c => c.items.map (fun i => (i.product, i.quantity))) = some [(1, 5), (2, 1)] ∧
    (∃ q pre line post saved,
        parseQuantity (.fraction 7 2) = some q ∧
        demoCart.items = pre ++ line :: post ∧ line.product = 1 ∧
        (∀ x ∈ pre, x.product ≠ 1) ∧
        findCart (postCartAddText demoStore 7
          ⟨some (.spelled 1 true), .fraction 7 2⟩).1.carts 7 = some saved ∧
        saved._id = demoCart._id ∧ saved.user = demoCart.user ∧
        saved.items = pre ++ { line with quantity := line.quantity + q } :: post ∧
        saved.items.length = demoCart.items.length) ∧
    (∃ saved,
        findCart (postCartAddText (postCartAddText catalogStore 8
          ⟨some (.spelled 1 true), .number 2⟩).1 8
          ⟨some (.spelled 1 true), .number 3⟩).1.carts 8 = some saved ∧
        saved.items.map (fun item => (item.product, item.quantity)) = [(1, 2 + 3)]) :=
  ⟨by decide,
    (cart_add_existing_line demoStore 7 1).1 ⟨some (.spelled 1 true), .fraction 7 2⟩ demoCart
      rfl (by decide) (by decide) (by decide),
    (cart_add_existing_line catalogStore 8 1).2.1 (.number 2) (.number 3) 2 3 rfl rfl
      (by decide) (by decide) (by decide)⟩

/-- C17, the failing run. From a store without carts user 8 adds product 1, and
then adds it again in a request whose `productId` casts to the id of product 1
but is not the text that `toString()` gives for it.  The second add passes the
product checks and is answered 200, and in the store reached the cart of user 8
has two lines for product 1; the same add in the text of `toString()` leaves
one line with two units. -/
theorem cart_products_distinct_failure :
    Reachable lampTwice ∧
    (findCart lampInCart.carts 8).map
      (fun c => c.items.map (fun i => (i.product, i.quantity))) = some [(1, 1)] ∧
    (findProduct lampInCart.products 1).map (fun p => (p.isAvailable, p.seller)) =
      some (true, 100) ∧
    (postCartAddText lampInCart 8 ⟨some (.spelled 1 false), .absent⟩).2.status = 200 ∧
    (postCartAddText lampInCart 8 ⟨some (.spelled 1 false), .absent⟩).1 = lampTwice ∧
    lampTwice.carts.map (fun c => (c.user, c.items.map (fun i => (i.product, i.quantity)))) =
      [(8, [(1, 1), (1, 1)])] ∧
    (∃ cart ∈ lampTwice.carts, ¬ (cart.items.map (fun item => item.product)).Nodup) ∧
    (postCartAddText lampInCart 8 ⟨some (.spelled 1 true), .absent⟩).2.status = 200 ∧
    (findCart (postCartAddText lampInCart 8 ⟨some (.spelled 1 true), .absent⟩).1.carts 8).map
      (fun c => c.items.map (fun i => (i.product, i.quantity))) = some [(1, 2)] := by
  refine ⟨?_, by decide, by decide, by decide, rfl, by decide, ?_, by decide, by decide⟩
  · exact Reachable.step
      (Reachable.step (Reachable.init catalogStore rfl rfl rfl)
        (Step.cartAddText catalogStore 8 ⟨some (.spelled 1 true), .absent⟩))
      (Step.cartAddText lampInCart 8 ⟨some (.spelled 1 false), .absent⟩)
  · refine ⟨{ _id := 60, user := 8,
               items := [{ _id := 61, product := 1, quantity := 1 },
                         { _id := 63, product := 1, quantity := 1 }] }, by decide, by decide⟩

/-- C16, counterexample. The cart of user 7 holds two units of product 1; an add
of product 1, named by the text that `toString()` gives for its id, with the
quantity 2.5 is answered 200 and the line then holds four units, which is not
the previous quantity plus the requested quantity. -/
theorem cart_add_existing_line_counterexample :
    (findCart demoStore.carts 7).map
      (fun c => c.items.map (fun i => (i.product, i.quantity))) = some [(1, 2), (2, 1)] ∧
    (postCartAddText demoStore 7 ⟨some (.spelled 1 true), .fraction 5 2⟩).2.status = 200 ∧
    (findCart (postCartAddText demoStore 7
        ⟨some (.spelled 1 true), .fraction 5 2⟩).1.carts 7).map
      (fun c => c.items.map (fun i => (i.product, i.quantity))) = some [(1, 4), (2, 1)] ∧
    (4 : Int) * 2 ≠ 2 * 2 + 5 := by
  decide

/-! ## Binary64 totals of the purchase checkout -/

theorem priced_pushToGroup_sellers (seller : ObjectId) (item : Priced.Item) (gs : List Priced.Group) :
    (Priced.pushToGroup seller item gs).map (fun g => g.seller) =
      if seller ∈ gs.map (fun g => g.seller) then gs.map (fun g => g.seller)
      else gs.map (fun g => g.seller) ++ [seller] := by
  induction gs with
  | nil => simp [Priced.pushToGroup]
  | cons g gs ih =>
    by_cases h : g.seller = seller
    · simp [Priced.pushToGroup, h]
    · have h2 : ¬ seller = g.seller := fun e => h e.symm
      simp only [Priced.pushToGroup, beq_iff_eq, h, if_false, List.map_cons, ih, List.mem_cons, h2,
        false_or]
      split <;> simp

theorem priced_pushToGroup_nodup (seller : ObjectId) (item : Priced.Item) (gs : List Priced.Group)
    (h : (gs.map (fun g => g.seller)).Nodup) :
    ((Priced.pushToGroup seller item gs).map (fun g => g.seller)).Nodup := by
  rw [priced_pushToGroup_sellers]
  split
  · exact h
  · rename_i hn
    rw [List.nodup_append]
    refine ⟨h, List.nodup_singleton _, ?_⟩
    intro a ha hb
    simp only [List.mem_singleton] at hb
    subst hb
    exact hn ha

theorem priced_pushToGroup_groupItems (seller : ObjectId) (item : Priced.Item) (gs : List Priced.Group)
    (x : ObjectId) :
    Priced.groupItems (Priced.pushToGroup seller item gs) x =
      if x = seller then Priced.groupItems gs x ++ [item] else Priced.groupItems gs x := by
  induction gs with
  | nil =>
    by_cases hx : x = seller
    · simp [Priced.pushToGroup, Priced.groupItems, hx]
    · have hx2 : ¬ seller = x := fun e => hx e.symm
      simp [Priced.pushToGroup, Priced.groupItems, hx, hx2]
  | cons g gs ih =>
    by_cases h : g.seller = seller
    · by_cases hx : x = seller
      · subst hx
        simp [Priced.pushToGroup, Priced.groupItems, h]
      · have hx2 : ¬ seller = x := fun e => hx e.symm
        have hx3 : ¬ g.seller = x := fun e => hx2 (h ▸ e)
        simp [Priced.pushToGroup, Priced.groupItems, h, hx, hx2]
    · by_cases hg : g.seller = x
      · have hx : ¬ x = seller := fun e => h (hg.trans e)
        simp [Priced.pushToGroup, Priced.groupItems, h, hg, hx]
      · have hb : (g.seller == x) = false := by simp [hg]
        have := ih
        simp only [Priced.groupItems] at this
        simp only [Priced.pushToGroup, beq_iff_eq, h, if_false, Priced.groupItems, List.find?_cons, hb]
        exact this

theorem priced_groupsAfter_nodup (lines : List Priced.Line) (gs : List Priced.Group)
    (h : (gs.map (fun g => g.seller)).Nodup) :
    ((Priced.groupsAfter lines gs).map (fun g => g.seller)).Nodup := by
  induction lines generalizing gs with
  | nil => exact h
  | cons line rest ih =>
    simp only [Priced.groupsAfter, List.foldl_cons] at ih ⊢
    exact ih _ (priced_pushToGroup_nodup _ _ _ h)

theorem priced_groupsAfter_sellers (lines : List Priced.Line) (gs : List Priced.Group)
    (x : ObjectId) :
    x ∈ (Priced.groupsAfter lines gs).map (fun g => g.seller) ↔
      x ∈ gs.map (fun g => g.seller) ∨ x ∈ lines.map (fun line => line.seller) := by
  induction lines generalizing gs with
  | nil => simp [Priced.groupsAfter]
  | cons line rest ih =>
    simp only [Priced.groupsAfter, List.foldl_cons] at ih ⊢
    rw [ih, priced_pushToGroup_sellers]
    by_cases hm : line.seller ∈ gs.map (fun g => g.seller)
    · simp only [hm, if_true, List.map_cons, List.mem_cons]
      constructor
      · rintro (h | h)
        · exact Or.inl h
        · exact Or.inr (Or.inr h)
      · rintro (h | h | h)
        · exact Or.inl h
        · exact Or.inl (h ▸ hm)
        · exact Or.inr h
    · simp only [hm, if_false, List.mem_append, List.mem_singleton, List.map_cons, List.mem_cons]
      tauto

theorem priced_groupsAfter_groupItems (lines : List Priced.Line) (gs : List Priced.Group)
    (x : ObjectId) :
    Priced.groupItems (Priced.groupsAfter lines gs) x =
      Priced.groupItems gs x ++
        (lines.filter (fun line => line.seller == x)).map Priced.itemOfLine := by
  induction lines generalizing gs with
  | nil => simp [Priced.groupsAfter]
  | cons line rest ih =>
    simp only [Priced.groupsAfter, List.foldl_cons] at ih ⊢
    rw [ih, priced_pushToGroup_groupItems]
    by_cases hx : x = line.seller
    · subst hx
      simp [List.filter_cons]
    · have hx2 : ¬ line.seller = x := fun e => hx e.symm
      simp [List.filter_cons, hx, hx2]

theorem priced_groupItems_of_mem {gs : List Priced.Group} (h : (gs.map (fun g => g.seller)).Nodup)
    {g : Priced.Group} (hg : g ∈ gs) : Priced.groupItems gs g.seller = g.items := by
  induction gs with
  | nil => simp at hg
  | cons a rest ih =>
    simp only [List.map_cons, List.nodup_cons] at h
    rcases List.mem_cons.mp hg with rfl | hm
    · simp [Priced.groupItems]
    · have hne : ¬ a.seller = g.seller := by
        intro e
        exact h.1 (e ▸ List.mem_map_of_mem (fun g => g.seller) hm)
      have hb : (a.seller == g.seller) = false := by simp [hne]
      have := ih h.2 hm
      simp only [Priced.groupItems] at this
      simp only [Priced.groupItems, List.find?_cons, hb]
      exact this

theorem bitsWithin_le (fuel n k : Nat) (h : n < 2 ^ k) : bitsWithin fuel n ≤ k := by
  induction fuel generalizing n k with
  | zero => simp [bitsWithin]
  | succ f ih =>
    by_cases hn : n = 0
    · simp [bitsWithin, hn]
    · cases k with
      | zero =>
        simp at h
        exact absurd h hn
      | succ k =>
        have hlt : n / 2 < 2 ^ k := by
          rw [Nat.div_lt_iff_lt_mul (by norm_num)]
          rw [pow_succ] at h
          exact h
        have := ih (n / 2) k hlt
        simp only [bitsWithin, hn, if_false]
        omega

/-- A whole number below `2 ^ 53` is a binary64 number. -/
theorem Double.round_whole (n : Nat) (h : n < 2 ^ 53) :
    Double.round false n 0 false = .finite ⟨(n : Int), 0⟩ := by
  by_cases hn : n = 0
  · simp [Double.round, hn]
  · have hb : bitLength n ≤ 53 := bitsWithin_le n n 53 h
    have hk : max ((bitLength n : Int) - 53) (-1074 - 0) ≤ 0 := by omega
    have hov : ¬ (1024 < (bitLength n : Int) + 0) := by omega
    simp only [Double.round, hn, if_false, hk, if_true, hov, Bool.false_eq_true]

theorem Double.ofInt_whole (a : Int) (h0 : 0 ≤ a) (h : a < 2 ^ 53) :
    Double.ofInt a = .finite ⟨a, 0⟩ := by
  have hd : decide (a < 0) = false := by simp [h0]
  have hlt : a.natAbs < 2 ^ 53 := by omega
  have hr := Double.round_whole a.natAbs hlt
  have habs : ((a.natAbs : Nat) : Int) = a := Int.natAbs_of_nonneg h0
  rw [habs] at hr
  simp only [Double.ofInt, Double.ofDyadic, hd]
  exact hr

theorem Double.add_whole (a b : Int) (h0 : 0 ≤ a + b) (h : a + b < 2 ^ 53) :
    Double.add (.finite ⟨a, 0⟩) (.finite ⟨b, 0⟩) = .finite ⟨a + b, 0⟩ := by
  have hs : Dyadic.add ⟨a, 0⟩ ⟨b, 0⟩ = ⟨a + b, 0⟩ := by
    simp [Dyadic.add, Dyadic.mantAt]
  have := Double.ofInt_whole (a + b) h0 h
  simp only [Double.ofInt] at this
  simp only [Double.add, hs]
  exact this

theorem Double.mul_whole (a b : Int) (h0 : 0 ≤ a * b) (h : a * b < 2 ^ 53) :
    Double.mul (.finite ⟨a, 0⟩) (.finite ⟨b, 0⟩) = .finite ⟨a * b, 0⟩ := by
  have hs : Dyadic.mul ⟨a, 0⟩ ⟨b, 0⟩ = ⟨a * b, 0⟩ := by
    simp [Dyadic.mul]
  have := Double.ofInt_whole (a * b) h0 h
  simp only [Double.ofInt] at this
  simp only [Double.mul, hs]
  exact this

/-- The binary64 amount of a line at a whole-number price. -/
theorem priced_amount_whole (p q : Int) (hp : 0 ≤ p) (hp2 : p < 2 ^ 53) (hq : 0 ≤ q)
    (hq2 : q < 2 ^ 53) (h : p * q < 2 ^ 53) :
    Priced.amount (Double.ofInt p) q = .finite ⟨p * q, 0⟩ := by
  unfold Priced.amount
  rw [Double.ofInt_whole p hp hp2, Double.ofInt_whole q hq hq2]
  exact Double.mul_whole p q (mul_nonneg hp hq) h

/-- The bounds under which the binary64 amounts of whole-number lines are exact. -/
theorem itemTotals_nonneg (items : List PurchaseItem)
    (hb : ∀ i ∈ items, 0 ≤ i.price ∧ 0 ≤ i.quantity) : 0 ≤ itemTotals items := by
  unfold itemTotals
  apply List.sum_nonneg
  intro x hx
  obtain ⟨i, hi, rfl⟩ := List.mem_map.mp hx
  exact mul_nonneg (hb i hi).1 (hb i hi).2

theorem priced_foldl_whole (items : List PurchaseItem) (t : Int) (ht : 0 ≤ t)
    (hb : ∀ i ∈ items, 0 ≤ i.price ∧ i.price < 2 ^ 53 ∧ 0 ≤ i.quantity ∧ i.quantity < 2 ^ 53)
    (htot : t + itemTotals items < 2 ^ 53) :
    (items.map Priced.ofItem).foldl
        (fun sum item => Double.add sum (Priced.amount item.price item.quantity))
        (.finite ⟨t, 0⟩) =
      .finite ⟨t + itemTotals items, 0⟩ := by
  induction items generalizing t with
  | nil => simp [itemTotals]
  | cons i rest ih =>
    have hi := hb i (List.mem_cons_self _ _)
    have hrest : ∀ j ∈ rest, 0 ≤ j.price ∧ j.price < 2 ^ 53 ∧ 0 ≤ j.quantity ∧
        j.quantity < 2 ^ 53 := fun j hj => hb j (List.mem_cons_of_mem _ hj)
    have hnn : 0 ≤ itemTotals rest :=
      itemTotals_nonneg rest (fun j hj => ⟨(hrest j hj).1, (hrest j hj).2.2.1⟩)
    have hsplit : itemTotals (i :: rest) = i.price * i.quantity + itemTotals rest := by
      simp [itemTotals]
    rw [hsplit] at htot ⊢
    have hpq : 0 ≤ i.price * i.quantity := mul_nonneg hi.1 hi.2.2.1
    have ha : Priced.amount (Double.ofInt i.price) i.quantity =
        .finite ⟨i.price * i.quantity, 0⟩ :=
      priced_amount_whole _ _ hi.1 hi.2.1 hi.2.2.1 hi.2.2.2 (by omega)
    simp only [List.map_cons, List.foldl_cons, Priced.ofItem, ha]
    rw [Double.add_whole t (i.price * i.quantity) (by omega) (by omega)]
    have := ih (t + i.price * i.quantity) (by omega) hrest (by omega)
    simp only [Priced.ofItem] at this
    rw [this, add_assoc]

/-- The binary64 reduction of a purchase's items at whole-number prices is
exact. -/
theorem priced_purchaseTotal_whole (items : List PurchaseItem)
    (hb : ∀ i ∈ items, 0 ≤ i.price ∧ i.price < 2 ^ 53 ∧ 0 ≤ i.quantity ∧ i.quantity < 2 ^ 53)
    (htot : itemTotals items < 2 ^ 53) :
    Priced.purchaseTotal (items.map Priced.ofItem) = .finite ⟨purchaseTotal items, 0⟩ := by
  have := priced_foldl_whole items 0 (le_refl 0) hb (by omega)
  rw [purchaseTotal_eq]
  simp only [zero_add] at this
  exact this

theorem priced_pushToGroup_ofGroup (seller : ObjectId) (item : PurchaseItem)
    (gs : List SellerGroup) :
    Priced.pushToGroup seller (Priced.ofItem item) (gs.map Priced.ofGroup) =
      (pushToGroup seller item gs).map Priced.ofGroup := by
  induction gs with
  | nil => simp [Priced.pushToGroup, pushToGroup, Priced.ofGroup]
  | cons g gs ih =>
    by_cases h : g.seller = seller
    · simp [Priced.pushToGroup, pushToGroup, Priced.ofGroup, h]
    · simp only [List.map_cons, Priced.pushToGroup, pushToGroup, beq_iff_eq]
      have h2 : (Priced.ofGroup g).seller = g.seller := rfl
      rw [h2]
      simp only [h, if_false, List.map_cons, ih]

/-- The grouping loop on whole-number prices: the binary64 loop gives the
groups and the running total of the loop of the store model. -/
theorem priced_groupLines_whole (ls : List (CartItem × Product)) (gs : List SellerGroup)
    (t : Int) (ht : 0 ≤ t)
    (hb : ∀ line ∈ ls, 0 ≤ line.2.price ∧ line.2.price < 2 ^ 53 ∧
      0 ≤ line.1.quantity ∧ line.1.quantity < 2 ^ 53)
    (htot : (groupLines ls (gs, t)).2 < 2 ^ 53) :
    Priced.groupLines (ls.map Priced.ofLine) (gs.map Priced.ofGroup, .finite ⟨t, 0⟩) =
      ((groupLines ls (gs, t)).1.map Priced.ofGroup, .finite ⟨(groupLines ls (gs, t)).2, 0⟩) := by
  induction ls generalizing gs t with
  | nil => simp [Priced.groupLines, groupLines]
  | cons line rest ih =>
    have hl := hb line (List.mem_cons_self _ _)
    have hrest : ∀ l ∈ rest, 0 ≤ l.2.price ∧ l.2.price < 2 ^ 53 ∧
        0 ≤ l.1.quantity ∧ l.1.quantity < 2 ^ 53 := fun l hl => hb l (List.mem_cons_of_mem _ hl)
    have hpq : 0 ≤ line.2.price * line.1.quantity := mul_nonneg hl.1 hl.2.2.1
    have hstep : groupLines (line :: rest) (gs, t) =
        groupLines rest (pushToGroup line.2.seller (purchaseItemOfLine line) gs,
          t + line.2.price * line.1.quantity) := by
      simp [groupLines]
    rw [hstep] at htot ⊢
    have hsum := groupLines_snd rest (pushToGroup line.2.seller (purchaseItemOfLine line) gs,
          t + line.2.price * line.1.quantity)
    have hnn : 0 ≤ (rest.map (fun line => line.2.price * line.1.quantity)).sum := by
      apply List.sum_nonneg
      intro x hx
      obtain ⟨l, hl2, rfl⟩ := List.mem_map.mp hx
      exact mul_nonneg (hrest l hl2).1 (hrest l hl2).2.2.1
    simp only at hsum
    have ha : Priced.amount (Double.ofInt line.2.price) line.1.quantity =
        .finite ⟨line.2.price * line.1.quantity, 0⟩ :=
      priced_amount_whole _ _ hl.1 hl.2.1 hl.2.2.1 hl.2.2.2 (by omega)
    have hitem : Priced.itemOfLine (Priced.ofLine line) =
        Priced.ofItem (purchaseItemOfLine line) := rfl
    have hstepP : Priced.groupLines ((line :: rest).map Priced.ofLine)
        (gs.map Priced.ofGroup, .finite ⟨t, 0⟩) =
        Priced.groupLines (rest.map Priced.ofLine)
          ((pushToGroup line.2.seller (purchaseItemOfLine line) gs).map Priced.ofGroup,
            .finite ⟨t + line.2.price * line.1.quantity, 0⟩) := by
      simp only [Priced.groupLines, List.map_cons, List.foldl_cons]
      rw [hitem]
      have hs : (Priced.ofLine line).seller = line.2.seller := rfl
      have hp : (Priced.ofLine line).price = Double.ofInt line.2.price := rfl
      have hq : (Priced.ofLine line).quantity = line.1.quantity := rfl
      rw [hs, hp, hq, ha, priced_pushToGroup_ofGroup,
        Double.add_whole t (line.2.price * line.1.quantity) (by omega) (by omega)]
    rw [hstepP]
    exact ih _ _ (by omega) hrest htot

theorem priced_groupLines_fst (lines : List Priced.Line) (acc : List Priced.Group × Double) :
    (Priced.groupLines lines acc).1 = Priced.groupsAfter lines acc.1 := by
  induction lines generalizing acc with
  | nil => rfl
  | cons line rest ih =>
    simp only [Priced.groupLines, Priced.groupsAfter, List.foldl_cons] at ih ⊢
    rw [ih]

theorem priced_groupLines_snd (lines : List Priced.Line) (acc : List Priced.Group × Double) :
    (Priced.groupLines lines acc).2 =
      lines.foldl (fun sum line => Double.add sum (Priced.amount line.price line.quantity))
        acc.2 := by
  induction lines generalizing acc with
  | nil => rfl
  | cons line rest ih =>
    simp only [Priced.groupLines, List.foldl_cons] at ih ⊢
    rw [ih]

theorem priced_purchaseTotal_lines (lines : List Priced.Line) :
    Priced.purchaseTotal (lines.map Priced.itemOfLine) =
      lines.foldl (fun sum line => Double.add sum (Priced.amount line.price line.quantity))
        Double.zero := by
  unfold Priced.purchaseTotal
  rw [List.foldl_map]
  rfl

/-- The purchases of the binary64 totals: distinct sellers, each with the lines
of its seller in cart order and the reduction of its own items. -/
theorem priced_checkoutTotals_purchases (lines : List Priced.Line) :
    ((Priced.checkoutTotals lines).1.map (fun p => p.seller)).Nodup ∧
    ∀ p ∈ (Priced.checkoutTotals lines).1,
      p.items = (lines.filter (fun line => line.seller == p.seller)).map Priced.itemOfLine ∧
      p.totalAmount = Priced.purchaseTotal p.items := by
  have hnd : ((Priced.groupsAfter lines []).map (fun g => g.seller)).Nodup :=
    priced_groupsAfter_nodup lines [] (by simp)
  unfold Priced.checkoutTotals
  simp only [priced_groupLines_fst, List.map_map]
  refine ⟨?_, ?_⟩
  · have : ((fun p : Priced.Purchase => p.seller) ∘ fun group : Priced.Group =>
        ({ seller := group.seller, items := group.items,
           totalAmount := Priced.purchaseTotal group.items } : Priced.Purchase)) =
        fun g => g.seller := rfl
    rw [this]
    exact hnd
  · intro p hp
    obtain ⟨g, hg, rfl⟩ := List.mem_map.mp hp
    refine ⟨?_, rfl⟩
    show g.items = _
    rw [← priced_groupItems_of_mem hnd hg, priced_groupsAfter_groupItems]
    simp [Priced.groupItems]

theorem filter_all_seller (lines : List Priced.Line) (x : ObjectId)
    (h : ∀ l ∈ lines, l.seller = x) :
    lines.filter (fun line => line.seller == x) = lines := by
  apply List.filter_eq_self.mpr
  intro l hl
  simp [h l hl]

theorem groups_totals_sum (gs : List SellerGroup) :
    (gs.map (fun g => itemTotals g.items)).sum = itemTotals (gs.flatMap (fun g => g.items)) := by
  induction gs with
  | nil => simp [itemTotals]
  | cons g rest ih =>
    simp only [itemTotals] at ih ⊢
    simp [ih]

theorem exactSum_whole (xs : List Int) :
    Double.exactSum (xs.map (fun t => Double.finite ⟨t, 0⟩)) = some ⟨xs.sum, 0⟩ := by
  induction xs with
  | nil => rfl
  | cons x rest ih =>
    simp only [List.map_cons, Double.exactSum, ih, Option.map_some', List.sum_cons]
    simp [Dyadic.add, Dyadic.mantAt]

/-- The binary64 totals on whole-number prices are the totals of the store
model, as long as the cart total stays below `2 ^ 53`. -/
theorem priced_checkoutTotals_whole (ls : List (CartItem × Product))
    (hb : ∀ line ∈ ls, 0 ≤ line.2.price ∧ line.2.price < 2 ^ 53 ∧
      0 ≤ line.1.quantity ∧ line.1.quantity < 2 ^ 53)
    (htot : (ls.map (fun line => line.2.price * line.1.quantity)).sum < 2 ^ 53) :
    Priced.checkoutTotals (ls.map Priced.ofLine) =
      ((groupLines ls ([], 0)).1.map
          (fun g => Priced.wholePurchase g.seller g.items (purchaseTotal g.items)),
        Double.ofInt (ls.map (fun line => line.2.price * line.1.quantity)).sum) ∧
    ∀ g ∈ (groupLines ls ([], 0)).1,
      0 ≤ purchaseTotal g.items ∧ purchaseTotal g.items < 2 ^ 53 := by
  have hsnd := groupLines_snd ls ([], 0)
  simp only [zero_add] at hsnd
  have hw := priced_groupLines_whole ls [] 0 (le_refl 0) hb (by rw [hsnd]; exact htot)
  simp only [List.map_nil] at hw
  have hz : Double.zero = .finite ⟨0, 0⟩ := rfl
  have hperm := groupsAfter_items_perm ls []
  simp only [List.flatMap_nil, List.nil_append] at hperm
  have hmem : ∀ g ∈ groupsAfter ls [], ∀ i ∈ g.items,
      0 ≤ i.price ∧ i.price < 2 ^ 53 ∧ 0 ≤ i.quantity ∧ i.quantity < 2 ^ 53 := by
    intro g hg i hi
    have h1 : i ∈ (groupsAfter ls []).flatMap (fun g => g.items) :=
      List.mem_flatMap.mpr ⟨g, hg, hi⟩
    obtain ⟨l, hl, rfl⟩ := List.mem_map.mp (hperm.mem_iff.mp h1)
    exact hb l hl
  have hall : ∀ g ∈ groupsAfter ls [], 0 ≤ itemTotals g.items := by
    intro g hg
    apply itemTotals_nonneg
    intro i hi
    exact ⟨(hmem g hg i hi).1, (hmem g hg i hi).2.2.1⟩
  have hsum : ((groupsAfter ls []).map (fun g => itemTotals g.items)).sum =
      (ls.map (fun line => line.2.price * line.1.quantity)).sum := by
    rw [groups_totals_sum]
    unfold itemTotals
    rw [(hperm.map (fun i : PurchaseItem => i.price * i.quantity)).sum_eq]
    simp [purchaseItemOfLine, Function.comp_def]
  have hlt : ∀ g ∈ groupsAfter ls [], itemTotals g.items < 2 ^ 53 := by
    intro g hg
    have hle : itemTotals g.items ≤
        ((groupsAfter ls []).map (fun g => itemTotals g.items)).sum := by
      apply List.single_le_sum
      · intro x hx
        obtain ⟨g2, hg2, rfl⟩ := List.mem_map.mp hx
        exact hall g2 hg2
      · exact List.mem_map_of_mem _ hg
    omega
  have hnn : 0 ≤ (ls.map (fun line => line.2.price * line.1.quantity)).sum := by
    rw [← hsum]
    apply List.sum_nonneg
    intro x hx
    obtain ⟨g2, hg2, rfl⟩ := List.mem_map.mp hx
    exact hall g2 hg2
  refine ⟨?_, ?_⟩
  · unfold Priced.checkoutTotals
    rw [hz, hw, hsnd, Double.ofInt_whole _ hnn htot]
    simp only [List.map_map, Prod.mk.injEq, and_true]
    apply List.map_congr_left
    intro g hg
    rw [groupLines_fst] at hg
    simp only [Function.comp_apply, Priced.ofGroup, Priced.wholePurchase]
    rw [priced_purchaseTotal_whole g.items (hmem g hg) (hlt g hg),
      Double.ofInt_whole _ (by rw [purchaseTotal_eq]; exact hall g hg)
        (by rw [purchaseTotal_eq]; exact hlt g hg)]
  · intro g hg
    rw [groupLines_fst] at hg
    rw [purchaseTotal_eq]
    exact ⟨hall g hg, hlt g hg⟩

theorem purchases_as_groups {buyer : ObjectId} {gs : List SellerGroup} {ps : List Purchase}
    (h : List.Forall₂ (fun g p => p.buyer = buyer ∧ p.seller = g.seller ∧ p.items = g.items ∧
      p.totalAmount = purchaseTotal g.items) gs ps) :
    ps.map (fun p => Priced.wholePurchase p.seller p.items p.totalAmount) =
      gs.map (fun g => Priced.wholePurchase g.seller g.items (purchaseTotal g.items)) := by
  induction h with
  | nil => rfl
  | cons hd _ ih => simp [hd.2.1, hd.2.2.1, hd.2.2.2, ih]

/-- C6 (as amended). The totals of the purchase checkout are binary64 sums.
Each created purchase holds the cart lines of its seller in cart order, and its
`totalAmount` is the binary64 sum of `price × quantity` over its own items,
added up in that order from 0; the `totalAmount` of the response is the
binary64 sum of `price × quantity` over all cart lines, added up in cart order
from 0; when every cart line is of one seller, the purchase's total is the
total of the response.  When the prices are whole numbers and the cart total is
below `2 ^ 53`, a successful checkout of the store model gives these totals:
no sum is rounded, the `totalAmount` of the response is the cart total, the
sum of catalog price times quantity over the cart lines before the checkout,
and the created purchases' totals add up to it. -/
theorem purchases_checkout_totals (lines : List Priced.Line) (persists : Purchase → Bool)
    (s : Store) (user : ObjectId) (body : PurchaseBody) (cart : Cart)
    (ls : List (CartItem × Product)) :
    (∀ p ∈ (Priced.checkoutTotals lines).1,
      p.items = (lines.filter (fun line => line.seller == p.seller)).map Priced.itemOfLine ∧
      p.totalAmount =
        p.items.foldl
          (fun sum item => Double.add sum (Double.mul item.price (Double.ofInt item.quantity)))
          Double.zero ∧
      ((∀ line ∈ lines, line.seller = p.seller) →
        p.totalAmount = (Priced.checkoutTotals lines).2)) ∧
    (Priced.checkoutTotals lines).2 =
      lines.foldl
        (fun sum line => Double.add sum (Double.mul line.price (Double.ofInt line.quantity)))
        Double.zero ∧
    (findCart s.carts user = some cart →
      resolved (populate s.products cart.items) = some ls →
      (purchasesCheckout persists s user body).2.status = 201 →
      (∀ line ∈ ls, 0 ≤ line.2.price ∧ line.2.price < 2 ^ 53 ∧
        0 ≤ line.1.quantity ∧ line.1.quantity < 2 ^ 53) →
      (ls.map (fun line => line.2.price * line.1.quantity)).sum < 2 ^ 53 →
      ∃ receipt,
        (purchasesCheckout persists s user body).2.data = some receipt ∧
        Priced.checkoutTotals (ls.map Priced.ofLine) =
          (receipt.purchases.map (fun p => Priced.wholePurchase p.seller p.items p.totalAmount),
            Double.ofInt receipt.totalAmount) ∧
        (∀ p ∈ receipt.purchases, Double.ofInt p.totalAmount = .finite ⟨p.totalAmount, 0⟩) ∧
        Double.ofInt receipt.totalAmount = .finite ⟨receipt.totalAmount, 0⟩ ∧
        receipt.totalAmount = (ls.map (fun line => line.2.price * line.1.quantity)).sum ∧
        (receipt.purchases.map (fun p => p.totalAmount)).sum = receipt.totalAmount ∧
        Double.exactSum
            ((Priced.checkoutTotals (ls.map Priced.ofLine)).1.map (fun p => p.totalAmount)) =
          some ⟨receipt.totalAmount, 0⟩) := by
  have hsnd : (Priced.checkoutTotals lines).2 =
      lines.foldl
        (fun sum line => Double.add sum (Double.mul line.price (Double.ofInt line.quantity)))
        Double.zero := by
    unfold Priced.checkoutTotals
    rw [priced_groupLines_snd]
    rfl
  refine ⟨?_, hsnd, ?_⟩
  · intro p hp
    obtain ⟨hit, htot⟩ := (priced_checkoutTotals_purchases lines).2 p hp
    refine ⟨hit, htot, ?_⟩
    intro hall
    rw [htot, hit, filter_all_seller lines p.seller hall, priced_purchaseTotal_lines, hsnd]
    rfl
  · intro hc hr hok hb htot
    obtain ⟨cart2, ls2, s1, ps, hc2, _, hr2, hcp, _, _, _, _, hres⟩ :=
      purchasesCheckout_created persists s user body hok
    rw [hc] at hc2
    cases hc2
    rw [hr] at hr2
    cases hr2
    have hf := (createPurchases_some persists user body _ _ _ _ hcp).2
    have hsum := groupLines_snd ls ([], 0)
    simp only [zero_add] at hsum
    obtain ⟨hwhole, hbound⟩ := priced_checkoutTotals_whole ls hb htot
    have hpt : ∀ p ∈ ps, Double.ofInt p.totalAmount = .finite ⟨p.totalAmount, 0⟩ := by
      intro p hp
      obtain ⟨g, hg, _, _, _, ht⟩ := purchases_group hf p hp
      rw [ht]
      exact Double.ofInt_whole _ (hbound g hg).1 (hbound g hg).2
    have hps : (ps.map (fun p => p.totalAmount)).sum =
        (ls.map (fun line => line.2.price * line.1.quantity)).sum := by
      obtain ⟨cart3, ls3, receipt3, hc3, hr3, _, hd3, _, _, hs3, _⟩ :=
        purchasesCheckout_wholeTotals persists s user body hok
      rw [hc] at hc3
      cases hc3
      rw [hr] at hr3
      cases hr3
      rw [hres] at hd3
      simp only [Option.some.injEq] at hd3
      rw [← hd3] at hs3
      exact hs3
    have hnn : 0 ≤ (ls.map (fun line => line.2.price * line.1.quantity)).sum := by
      apply List.sum_nonneg
      intro x hx
      obtain ⟨l, hl, rfl⟩ := List.mem_map.mp hx
      exact mul_nonneg (hb l hl).1 (hb l hl).2.2.1
    refine ⟨{ purchases := ps, totalAmount := (groupLines ls ([], 0)).2 }, ?_, ?_, hpt, ?_,
      hsum, ?_, ?_⟩
    · rw [hres]
    · show Priced.checkoutTotals _ =
        (ps.map (fun p => Priced.wholePurchase p.seller p.items p.totalAmount),
          Double.ofInt (groupLines ls ([], 0)).2)
      rw [hwhole, purchases_as_groups hf, hsum]
    · show Double.ofInt (groupLines ls ([], 0)).2 = .finite ⟨(groupLines ls ([], 0)).2, 0⟩
      rw [hsum]
      exact Double.ofInt_whole _ hnn htot
    · show (ps.map (fun p => p.totalAmount)).sum = (groupLines ls ([], 0)).2
      rw [hsum]
      exact hps
    · show Double.exactSum _ = some ⟨(groupLines ls ([], 0)).2, 0⟩
      rw [hwhole]
      have hl : ps.map ((fun p : Priced.Purchase => p.totalAmount) ∘
          fun p => Priced.wholePurchase p.seller p.items p.totalAmount) =
          (ps.map (fun p => p.totalAmount)).map (fun t => Double.finite ⟨t, 0⟩) := by
        rw [List.map_map]
        apply List.map_congr_left
        intro p hp
        exact hpt p hp
      rw [← purchases_as_groups hf, List.map_map, hl, exactSum_whole, hps, hsum]

/-- C6 on the scenario: the whole-number totals 20 and 5 of the scenario cart,
which add up to the cart total 25 of the response; the items of the two
purchases of three lines at 0.10, 0.30 and 0.70; and the purchase of two lines
of one seller, whose total is the total of the response. -/
theorem purchases_checkout_totals_witness :
    (∃ receipt,
      (purchasesCheckout alwaysPersists demoStore 7 demoPurchaseBody).2.data = some receipt ∧
      Priced.checkoutTotals (demoLines.map Priced.ofLine) =
        (receipt.purchases.map (fun p => Priced.wholePurchase p.seller p.items p.totalAmount),
          Double.ofInt receipt.totalAmount) ∧
      (∀ p ∈ receipt.purchases, Double.ofInt p.totalAmount = .finite ⟨p.totalAmount, 0⟩) ∧
      Double.ofInt receipt.totalAmount = .finite ⟨receipt.totalAmount, 0⟩ ∧
      receipt.totalAmount = (demoLines.map (fun line => line.2.price * line.1.quantity)).sum ∧
      (receipt.purchases.map (fun p => p.totalAmount)).sum = receipt.totalAmount ∧
      Double.exactSum
          ((Priced.checkoutTotals (demoLines.map Priced.ofLine)).1.map
            (fun p => p.totalAmount)) =
        some ⟨receipt.totalAmount, 0⟩) ∧
    (purchasesCheckout alwaysPersists demoStore 7 demoPurchaseBody).1.purchases.map
      (fun p => p.totalAmount) = [20, 5] ∧
    (purchasesCheckout alwaysPersists demoStore 7 demoPurchaseBody).2.data.map
      (fun r => r.totalAmount) = some 25 ∧
    (Priced.checkoutTotals (demoLines.map Priced.ofLine)).1.map
      (fun p => (p.seller, p.totalAmount)) =
      [(100, .finite ⟨20, 0⟩), (101, .finite ⟨5, 0⟩)] ∧
    (Priced.checkoutTotals (demoLines.map Priced.ofLine)).2 = .finite ⟨25, 0⟩ ∧
    (Priced.checkoutTotals dimeLines).1.map
      (fun p => (p.seller, p.items.map (fun i => i.product))) = [(100, [1, 3]), (101, [2])] ∧
    (Priced.checkoutTotals sameSellerLines).1 = [sameSellerPurchase] ∧
    sameSellerPurchase.totalAmount = (Priced.checkoutTotals sameSellerLines).2 :=
  ⟨(purchases_checkout_totals dimeLines alwaysPersists demoStore 7 demoPurchaseBody demoCart
      demoLines).2.2 (by decide) (by decide) (by decide) (by decide) (by decide),
    by decide, by decide, by decide, by decide, by decide, by decide,
    ((purchases_checkout_totals sameSellerLines alwaysPersists demoStore 7 demoPurchaseBody
      demoCart demoLines).1 sameSellerPurchase (by decide)).2.2 (by decide)⟩

/-- C6, counterexample. Three cart lines at the prices 0.10, 0.30 and 0.70, one
unit each, the first and the third of seller 100 and the second of seller 101.
The total of the response is 1.1, the binary64 number nearest to 11/10.  The
purchase of seller 100 has the total 0.7999999999999999, one unit in the last
place below the binary64 number nearest to 8/10, and the purchase of seller
101 the total 0.3.  The two totals do not add up to the total of the response,
neither exactly nor as the binary64 sum. -/
theorem purchases_checkout_totals_counterexample :
    dimeLines.map (fun line => (line.seller, line.price, line.quantity)) =
      [(100, Double.ofRatio 10 100, 1), (101, Double.ofRatio 30 100, 1),
        (100, Double.ofRatio 70 100, 1)] ∧
    (Priced.checkoutTotals dimeLines).1.map (fun p => (p.seller, p.totalAmount)) =
      [(100, .finite ⟨7205759403792793, -53⟩), (101, .finite ⟨5404319552844595, -54⟩)] ∧
    Double.ofRatio 8 10 = .finite ⟨7205759403792794, -53⟩ ∧
    Double.ofRatio 3 10 = .finite ⟨5404319552844595, -54⟩ ∧
    (Priced.checkoutTotals dimeLines).2 = .finite ⟨4953959590107546, -52⟩ ∧
    Double.ofRatio 11 10 = .finite ⟨4953959590107546, -52⟩ ∧
    (Double.exactSum ((Priced.checkoutTotals dimeLines).1.map (fun p => p.totalAmount))).map
      (fun sum => Dyadic.same sum ⟨4953959590107546, -52⟩) = some false ∧
    Double.same
      (((Priced.checkoutTotals dimeLines).1.map (fun p => p.totalAmount)).foldl Double.add
        Double.zero)
      (Priced.checkoutTotals dimeLines).2 = false := by
  decide

end EcoFinds
